import Mathlib

/-!
# The freshclam update engine (`libfreshclam_internal.c`)

A shallow embedding of the database update engine: the single-request fetcher
(`downloadFile`, `remote_cvdhead`), the version oracle
(`query_remote_database_version`), the full download (`getcvd`), the patch
download (`downloadPatch`), the repacker (`buildcld`), the per-database
installer (`updatedb`) and the updater for user-supplied URLs
(`updatecustomdb`).

Stateful C code is embedded as explicit state passing over a `World`: a
file system (regular files reached by an absolute path, directories with their
entries in iteration order, the working directory), counters for the network
transfers and temporary names handed out so far, and a trace of the externally
visible actions.  Everything the C file calls but does not define (libcurl,
the DNS resolver, the archive verifier and parser, the patch interpreter, the
tar packer, the temporary-name generator) is a field of `Env`.

Conventions of the embedding:
* C strings are `String`s, `NULL`-able pointers that the callers of this file
  never pass as `NULL` are plain values, and allocation is assumed to succeed;
* system calls fail only for the structural reasons the file system model
  tracks (a missing file, an existing file on exclusive create, a missing
  directory); a call `f` that can fail is a test `f_ok` of the state together
  with the state it leaves when it succeeds;
* `unsigned int` / `uint32_t` values are `Nat`s, reduced modulo `2 ^ 32`
  wherever the C code can wrap.
-/

namespace Freshclam

/-! ## Data model -/

/-- File contents: a sequence of bytes. -/
abbrev Content := List UInt8

/-- A directory: its entries in iteration order. -/
abbrev Dir := List (String × Content)

/-- Modelled from the spec: the status enumeration `fc_error_t` (declared in
`libfreshclam.h`, which is not part of the source file), with the error kinds
of the spec under the names the source uses.  `FC_SUCCESS` and `FC_UPTODATE`
are the two smallest values, so that `FC_UPTODATE < status` means "a real
error". -/
inductive fc_error_t where
  | FC_SUCCESS
  | FC_UPTODATE
  | FC_EINIT
  | FC_EDIRECTORY
  | FC_EFILE
  | FC_ECONNECTION
  | FC_EEMPTYFILE
  | FC_EBADCVD
  | FC_ETESTFAIL
  | FC_ECONFIG
  | FC_EDBDIRACCESS
  | FC_EFAILEDGET
  | FC_EMIRRORNOTSYNC
  | FC_EFAILEDUPDATE
  | FC_EMEM
  | FC_EARG
  deriving DecidableEq, Repr

open fc_error_t

/-- The comparison `FC_UPTODATE < status` of the source. -/
def fc_error_t.isError (s : fc_error_t) : Bool :=
  match s with
  | FC_SUCCESS => false
  | FC_UPTODATE => false
  | _ => true

/-- The fields of `struct cl_cvd` (declared in `clamav.h`) that the update
engine reads. -/
structure cl_cvd where
  stime : Nat
  version : Nat
  sigs : Nat
  fl : Nat
  builder : String
  deriving DecidableEq, Repr

/-- Externally visible actions, recorded in order of occurrence. -/
inductive Event where
  /-- One `curl_easy_perform` for `url`; `dest` is the destination file of a
  file-mode fetch and `none` for the in-memory header probe. -/
  | curl (url : String) (dest : Option String)
  /-- The verifier `cl_cvdverify` ran on the file at `path` holding `data`. -/
  | cl_cvdverify (path : String) (data : Content) (ok : Bool)
  /-- The patch interpreter `cdiff_apply` ran on the patch for `version`. -/
  | cdiff_apply (version : Int) (ok : Bool)
  /-- The packer `tar_addfile` was asked to append the member `name`. -/
  | tar_addfile (name : String) (ok : Bool)
  /-- A successful `rename` moving `data` from `src` to `dst`. -/
  | rename (src dst : String) (data : Content)
  /-- A call of `unlink` on `path`. -/
  | unlink (path : String)
  /-- The download-complete callback ran on `path`. -/
  | callback (path : String) (ret : fc_error_t)
  /-- Entry into `getcvd`. -/
  | getcvd (cvdfile : String) (remoteVersion : Nat)
  /-- Entry into `downloadPatch`. -/
  | downloadPatch (version : Int)
  /-- Entry into `buildcld`. -/
  | buildcld (tmpdir : String)
  deriving DecidableEq, Repr

/-- The state the engine runs against. -/
structure World where
  /-- Regular files reached by an absolute path. -/
  files : String → Option Content
  /-- Directories, keyed by their path; relative file names resolve in the
  entry of the working directory. -/
  dirs : String → Option Dir
  /-- The process working directory. -/
  cwd : String
  /-- Number of network transfers performed so far. -/
  nreq : Nat
  /-- Number of temporary names generated so far. -/
  ntmp : Nat
  /-- The actions performed so far, oldest first. -/
  trace : List Event
  /-- The log lines whose severity depends on the `logerr` flag. -/
  log : List String

/-- What a transfer can come back with. -/
inductive CurlResult where
  /-- The transfer failed: `curl_easy_perform` returned a code other than
  `CURLE_OK`. -/
  | failed (code : Nat)
  /-- The transfer completed with the given response code and body. -/
  | http (code : Nat) (body : Content)
  deriving DecidableEq, Repr

/-- The options set on a curl handle before the transfer. -/
structure CurlRequest where
  url : String
  bHttp : Bool
  bAllowRedirect : Bool
  ifModifiedSince : Nat
  range : Option String
  deriving DecidableEq, Repr

/-- The return codes of `curl_easy_setopt` that `create_curl_handle`
distinguishes. -/
inductive CURLcode where
  | CURLE_OK
  | CURLE_BAD_FUNCTION_ARGUMENT
  | CURLE_UNKNOWN_OPTION
  | CURLE_NOT_BUILT_IN
  | CURLE_OTHER
  deriving DecidableEq, Repr

/-- The external collaborators: everything `libfreshclam_internal.c` calls but
does not define. -/
structure Env where
  /-- Whether `curl_easy_init` returns a handle. -/
  curl_easy_init : Bool
  /-- The result of binding DNS resolution to a local address. -/
  curl_setopt_dns_local_ip : String → CURLcode
  /-- The network: the answer to the `n`-th transfer of the run. -/
  curl_easy_perform : Nat → CurlRequest → CurlResult
  /-- The DNS resolver `dnsquery(domain, T_TXT, NULL)`. -/
  dnsquery : String → Option String
  /-- The wall clock `time()`. -/
  time : Int
  /-- The constant `DNS_EXTRADBINFO_RECORDTIME` (declared in a header that is
  not part of the source file). -/
  DNS_EXTRADBINFO_RECORDTIME : Nat
  /-- The tokenizer `cli_strtok(line, field, ":")`. -/
  cli_strtok : String → Nat → Option String
  /-- The digit test `cli_isnumber`. -/
  cli_isnumber : String → Bool
  /-- The C library `atoi`. -/
  atoi : String → Int
  /-- The archive verifier `cl_cvdverify`, as acceptance of the file at a
  path (whose extension it dispatches on) holding the given bytes. -/
  cl_cvdverify : String → Content → Bool
  /-- The header reader `cl_cvdhead`, on the bytes of the file. -/
  cl_cvdhead : Content → Option cl_cvd
  /-- The header parser `cl_cvdparse`, on a 512-byte header. -/
  cl_cvdparse : Content → Option cl_cvd
  /-- The unpacker `cli_cvdunpack`: the entries an archive unpacks to. -/
  cli_cvdunpack : Content → Option Dir
  /-- The patch interpreter `cdiff_apply`, on the bytes of the patch and the
  working copy: whether it reports success, and the working copy it leaves. -/
  cdiff_apply : Content → Dir → Bool × Dir
  /-- The packer `tar_addfile`: given the compression flag, the archive so
  far, the member name and the member bytes, the archive after the append, or
  `none` on failure. -/
  tar_addfile : Bool → Content → String → Content → Option Content
  /-- Whether `gzopen(newfile, "ab9f")` succeeds. -/
  gzopen : Bool
  /-- The temporary-name generator `cli_gentemp(dir)`: the `n`-th name of the
  run, or `none` when it fails. -/
  cli_gentemp : Nat → String → Option String
  /-- The bytes found in the part of a stack buffer that was never written. -/
  uninit : Nat → UInt8
  /-- The C string found in the stack buffer `olddir` of `buildcld`, which the
  function does not initialise, when `getcwd` has not filled it; `none` when
  its first byte is NUL. -/
  uninit_olddir : Option String
  /-- The modification time `st_mtime` that `stat` reports for what exists at
  a path when `updatecustomdb` is called (a `time_t` that is not negative). -/
  st_mtime : String → Nat
  /-- The line counter `countlines`, on the bytes of the file. -/
  countlines : Content → Nat

/-- The process-scoped configuration globals of the source (`g_...`). -/
structure Config where
  /-- The global `g_cb_download_complete`, as a function of the path handed to
  it and the bytes of the file at that path. -/
  g_cb_download_complete : Option (String → Content → fc_error_t)
  /-- The global `g_localIP`. -/
  g_localIP : Option String
  /-- The global `g_proxyServer`. -/
  g_proxyServer : Option String
  /-- The global `g_tempDirectory`. -/
  g_tempDirectory : String
  /-- The global `g_maxAttempts`. -/
  g_maxAttempts : Nat
  /-- The global `g_bCompressLocalDatabase`. -/
  g_bCompressLocalDatabase : Bool

/-- The constant `DB_FILENAME_MAX`. -/
def DB_FILENAME_MAX : Nat := 60

/-- The constant `CVD_HEADER_SIZE`. -/
def CVD_HEADER_SIZE : Nat := 512

/-- The number of values of `unsigned int` / `uint32_t`. -/
def UINT_SIZE : Nat := 4294967296

/-! ## File system primitives -/

/-- The content of the entry `n` of a directory. -/
def dirGet (d : Dir) (n : String) : Option Content :=
  match d with
  | [] => none
  | e :: t => if e.1 = n then some e.2 else dirGet t n

/-- Write the entry `n`: in place if it exists, else appended. -/
def dirSet (d : Dir) (n : String) (c : Content) : Dir :=
  match d with
  | [] => [(n, c)]
  | e :: t => if e.1 = n then (n, c) :: t else e :: dirSet t n c

/-- Remove the entry `n`. -/
def dirDel (d : Dir) (n : String) : Dir :=
  match d with
  | [] => []
  | e :: t => if e.1 = n then dirDel t n else e :: dirDel t n

/-- Whether a path is absolute. -/
def isAbs (p : String) : Bool :=
  p.data.head? == some '/'

/-- The bytes of the regular file at `p`, if there is one: an absolute path
names a file directly, a relative one an entry of the working directory. -/
def lookupFile (w : World) (p : String) : Option Content :=
  if isAbs p then w.files p
  else match w.dirs w.cwd with
    | some d => dirGet d p
    | none => none

/-- Whether a regular file can be created at `p`: a relative path needs the
working directory to exist. -/
def canStore (w : World) (p : String) : Bool :=
  isAbs p || (w.dirs w.cwd).isSome

/-- Create or overwrite the regular file at `p` (nothing happens when
`canStore w p` is false). -/
def storeFile (w : World) (p : String) (c : Content) : World :=
  if isAbs p then
    { w with files := fun q => if q = p then some c else w.files q }
  else
    { w with dirs := fun q => if q = w.cwd then (w.dirs q).map (fun d => dirSet d p c)
                              else w.dirs q }

/-- Remove the regular file at `p`, if any. -/
def removeFile (w : World) (p : String) : World :=
  if isAbs p then
    { w with files := fun q => if q = p then none else w.files q }
  else
    { w with dirs := fun q => if q = w.cwd then (w.dirs q).map (fun d => dirDel d p)
                              else w.dirs q }

/-- Append an event to the trace. -/
def emit (w : World) (e : Event) : World :=
  { w with trace := w.trace ++ [e] }

/-- Count one more network transfer. -/
def countRequest (w : World) : World :=
  { w with nreq := w.nreq + 1 }

/-- Count one more temporary name. -/
def countTemp (w : World) : World :=
  { w with ntmp := w.ntmp + 1 }

/-- Replace the entries of the directory `p` (`none` removes the directory). -/
def setDir (w : World) (p : String) (d : Option Dir) : World :=
  { w with dirs := fun q => if q = p then d else w.dirs q }

/-- Change the working directory. -/
def setCwd (w : World) (p : String) : World :=
  { w with cwd := p }

/-- The logger `logg`, for the lines that are kept. -/
def logg (w : World) (msg : String) : World :=
  { w with log := w.log ++ [msg] }

/-- The severity character chosen by `logerr ? '!' : '^'`. -/
def sev (logerr : Bool) : String :=
  if logerr then "!" else "^"

/-- The test `access(p, ...) != -1`: something exists at `p`. -/
def access (w : World) (p : String) : Bool :=
  (lookupFile w p).isSome || (w.dirs p).isSome

/-- The call `unlink(p)`. -/
def unlink (w : World) (p : String) : World :=
  removeFile (emit w (Event.unlink p)) p

/-- Whether `rename(src, dst)` succeeds: the source is a regular file and the
destination can be created. -/
def rename_ok (w : World) (src dst : String) : Bool :=
  (lookupFile w src).isSome && canStore w dst

/-- The world after a successful `rename(src, dst)`. -/
def renamed (w : World) (src dst : String) : World :=
  let c := (lookupFile w src).getD []
  storeFile (removeFile (emit w (Event.rename src dst c)) src) dst c

/-- Whether `open(p, O_WRONLY | O_CREAT | O_EXCL, 0644)` succeeds: nothing
exists at `p` and the file can be created. -/
def open_excl_ok (w : World) (p : String) : Bool :=
  !access w p && canStore w p

/-- The world after a successful exclusive create of `p`: `p` is an empty
file. -/
def created (w : World) (p : String) : World :=
  storeFile w p []

/-- Write `c` to the already open file `p`. -/
def writeFile (w : World) (p : String) (c : Content) : World :=
  storeFile w p c

/-- Whether `getcwd` succeeds: the working directory still exists (its result
is then `w.cwd`). -/
def getcwd_ok (w : World) : Bool :=
  (w.dirs w.cwd).isSome

/-- Whether `chdir(p)` succeeds (the world after is `setCwd w p`). -/
def chdir_ok (w : World) (p : String) : Bool :=
  (w.dirs p).isSome

/-- Whether `mkdir(p, 0755)` succeeds (the world after is
`setDir w p (some [])`). -/
def mkdir_ok (w : World) (p : String) : Bool :=
  !access w p

/-- The recursive removal `cli_rmdirs(p)`. -/
def cli_rmdirs (w : World) (p : String) : World :=
  setDir w p none

/-- The call `cli_gentemp(dir)`. -/
def cli_gentemp (env : Env) (w : World) (dir : String) : Option String × World :=
  (env.cli_gentemp w.ntmp dir, countTemp w)

/-- The result of `snprintf(buf, size, ...)` when the formatted text is `s`:
at most `size - 1` characters are kept. -/
def snprintf (size : Nat) (s : String) : String :=
  s.take (size - 1)

/-- The conversion of an `unsigned int` to `int`. -/
def toInt32 (n : Nat) : Int :=
  if n % UINT_SIZE < 2147483648 then (n % UINT_SIZE : Nat) else (n % UINT_SIZE : Nat) - (UINT_SIZE : Int)

/-- The conversion of an `int` to `uint32_t`. -/
def toUInt32 (i : Int) : Nat :=
  (i % (UINT_SIZE : Int)).toNat

/-! ## Fetcher -/

/-- The test `0 == strncasecmp(s, "http", strlen("http"))`. -/
def isHttp (s : String) : Bool :=
  (s.data.take 4).map Char.toLower == "http".data

/-- The function `create_curl_handle`: the status, and whether a handle was
produced.  The many `curl_easy_setopt` calls whose failure is only logged are
left out; what decides the status is kept. -/
def create_curl_handle (env : Env) (cfg : Config) (_bHttp _bAllowRedirect : Bool) :
    fc_error_t × Bool :=
  if !env.curl_easy_init then (FC_EINIT, false)
  else
    match cfg.g_localIP with
    | none => (FC_SUCCESS, true)
    | some ip =>
      match env.curl_setopt_dns_local_ip ip with
      | CURLcode.CURLE_BAD_FUNCTION_ARGUMENT => (FC_ECONFIG, false)
      | CURLcode.CURLE_UNKNOWN_OPTION => (FC_ECONFIG, false)
      | CURLcode.CURLE_NOT_BUILT_IN => (FC_ECONFIG, false)
      | _ => (FC_SUCCESS, true)

/-- The C library `isprint` on a byte. -/
def isprint (b : UInt8) : Bool :=
  32 ≤ b.toNat && b.toNat ≤ 126

/-- The function `remote_cvdhead`: probe the header of `cvdfile` on `server`. -/
def remote_cvdhead (env : Env) (cfg : Config) (cvdfile : String) (ifModifiedSince : Nat)
    (server : String) (logerr : Bool) (w : World) : (fc_error_t × Option cl_cvd) × World :=
  let bHttpServer := isHttp server
  let url := server ++ "/" ++ cvdfile
  let h := create_curl_handle env cfg bHttpServer true
  if !h.2 then ((h.1, none), w)
  else
    let req : CurlRequest :=
      { url := url, bHttp := bHttpServer, bAllowRedirect := true,
        ifModifiedSince := ifModifiedSince, range := some "0-511" }
    let w1 := emit (countRequest w) (Event.curl url none)
    match env.curl_easy_perform w.nreq req with
    | CurlResult.failed _ =>
      ((FC_ECONNECTION, none), logg w1 (sev logerr ++ "remote_cvdhead: Download failed"))
    | CurlResult.http code body =>
      if code = 200 ∨ code = 206 then
        if body.length < CVD_HEADER_SIZE then
          ((FC_EFAILEDGET, none),
            logg w1 (sev logerr ++ "remote_cvdhead: Malformed CVD header (too short)"))
        else if (body.take CVD_HEADER_SIZE).any (fun b => !isprint b)
            || body.head? == some 0 then
          ((FC_EFAILEDGET, none),
            logg w1 (sev logerr ++ "remote_cvdhead: Malformed CVD header (bad chars)"))
        else
          match env.cl_cvdparse (body.take CVD_HEADER_SIZE) with
          | none =>
            ((FC_EFAILEDGET, none),
              logg w1 (sev logerr ++ "remote_cvdhead: Malformed CVD header (can't parse)"))
          | some cvdhead => ((FC_SUCCESS, some cvdhead), w1)
      else if code = 304 then ((FC_UPTODATE, none), w1)
      else if code = 404 ∨ code = 522 then ((FC_EFAILEDGET, none), w1)
      else
        ((FC_EFAILEDGET, none), logg w1 (sev logerr ++ "remote_cvdhead: Unexpected response"))

/-- The label `done` of `downloadFile`: a status above `FC_UPTODATE` unlinks
the destination. -/
def downloadFile_done (destfile : String) (status : fc_error_t) (w : World) :
    fc_error_t × World :=
  (status, if status.isError then unlink w destfile else w)

/-- The function `downloadFile`: fetch `url` into the new file `destfile`. -/
def downloadFile (env : Env) (cfg : Config) (url destfile : String)
    (bAllowRedirect logerr : Bool) (ifModifiedSince : Nat) (w : World) : fc_error_t × World :=
  let bHttpServer := isHttp url
  let h := create_curl_handle env cfg bHttpServer bAllowRedirect
  if !h.2 then downloadFile_done destfile h.1 w
  else if !open_excl_ok w destfile then downloadFile_done destfile FC_EDBDIRACCESS w
  else
    let req : CurlRequest :=
      { url := url, bHttp := bHttpServer, bAllowRedirect := bAllowRedirect,
        ifModifiedSince := ifModifiedSince, range := none }
    let w1 := emit (countRequest (created w destfile)) (Event.curl url (some destfile))
    match env.curl_easy_perform w.nreq req with
    | CurlResult.failed _ =>
      downloadFile_done destfile FC_ECONNECTION (logg w1 (sev logerr ++ "Download failed"))
    | CurlResult.http code body =>
      let w2 := writeFile w1 destfile body
      if code = 200 ∨ code = 206 then downloadFile_done destfile FC_SUCCESS w2
      else if code = 304 then downloadFile_done destfile FC_UPTODATE w2
      else if code = 404 ∨ code = 522 then downloadFile_done destfile FC_EFAILEDGET w2
      else
        downloadFile_done destfile FC_EFAILEDGET
          (logg w2 (sev logerr ++ "downloadFile: Unexpected response"))

/-! ## Full download -/

/-- The name `tmpfile_with_extension` of `getcvd`: `tmpfile` with its last four
characters overwritten by the last four characters of `cvdfile`. -/
def with_extension (tmpfile cvdfile : String) : String :=
  tmpfile.take (tmpfile.length - 4) ++ cvdfile.drop (cvdfile.length - 4)

/-- The value of the `unsigned int` expression `remoteVersion - 1`. -/
def pred32 (remoteVersion : Nat) : Nat :=
  (remoteVersion + (UINT_SIZE - 1)) % UINT_SIZE

/-- The version comparison at the end of `getcvd`. -/
def getcvd_check (version remoteVersion : Nat) : fc_error_t :=
  if version < remoteVersion then
    if version < pred32 remoteVersion then FC_EMIRRORNOTSYNC else FC_UPTODATE
  else FC_SUCCESS

/-- The label `done` of `getcvd`: `twe` is `tmpfile_with_extension` once it has
been allocated. -/
def getcvd_done (tmpfile : String) (twe : Option String) (status : fc_error_t) (w : World) :
    fc_error_t × World :=
  let w1 := match twe with
    | some t => unlink w t
    | none => w
  (status, if status ≠ FC_SUCCESS then unlink w1 tmpfile else w1)

/-- The function `getcvd`: download the whole archive `cvdfile` into `tmpfile`,
verify it and compare its version with `remoteVersion`. -/
def getcvd (env : Env) (cfg : Config) (cvdfile tmpfile server : String) (remoteVersion : Nat)
    (logerr : Bool) (w : World) : fc_error_t × World :=
  let url := server ++ "/" ++ cvdfile
  let dl := downloadFile env cfg url tmpfile true logerr 0 (emit w (Event.getcvd cvdfile remoteVersion))
  if dl.1 ≠ FC_SUCCESS then
    getcvd_done tmpfile none dl.1 (logg dl.2 (sev logerr ++ "getcvd: Can't download " ++ cvdfile))
  else
    let tmpfile_with_extension := with_extension tmpfile cvdfile
    if !rename_ok dl.2 tmpfile tmpfile_with_extension then
      getcvd_done tmpfile (some tmpfile_with_extension) FC_EDBDIRACCESS dl.2
    else
      let w2 := renamed dl.2 tmpfile tmpfile_with_extension
      let data := (lookupFile w2 tmpfile_with_extension).getD []
      let ok := env.cl_cvdverify tmpfile_with_extension data
      let w3 := emit w2 (Event.cl_cvdverify tmpfile_with_extension data ok)
      if !ok then getcvd_done tmpfile (some tmpfile_with_extension) FC_EBADCVD w3
      else
        match env.cl_cvdhead data with
        | none => getcvd_done tmpfile (some tmpfile_with_extension) FC_EBADCVD w3
        | some cvd =>
          if !rename_ok w3 tmpfile_with_extension tmpfile then
            getcvd_done tmpfile (some tmpfile_with_extension) FC_EDBDIRACCESS w3
          else
            getcvd_done tmpfile (some tmpfile_with_extension)
              (getcvd_check cvd.version remoteVersion)
              (renamed w3 tmpfile_with_extension tmpfile)

/-! ## Patch download -/

/-- The last step of `mkdir_and_chdir_for_cdiff_tmp`: `chdir(tmpdir)`. -/
def cdiff_tmp_enter (tmpdir : String) (w : World) : fc_error_t × World :=
  if !chdir_ok w tmpdir then (FC_EDIRECTORY, w) else (FC_SUCCESS, setCwd w tmpdir)

/-- The seeding step of `mkdir_and_chdir_for_cdiff_tmp`: create `tmpdir`,
unpack the local archive `cvdfile` into it, and enter it. -/
def cdiff_tmp_seed (env : Env) (cvdfile tmpdir : String) (w : World) : fc_error_t × World :=
  if !mkdir_ok w tmpdir then (FC_EDIRECTORY, w)
  else
    let w1 := setDir w tmpdir (some [])
    match (lookupFile w1 cvdfile).bind env.cli_cvdunpack with
    | none => (FC_EDIRECTORY, cli_rmdirs w1 tmpdir)
    | some d => cdiff_tmp_enter tmpdir (setDir w1 tmpdir (some d))

/-- The function `mkdir_and_chdir_for_cdiff_tmp`: enter the scratch directory,
creating and seeding it from the local archive if it does not exist yet. -/
def mkdir_and_chdir_for_cdiff_tmp (env : Env) (database tmpdir : String) (w : World) :
    fc_error_t × World :=
  if access w tmpdir then cdiff_tmp_enter tmpdir w
  else if DB_FILENAME_MAX ≤ (database ++ ".cvd").length then (FC_EDIRECTORY, w)
  else if access w (database ++ ".cvd") then cdiff_tmp_seed env (database ++ ".cvd") tmpdir w
  else if DB_FILENAME_MAX ≤ (database ++ ".cld").length then (FC_EDIRECTORY, w)
  else if access w (database ++ ".cld") then cdiff_tmp_seed env (database ++ ".cld") tmpdir w
  else (FC_EDIRECTORY, w)

/-- The label `done` of `downloadPatch`. -/
def downloadPatch_done (tempname : Option String) (olddir : String) (status : fc_error_t)
    (w : World) : fc_error_t × World :=
  let w1 := match tempname with
    | some t => unlink w t
    | none => w
  if !chdir_ok w1 olddir then (FC_EDIRECTORY, w1) else (status, setCwd w1 olddir)

/-- The part of `downloadPatch` that runs inside the scratch directory: fetch
the patch into the new file `tempname` and apply it. -/
def downloadPatch_apply (env : Env) (cfg : Config) (database : String) (version : Int)
    (server : String) (logerr : Bool) (tempname : String) (w : World) : fc_error_t × World :=
  let patch := snprintf DB_FILENAME_MAX (database ++ "-" ++ toString version ++ ".cdiff")
  let url := server ++ "/" ++ patch
  let dl := downloadFile env cfg url tempname true logerr 0 w
  if dl.1 ≠ FC_SUCCESS then
    (dl.1, if dl.1 = FC_EEMPTYFILE then dl.2
           else logg dl.2 (sev logerr ++ "getpatch: Can't download " ++ patch))
  else
    match lookupFile dl.2 tempname, dl.2.dirs dl.2.cwd with
    | some data, some d =>
      let r := env.cdiff_apply data d
      (if r.1 then FC_SUCCESS else FC_EFAILEDUPDATE,
        emit (setDir dl.2 dl.2.cwd (some r.2)) (Event.cdiff_apply version r.1))
    | _, _ => (FC_EFILE, dl.2)

/-- The function `downloadPatch`: fetch the patch for `version` into the
scratch directory and apply it to the working copy there. -/
def downloadPatch (env : Env) (cfg : Config) (database tmpdir : String) (version : Int)
    (server : String) (logerr : Bool) (w : World) : fc_error_t × World :=
  let w := emit w (Event.downloadPatch version)
  if version = 0 then (FC_EARG, w)
  else if !getcwd_ok w then (FC_EDIRECTORY, w)
  else
    let olddir := w.cwd
    let m := mkdir_and_chdir_for_cdiff_tmp env database tmpdir w
    if m.1 ≠ FC_SUCCESS then downloadPatch_done none olddir FC_EDIRECTORY m.2
    else
      let g := cli_gentemp env m.2 "."
      match g.1 with
      | none => downloadPatch_done none olddir FC_EMEM g.2
      | some tempname =>
        let a := downloadPatch_apply env cfg database version server logerr tempname g.2
        downloadPatch_done (some tempname) olddir a.1 a.2

/-! ## Local probe -/

/-- The call `cl_cvdhead(filename)` on a file of the model. -/
def cl_cvdhead (env : Env) (w : World) (filename : String) : Option cl_cvd :=
  (lookupFile w filename).bind env.cl_cvdhead

/-- The function `currentdb`: the header and file name of the local database,
looking for the `.cvd` first and the `.cld` second. -/
def currentdb (env : Env) (database : String) (w : World) : Option (cl_cvd × String) :=
  let cvdname := snprintf DB_FILENAME_MAX (database ++ ".cvd")
  let cldname := snprintf DB_FILENAME_MAX (database ++ ".cld")
  let found : Option String :=
    if access w cvdname then some cvdname
    else if access w cldname then some cldname
    else none
  match found with
  | none => none
  | some filename =>
    match cl_cvdhead env w filename with
    | none => none
    | some cvd => some (cvd, filename)

/-! ## Repacker -/

/-- The C library `strchr(s, c)` on a buffer whose terminating NUL follows the
listed bytes: the index of the first `c` before any NUL. -/
def strchr (s : List UInt8) (c : UInt8) : Option Nat :=
  match s with
  | [] => none
  | b :: t => if b = c then some 0 else if b = 0 then none else (strchr t c).map (· + 1)

/-- The header `buildcld` writes, from the bytes of the `.info` file: the first
`CVD_HEADER_SIZE` bytes (what the file does not fill stays as it was in the
buffer), blanked from the first newline on; `none` when no newline is found. -/
def buildcld_header (env : Env) (data : Content) : Option Content :=
  let n := min data.length CVD_HEADER_SIZE
  let buff := data.take n ++ (List.range (CVD_HEADER_SIZE - n)).map (fun i => env.uninit (n + i))
  match strchr buff 10 with
  | none => none
  | some k => some (buff.take k ++ List.replicate (CVD_HEADER_SIZE - k) 32)

/-- The call `tar_addfile(fd, gzs, name)` of `buildcld`, appending the file
`name` of the working directory to the archive `newfile`. -/
def tar_addfile (env : Env) (bCompress : Bool) (newfile name : String) (w : World) :
    Bool × World :=
  match lookupFile w name, lookupFile w newfile with
  | some data, some arch =>
    match env.tar_addfile bCompress arch name data with
    | some arch1 => (true, emit (writeFile w newfile arch1) (Event.tar_addfile name true))
    | none => (false, emit w (Event.tar_addfile name false))
  | _, _ => (false, emit w (Event.tar_addfile name false))

/-- The `readdir` loop of `buildcld` over the entry names still to visit. -/
def buildcld_loop (env : Env) (bCompress : Bool) (newfile info : String)
    (names : List String) (w : World) : fc_error_t × World :=
  match names with
  | [] => (FC_SUCCESS, w)
  | n :: rest =>
    if n = "." ∨ n = ".." ∨ n = "COPYING" ∨ n = "daily.cfg" ∨ n = info then
      buildcld_loop env bCompress newfile info rest w
    else
      let t := tar_addfile env bCompress newfile n w
      if !t.1 then (FC_EFAILEDUPDATE, t.2)
      else buildcld_loop env bCompress newfile info rest t.2

/-- The label `done` of `buildcld`; `olddir` is the C string in the buffer
`olddir`, `none` when its first byte is NUL. -/
def buildcld_done (newfile : String) (olddir : Option String) (status : fc_error_t)
    (w : World) : fc_error_t × World :=
  let w1 := if status ≠ FC_SUCCESS then unlink w newfile else w
  match olddir with
  | none => (status, w1)
  | some o => if !chdir_ok w1 o then (FC_EDIRECTORY, w1) else (status, setCwd w1 o)

/-- The entry names `readdir` reports for a directory. -/
def readdir (d : Dir) : List String :=
  "." :: ".." :: d.map (fun e => e.1)

/-- The member-appending part of `buildcld`, once the header is written. -/
def buildcld_members (env : Env) (newfile info : String) (bCompress : Bool)
    (w : World) : fc_error_t × World :=
  if !access w "COPYING" then (FC_EFAILEDUPDATE, w)
  else
    let r1 := tar_addfile env bCompress newfile "COPYING" w
    if !r1.1 then (FC_EFAILEDUPDATE, r1.2)
    else
      let r2 := if access r1.2 info then tar_addfile env bCompress newfile info r1.2
        else (true, r1.2)
      if !r2.1 then (FC_EFAILEDUPDATE, r2.2)
      else
        let r3 :=
          if access r2.2 "daily.cfg" then tar_addfile env bCompress newfile "daily.cfg" r2.2
          else (true, r2.2)
        if !r3.1 then (FC_EFAILEDUPDATE, r3.2)
        else
          match r3.2.dirs r3.2.cwd with
          | none => (FC_EDIRECTORY, r3.2)
          | some d => buildcld_loop env bCompress newfile info (readdir d) r3.2

/-- The part of `buildcld` that runs inside `tmpdir`: build the header from the
`.info` file, create `newfile` and append the members. -/
def buildcld_pack (env : Env) (database newfile : String) (bCompress : Bool) (w : World) :
    fc_error_t × World :=
  let info := snprintf DB_FILENAME_MAX (database ++ ".info")
  match lookupFile w info with
  | none => (FC_EFILE, w)
  | some data =>
    match buildcld_header env data with
    | none => (FC_EFAILEDUPDATE, w)
    | some buff =>
      if !open_excl_ok w newfile then (FC_EFILE, w)
      else
        let w3 := writeFile (created w newfile) newfile buff
        if bCompress && !env.gzopen then (FC_EFAILEDUPDATE, w3)
        else buildcld_members env newfile info bCompress w3

/-- The function `buildcld`: pack the working copy in `tmpdir` into the new
archive `newfile`.  Unlike `downloadPatch`, the function does not set
`olddir[0]` before calling `getcwd`: when `getcwd` fails, the label `done`
tests whatever the buffer holds. -/
def buildcld (env : Env) (tmpdir database newfile : String) (bCompress : Bool) (w : World) :
    fc_error_t × World :=
  let w := emit w (Event.buildcld tmpdir)
  if !getcwd_ok w then buildcld_done newfile env.uninit_olddir FC_EDIRECTORY w
  else
    let olddir := w.cwd
    if !chdir_ok w tmpdir then buildcld_done newfile (some olddir) FC_EDIRECTORY w
    else
      let r := buildcld_pack env database newfile bCompress (setCwd w tmpdir)
      buildcld_done newfile (some olddir) r.1 r.2

/-! ## Version oracle -/

/-- The function `textrecordfield`: the field of the DNS update-info record
that carries the version of an official database. -/
def textrecordfield (database : String) : Nat :=
  if database = "main" then 1
  else if database = "daily" then 2
  else if database = "bytecode" then 7
  else if database = "safebrowsing" then 6
  else 0

/-- The version `query_remote_database_version` reads from the primary DNS
update-info record, `0` when it yields none. -/
def dns_primary_version (env : Env) (database dnsUpdateInfo : String) : Nat :=
  let field := textrecordfield database
  if field = 0 then 0
  else
    match env.cli_strtok dnsUpdateInfo field with
    | none => 0
    | some verStrDnsPrimary =>
      if !env.cli_isnumber verStrDnsPrimary then 0
      else toUInt32 (env.atoi verStrDnsPrimary)

/-- The version `query_remote_database_version` reads from the per-database
TXT record `<database>.cvd.clamav.net`, `0` when it yields none. -/
def dns_extra_version (env : Env) (database : String) : Nat :=
  match env.dnsquery (database ++ ".cvd.clamav.net") with
  | none => 0
  | some extradnsreply =>
    match env.cli_strtok extradnsreply env.DNS_EXTRADBINFO_RECORDTIME with
    | none => 0
    | some recordTimeStr =>
      let recordTime := env.atoi recordTimeStr
      if env.time - recordTime > 10800 then 0
      else
        match env.cli_strtok extradnsreply 0 with
        | some verStrDnsExtra =>
          if !env.cli_isnumber verStrDnsExtra then 0
          else toUInt32 (env.atoi verStrDnsExtra)
        | none => 0

/-- The version `query_remote_database_version` gets from DNS, `0` when DNS is
not consulted or yields none. -/
def dns_version (env : Env) (database : String) (dnsUpdateInfo : Option String)
    (bPrivateMirror : Bool) : Nat :=
  match bPrivateMirror, dnsUpdateInfo with
  | false, some info =>
    if dns_primary_version env database info = 0 then dns_extra_version env database
    else dns_primary_version env database info
  | _, _ => 0

/-- What `query_remote_database_version` hands back. -/
structure RemoteVersion where
  status : fc_error_t
  remoteVersion : Nat
  remoteFilename : Option String
  deriving DecidableEq, Repr

/-- The HTTP part of `query_remote_database_version`: the header probe, its
status, and whether the `.cld` branch was hit. -/
def query_http (env : Env) (cfg : Config) (cvdfile cldfile : String) (ifModifiedSince : Nat)
    (server : String) (bPrivateMirror logerr : Bool) (w : World) :
    ((fc_error_t × Option cl_cvd) × Bool) × World :=
  if bPrivateMirror then
    let r := remote_cvdhead env cfg cldfile ifModifiedSince server logerr w
    if r.1.1 = FC_SUCCESS ∨ r.1.1 = FC_UPTODATE then ((r.1, true), r.2)
    else
      let r2 := remote_cvdhead env cfg cvdfile ifModifiedSince server logerr r.2
      ((r2.1, false), r2.2)
  else
    let r := remote_cvdhead env cfg cvdfile ifModifiedSince server logerr w
    ((r.1, false), r.2)

/-- The function `query_remote_database_version` (built with `HAVE_RESOLV_H`):
the latest advertised version of `database` and the file name it has on the
server. -/
def query_remote_database_version (env : Env) (cfg : Config) (database : String)
    (ifModifiedSince : Nat) (dnsUpdateInfo : Option String) (server : String)
    (bPrivateMirror logerr : Bool) (w : World) : RemoteVersion × World :=
  let cvdfile := snprintf DB_FILENAME_MAX (database ++ ".cvd")
  let cldfile := snprintf DB_FILENAME_MAX (database ++ ".cld")
  let newVersion := dns_version env database dnsUpdateInfo bPrivateMirror
  if newVersion = 0 then
    let h := query_http env cfg cvdfile cldfile ifModifiedSince server bPrivateMirror logerr w
    match h.1.1.1, h.1.1.2 with
    | FC_SUCCESS, some remote =>
      ({ status := FC_SUCCESS, remoteVersion := remote.version,
         remoteFilename := some (if h.1.2 then cldfile else cvdfile) }, h.2)
    | ret, _ => ({ status := ret, remoteVersion := 0, remoteFilename := none }, h.2)
  else
    ({ status := FC_SUCCESS, remoteVersion := newVersion, remoteFilename := some cvdfile }, w)

/-- What `check_for_new_database_version` hands back. -/
structure VersionCheck where
  status : fc_error_t
  localVersion : Nat
  remoteVersion : Nat
  localFilename : Option String
  remoteFilename : Option String
  deriving DecidableEq, Repr

/-- The outputs of a `check_for_new_database_version` that fails. -/
def VersionCheck.failed : VersionCheck :=
  { status := FC_EFAILEDGET, localVersion := 0, remoteVersion := 0,
    localFilename := none, remoteFilename := none }

/-- The decision of `check_for_new_database_version`, from the local probe and
the answer of the oracle. -/
def version_check (loc : Option (cl_cvd × String)) (r : RemoteVersion) : VersionCheck :=
  let localver := (loc.map (fun l => l.1.version)).getD 0
  let localname := loc.map (fun l => l.2)
  let found (remotever : Nat) : VersionCheck :=
    { status := FC_SUCCESS, localVersion := localver,
      remoteVersion := remotever, localFilename := localname,
      remoteFilename := r.remoteFilename }
  let up_to_date : VersionCheck :=
    if loc.isNone then VersionCheck.failed else found localver
  match r.status with
  | FC_SUCCESS =>
    if localver = 0 then found r.remoteVersion
    else if localver < r.remoteVersion then found r.remoteVersion
    else up_to_date
  | FC_UPTODATE => up_to_date
  | _ => VersionCheck.failed

/-- The function `check_for_new_database_version`: probe the local database,
ask the oracle, and decide whether there is something to download. -/
def check_for_new_database_version (env : Env) (cfg : Config) (database : String)
    (dnsUpdateInfo : Option String) (server : String) (bPrivateMirror logerr : Bool)
    (w : World) : VersionCheck × World :=
  let local_database := currentdb env database w
  let localTimestamp := (local_database.map (fun l => l.1.stime)).getD 0
  let q := query_remote_database_version env cfg database localTimestamp dnsUpdateInfo server
    bPrivateMirror logerr w
  (version_check local_database q.1, q.2)

/-! ## Installer -/

/-- The outputs of `updatedb`: its status and the three out-parameters.  The
`int` out-parameter `signo` receives the `unsigned int` field `sigs` as it
is. -/
structure UpdateResult where
  status : fc_error_t
  signo : Nat
  dbFilename : Option String
  bUpdated : Bool
  deriving DecidableEq, Repr

/-- The outputs of a call that leaves through `done` with an error: the
out-parameters keep their initial values. -/
def UpdateResult.failed (status : fc_error_t) : UpdateResult :=
  { status := status, signo := 0, dbFilename := none, bUpdated := false }

/-- The label `done` of `updatedb`: unlink the temporary file and remove the
scratch directory, if they were allocated. -/
def updatedb_done (tmpfile tmpdir : Option String) (r : UpdateResult) (w : World) :
    UpdateResult × World :=
  let w1 := match tmpfile with
    | some t => unlink w t
    | none => w
  let w2 := match tmpdir with
    | some d => cli_rmdirs w1 d
    | none => w1
  (r, w2)

/-- The retry loop `for (j = 1; j <= g_maxAttempts; j++)` of `updatedb` for the
patch of version `i`, with `n` attempts left (for `g_maxAttempts` below the
largest `unsigned int`, so that `j` does not wrap). -/
def patch_attempts (env : Env) (cfg : Config) (database tmpdir : String) (i : Nat)
    (server : String) (logerr : Bool) (n j : Nat) (ret : fc_error_t) (w : World) :
    fc_error_t × World :=
  match n with
  | 0 => (ret, w)
  | n + 1 =>
    let llogerr := if logerr then decide (j = cfg.g_maxAttempts) else logerr
    let r := downloadPatch env cfg database tmpdir (toInt32 i) server llogerr w
    if r.1 = FC_ECONNECTION ∨ r.1 = FC_EFAILEDGET then
      patch_attempts env cfg database tmpdir i server logerr n (j + 1) r.1 r.2
    else r

/-- The loop `for (i = localVersion + 1; i <= remoteVersion; i++)` of
`updatedb`, from the version `i` on; `fuel` bounds the number of loop tests and
`none` means that it ran out. -/
def patch_loop (env : Env) (cfg : Config) (database tmpdir : String) (remoteVersion : Nat)
    (server : String) (logerr : Bool) (fuel i : Nat) (ret : fc_error_t) (w : World) :
    Option (fc_error_t × World) :=
  match fuel with
  | 0 => none
  | fuel + 1 =>
    if i ≤ remoteVersion then
      let r := patch_attempts env cfg database tmpdir i server logerr cfg.g_maxAttempts 1 ret w
      if r.1 ≠ FC_SUCCESS then some r
      else
        patch_loop env cfg database tmpdir remoteVersion server logerr fuel
          ((i + 1) % UINT_SIZE) r.1 r.2
    else some (ret, w)

/-- The last part of `updatedb`: rename the tested file `tmpfile` to
`newLocalFilename`, delete the superseded local file, and parse the header of
the installed file. -/
def updatedb_replace (env : Env) (localFilename : Option String) (tmpfile : String)
    (tmpdir : Option String) (newLocalFilename : String) (w : World) : UpdateResult × World :=
  if !rename_ok w tmpfile newLocalFilename then
    updatedb_done (some tmpfile) tmpdir (UpdateResult.failed FC_EDBDIRACCESS) w
  else
    let w1 := renamed w tmpfile newLocalFilename
    let w2 := match localFilename with
      | some l => if access w1 l && l ≠ newLocalFilename then unlink w1 l else w1
      | none => w1
    match cl_cvdhead env w2 newLocalFilename with
    | none => updatedb_done (some tmpfile) tmpdir (UpdateResult.failed FC_EFILE) w2
    | some cvd =>
      updatedb_done (some tmpfile) tmpdir
        { status := FC_SUCCESS, signo := cvd.sigs, dbFilename := some newLocalFilename,
          bUpdated := true } w2

/-- The part of `updatedb` after the download: run the download-complete
callback, if one is set, on the file renamed to `tmpfile-newLocalFilename`,
then replace the database. -/
def updatedb_install (env : Env) (cfg : Config) (localFilename : Option String)
    (tmpfile : String) (tmpdir : Option String) (newLocalFilename : String) (w : World) :
    UpdateResult × World :=
  match cfg.g_cb_download_complete with
  | none => updatedb_replace env localFilename tmpfile tmpdir newLocalFilename w
  | some cb =>
    let tmpfile_with_extension := tmpfile ++ "-" ++ newLocalFilename
    if !rename_ok w tmpfile tmpfile_with_extension then
      updatedb_done (some tmpfile) tmpdir (UpdateResult.failed FC_EDBDIRACCESS) w
    else
      let w1 := renamed w tmpfile tmpfile_with_extension
      let ret := cb tmpfile_with_extension ((lookupFile w1 tmpfile_with_extension).getD [])
      let w2 := emit w1 (Event.callback tmpfile_with_extension ret)
      if ret ≠ FC_SUCCESS then
        updatedb_done (some tmpfile_with_extension) tmpdir (UpdateResult.failed ret) w2
      else updatedb_replace env localFilename tmpfile_with_extension tmpdir newLocalFilename w2

/-- The full-download branch of `updatedb`: `getcvd`, then install under the
remote file name.  Without a remote file name `getcvd` rejects its arguments:
it returns `FC_EARG` and unlinks `tmpfile`. -/
def updatedb_full (env : Env) (cfg : Config) (server : String) (logerr : Bool)
    (c : VersionCheck) (tmpfile : String) (tmpdir : Option String)
    (w : World) : UpdateResult × World :=
  match c.remoteFilename with
  | none => updatedb_done (some tmpfile) tmpdir (UpdateResult.failed FC_EARG) (unlink w tmpfile)
  | some remoteFilename =>
    let g := getcvd env cfg remoteFilename tmpfile server c.remoteVersion logerr w
    if g.1 ≠ FC_SUCCESS then updatedb_done (some tmpfile) tmpdir (UpdateResult.failed g.1) g.2
    else updatedb_install env cfg c.localFilename tmpfile tmpdir remoteFilename g.2

/-- The bound on the loop tests of the patch loop: a run that needs more tests
never leaves the loop. -/
def PATCH_LOOP_FUEL : Nat := UINT_SIZE + 2

/-- The incremental branch of `updatedb`: the patch loop, then either the
repacker or the fallback to the full download. -/
def updatedb_incremental (env : Env) (cfg : Config) (database server : String) (logerr : Bool)
    (c : VersionCheck) (tmpfile : String) (w : World) :
    Option (UpdateResult × World) :=
  let g := cli_gentemp env w cfg.g_tempDirectory
  match g.1 with
  | none => some (updatedb_done (some tmpfile) none (UpdateResult.failed FC_EMEM) g.2)
  | some tmpdir =>
    match patch_loop env cfg database tmpdir c.remoteVersion server logerr PATCH_LOOP_FUEL
        ((c.localVersion + 1) % UINT_SIZE) FC_SUCCESS g.2 with
    | none => none
    | some l =>
      if l.1 ≠ FC_SUCCESS then
        some (updatedb_full env cfg server logerr c tmpfile (some tmpdir) l.2)
      else
        let b := buildcld env tmpdir database tmpfile cfg.g_bCompressLocalDatabase l.2
        if b.1 ≠ FC_SUCCESS then
          some (updatedb_done (some tmpfile) (some tmpdir)
            (UpdateResult.failed FC_EFAILEDUPDATE) b.2)
        else
          some (updatedb_install env cfg c.localFilename tmpfile (some tmpdir)
            (database ++ ".cld") b.2)

/-- The function `updatedb`: bring one database up to date.  The result is
`none` when the C function does not return (its patch loop never ends). -/
def updatedb (env : Env) (cfg : Config) (database : String) (dnsUpdateInfo : Option String)
    (server : String) (bPrivateMirror bScriptedUpdates logerr : Bool) (w : World) :
    Option (UpdateResult × World) :=
  let k := check_for_new_database_version env cfg database dnsUpdateInfo server bPrivateMirror
    logerr w
  if k.1.status ≠ FC_SUCCESS then some (UpdateResult.failed k.1.status, k.2)
  else if k.1.localVersion ≥ k.1.remoteVersion ∧ k.1.localFilename.isSome then
    some ({ status := FC_SUCCESS, signo := 0, dbFilename := k.1.localFilename,
            bUpdated := false }, k.2)
  else
    let g := cli_gentemp env k.2 cfg.g_tempDirectory
    match g.1 with
    | none => some (UpdateResult.failed FC_EMEM, g.2)
    | some tmpfile =>
      if k.1.localVersion = 0 ∨ !bScriptedUpdates then
        some (updatedb_full env cfg server logerr k.1 tmpfile none g.2)
      else updatedb_incremental env cfg database server logerr k.1 tmpfile g.2

/-! ## Custom-URL updater -/

/-- The test `!strncasecmp(url, "file://", strlen("file://"))`. -/
def isFileUrl (url : String) : Bool :=
  (url.data.take 7).map Char.toLower == "file://".data

/-- The C library `strrchr(s, c)` on the characters of a C string: the part of
`s` that starts at the last `c`. -/
def strrchr (s : List Char) (c : Char) : Option (List Char) :=
  match s with
  | [] => none
  | x :: t =>
    match strrchr t c with
    | some r => some r
    | none => if x = c then some (x :: t) else none

/-- The derivation of `databaseName` in `updatecustomdb`: the statement
`databaseName = strrchr(path, '/')` followed by the test
`(NULL == databaseName) || strlen(databaseName++) < 5` (written
`strlen(".ext") + 1` in the `file://` branch), whose `strlen` reads the string
that still starts at the separator.  The result is the incremented pointer,
`none` when the URL is rejected. -/
def updatecustomdb_name (path : String) : Option String :=
  match strrchr path.data '/' with
  | none => none
  | some databaseName =>
    if databaseName.length < 5 then none else some (String.mk (databaseName.drop 1))

/-- The expression `(CLAMSTAT(p, &statbuf) != -1) ? statbuf.st_mtime : 0`. -/
def stat_mtime (env : Env) (w : World) (p : String) : Nat :=
  if access w p then env.st_mtime p else 0

/-- Modelled from the spec: whether the call `cli_filecopy(src, dst)` of
libclamav succeeds, which copies the bytes of the regular file `src` into the
file `dst`: `src` is a regular file and `dst` can be created. -/
def cli_filecopy_ok (w : World) (src dst : String) : Bool :=
  (lookupFile w src).isSome && canStore w dst

/-- Modelled from the spec: the world after a successful
`cli_filecopy(src, dst)`. -/
def cli_filecopy (w : World) (src dst : String) : World :=
  storeFile w dst ((lookupFile w src).getD [])

/-- Modelled from the spec: the test `cli_strbcasestr(haystack, needle)` of
libclamav, "the name ends with the extension", ignoring case. -/
def cli_strbcasestr (haystack needle : String) : Bool :=
  decide (needle.data.length ≤ haystack.data.length) &&
    (haystack.data.drop (haystack.data.length - needle.data.length)).map Char.toLower
      == needle.data.map Char.toLower

/-- The label `done` of `updatecustomdb`, reached with a temporary name:
unlink the temporary file. -/
def updatecustomdb_done (tmpfile : String) (r : UpdateResult) (w : World) :
    UpdateResult × World :=
  (r, unlink w tmpfile)

/-- The label `up_to_date` of `updatecustomdb`: success, with the database
name as the file name and nothing updated. -/
def updatecustomdb_up_to_date (databaseName tmpfile : String) (w : World) :
    UpdateResult × World :=
  updatecustomdb_done tmpfile
    { status := FC_SUCCESS, signo := 0, dbFilename := some databaseName, bUpdated := false } w

/-- The signature count `updatecustomdb` records for the installed file,
`none` when the header of a `.cld` / `.cvd` does not parse. -/
def updatecustomdb_sigs (env : Env) (w : World) (databaseName : String) : Option Nat :=
  if cli_strbcasestr databaseName ".cld" || cli_strbcasestr databaseName ".cvd" then
    (cl_cvdhead env w databaseName).map (fun cvd => cvd.sigs)
  else if cli_strbcasestr databaseName ".cbc" then some 1
  else some (env.countlines ((lookupFile w databaseName).getD []))

/-- The last part of `updatecustomdb`: rename the tested file `tmpfile` to
`databaseName` and record the number of signatures. -/
def updatecustomdb_replace (env : Env) (databaseName tmpfile : String) (w : World) :
    UpdateResult × World :=
  if !rename_ok w tmpfile databaseName then
    updatecustomdb_done tmpfile (UpdateResult.failed FC_EDBDIRACCESS) w
  else
    let w1 := renamed w tmpfile databaseName
    match updatecustomdb_sigs env w1 databaseName with
    | none => updatecustomdb_done tmpfile (UpdateResult.failed FC_EFILE) w1
    | some sigs =>
      updatecustomdb_done tmpfile
        { status := FC_SUCCESS, signo := sigs, dbFilename := some databaseName,
          bUpdated := true } w1

/-- The part of `updatecustomdb` after the download or copy: run the
download-complete callback, if one is set, on the file renamed to
`tmpfile-databaseName`, then replace the database. -/
def updatecustomdb_install (env : Env) (cfg : Config) (databaseName tmpfile : String)
    (w : World) : UpdateResult × World :=
  match cfg.g_cb_download_complete with
  | none => updatecustomdb_replace env databaseName tmpfile w
  | some cb =>
    let tmpfile_with_extension := tmpfile ++ "-" ++ databaseName
    if !rename_ok w tmpfile tmpfile_with_extension then
      updatecustomdb_done tmpfile (UpdateResult.failed FC_EDBDIRACCESS) w
    else
      let w1 := renamed w tmpfile tmpfile_with_extension
      let ret := cb tmpfile_with_extension ((lookupFile w1 tmpfile_with_extension).getD [])
      let w2 := emit w1 (Event.callback tmpfile_with_extension ret)
      if ret ≠ FC_SUCCESS then
        updatecustomdb_done tmpfile_with_extension (UpdateResult.failed ret) w2
      else updatecustomdb_replace env databaseName tmpfile_with_extension w2

/-- The `file://` branch of `updatecustomdb`: copy the source file when the
local copy is not newer than it. -/
def updatecustomdb_file (env : Env) (cfg : Config) (url tmpfile : String) (w : World) :
    UpdateResult × World :=
  let rpath := String.mk (url.data.drop 7)
  match updatecustomdb_name rpath with
  | none => updatecustomdb_done tmpfile (UpdateResult.failed FC_EFAILEDUPDATE) w
  | some databaseName =>
    if !access w rpath then
      updatecustomdb_done tmpfile (UpdateResult.failed FC_EFAILEDUPDATE) w
    else
      let remote_dbtime := env.st_mtime rpath
      let dbtime := stat_mtime env w databaseName
      if dbtime > remote_dbtime then updatecustomdb_up_to_date databaseName tmpfile w
      else if !cli_filecopy_ok w rpath tmpfile then
        updatecustomdb_done tmpfile (UpdateResult.failed FC_EFAILEDUPDATE) w
      else updatecustomdb_install env cfg databaseName tmpfile (cli_filecopy w rpath tmpfile)

/-- The download branch of `updatecustomdb`: fetch the URL, conditionally on
the modification time of the local copy. -/
def updatecustomdb_url (env : Env) (cfg : Config) (url : String) (logerr : Bool)
    (tmpfile : String) (w : World) : UpdateResult × World :=
  match updatecustomdb_name url with
  | none => updatecustomdb_done tmpfile (UpdateResult.failed FC_EFAILEDUPDATE) w
  | some databaseName =>
    let dbtime := stat_mtime env w databaseName
    let dl := downloadFile env cfg url tmpfile true logerr dbtime w
    if dl.1 = FC_UPTODATE then updatecustomdb_up_to_date databaseName tmpfile dl.2
    else if dl.1.isError then
      updatecustomdb_done tmpfile (UpdateResult.failed dl.1)
        (logg dl.2 (sev logerr ++ "Can't download " ++ databaseName ++ " from " ++ url))
    else updatecustomdb_install env cfg databaseName tmpfile dl.2

/-- The function `updatecustomdb`: bring the database of a user-supplied URL up
to date. -/
def updatecustomdb (env : Env) (cfg : Config) (url : String) (logerr : Bool) (w : World) :
    UpdateResult × World :=
  let g := cli_gentemp env w cfg.g_tempDirectory
  match g.1 with
  | none => (UpdateResult.failed FC_EFAILEDUPDATE, g.2)
  | some tmpfile =>
    if isFileUrl url then updatecustomdb_file env cfg url tmpfile g.2
    else updatecustomdb_url env cfg url logerr tmpfile g.2

/-! ## Predicates used by the statements -/

/-- Whether `w1` has the regular files, the directories, the working directory
and the temporary-name counter of `w`. -/
def SameFS (w w1 : World) : Prop :=
  w1.files = w.files ∧ w1.dirs = w.dirs ∧ w1.cwd = w.cwd ∧ w1.ntmp = w.ntmp

/-- Whether the trace of `w1` is the trace of `w` followed by events that all
satisfy `K`. -/
def Emits (K : Event → Bool) (w w1 : World) : Prop :=
  ∃ evs, w1.trace = w.trace ++ evs ∧ ∀ e ∈ evs, K e = true

/-- The footprint of a run from `w` to `w1`: it changed regular files only at
the absolute paths in `A`, directories only at the paths in `D`, and emitted
only events in `K`. -/
structure Foot (A D : String → Bool) (K : Event → Bool) (w w1 : World) : Prop where
  files : ∀ q, A q = false → w1.files q = w.files q
  dirs : ∀ q, D q = false → w1.dirs q = w.dirs q
  trace : Emits K w w1

/-- Whether a file operation on the path `p`, made with working directory `c`,
stays inside the footprint `A`, `D`. -/
def PathOk (A D : String → Bool) (c p : String) : Prop :=
  (isAbs p = true → A p = true) ∧ (isAbs p = false → D c = true)

/-- The events of a header probe. -/
def isCurl : Event → Bool
  | Event.curl _ _ => true
  | _ => false

/-- The events of a file-mode fetch. -/
def fetchKind : Event → Bool
  | Event.curl _ _ => true
  | Event.unlink _ => true
  | _ => false

/-- The events of a full download and of the callback: fetches, unlinks,
verifications, and renames between absolute paths. -/
def fullKind : Event → Bool
  | Event.curl _ _ => true
  | Event.cl_cvdverify _ _ _ => true
  | Event.unlink _ => true
  | Event.callback _ _ => true
  | Event.getcvd _ _ => true
  | Event.rename _ dst _ => isAbs dst
  | _ => false

/-- The events of a full download alone: fetches, unlinks, verifications, and
renames between absolute paths. -/
def getcvdKind : Event → Bool
  | Event.curl _ _ => true
  | Event.cl_cvdverify _ _ _ => true
  | Event.unlink _ => true
  | Event.getcvd _ _ => true
  | Event.rename _ dst _ => isAbs dst
  | _ => false

/-- The events of a run that installs nothing and runs no callback: anything
but a callback or a rename to a relative path. -/
def quietKind : Event → Bool
  | Event.callback _ _ => false
  | Event.rename _ dst _ => isAbs dst
  | _ => true

/-- The events that concern the installed database: a verification, or a
rename whose destination is a file of the working directory. -/
def dbEvent : Event → Bool
  | Event.cl_cvdverify _ _ _ => true
  | Event.rename _ dst _ => !isAbs dst
  | _ => false

/-- The events of the oracle and of the patch phase. -/
def patchKind : Event → Bool
  | Event.curl _ _ => true
  | Event.unlink _ => true
  | Event.cdiff_apply _ _ => true
  | Event.downloadPatch _ => true
  | _ => false

/-- The events of the repacker. -/
def packKind : Event → Bool
  | Event.unlink _ => true
  | Event.buildcld _ => true
  | Event.tar_addfile _ _ => true
  | _ => false

/-- The events of the oracle, of the patch phase and of the repacker. -/
def preKind (e : Event) : Bool :=
  patchKind e || packKind e

/-- The footprint of a phase that works in the scratch directory `t`: regular
files change at absolute paths only, directories at `t` only, and the events
are of kind `K`. -/
def PreFoot (K : Event → Bool) (t : String) (w w1 : World) : Prop :=
  Foot (fun _ => true) (fun q => decide (q = t)) K w w1

/-- Whether an event is a rename that moves the bytes `d`. -/
def carries (d : Content) : Event → Bool
  | Event.rename _ _ d1 => d1 == d
  | _ => false

/-- The events of the install phase for a file holding `d`. -/
def instKind (d : Content) (e : Event) : Bool :=
  fullKind e || carries d e

/-- The events a run from `w` to `w1` added to the trace. -/
def newEvents (w w1 : World) : List Event :=
  w1.trace.drop w.trace.length

/-- The events that only the incremental path emits. -/
def patchOnly : Event → Bool
  | Event.cdiff_apply _ _ => true
  | Event.downloadPatch _ => true
  | Event.buildcld _ => true
  | Event.tar_addfile _ _ => true
  | _ => false

/-- Whether every rename into the working directory found in `evs` moves bytes
that the verifier accepted earlier in `evs`. -/
def VerifiedInstall (evs : List Event) : Prop :=
  ∀ pre post src dst d, evs = pre ++ Event.rename src dst d :: post → isAbs dst = false →
    ∃ p, Event.cl_cvdverify p d true ∈ pre

/-- The assumptions on the surroundings under which a run is analysed: the
database name is a relative path, the temporary names generated in the
temporary directory are absolute paths of more than four characters other than
the working directory, and the working directory is an absolute path. -/
structure Sane (env : Env) (cfg : Config) (database : String) (w : World) : Prop where
  db_rel : isAbs database = false
  tmp_abs : ∀ n t, env.cli_gentemp n cfg.g_tempDirectory = some t → isAbs t = true
  tmp_long : ∀ n t, env.cli_gentemp n cfg.g_tempDirectory = some t → 4 < t.length
  tmp_ne : ∀ n t, env.cli_gentemp n cfg.g_tempDirectory = some t → t ≠ w.cwd
  cwd_abs : isAbs w.cwd = true

/-- Whether an event is a rename to the path `fn`. -/
def installsAs (fn : String) : Event → Bool
  | Event.rename _ dst _ => dst == fn
  | _ => false

/-- Whether an event is a run of the verifier. -/
def isVerify : Event → Bool
  | Event.cl_cvdverify _ _ _ => true
  | _ => false

/-- Whether an event is the start of the repacker. -/
def isBuildcld : Event → Bool
  | Event.buildcld _ => true
  | _ => false

/-- Whether an event is the start of a patch download. -/
def isDownloadPatch : Event → Bool
  | Event.downloadPatch _ => true
  | _ => false

/-- The answer of the oracle read off the outcome `p` of a header probe of the
file `name`: the status of the probe and, when it produced a header, the
version in the header and `name`. -/
def probe_answer (p : fc_error_t × Option cl_cvd) (name : String) : RemoteVersion :=
  { status := p.1, remoteVersion := (p.2.map (fun hd => hd.version)).getD 0,
    remoteFilename := p.2.map (fun _ => name) }

/-- Following the specification: the six outcomes of a transfer that the
specification of the fetcher lists. -/
inductive SpecOutcome where
  | ok
  | not_modified
  | not_found
  | origin_timeout
  | http_other
  | transport_error
  deriving DecidableEq, Repr

/-- Following the specification: the outcome of a transfer, as the
specification of the fetcher classifies it: 200 and 206, 304, 404, 522, the
other response codes, and the failures of the transfer itself. -/
def spec_outcome (r : CurlResult) : SpecOutcome :=
  match r with
  | CurlResult.failed _ => SpecOutcome.transport_error
  | CurlResult.http code _ =>
    if code = 200 ∨ code = 206 then SpecOutcome.ok
    else if code = 304 then SpecOutcome.not_modified
    else if code = 404 then SpecOutcome.not_found
    else if code = 522 then SpecOutcome.origin_timeout
    else SpecOutcome.http_other

/-- The classes of outcomes that remain when 404 and 522 are counted with the
other response codes. -/
def SpecOutcome.coarse (o : SpecOutcome) : SpecOutcome :=
  match o with
  | SpecOutcome.not_found => SpecOutcome.http_other
  | SpecOutcome.origin_timeout => SpecOutcome.http_other
  | o => o

/-- The status and the world after `m` successive calls of `downloadPatch` for
the patch of version `i`, the first of them being attempt number `j` of the
retry loop of `updatedb`, started in the state `s`. -/
def downloadPatch_calls (env : Env) (cfg : Config) (database tmpdir : String) (i : Nat)
    (server : String) (logerr : Bool) (m j : Nat) (s : fc_error_t × World) :
    fc_error_t × World :=
  match m with
  | 0 => s
  | m + 1 =>
    downloadPatch_calls env cfg database tmpdir i server logerr m (j + 1)
      (downloadPatch env cfg database tmpdir (toInt32 i) server
        (if logerr then decide (j = cfg.g_maxAttempts) else logerr) s.2)

/-- Whether an event is a run of the download-complete callback. -/
def isCallback : Event → Bool
  | Event.callback _ _ => true
  | _ => false

/-- The members the spec lists for the archive `buildcld` packs in a directory
with the entries `d`, seen from the world `w` whose working directory it is:
`COPYING`, the `.info` file if it is readable, `daily.cfg` if it is readable,
then the remaining entries in iteration order. -/
def spec_members (w : World) (info : String) (d : Dir) : List String :=
  "COPYING" :: ((if access w info then [info] else []) ++
    ((if access w "daily.cfg" then ["daily.cfg"] else []) ++
      (d.map (fun e => e.1)).filter (fun n =>
        decide (¬ (n = "." ∨ n = ".." ∨ n = "COPYING" ∨ n = "daily.cfg" ∨ n = info)))))

/-- Whether a run from `w` to `w1` left directories, working directory and all
regular files other than `newfile` as they were. -/
def OnlyFile (newfile : String) (w w1 : World) : Prop :=
  w1.dirs = w.dirs ∧ w1.cwd = w.cwd ∧ ∀ q, q ≠ newfile → w1.files q = w.files q

/-- The string `updatecustomdb` derives the database name from: the path
`rpath` behind `file://`, the whole URL otherwise. -/
def updatecustomdb_path (url : String) : String :=
  if isFileUrl url then String.mk (url.data.drop 7) else url

/-- The text of a log line behind its severity character. -/
def log_text (line : String) : List Char :=
  line.data.drop 1

/-- Whether `w1` is `w` up to the severity characters of the log lines: the
same files, directories, working directory, counters and trace, and the same
log lines behind their first character. -/
def SameButSeverity (w w1 : World) : Prop :=
  w1.files = w.files ∧ w1.dirs = w.dirs ∧ w1.cwd = w.cwd ∧ w1.nreq = w.nreq ∧
  w1.ntmp = w.ntmp ∧ w1.trace = w.trace ∧ w1.log.map log_text = w.log.map log_text

/-- The world `w` with its log replaced by `l`. -/
def setLog (w : World) (l : List String) : World :=
  { w with log := l }

/-- Whether the result `r1` is the result `r` up to the severity characters of
the log lines. -/
def LogSim {α : Type} (r r1 : α × World) : Prop :=
  r1.1 = r.1 ∧ ∃ l, r1.2 = setLog r.2 l ∧ l.map log_text = r.2.log.map log_text

/-- The relation `LogSim` on the results of runs that may not return. -/
def LogSimO {α : Type} (o o1 : Option (α × World)) : Prop :=
  match o, o1 with
  | some r, some r1 => LogSim r r1
  | none, none => True
  | _, _ => False

/-- The archive the spec describes for the repacker: starting from `arch`, the
members `names` appended in order by the packer, each with the bytes its file
has in the world `w` (a member whose name is the path of the archive itself is
read as the archive so far); `none` when a member is not a regular file or the
packer fails. -/
def spec_pack (env : Env) (bCompress : Bool) (newfile : String) (w : World) :
    List String → Content → Option Content
  | [], arch => some arch
  | n :: rest, arch =>
    match (if n = newfile then some arch else lookupFile w n) with
    | none => none
    | some data =>
      match env.tar_addfile bCompress arch n data with
      | none => none
      | some arch1 => spec_pack env bCompress newfile w rest arch1

/-! ## A small concrete environment

Archives of the examples carry their version in the first byte and their
signature count in the second; a first byte of `255` does not parse.  The
verifier accepts the files whose third byte is `1`. -/

/-- The example header reader. -/
def exHead (c : Content) : Option cl_cvd :=
  match c with
  | v :: s :: _ =>
    if v = 255 then none
    else some { stime := 1000, version := v.toNat, sigs := s.toNat, fl := 0, builder := "" }
  | _ => none

/-- The colon-separated fields of a line. -/
def exFields (l : List Char) : List (List Char) :=
  match l with
  | [] => [[]]
  | ch :: t =>
    if ch = ':' then [] :: exFields t
    else
      match exFields t with
      | [] => [[ch]]
      | f :: fs => (ch :: f) :: fs

/-- The value of a string of decimal digits. -/
def exAtoi (s : String) : Int :=
  (s.data.foldl (fun n ch => 10 * n + (ch.toNat - 48)) 0 : Nat)

/-- What the example servers serve. -/
def exSite : List (String × CurlResult) :=
  [ ("http://db/main.cvd", CurlResult.http 200 [27, 5, 1, 2, 3]),
    ("http://db/daily.cvd", CurlResult.http 200 [102, 9, 1]),
    ("http://db/daily-101.cdiff", CurlResult.http 200 [101]),
    ("http://db/daily-102.cdiff", CurlResult.http 200 [102]),
    ("http://old/daily-101.cdiff", CurlResult.http 200 [5]),
    ("http://bad/daily-101.cdiff", CurlResult.http 200 [255]),
    ("http://mirror/daily.cld", CurlResult.http 304 []) ]

/-- The answer of the example servers for a URL. -/
def exServe (site : List (String × CurlResult)) (url : String) : CurlResult :=
  match site with
  | [] => CurlResult.http 404 []
  | e :: t => if e.1 = url then e.2 else exServe t url

/-- The example environment: a patch holding the byte `v` rewrites the first
line of `daily.info` to version `v` with 7 signatures. -/
def exEnv : Env where
  curl_easy_init := true
  curl_setopt_dns_local_ip := fun _ => CURLcode.CURLE_OK
  curl_easy_perform := fun _ r => exServe exSite r.url
  dnsquery := fun _ => none
  time := 0
  DNS_EXTRADBINFO_RECORDTIME := 1
  cli_strtok := fun s n =>
    match (exFields s.data).get? n with
    | some (ch :: f) => some (String.mk (ch :: f))
    | _ => none
  cli_isnumber := fun s => s.data.all Char.isDigit
  atoi := exAtoi
  cl_cvdverify := fun _ c => c.get? 2 == some 1
  cl_cvdhead := exHead
  cl_cvdparse := exHead
  cli_cvdunpack := fun c =>
    some [("COPYING", []), ("daily.info", c.take 2 ++ [10]), ("daily.ndb", [9])]
  cdiff_apply := fun patch d =>
    match patch with
    | v :: _ => (true, dirSet d "daily.info" [v, 7, 10])
    | [] => (false, d)
  tar_addfile := fun _ arch name data => some (arch ++ [name.length.toUInt8] ++ data)
  gzopen := true
  cli_gentemp := fun n dir => some (dir ++ "/clamav-" ++ toString n ++ ".tmp")
  uninit := fun _ => 0
  uninit_olddir := none
  st_mtime := fun _ => 0
  countlines := fun c => c.count 10

/-- The example configuration: no callback, three attempts per patch. -/
def exCfg : Config where
  g_cb_download_complete := none
  g_localIP := none
  g_proxyServer := none
  g_tempDirectory := "/tmp"
  g_maxAttempts := 3
  g_bCompressLocalDatabase := false

/-- The example DNS update-info record: `main` at version 27, `daily` at 102. -/
def exDns : String := "0.100.0:27:102"

/-- A world whose working directory `/db` holds the given entries. -/
def exWorld (d : Dir) : World where
  files := fun _ => none
  dirs := fun p => if p = "/db" then some d else none
  cwd := "/db"
  nreq := 0
  ntmp := 0
  trace := []
  log := []

/-- The outcome of a run that returns; for a run that does not return, a
failure that leaves the world as it was. -/
def outcome (w : World) (o : Option (UpdateResult × World)) : UpdateResult × World :=
  o.getD (UpdateResult.failed FC_EARG, w)

/-- The example environment with the per-database TXT record `record` and the
clock at `now`. -/
def exEnvDns (record : String) (now : Int) : Env :=
  { exEnv with dnsquery := fun _ => some record, time := now }

/-- The example environment serving `site`. -/
def exEnvSite (site : List (String × CurlResult)) : Env :=
  { exEnv with curl_easy_perform := fun _ r => exServe site r.url }

/-- The example servers with an origin that times out. -/
def exErrSite : List (String × CurlResult) :=
  [ ("http://db/slow.cvd", CurlResult.http 522 []),
    ("http://db/moved.cvd", CurlResult.http 301 []),
    ("http://db/daily.cvd", CurlResult.http 200 [102, 9, 1]),
    ("http://db/same.cvd", CurlResult.http 304 []) ]

/-- A server whose `daily.cvd` starts with 512 printable bytes, and whose
`main.cvd` has a NUL among its first 512 bytes. -/
def exHeaderSite : List (String × CurlResult) :=
  [ ("http://hdr/daily.cvd", CurlResult.http 206 (List.replicate 512 65)),
    ("http://hdr/main.cvd",
      CurlResult.http 200 (List.replicate 200 65 ++ [0] ++ List.replicate 400 65)) ]

/-- The example configuration with a callback that rejects every file. -/
def exCfgReject : Config :=
  { exCfg with g_cb_download_complete := some (fun _ _ => FC_ETESTFAIL) }

/-- A world with a scratch directory `/tmp/work` that holds a working copy. -/
def exPackWorld : World :=
  setDir (exWorld []) "/tmp/work"
    (some [("daily.ndb", [9]), ("COPYING", [1]), ("daily.info", [65, 66, 10, 67]),
      ("daily.cfg", [3]), ("daily.hdb", [4])])

/-- A world whose scratch directory `/tmp/work` lacks the file `COPYING`. -/
def exPackWorldBare : World :=
  setDir (exWorld []) "/tmp/work" (some [("daily.info", [65, 66, 10, 67]), ("daily.ndb", [9])])

/-- The example configuration with no attempt per patch. -/
def exCfgNoRetry : Config :=
  { exCfg with g_maxAttempts := 0 }

/-- The example environment with modification times: `/src/new.db` at 9,
`/src/old.db` at 3, everything else at 5. -/
def exEnvMtime : Env :=
  { exEnv with st_mtime := fun p => if p = "/src/new.db" then 9 else if p = "/src/old.db" then 3
                 else 5 }

/-- A world with local copies of three custom databases in the working
directory and their sources under `/src`. -/
def exWorldSrc : World :=
  storeFile (storeFile (storeFile
    (exWorld [("old.db", [9]), ("new.db", [9]), ("same.db", [9])])
    "/src/old.db" [1, 10]) "/src/new.db" [2, 10]) "/src/same.db" [3, 10, 4, 10]

/-- A server with a custom database whose name has four characters. -/
def exCustomSite : List (String × CurlResult) :=
  [ ("http://db/a.db", CurlResult.http 200 [1, 10, 2, 10]),
    ("http://db/custom.ndb", CurlResult.http 200 [1, 10]) ]

/-! ## File system lemmas -/

section fs

variable (w : World) (e : Event) (msg p q : String) (c : Content)

@[simp] theorem emit_files : (emit w e).files = w.files := rfl
@[simp] theorem emit_dirs : (emit w e).dirs = w.dirs := rfl
@[simp] theorem emit_cwd : (emit w e).cwd = w.cwd := rfl
@[simp] theorem emit_nreq : (emit w e).nreq = w.nreq := rfl
@[simp] theorem emit_ntmp : (emit w e).ntmp = w.ntmp := rfl
@[simp] theorem emit_trace : (emit w e).trace = w.trace ++ [e] := rfl
@[simp] theorem emit_log : (emit w e).log = w.log := rfl
@[simp] theorem logg_files : (logg w msg).files = w.files := rfl
@[simp] theorem logg_dirs : (logg w msg).dirs = w.dirs := rfl
@[simp] theorem logg_cwd : (logg w msg).cwd = w.cwd := rfl
@[simp] theorem logg_nreq : (logg w msg).nreq = w.nreq := rfl
@[simp] theorem logg_ntmp : (logg w msg).ntmp = w.ntmp := rfl
@[simp] theorem logg_trace : (logg w msg).trace = w.trace := rfl
@[simp] theorem logg_log : (logg w msg).log = w.log ++ [msg] := rfl
@[simp] theorem countRequest_files : (countRequest w).files = w.files := rfl
@[simp] theorem countRequest_dirs : (countRequest w).dirs = w.dirs := rfl
@[simp] theorem countRequest_cwd : (countRequest w).cwd = w.cwd := rfl
@[simp] theorem countRequest_nreq : (countRequest w).nreq = w.nreq + 1 := rfl
@[simp] theorem countRequest_ntmp : (countRequest w).ntmp = w.ntmp := rfl
@[simp] theorem countRequest_trace : (countRequest w).trace = w.trace := rfl
@[simp] theorem countRequest_log : (countRequest w).log = w.log := rfl
@[simp] theorem countTemp_files : (countTemp w).files = w.files := rfl
@[simp] theorem countTemp_dirs : (countTemp w).dirs = w.dirs := rfl
@[simp] theorem countTemp_cwd : (countTemp w).cwd = w.cwd := rfl
@[simp] theorem countTemp_nreq : (countTemp w).nreq = w.nreq := rfl
@[simp] theorem countTemp_ntmp : (countTemp w).ntmp = w.ntmp + 1 := rfl
@[simp] theorem countTemp_trace : (countTemp w).trace = w.trace := rfl
@[simp] theorem countTemp_log : (countTemp w).log = w.log := rfl
@[simp] theorem setCwd_files : (setCwd w p).files = w.files := rfl
@[simp] theorem setCwd_dirs : (setCwd w p).dirs = w.dirs := rfl
@[simp] theorem setCwd_cwd : (setCwd w p).cwd = p := rfl
@[simp] theorem setCwd_nreq : (setCwd w p).nreq = w.nreq := rfl
@[simp] theorem setCwd_ntmp : (setCwd w p).ntmp = w.ntmp := rfl
@[simp] theorem setCwd_trace : (setCwd w p).trace = w.trace := rfl
@[simp] theorem setCwd_log : (setCwd w p).log = w.log := rfl
@[simp] theorem setDir_files (d : Option Dir) : (setDir w p d).files = w.files := rfl
@[simp] theorem setDir_cwd (d : Option Dir) : (setDir w p d).cwd = w.cwd := rfl
@[simp] theorem setDir_nreq (d : Option Dir) : (setDir w p d).nreq = w.nreq := rfl
@[simp] theorem setDir_ntmp (d : Option Dir) : (setDir w p d).ntmp = w.ntmp := rfl
@[simp] theorem setDir_trace (d : Option Dir) : (setDir w p d).trace = w.trace := rfl
@[simp] theorem setDir_log (d : Option Dir) : (setDir w p d).log = w.log := rfl
theorem setDir_dirs (d : Option Dir) :
    (setDir w p d).dirs q = if q = p then d else w.dirs q := rfl
@[simp] theorem lookupFile_countRequest : lookupFile (countRequest w) p = lookupFile w p := rfl
@[simp] theorem lookupFile_countTemp : lookupFile (countTemp w) p = lookupFile w p := rfl
@[simp] theorem access_countRequest : access (countRequest w) p = access w p := rfl
@[simp] theorem access_countTemp : access (countTemp w) p = access w p := rfl
@[simp] theorem canStore_countRequest : canStore (countRequest w) p = canStore w p := rfl
@[simp] theorem canStore_countTemp : canStore (countTemp w) p = canStore w p := rfl
@[simp] theorem lookupFile_emit : lookupFile (emit w e) p = lookupFile w p := rfl
@[simp] theorem lookupFile_logg : lookupFile (logg w msg) p = lookupFile w p := rfl
@[simp] theorem access_emit : access (emit w e) p = access w p := rfl
@[simp] theorem access_logg : access (logg w msg) p = access w p := rfl

theorem dirGet_dirSet (d : Dir) : dirGet (dirSet d p c) q = if q = p then some c else dirGet d q := by
  induction d with
  | nil =>
    by_cases h : q = p
    · subst h; simp [dirSet, dirGet]
    · have h2 : ¬ p = q := fun h3 => h h3.symm
      simp [dirSet, dirGet, h, h2]
  | cons x t ih =>
    by_cases hx : x.1 = p
    · by_cases h : q = p
      · subst h; simp [dirSet, dirGet, hx]
      · have h2 : ¬ p = q := fun h3 => h h3.symm
        simp [dirSet, dirGet, hx, h, h2]
    · by_cases h : q = p
      · subst h; simpa [dirSet, dirGet, hx] using ih
      · simp [dirSet, dirGet, hx, h, ih]

theorem dirGet_dirDel (d : Dir) : dirGet (dirDel d p) q = if q = p then none else dirGet d q := by
  induction d with
  | nil => simp [dirDel, dirGet]
  | cons x t ih =>
    by_cases hx : x.1 = p
    · by_cases h : q = p
      · subst h; simpa [dirDel, dirGet, hx] using ih
      · have h3 : ¬ p = q := fun h4 => h h4.symm
        simp [dirDel, hx, ih, h, dirGet, h3]
    · by_cases h : q = p
      · subst h; simpa [dirDel, dirGet, hx] using ih
      · simp [dirDel, hx, ih, h, dirGet]

@[simp] theorem storeFile_cwd : (storeFile w p c).cwd = w.cwd := by
  unfold storeFile; split <;> rfl

@[simp] theorem storeFile_nreq : (storeFile w p c).nreq = w.nreq := by
  unfold storeFile; split <;> rfl

@[simp] theorem storeFile_ntmp : (storeFile w p c).ntmp = w.ntmp := by
  unfold storeFile; split <;> rfl

@[simp] theorem storeFile_trace : (storeFile w p c).trace = w.trace := by
  unfold storeFile; split <;> rfl

@[simp] theorem storeFile_log : (storeFile w p c).log = w.log := by
  unfold storeFile; split <;> rfl

@[simp] theorem removeFile_cwd : (removeFile w p).cwd = w.cwd := by
  unfold removeFile; split <;> rfl

@[simp] theorem removeFile_nreq : (removeFile w p).nreq = w.nreq := by
  unfold removeFile; split <;> rfl

@[simp] theorem removeFile_ntmp : (removeFile w p).ntmp = w.ntmp := by
  unfold removeFile; split <;> rfl

@[simp] theorem removeFile_trace : (removeFile w p).trace = w.trace := by
  unfold removeFile; split <;> rfl

@[simp] theorem removeFile_log : (removeFile w p).log = w.log := by
  unfold removeFile; split <;> rfl

theorem storeFile_files : (storeFile w p c).files q =
    if isAbs p = true ∧ q = p then some c else w.files q := by
  unfold storeFile
  by_cases h : isAbs p = true <;> simp [h]

theorem removeFile_files : (removeFile w p).files q =
    if isAbs p = true ∧ q = p then none else w.files q := by
  unfold removeFile
  by_cases h : isAbs p = true <;> simp [h]

theorem storeFile_dirs : (storeFile w p c).dirs q =
    if isAbs p = false ∧ q = w.cwd then (w.dirs q).map (fun d => dirSet d p c) else w.dirs q := by
  unfold storeFile
  by_cases h : isAbs p = true <;> simp [h]

theorem removeFile_dirs : (removeFile w p).dirs q =
    if isAbs p = false ∧ q = w.cwd then (w.dirs q).map (fun d => dirDel d p) else w.dirs q := by
  unfold removeFile
  by_cases h : isAbs p = true <;> simp [h]

@[simp] theorem storeFile_dirs_isSome : ((storeFile w p c).dirs q).isSome = (w.dirs q).isSome := by
  rw [storeFile_dirs]; split <;> simp

@[simp] theorem removeFile_dirs_isSome : ((removeFile w p).dirs q).isSome = (w.dirs q).isSome := by
  rw [removeFile_dirs]; split <;> simp

@[simp] theorem canStore_emit : canStore (emit w e) p = canStore w p := rfl

@[simp] theorem canStore_logg : canStore (logg w msg) p = canStore w p := rfl

@[simp] theorem canStore_storeFile : canStore (storeFile w p c) q = canStore w q := by
  simp [canStore]

@[simp] theorem canStore_removeFile : canStore (removeFile w p) q = canStore w q := by
  simp [canStore]

theorem lookupFile_storeFile : lookupFile (storeFile w p c) q =
    if q = p ∧ canStore w p = true then some c else lookupFile w q := by
  unfold lookupFile canStore
  by_cases hq : isAbs q = true
  · by_cases hp : isAbs p = true
    · simp [hq, hp, storeFile_files]
    · have hne : ¬ q = p := fun h => hp (h ▸ hq)
      simp [hq, hp, hne, storeFile_files]
  · by_cases hp : isAbs p = true
    · have hne : ¬ q = p := fun h => hq (h ▸ hp)
      simp [hq, hp, hne, storeFile_dirs]
    · simp only [hq, hp, storeFile_cwd, storeFile_dirs]
      cases hd : w.dirs w.cwd with
      | none => simp
      | some d => simp [dirGet_dirSet]

theorem lookupFile_removeFile : lookupFile (removeFile w p) q =
    if q = p then none else lookupFile w q := by
  unfold lookupFile
  by_cases hq : isAbs q = true
  · by_cases hp : isAbs p = true
    · simp [hq, hp, removeFile_files]
    · have hne : ¬ q = p := fun h => hp (h ▸ hq)
      simp [hq, hp, hne, removeFile_files]
  · by_cases hp : isAbs p = true
    · have hne : ¬ q = p := fun h => hq (h ▸ hp)
      simp [hq, hp, hne, removeFile_dirs]
    · simp only [hq, hp, removeFile_cwd, removeFile_dirs]
      cases hd : w.dirs w.cwd with
      | none => simp
      | some d => simp [dirGet_dirDel]

theorem storeFile_dirs_abs (h : isAbs p = true) : (storeFile w p c).dirs = w.dirs := by
  funext q; simp [storeFile_dirs, h]

theorem removeFile_dirs_abs (h : isAbs p = true) : (removeFile w p).dirs = w.dirs := by
  funext q; simp [removeFile_dirs, h]

theorem storeFile_files_rel (h : isAbs p = false) : (storeFile w p c).files = w.files := by
  funext q; simp [storeFile_files, h]

theorem removeFile_files_rel (h : isAbs p = false) : (removeFile w p).files = w.files := by
  funext q; simp [removeFile_files, h]

@[simp] theorem unlink_cwd : (unlink w p).cwd = w.cwd := by simp [unlink]

@[simp] theorem unlink_ntmp : (unlink w p).ntmp = w.ntmp := by simp [unlink]

@[simp] theorem unlink_nreq : (unlink w p).nreq = w.nreq := by simp [unlink]

@[simp] theorem unlink_trace : (unlink w p).trace = w.trace ++ [Event.unlink p] := by
  simp [unlink]

@[simp] theorem unlink_dirs_isSome : ((unlink w p).dirs q).isSome = (w.dirs q).isSome := by
  simp [unlink]

@[simp] theorem canStore_unlink : canStore (unlink w p) q = canStore w q := by
  simp [unlink]

theorem lookupFile_unlink : lookupFile (unlink w p) q =
    if q = p then none else lookupFile w q := by
  simp [unlink, lookupFile_removeFile]

theorem unlink_dirs_abs (h : isAbs p = true) : (unlink w p).dirs = w.dirs := by
  simp [unlink, removeFile_dirs_abs _ _ h]

@[simp] theorem renamed_cwd : (renamed w p q).cwd = w.cwd := by simp [renamed]

@[simp] theorem renamed_ntmp : (renamed w p q).ntmp = w.ntmp := by simp [renamed]

@[simp] theorem renamed_nreq : (renamed w p q).nreq = w.nreq := by simp [renamed]

@[simp] theorem renamed_trace : (renamed w p q).trace =
    w.trace ++ [Event.rename p q ((lookupFile w p).getD [])] := by simp [renamed]

@[simp] theorem renamed_dirs_isSome (x : String) :
    ((renamed w p q).dirs x).isSome = (w.dirs x).isSome := by simp [renamed]

@[simp] theorem canStore_renamed (x : String) : canStore (renamed w p q) x = canStore w x := by
  simp [renamed]

theorem lookupFile_renamed (x : String) : lookupFile (renamed w p q) x =
    if x = q ∧ canStore w q = true then some ((lookupFile w p).getD [])
    else if x = p then none else lookupFile w x := by
  simp [renamed, lookupFile_storeFile, lookupFile_removeFile]

theorem renamed_dirs_abs (hp : isAbs p = true) (hq : isAbs q = true) :
    (renamed w p q).dirs = w.dirs := by
  simp [renamed, storeFile_dirs_abs _ _ _ hq, removeFile_dirs_abs _ _ hp]

end fs

/-! ## Footprints -/

theorem SameFS.same_refl (w : World) : SameFS w w := ⟨rfl, rfl, rfl, rfl⟩

theorem SameFS.same_trans {a b c : World} (h1 : SameFS a b) (h2 : SameFS b c) : SameFS a c :=
  ⟨h2.1.trans h1.1, h2.2.1.trans h1.2.1, h2.2.2.1.trans h1.2.2.1, h2.2.2.2.trans h1.2.2.2⟩

theorem Emits.emits_refl (K : Event → Bool) (w : World) : Emits K w w := ⟨[], by simp, by simp⟩

theorem Emits.emits_trans {K : Event → Bool} {a b c : World} (h1 : Emits K a b) (h2 : Emits K b c) :
    Emits K a c := by
  obtain ⟨e1, h1, k1⟩ := h1
  obtain ⟨e2, h2, k2⟩ := h2
  refine ⟨e1 ++ e2, by rw [h2, h1, List.append_assoc], ?_⟩
  intro e he
  rcases List.mem_append.mp he with h | h
  · exact k1 e h
  · exact k2 e h

theorem Emits.emits_mono {K K1 : Event → Bool} {a b : World} (h : Emits K a b)
    (hk : ∀ e, K e = true → K1 e = true) : Emits K1 a b := by
  obtain ⟨e1, h1, k1⟩ := h
  exact ⟨e1, h1, fun e he => hk e (k1 e he)⟩

theorem remote_cvdhead_fs (env : Env) (cfg : Config) (cvdfile : String) (ims : Nat)
    (server : String) (logerr : Bool) (w : World) :
    SameFS w (remote_cvdhead env cfg cvdfile ims server logerr w).2 ∧
    Emits isCurl w (remote_cvdhead env cfg cvdfile ims server logerr w).2 := by
  unfold remote_cvdhead
  simp only []
  repeat' split
  all_goals simp [SameFS, Emits, isCurl]

theorem query_http_fs (env : Env) (cfg : Config) (cvdfile cldfile : String) (ims : Nat)
    (server : String) (pm logerr : Bool) (w : World) :
    SameFS w (query_http env cfg cvdfile cldfile ims server pm logerr w).2 ∧
    Emits isCurl w (query_http env cfg cvdfile cldfile ims server pm logerr w).2 := by
  unfold query_http
  have h1 := remote_cvdhead_fs env cfg cldfile ims server logerr w
  have h2 := remote_cvdhead_fs env cfg cvdfile ims server logerr w
  have h3 := remote_cvdhead_fs env cfg cvdfile ims server logerr
    (remote_cvdhead env cfg cldfile ims server logerr w).2
  simp only []
  repeat' split
  · exact h1
  · exact ⟨h1.1.same_trans h3.1, h1.2.emits_trans h3.2⟩
  · exact h2

theorem query_fs (env : Env) (cfg : Config) (database : String) (ims : Nat)
    (dns : Option String) (server : String) (pm logerr : Bool) (w : World) :
    SameFS w (query_remote_database_version env cfg database ims dns server pm logerr w).2 ∧
    Emits isCurl w (query_remote_database_version env cfg database ims dns server pm logerr w).2 := by
  unfold query_remote_database_version
  simp only []
  repeat' split
  all_goals first | exact query_http_fs _ _ _ _ _ _ _ _ _ | exact ⟨SameFS.same_refl w, Emits.emits_refl _ w⟩

theorem check_fs (env : Env) (cfg : Config) (database : String)
    (dns : Option String) (server : String) (pm logerr : Bool) (w : World) :
    SameFS w (check_for_new_database_version env cfg database dns server pm logerr w).2 ∧
    Emits isCurl w (check_for_new_database_version env cfg database dns server pm logerr w).2 :=
  query_fs _ _ _ _ _ _ _ _ _

section foot
variable {A D : String → Bool} {K : Event → Bool} {w w1 w2 : World}

theorem Foot.foot_refl (A D : String → Bool) (K : Event → Bool) (w : World) : Foot A D K w w :=
  ⟨fun _ _ => rfl, fun _ _ => rfl, [], by simp, by simp⟩

theorem Foot.foot_trans (h1 : Foot A D K w w1) (h2 : Foot A D K w1 w2) : Foot A D K w w2 := by
  refine ⟨fun q hq => (h2.files q hq).trans (h1.files q hq),
    fun q hq => (h2.dirs q hq).trans (h1.dirs q hq), ?_⟩
  obtain ⟨e1, t1, k1⟩ := h1.trace
  obtain ⟨e2, t2, k2⟩ := h2.trace
  refine ⟨e1 ++ e2, by rw [t2, t1, List.append_assoc], ?_⟩
  intro e he
  rcases List.mem_append.mp he with h | h
  · exact k1 e h
  · exact k2 e h

theorem Foot.foot_mono {A1 D1 : String → Bool} {K1 : Event → Bool} (h : Foot A D K w w1)
    (hA : ∀ q, A q = true → A1 q = true) (hD : ∀ q, D q = true → D1 q = true)
    (hK : ∀ e, K e = true → K1 e = true) : Foot A1 D1 K1 w w1 := by
  refine ⟨fun q hq => h.files q ?_, fun q hq => h.dirs q ?_, ?_⟩
  · cases hAq : A q with
    | false => rfl
    | true => rw [hA q hAq] at hq; exact absurd hq (by simp)
  · cases hDq : D q with
    | false => rfl
    | true => rw [hD q hDq] at hq; exact absurd hq (by simp)
  · obtain ⟨e1, t1, k1⟩ := h.trace
    exact ⟨e1, t1, fun e he => hK e (k1 e he)⟩

theorem Foot.emit (h : Foot A D K w w1) (e : Event) (he : K e = true) :
    Foot A D K w (emit w1 e) :=
  h.foot_trans ⟨fun _ _ => rfl, fun _ _ => rfl, [e], rfl, by simpa using he⟩

theorem Foot.logg (h : Foot A D K w w1) (m : String) : Foot A D K w (logg w1 m) :=
  h.foot_trans ⟨fun _ _ => rfl, fun _ _ => rfl, [], by simp, by simp⟩

theorem Foot.countRequest (h : Foot A D K w w1) : Foot A D K w (countRequest w1) :=
  h.foot_trans ⟨fun _ _ => rfl, fun _ _ => rfl, [], by simp, by simp⟩

theorem Foot.countTemp (h : Foot A D K w w1) : Foot A D K w (countTemp w1) :=
  h.foot_trans ⟨fun _ _ => rfl, fun _ _ => rfl, [], by simp, by simp⟩

theorem Foot.setCwd (h : Foot A D K w w1) (p : String) : Foot A D K w (setCwd w1 p) :=
  h.foot_trans ⟨fun _ _ => rfl, fun _ _ => rfl, [], by simp, by simp⟩

theorem Foot.setDir (h : Foot A D K w w1) (p : String) (d : Option Dir) (hp : D p = true) :
    Foot A D K w (setDir w1 p d) := by
  refine h.foot_trans ⟨fun _ _ => rfl, fun q hq => ?_, [], by simp, by simp⟩
  have : q ≠ p := fun h2 => by rw [h2, hp] at hq; exact absurd hq (by simp)
  simp [setDir_dirs, this]

theorem foot_store (w : World) (p : String) (c : Content) (hp : PathOk A D w.cwd p) :
    Foot A D K w (storeFile w p c) := by
  refine ⟨fun q hq => ?_, fun q hq => ?_, [], by simp, by simp⟩
  · rw [storeFile_files]
    split
    · next h => rw [h.2, hp.1 h.1] at hq; exact absurd hq (by simp)
    · rfl
  · rw [storeFile_dirs]
    split
    · next h => rw [h.2, hp.2 h.1] at hq; exact absurd hq (by simp)
    · rfl

theorem foot_remove (w : World) (p : String) (hp : PathOk A D w.cwd p) :
    Foot A D K w (removeFile w p) := by
  refine ⟨fun q hq => ?_, fun q hq => ?_, [], by simp, by simp⟩
  · rw [removeFile_files]
    split
    · next h => rw [h.2, hp.1 h.1] at hq; exact absurd hq (by simp)
    · rfl
  · rw [removeFile_dirs]
    split
    · next h => rw [h.2, hp.2 h.1] at hq; exact absurd hq (by simp)
    · rfl

theorem Foot.store (h : Foot A D K w w1) (p : String) (c : Content)
    (hp : PathOk A D w1.cwd p) : Foot A D K w (storeFile w1 p c) :=
  h.foot_trans (foot_store w1 p c hp)

theorem Foot.unlink (h : Foot A D K w w1) (p : String) (hp : PathOk A D w1.cwd p)
    (hk : K (Event.unlink p) = true) : Foot A D K w (unlink w1 p) := by
  unfold Freshclam.unlink
  exact (h.emit _ hk).foot_trans (foot_remove _ p (by simpa using hp))

theorem Foot.renamed (h : Foot A D K w w1) (p q : String) (hp : PathOk A D w1.cwd p)
    (hq : PathOk A D w1.cwd q)
    (hk : K (Event.rename p q ((lookupFile w1 p).getD [])) = true) :
    Foot A D K w (renamed w1 p q) := by
  unfold Freshclam.renamed
  exact ((h.emit _ hk).foot_trans (foot_remove _ p (by simpa using hp))).foot_trans
    (foot_store _ q _ (by simpa using hq))

end foot

theorem downloadFile_cwd (env : Env) (cfg : Config) (url dest : String) (b logerr : Bool)
    (ims : Nat) (w : World) : (downloadFile env cfg url dest b logerr ims w).2.cwd = w.cwd := by
  unfold downloadFile
  simp only [downloadFile_done, created, writeFile]
  repeat' split
  all_goals simp

theorem downloadFile_foot {A D : String → Bool} {K : Event → Bool}
    (env : Env) (cfg : Config) (url dest : String) (b logerr : Bool)
    (ims : Nat) (w : World) (hp : PathOk A D w.cwd dest)
    (hk1 : K (Event.curl url (some dest)) = true) (hk2 : K (Event.unlink dest) = true) :
    Foot A D K w (downloadFile env cfg url dest b logerr ims w).2 := by
  unfold downloadFile
  simp only [downloadFile_done, created, writeFile]
  repeat' split
  all_goals
    repeat (first
      | exact Foot.foot_refl A D K w
      | apply Foot.unlink _ _ _ hk2
      | apply Foot.logg
      | apply Foot.emit _ _ hk1
      | apply Foot.countRequest
      | apply Foot.store)
  all_goals simpa using hp

/-! ## Full download -/

theorem downloadFile_ok (env : Env) (cfg : Config) (url destfile : String)
    (bAllowRedirect logerr : Bool) (ims : Nat) (w : World) (code : Nat) (body : Content)
    (hcurl : create_curl_handle env cfg (isHttp url) bAllowRedirect = (FC_SUCCESS, true))
    (hfresh : access w destfile = false) (hcan : canStore w destfile = true)
    (hnet : env.curl_easy_perform w.nreq
      { url := url, bHttp := isHttp url, bAllowRedirect := bAllowRedirect,
        ifModifiedSince := ims, range := none } = CurlResult.http code body)
    (hcode : code = 200 ∨ code = 206) :
    downloadFile env cfg url destfile bAllowRedirect logerr ims w =
      (FC_SUCCESS, storeFile (emit (countRequest (storeFile w destfile []))
        (Event.curl url (some destfile))) destfile body) := by
  simp [downloadFile, hcurl, open_excl_ok, created, hfresh, hcan, hnet, hcode, writeFile,
    downloadFile_done, fc_error_t.isError]

theorem getcvd_check_spec (h e : Nat) (he : e < UINT_SIZE) :
    (e ≤ h → getcvd_check h e = FC_SUCCESS) ∧
    (h + 1 = e → getcvd_check h e = FC_UPTODATE) ∧
    (h + 1 < e → getcvd_check h e = FC_EMIRRORNOTSYNC) := by
  unfold getcvd_check pred32 UINT_SIZE at *
  refine ⟨fun h1 => ?_, fun h1 => ?_, fun h1 => ?_⟩
  · simp [Nat.not_lt.mpr h1]
  · have h2 : h < e := by omega
    have h3 : (e + (4294967296 - 1)) % 4294967296 = e - 1 := by omega
    simp [h2, h3]; omega
  · have h2 : h < e := by omega
    have h3 : (e + (4294967296 - 1)) % 4294967296 = e - 1 := by omega
    simp [h2, h3]; omega

theorem getcvd_cwd (env : Env) (cfg : Config) (cvdfile tmpfile server : String) (v : Nat)
    (logerr : Bool) (w : World) : (getcvd env cfg cvdfile tmpfile server v logerr w).2.cwd = w.cwd := by
  unfold getcvd
  simp only [getcvd_done]
  repeat' split
  all_goals simp [downloadFile_cwd]

theorem pathOk_abs {A D : String → Bool} {p : String} (c : String) (h1 : isAbs p = true)
    (h2 : A p = true) : PathOk A D c p :=
  ⟨fun _ => h2, fun h => by rw [h1] at h; exact absurd h (by simp)⟩

theorem getcvdKind_fullKind (e : Event) (h : getcvdKind e = true) : fullKind e = true := by
  cases e <;> first | rfl | exact h

theorem getcvd_foot {A D : String → Bool} {K : Event → Bool}
    (env : Env) (cfg : Config) (cvdfile tmpfile server : String) (v : Nat)
    (logerr : Bool) (w : World) (h1 : isAbs tmpfile = true)
    (h2 : isAbs (with_extension tmpfile cvdfile) = true)
    (hA1 : A tmpfile = true) (hA2 : A (with_extension tmpfile cvdfile) = true)
    (hK : ∀ e, getcvdKind e = true → K e = true) :
    Foot A D K w (getcvd env cfg cvdfile tmpfile server v logerr w).2 := by
  have hd : Foot A D K w (downloadFile env cfg (server ++ "/" ++ cvdfile) tmpfile true logerr 0
      (emit w (Event.getcvd cvdfile v))).2 :=
    ((Foot.foot_refl A D K w).emit (Event.getcvd cvdfile v) (hK _ rfl)).foot_trans
      (downloadFile_foot env cfg (server ++ "/" ++ cvdfile) tmpfile true logerr 0
        (emit w (Event.getcvd cvdfile v)) (pathOk_abs _ h1 hA1) (hK _ rfl) (hK _ rfl))
  unfold getcvd
  simp only [getcvd_done]
  generalize downloadFile env cfg (server ++ "/" ++ cvdfile) tmpfile true logerr 0
      (emit w (Event.getcvd cvdfile v)) = dl at hd ⊢
  generalize with_extension tmpfile cvdfile = twe at h2 hA2 ⊢
  have hu1 : ∀ w1, Foot A D K w w1 → Foot A D K w (unlink w1 tmpfile) :=
    fun w1 h => h.unlink _ (pathOk_abs _ h1 hA1) (hK _ rfl)
  have hu2 : ∀ w1, Foot A D K w w1 → Foot A D K w (unlink w1 twe) :=
    fun w1 h => h.unlink _ (pathOk_abs _ h2 hA2) (hK _ rfl)
  have hr1 : ∀ w1, Foot A D K w w1 → Foot A D K w (renamed w1 tmpfile twe) :=
    fun w1 h => h.renamed _ _ (pathOk_abs _ h1 hA1) (pathOk_abs _ h2 hA2)
      (hK _ (by simpa [getcvdKind] using h2))
  have hr2 : ∀ w1, Foot A D K w w1 → Foot A D K w (renamed w1 twe tmpfile) :=
    fun w1 h => h.renamed _ _ (pathOk_abs _ h2 hA2) (pathOk_abs _ h1 hA1)
      (hK _ (by simpa [getcvdKind] using h1))
  have hv : ∀ w1 p d ok, Foot A D K w w1 → Foot A D K w (emit w1 (Event.cl_cvdverify p d ok)) :=
    fun w1 p d ok h => h.emit _ (hK _ rfl)
  have hl : ∀ w1 m, Foot A D K w w1 → Foot A D K w (logg w1 m) := fun w1 m h => h.logg m
  repeat' split
  all_goals dsimp only
  all_goals
    repeat (first
      | exact hd
      | apply hl
      | apply hv
      | apply hr1
      | apply hr2
      | apply hu1
      | apply hu2)

theorem getcvd_success (env : Env) (cfg : Config) (cvdfile tmpfile server : String) (v : Nat)
    (logerr : Bool) (w : World)
    (hs : (getcvd env cfg cvdfile tmpfile server v logerr w).1 = FC_SUCCESS) :
    ∃ d cvd, env.cl_cvdverify (with_extension tmpfile cvdfile) d = true ∧
      env.cl_cvdhead d = some cvd ∧ v ≤ cvd.version ∧
      lookupFile (getcvd env cfg cvdfile tmpfile server v logerr w).2 tmpfile =
        (if tmpfile = with_extension tmpfile cvdfile then none else some d) ∧
      ∀ evs, (getcvd env cfg cvdfile tmpfile server v logerr w).2.trace = w.trace ++ evs →
        Event.cl_cvdverify (with_extension tmpfile cvdfile) d true ∈ evs := by
  have hdl : ∃ evs0, (downloadFile env cfg (server ++ "/" ++ cvdfile) tmpfile true logerr 0
      (emit w (Event.getcvd cvdfile v))).2.trace = w.trace ++ evs0 := by
    have hf : Foot (fun _ => true) (fun _ => true) (fun _ => true)
        (emit w (Event.getcvd cvdfile v))
        (downloadFile env cfg (server ++ "/" ++ cvdfile) tmpfile true logerr 0
          (emit w (Event.getcvd cvdfile v))).2 :=
      downloadFile_foot env cfg _ tmpfile true logerr 0 _ ⟨fun _ => rfl, fun _ => rfl⟩ rfl rfl
    obtain ⟨evs, h, _⟩ := hf.trace
    exact ⟨Event.getcvd cvdfile v :: evs, by simpa using h⟩
  unfold getcvd at hs ⊢
  simp only [getcvd_done] at hs ⊢
  generalize downloadFile env cfg (server ++ "/" ++ cvdfile) tmpfile true logerr 0
    (emit w (Event.getcvd cvdfile v)) = dl at hs hdl ⊢
  by_cases h1 : dl.1 = FC_SUCCESS
  swap
  · simp [h1] at hs
  by_cases h2 : rename_ok dl.2 tmpfile (with_extension tmpfile cvdfile) = true
  swap
  · simp [h1, h2] at hs
  by_cases h3 : env.cl_cvdverify (with_extension tmpfile cvdfile)
      ((lookupFile (renamed dl.2 tmpfile (with_extension tmpfile cvdfile))
        (with_extension tmpfile cvdfile)).getD []) = true
  swap
  · simp [h1, h2, h3] at hs
  cases h4 : env.cl_cvdhead ((lookupFile (renamed dl.2 tmpfile (with_extension tmpfile cvdfile))
        (with_extension tmpfile cvdfile)).getD []) with
  | none => simp [h1, h2, h3, h4] at hs
  | some cvd =>
    by_cases h5 : rename_ok (emit (renamed dl.2 tmpfile (with_extension tmpfile cvdfile))
        (Event.cl_cvdverify (with_extension tmpfile cvdfile)
          ((lookupFile (renamed dl.2 tmpfile (with_extension tmpfile cvdfile))
            (with_extension tmpfile cvdfile)).getD []) true))
        (with_extension tmpfile cvdfile) tmpfile = true
    swap
    · simp [h1, h2, h3, h4, h5] at hs
    simp only [h1, h2, h3, h4, h5, ne_eq, not_true_eq_false, if_false, Bool.not_true,
      Bool.false_eq_true] at hs ⊢
    have hv : v ≤ cvd.version := by
      unfold getcvd_check at hs
      split at hs
      · split at hs <;> simp at hs
      · omega
    refine ⟨_, cvd, h3, h4, hv, ?_, ?_⟩
    · simp only [hs, not_true_eq_false, if_false]
      simp only [rename_ok, Bool.and_eq_true, canStore_emit] at h5
      simp [lookupFile_unlink, lookupFile_renamed, h5.2]
    · intro evs hev
      obtain ⟨evs0, h0⟩ := hdl
      simp only [hs, not_true_eq_false, if_false, unlink_trace, renamed_trace, emit_trace, h0,
        List.append_assoc] at hev
      have := List.append_cancel_left hev
      rw [← this]
      simp

theorem getcvd_status_of_download (env : Env) (cfg : Config) (cvdfile tmpfile server : String)
    (e : Nat) (logerr : Bool) (w : World) (code : Nat) (body : Content) (cvd : cl_cvd)
    (hcurl : create_curl_handle env cfg (isHttp (server ++ "/" ++ cvdfile)) true =
      (FC_SUCCESS, true))
    (hfresh : access w tmpfile = false) (hcwd : (w.dirs w.cwd).isSome = true)
    (hnet : env.curl_easy_perform w.nreq
      { url := server ++ "/" ++ cvdfile, bHttp := isHttp (server ++ "/" ++ cvdfile),
        bAllowRedirect := true, ifModifiedSince := 0, range := none } = CurlResult.http code body)
    (hcode : code = 200 ∨ code = 206)
    (hverify : env.cl_cvdverify (with_extension tmpfile cvdfile) body = true)
    (hhead : env.cl_cvdhead body = some cvd) :
    (getcvd env cfg cvdfile tmpfile server e logerr w).1 = getcvd_check cvd.version e := by
  have hcan : ∀ (w1 : World) q, (w1.dirs w1.cwd).isSome = true → canStore w1 q = true := by
    intro w1 q h; simp [canStore, h]
  have hdl := downloadFile_ok env cfg (server ++ "/" ++ cvdfile) tmpfile true logerr 0
    (emit w (Event.getcvd cvdfile e)) code body hcurl (by simpa using hfresh)
    (hcan _ _ (by simpa using hcwd)) (by simpa using hnet) hcode
  have hc1 : canStore w tmpfile = true := hcan _ _ hcwd
  have hc2 : canStore w (with_extension tmpfile cvdfile) = true := hcan _ _ hcwd
  simp [getcvd, hdl, rename_ok, lookupFile_renamed, lookupFile_storeFile, hc1, hc2, hverify,
    hhead, getcvd_done]

/-- C1: the version check of the full download.  When the archive fetched into
a new temporary file is accepted by the verifier and its header parses with
version `cvd.version`, then for every expected version `e` of the 32-bit
unsigned range `getcvd` returns success if `cvd.version ≥ e`, up-to-date if
`cvd.version = e - 1`, and mirror-not-synchronized if `cvd.version < e - 1`. -/
theorem getcvd_version_check (env : Env) (cfg : Config) (cvdfile tmpfile server : String)
    (e : Nat) (logerr : Bool) (w : World) (code : Nat) (body : Content) (cvd : cl_cvd)
    (he : e < UINT_SIZE)
    (hcurl : create_curl_handle env cfg (isHttp (server ++ "/" ++ cvdfile)) true =
      (FC_SUCCESS, true))
    (hfresh : access w tmpfile = false) (hcwd : (w.dirs w.cwd).isSome = true)
    (hnet : env.curl_easy_perform w.nreq
      { url := server ++ "/" ++ cvdfile, bHttp := isHttp (server ++ "/" ++ cvdfile),
        bAllowRedirect := true, ifModifiedSince := 0, range := none } = CurlResult.http code body)
    (hcode : code = 200 ∨ code = 206)
    (hverify : env.cl_cvdverify (with_extension tmpfile cvdfile) body = true)
    (hhead : env.cl_cvdhead body = some cvd) :
    (e ≤ cvd.version →
      (getcvd env cfg cvdfile tmpfile server e logerr w).1 = FC_SUCCESS) ∧
    (cvd.version + 1 = e →
      (getcvd env cfg cvdfile tmpfile server e logerr w).1 = FC_UPTODATE) ∧
    (cvd.version + 1 < e →
      (getcvd env cfg cvdfile tmpfile server e logerr w).1 = FC_EMIRRORNOTSYNC) := by
  rw [getcvd_status_of_download env cfg cvdfile tmpfile server e logerr w code body cvd hcurl
    hfresh hcwd hnet hcode hverify hhead]
  exact getcvd_check_spec cvd.version e he

/-- Witness for C1: the server of the example, asked for `main.cvd`, serves
version 27; expecting 28 the full download reports up-to-date. -/
theorem getcvd_version_check_witness :
    (28 ≤ 27 → (getcvd exEnv exCfg "main.cvd" "/tmp/clamav-0.tmp" "http://db" 28 false
        (exWorld [])).1 = FC_SUCCESS) ∧
    (27 + 1 = 28 → (getcvd exEnv exCfg "main.cvd" "/tmp/clamav-0.tmp" "http://db" 28 false
        (exWorld [])).1 = FC_UPTODATE) ∧
    (27 + 1 < 28 → (getcvd exEnv exCfg "main.cvd" "/tmp/clamav-0.tmp" "http://db" 28 false
        (exWorld [])).1 = FC_EMIRRORNOTSYNC) :=
  getcvd_version_check exEnv exCfg "main.cvd" "/tmp/clamav-0.tmp" "http://db" 28 false
    (exWorld []) 200 [27, 5, 1, 2, 3]
    { stime := 1000, version := 27, sigs := 5, fl := 0, builder := "" }
    (by decide) (by decide) (by decide) (by decide) (by decide) (by decide) (by decide)
    (by decide)

/-! ## Installing a downloaded file -/

theorem isAbs_append (a b : String) (h : isAbs a = true) : isAbs (a ++ b) = true := by
  unfold isAbs at h ⊢
  rw [String.data_append]
  cases hd : a.data with
  | nil => rw [hd] at h; simp at h
  | cons x t => rw [hd] at h; simpa using h

theorem lookupFile_setDir (w : World) (t q : String) (d : Option Dir) (h : t ≠ w.cwd) :
    lookupFile (setDir w t d) q = lookupFile w q := by
  unfold lookupFile
  have : ¬ (w.cwd = t) := fun h2 => h h2.symm
  simp [setDir_dirs, this]

theorem lookupFile_none_of_access {w : World} {q : String} (h : access w q = false) :
    lookupFile w q = none := by
  unfold access at h
  cases hl : lookupFile w q with
  | none => rfl
  | some c => simp [hl] at h

theorem updatedb_done_fst (a b : Option String) (r : UpdateResult) (w : World) :
    (updatedb_done a b r w).1 = r := rfl

theorem updatedb_done_cwd (a b : Option String) (r : UpdateResult) (w : World) :
    (updatedb_done a b r w).2.cwd = w.cwd := by
  unfold updatedb_done
  cases a <;> cases b <;> simp [cli_rmdirs]

theorem lookupFile_updatedb_done (a b : Option String) (r : UpdateResult) (w : World)
    (q : String) (ha : ∀ t, a = some t → q ≠ t) (hb : ∀ t, b = some t → t ≠ w.cwd) :
    lookupFile (updatedb_done a b r w).2 q = lookupFile w q := by
  unfold updatedb_done
  cases a with
  | none =>
    cases b with
    | none => rfl
    | some t => simp [cli_rmdirs, lookupFile_setDir _ _ _ _ (hb t rfl)]
  | some x =>
    have hx : q ≠ x := ha x rfl
    cases b with
    | none => simp [lookupFile_unlink, hx]
    | some t =>
      have : t ≠ (unlink w x).cwd := by simpa using hb t rfl
      simp [cli_rmdirs, lookupFile_setDir _ _ _ _ this, lookupFile_unlink, hx]

theorem updatedb_done_foot {A D : String → Bool} {K : Event → Bool} {w0 : World}
    (a b : Option String) (r : UpdateResult) (w : World)
    (h : Foot A D K w0 w)
    (ha : ∀ t, a = some t → PathOk A D w.cwd t) (hb : ∀ t, b = some t → D t = true)
    (hK : ∀ p, K (Event.unlink p) = true) :
    Foot A D K w0 (updatedb_done a b r w).2 := by
  unfold updatedb_done
  cases a with
  | none =>
    cases b with
    | none => exact h
    | some t => exact h.setDir t none (hb t rfl)
  | some x =>
    cases b with
    | none => exact h.unlink x (ha x rfl) (hK _)
    | some t => exact (h.unlink x (ha x rfl) (hK _)).setDir t none (hb t rfl)

theorem updatedb_replace_spec (env : Env) (lf : Option String) (tmpfile : String)
    (tmpdir : Option String) (fn : String) (w : World)
    (h1 : isAbs tmpfile = true) (h2 : isAbs fn = false)
    (hd : ∀ t, tmpdir = some t → t ≠ w.cwd) :
    (updatedb_replace env lf tmpfile tmpdir fn w).2.cwd = w.cwd ∧
    ((updatedb_replace env lf tmpfile tmpdir fn w).1.status ≠ FC_SUCCESS →
      (updatedb_replace env lf tmpfile tmpdir fn w).1 =
        UpdateResult.failed (updatedb_replace env lf tmpfile tmpdir fn w).1.status) ∧
    ((updatedb_replace env lf tmpfile tmpdir fn w).1.status = FC_SUCCESS →
      ∃ d cvd, lookupFile w tmpfile = some d ∧ env.cl_cvdhead d = some cvd ∧
        (updatedb_replace env lf tmpfile tmpdir fn w).1 =
          { status := FC_SUCCESS, signo := cvd.sigs, dbFilename := some fn, bUpdated := true } ∧
        ∀ q, isAbs q = false →
          lookupFile (updatedb_replace env lf tmpfile tmpdir fn w).2 q =
            if q = fn then some d else if lf = some q then none else lookupFile w q) := by
  unfold updatedb_replace
  by_cases hr : rename_ok w tmpfile fn = true
  swap
  · simp [hr, updatedb_done_cwd, updatedb_done_fst, UpdateResult.failed]
  simp only [hr, Bool.not_true, Bool.false_eq_true, if_false]
  generalize hw2 : (match lf with
      | some l => if (access (renamed w tmpfile fn) l && decide (l ≠ fn)) = true
          then unlink (renamed w tmpfile fn) l else renamed w tmpfile fn
      | none => renamed w tmpfile fn) = w2
  have hcan : canStore w fn = true := by
    simp [rename_ok] at hr; exact hr.2
  obtain ⟨d, hdd⟩ : ∃ d, lookupFile w tmpfile = some d := by
    simp [rename_ok] at hr
    exact Option.isSome_iff_exists.mp hr.1
  have hne : ∀ q, isAbs q = false → q ≠ tmpfile := by
    intro q hq h; rw [h, h1] at hq; exact absurd hq (by simp)
  have hw2cwd : w2.cwd = w.cwd := by
    subst hw2
    cases lf with
    | none => simp
    | some l => dsimp only; split <;> simp
  have hw2l : ∀ q, isAbs q = false → lookupFile w2 q =
      if q = fn then some d else if lf = some q then none else lookupFile w q := by
    intro q hq
    subst hw2
    have hqt := hne q hq
    cases lf with
    | none => simp [lookupFile_renamed, hcan, hdd, hqt]
    | some l =>
      dsimp only
      by_cases hl : (access (renamed w tmpfile fn) l && decide (l ≠ fn)) = true
      · simp only [hl, if_true, lookupFile_unlink, lookupFile_renamed, hcan, hdd]
        simp at hl
        by_cases hqf : q = fn
        · subst hqf
          have : ¬ q = l := fun h => hl.2 h.symm
          simp [this]
        · by_cases hql : q = l
          · subst hql; simp [hqf]
          · have : ¬ l = q := fun h => hql h.symm
            simp [hqf, hql, hqt, this]
      · simp only [hl, Bool.false_eq_true, if_false, lookupFile_renamed, hcan, hdd]
        by_cases hqf : q = fn
        · simp [hqf]
        · by_cases hql : l = q
          · subst hql
            simp at hl
            have hacc : access (renamed w tmpfile fn) l = false := by
              cases ha : access (renamed w tmpfile fn) l with
              | false => rfl
              | true => exact absurd (hl ha) hqf
            have := lookupFile_none_of_access hacc
            simp [lookupFile_renamed, hqf, hqt] at this
            simp [hqf, hqt, this]
          · simp [hqf, hql, hqt]
  have hdone : ∀ (r : UpdateResult) q, isAbs q = false →
      lookupFile (updatedb_done (some tmpfile) tmpdir r w2).2 q = lookupFile w2 q := by
    intro r q hq
    apply lookupFile_updatedb_done
    · intro t ht; cases ht; exact hne q hq
    · intro t ht; rw [hw2cwd]; exact hd t ht
  cases hcv : cl_cvdhead env w2 fn with
  | none => simp [updatedb_done_cwd, updatedb_done_fst, UpdateResult.failed, hw2cwd]
  | some cvd =>
    simp only [updatedb_done_cwd, updatedb_done_fst, hw2cwd, true_and]
    refine ⟨fun h => absurd rfl h, fun _ => ⟨d, cvd, hdd, ?_, rfl, fun q hq => ?_⟩⟩
    · unfold cl_cvdhead at hcv
      rw [hw2l fn h2] at hcv
      simpa using hcv
    · rw [hdone _ q hq, hw2l q hq]


theorem exists_of_rename_ok {w : World} {a b : String} (h : ¬ (!rename_ok w a b) = true) :
    ∃ d, lookupFile w a = some d ∧ canStore w b = true := by
  unfold rename_ok at h
  cases hl : lookupFile w a with
  | none => simp [hl] at h
  | some d => simp [hl] at h; exact ⟨d, rfl, h⟩

theorem updatedb_replace_foot {A D : String → Bool} {K : Event → Bool} {w0 : World}
    (env : Env) (lf : Option String) (tmpfile : String)
    (tmpdir : Option String) (fn : String) (w : World) (h : Foot A D K w0 w)
    (h1 : PathOk A D w.cwd tmpfile) (h2 : PathOk A D w.cwd fn)
    (h3 : ∀ l, lf = some l → PathOk A D w.cwd l)
    (hd : ∀ t, tmpdir = some t → D t = true)
    (hKu : ∀ p, K (Event.unlink p) = true)
    (hKr : ∀ d, lookupFile w tmpfile = some d → K (Event.rename tmpfile fn d) = true) :
    Foot A D K w0 (updatedb_replace env lf tmpfile tmpdir fn w).2 := by
  unfold updatedb_replace
  have hdone : ∀ (r : UpdateResult) w1, Foot A D K w0 w1 → w1.cwd = w.cwd →
      Foot A D K w0 (updatedb_done (some tmpfile) tmpdir r w1).2 := by
    intro r w1 hf hc
    apply updatedb_done_foot _ _ _ _ hf
    · intro t ht; cases ht; rw [hc]; exact h1
    · exact hd
    · exact hKu
  split
  · exact hdone _ _ h rfl
  · next hok =>
    obtain ⟨d, hdd, _⟩ := exists_of_rename_ok hok
    have hren : Foot A D K w0 (renamed w tmpfile fn) :=
      h.renamed _ _ h1 h2 (by rw [hdd]; exact hKr d hdd)
    dsimp only
    generalize hw2 : (match lf with
      | some l => if (access (renamed w tmpfile fn) l && decide (l ≠ fn)) = true
          then unlink (renamed w tmpfile fn) l else renamed w tmpfile fn
      | none => renamed w tmpfile fn) = w2
    have hw2f : Foot A D K w0 w2 ∧ w2.cwd = w.cwd := by
      subst hw2
      cases lf with
      | none => exact ⟨hren, by simp⟩
      | some l =>
        dsimp only
        split
        · exact ⟨hren.unlink l (by simpa using h3 l rfl) (hKu _), by simp⟩
        · exact ⟨hren, by simp⟩
    split
    · exact hdone _ _ hw2f.1 hw2f.2
    · exact hdone _ _ hw2f.1 hw2f.2

theorem updatedb_install_spec (env : Env) (cfg : Config) (lf : Option String) (tmpfile : String)
    (tmpdir : Option String) (fn : String) (w : World)
    (h1 : isAbs tmpfile = true) (h2 : isAbs fn = false)
    (hd : ∀ t, tmpdir = some t → t ≠ w.cwd) :
    (updatedb_install env cfg lf tmpfile tmpdir fn w).2.cwd = w.cwd ∧
    ((updatedb_install env cfg lf tmpfile tmpdir fn w).1.status ≠ FC_SUCCESS →
      (updatedb_install env cfg lf tmpfile tmpdir fn w).1 =
        UpdateResult.failed (updatedb_install env cfg lf tmpfile tmpdir fn w).1.status) ∧
    ((updatedb_install env cfg lf tmpfile tmpdir fn w).1.status = FC_SUCCESS →
      ∃ d cvd, lookupFile w tmpfile = some d ∧ env.cl_cvdhead d = some cvd ∧
        (updatedb_install env cfg lf tmpfile tmpdir fn w).1 =
          { status := FC_SUCCESS, signo := cvd.sigs, dbFilename := some fn, bUpdated := true } ∧
        ∀ q, isAbs q = false →
          lookupFile (updatedb_install env cfg lf tmpfile tmpdir fn w).2 q =
            if q = fn then some d else if lf = some q then none else lookupFile w q) := by
  unfold updatedb_install
  cases hcb : cfg.g_cb_download_complete with
  | none => exact updatedb_replace_spec env lf tmpfile tmpdir fn w h1 h2 hd
  | some cb =>
    dsimp only
    have habs : isAbs (tmpfile ++ "-" ++ fn) = true := by
      rw [String.append_assoc]; exact isAbs_append _ _ h1
    generalize tmpfile ++ "-" ++ fn = twe at habs ⊢
    by_cases hr : rename_ok w tmpfile twe = true
    swap
    · simp [hr, updatedb_done_cwd, updatedb_done_fst, UpdateResult.failed]
    simp only [hr, Bool.not_true, Bool.false_eq_true, if_false]
    obtain ⟨d, hdd⟩ : ∃ d, lookupFile w tmpfile = some d := by
      simp [rename_ok] at hr
      exact Option.isSome_iff_exists.mp hr.1
    have hcan : canStore w twe = true := by simp [canStore, habs]
    split
    · next hne => simp [updatedb_done_cwd, updatedb_done_fst, UpdateResult.failed, hne]
    · have hsp := updatedb_replace_spec env lf twe tmpdir fn
        (emit (renamed w tmpfile twe) (Event.callback twe
          (cb twe ((lookupFile (renamed w tmpfile twe) twe).getD [])))) habs h2
        (by simpa using hd)
      have hl2 : lookupFile (emit (renamed w tmpfile twe) (Event.callback twe
          (cb twe ((lookupFile (renamed w tmpfile twe) twe).getD [])))) twe = some d := by
        simp [lookupFile_renamed, hcan, hdd]
      have hlq : ∀ q, isAbs q = false → lookupFile (emit (renamed w tmpfile twe)
          (Event.callback twe (cb twe ((lookupFile (renamed w tmpfile twe) twe).getD [])))) q
          = lookupFile w q := by
        intro q hq
        have hq1 : q ≠ twe := fun h => by rw [h, habs] at hq; exact absurd hq (by simp)
        have hq2 : q ≠ tmpfile := fun h => by rw [h, h1] at hq; exact absurd hq (by simp)
        simp [lookupFile_renamed, hq1, hq2]
      refine ⟨by simpa using hsp.1, hsp.2.1, fun hs => ?_⟩
      obtain ⟨d', cvd, e1, e2, e3, e4⟩ := hsp.2.2 hs
      rw [hl2] at e1
      cases e1
      refine ⟨d, cvd, hdd, e2, e3, fun q hq => ?_⟩
      rw [e4 q hq, hlq q hq]

theorem updatedb_install_foot {A D : String → Bool} {K : Event → Bool} {w0 : World}
    (env : Env) (cfg : Config) (lf : Option String) (tmpfile : String)
    (tmpdir : Option String) (fn : String) (w : World) (h : Foot A D K w0 w)
    (h1 : isAbs tmpfile = true) (hA1 : A tmpfile = true) (hA2 : A (tmpfile ++ "-" ++ fn) = true)
    (h2 : PathOk A D w.cwd fn)
    (h3 : ∀ l, lf = some l → PathOk A D w.cwd l)
    (hd : ∀ t, tmpdir = some t → D t = true)
    (hK : ∀ e, fullKind e = true → K e = true)
    (hKr : ∀ src d, lookupFile w tmpfile = some d → K (Event.rename src fn d) = true) :
    Foot A D K w0 (updatedb_install env cfg lf tmpfile tmpdir fn w).2 := by
  unfold updatedb_install
  cases hcb : cfg.g_cb_download_complete with
  | none =>
    exact updatedb_replace_foot env lf tmpfile tmpdir fn w h (pathOk_abs _ h1 hA1) h2 h3 hd
      (fun p => hK _ rfl) (hKr _)
  | some cb =>
    dsimp only
    have habs : isAbs (tmpfile ++ "-" ++ fn) = true := by
      rw [String.append_assoc]; exact isAbs_append _ _ h1
    generalize tmpfile ++ "-" ++ fn = twe at habs hA2 ⊢
    have hp1 : ∀ c, PathOk A D c tmpfile := fun c => pathOk_abs c h1 hA1
    have hp2 : ∀ c, PathOk A D c twe := fun c => pathOk_abs c habs hA2
    have hcan : canStore w twe = true := by simp [canStore, habs]
    split
    · exact updatedb_done_foot _ _ _ _ h (by intro t ht; cases ht; exact hp1 _) hd
        (fun p => hK _ rfl)
    · next hok =>
      obtain ⟨d, hdd, _⟩ := exists_of_rename_ok hok
      have hren : Foot A D K w0 (emit (renamed w tmpfile twe) (Event.callback twe
          (cb twe ((lookupFile (renamed w tmpfile twe) twe).getD [])))) :=
        (h.renamed _ _ (hp1 _) (hp2 _) (hK _ (by simpa [fullKind] using habs))).emit _
          (hK _ rfl)
      split
      · exact updatedb_done_foot _ _ _ _ hren (by intro t ht; cases ht; exact hp2 _) hd
          (fun p => hK _ rfl)
      · apply updatedb_replace_foot env lf twe tmpdir fn _ hren (hp2 _) (by simpa using h2)
          (by simpa using h3) hd (fun p => hK _ rfl)
        intro d' hd'
        have : lookupFile (emit (renamed w tmpfile twe) (Event.callback twe
          (cb twe ((lookupFile (renamed w tmpfile twe) twe).getD [])))) twe = some d := by
          simp [lookupFile_renamed, hcan, hdd]
        rw [this] at hd'
        cases hd'
        exact hKr _ _ hdd

/-! ## Up-to-date databases -/

theorem version_check_up_to_date (l : cl_cvd × String) (r : RemoteVersion)
    (h : r.status = FC_UPTODATE ∨ (r.status = FC_SUCCESS ∧ r.remoteVersion ≤ l.1.version)) :
    (version_check (some l) r).status = FC_SUCCESS ∧
    (version_check (some l) r).remoteVersion ≤ (version_check (some l) r).localVersion ∧
    (version_check (some l) r).localFilename = some l.2 := by
  unfold version_check
  rcases h with h | ⟨h, hv⟩
  · simp [h]
  · by_cases h0 : l.1.version = 0
    · have : r.remoteVersion = 0 := by omega
      simp [h, h0, this]
    · have : ¬ l.1.version < r.remoteVersion := by omega
      simp [h, h0, this]

theorem updatedb_noop (env : Env) (cfg : Config) (database : String)
    (dnsUpdateInfo : Option String) (server : String)
    (bPrivateMirror bScriptedUpdates logerr : Bool) (w : World) (l : cl_cvd × String)
    (hlocal : currentdb env database w = some l)
    (hremote :
      (query_remote_database_version env cfg database l.1.stime dnsUpdateInfo server
        bPrivateMirror logerr w).1.status = FC_UPTODATE ∨
      ((query_remote_database_version env cfg database l.1.stime dnsUpdateInfo server
        bPrivateMirror logerr w).1.status = FC_SUCCESS ∧
       (query_remote_database_version env cfg database l.1.stime dnsUpdateInfo server
        bPrivateMirror logerr w).1.remoteVersion ≤ l.1.version)) :
    updatedb env cfg database dnsUpdateInfo server bPrivateMirror bScriptedUpdates logerr w =
      some ({ status := FC_SUCCESS, signo := 0, dbFilename := some l.2, bUpdated := false },
        (query_remote_database_version env cfg database l.1.stime dnsUpdateInfo server
          bPrivateMirror logerr w).2) := by
  have hv := version_check_up_to_date l _ hremote
  simp only [updatedb, check_for_new_database_version, hlocal, Option.map_some',
    Option.getD_some]
  simp [hv.1, hv.2.1, hv.2.2]

/-! ## The patch phase -/

theorem pathOk_scratch (t p : String) :
    PathOk (fun _ => true) (fun q => decide (q = t)) t p :=
  ⟨fun _ => rfl, fun _ => by simp⟩

theorem cdiff_tmp_enter_spec (t : String) (w0 w : World) (h : PreFoot patchKind t w0 w) :
    PreFoot patchKind t w0 (cdiff_tmp_enter t w).2 ∧
    ((cdiff_tmp_enter t w).1 = FC_SUCCESS → (cdiff_tmp_enter t w).2.cwd = t) ∧
    ((cdiff_tmp_enter t w).1 ≠ FC_SUCCESS → (cdiff_tmp_enter t w).2.cwd = w.cwd) := by
  unfold cdiff_tmp_enter
  split
  · exact ⟨h, by simp⟩
  · exact ⟨h.setCwd t, by simp⟩

theorem cdiff_tmp_seed_spec (env : Env) (cvdfile t : String) (w0 w : World) (h : PreFoot patchKind t w0 w) :
    PreFoot patchKind t w0 (cdiff_tmp_seed env cvdfile t w).2 ∧
    ((cdiff_tmp_seed env cvdfile t w).1 = FC_SUCCESS → (cdiff_tmp_seed env cvdfile t w).2.cwd = t) ∧
    ((cdiff_tmp_seed env cvdfile t w).1 ≠ FC_SUCCESS →
      (cdiff_tmp_seed env cvdfile t w).2.cwd = w.cwd) := by
  unfold cdiff_tmp_seed
  split
  · exact ⟨h, by simp⟩
  · dsimp only
    split
    · exact ⟨(h.setDir t _ (by simp)).setDir t _ (by simp), by simp [cli_rmdirs]⟩
    · next d hd =>
      have := cdiff_tmp_enter_spec t w0 (setDir (setDir w t (some [])) t (some d))
        ((h.setDir t _ (by simp)).setDir t _ (by simp))
      simpa using this

theorem mkdir_and_chdir_spec (env : Env) (database t : String) (w0 w : World)
    (h : PreFoot patchKind t w0 w) :
    PreFoot patchKind t w0 (mkdir_and_chdir_for_cdiff_tmp env database t w).2 ∧
    ((mkdir_and_chdir_for_cdiff_tmp env database t w).1 = FC_SUCCESS →
      (mkdir_and_chdir_for_cdiff_tmp env database t w).2.cwd = t) ∧
    ((mkdir_and_chdir_for_cdiff_tmp env database t w).1 ≠ FC_SUCCESS →
      (mkdir_and_chdir_for_cdiff_tmp env database t w).2.cwd = w.cwd) := by
  unfold mkdir_and_chdir_for_cdiff_tmp
  repeat' split
  all_goals
    first
    | exact cdiff_tmp_enter_spec t w0 w h
    | exact cdiff_tmp_seed_spec env _ t w0 w h
    | exact ⟨h, by simp⟩


theorem PreFoot.dirs_ne {K : Event → Bool} {t : String} {w w1 : World} (h : PreFoot K t w w1) (q : String)
    (hq : q ≠ t) : w1.dirs q = w.dirs q :=
  h.dirs q (by simpa using hq)

theorem downloadPatch_apply_spec (env : Env) (cfg : Config) (database : String) (version : Int)
    (server : String) (logerr : Bool) (tempname : String) (w : World) :
    PreFoot patchKind w.cwd w (downloadPatch_apply env cfg database version server logerr tempname w).2 ∧
    (downloadPatch_apply env cfg database version server logerr tempname w).2.cwd = w.cwd := by
  unfold downloadPatch_apply
  dsimp only
  generalize snprintf DB_FILENAME_MAX (database ++ "-" ++ toString version ++ ".cdiff") = patch
  have hdl : PreFoot patchKind w.cwd w (downloadFile env cfg (server ++ "/" ++ patch) tempname true logerr 0 w).2 :=
    downloadFile_foot env cfg _ tempname true logerr 0 w (pathOk_scratch _ _) rfl rfl
  have hc := downloadFile_cwd env cfg (server ++ "/" ++ patch) tempname true logerr 0 w
  generalize downloadFile env cfg (server ++ "/" ++ patch) tempname true logerr 0 w = dl at hdl hc
  repeat' split
  all_goals dsimp only
  all_goals
    first
    | exact ⟨hdl, hc⟩
    | exact ⟨hdl.logg _, by simpa using hc⟩
    | exact ⟨(hdl.setDir _ _ (by simp [hc])).emit _ rfl, by simpa using hc⟩

theorem downloadPatch_done_spec (tempname : Option String) (olddir : String)
    (status : fc_error_t) (t : String) (w0 w : World) (h : PreFoot patchKind t w0 w)
    (hc : ∀ x, tempname = some x → w.cwd = t) (hne : olddir ≠ t)
    (hold : (w0.dirs olddir).isSome = true) :
    PreFoot patchKind t w0 (downloadPatch_done tempname olddir status w).2 ∧
    (downloadPatch_done tempname olddir status w).2.cwd = olddir := by
  have key : ∀ w1, PreFoot patchKind t w0 w1 →
      PreFoot patchKind t w0 (if (!chdir_ok w1 olddir) = true then (FC_EDIRECTORY, w1)
        else (status, setCwd w1 olddir)).2 ∧
      (if (!chdir_ok w1 olddir) = true then (FC_EDIRECTORY, w1)
        else (status, setCwd w1 olddir)).2.cwd = olddir := by
    intro w1 h1
    have : chdir_ok w1 olddir = true := by
      unfold chdir_ok
      rw [h1.dirs_ne olddir hne]
      exact hold
    simp only [this, Bool.not_true, Bool.false_eq_true, if_false]
    exact ⟨h1.setCwd olddir, rfl⟩
  unfold downloadPatch_done
  cases tempname with
  | none => exact key w h
  | some x =>
    refine key _ (h.unlink x ?_ rfl)
    rw [hc x rfl]
    exact pathOk_scratch t x

theorem downloadPatch_spec_emit (env : Env) (cfg : Config) (database t : String)
    (version : Int) (server : String) (logerr : Bool) (w : World) (hne : t ≠ w.cwd) :
    PreFoot patchKind t (emit w (Event.downloadPatch version))
      (downloadPatch env cfg database t version server logerr w).2 ∧
    (downloadPatch env cfg database t version server logerr w).2.cwd = w.cwd := by
  unfold downloadPatch
  have h0 : PreFoot patchKind t (emit w (Event.downloadPatch version))
      (emit w (Event.downloadPatch version)) := Foot.foot_refl _ _ _ _
  dsimp only
  split
  · exact ⟨h0, rfl⟩
  split
  · exact ⟨h0, rfl⟩
  next hv hg =>
  have hold : ((emit w (Event.downloadPatch version)).dirs w.cwd).isSome = true := by
    cases hx : (w.dirs w.cwd).isSome with
    | true => simpa using hx
    | false => simp [getcwd_ok, hx] at hg
  have hm := mkdir_and_chdir_spec env database t _ _ h0
  generalize mkdir_and_chdir_for_cdiff_tmp env database t (emit w (Event.downloadPatch version))
    = m at hm
  simp only [emit_cwd] at hm ⊢
  split
  · next hms =>
    exact downloadPatch_done_spec none w.cwd _ t _ m.2 hm.1 (by simp) (Ne.symm hne) hold
  · next hms =>
    have hms : m.1 = FC_SUCCESS := by simpa using hms
    have hmc := hm.2.1 hms
    unfold cli_gentemp
    dsimp only
    split
    · exact downloadPatch_done_spec none w.cwd _ t _ _ hm.1.countTemp (by simp) (Ne.symm hne) hold
    · next tempname _ =>
      have ha := downloadPatch_apply_spec env cfg database version server logerr tempname
        (countTemp m.2)
      simp only [countTemp_cwd, hmc] at ha
      exact downloadPatch_done_spec (some tempname) w.cwd _ t _ _
        (hm.1.countTemp.foot_trans ha.1) (fun _ _ => ha.2) (Ne.symm hne) hold

theorem downloadPatch_spec (env : Env) (cfg : Config) (database t : String) (version : Int)
    (server : String) (logerr : Bool) (w : World) (hne : t ≠ w.cwd) :
    PreFoot patchKind t w (downloadPatch env cfg database t version server logerr w).2 ∧
    (downloadPatch env cfg database t version server logerr w).2.cwd = w.cwd :=
  ⟨Foot.foot_trans ((Foot.foot_refl _ _ _ w).emit (Event.downloadPatch version) rfl)
      (downloadPatch_spec_emit env cfg database t version server logerr w hne).1,
    (downloadPatch_spec_emit env cfg database t version server logerr w hne).2⟩

theorem patch_attempts_spec (env : Env) (cfg : Config) (database t : String) (i : Nat)
    (server : String) (logerr : Bool) (n : Nat) :
    ∀ (j : Nat) (ret : fc_error_t) (w : World), t ≠ w.cwd →
    PreFoot patchKind t w (patch_attempts env cfg database t i server logerr n j ret w).2 ∧
    (patch_attempts env cfg database t i server logerr n j ret w).2.cwd = w.cwd := by
  induction n with
  | zero => intro j ret w _; exact ⟨Foot.foot_refl _ _ _ w, rfl⟩
  | succ n ih =>
    intro j ret w hne
    unfold patch_attempts
    dsimp only
    generalize (if logerr = true then decide (j = cfg.g_maxAttempts) else logerr) = ll
    have hd := downloadPatch_spec env cfg database t (toInt32 i) server ll w hne
    generalize downloadPatch env cfg database t (toInt32 i) server ll w = r at hd
    split
    · have := ih (j + 1) r.1 r.2 (by rw [hd.2]; exact hne)
      exact ⟨hd.1.foot_trans this.1, by rw [this.2, hd.2]⟩
    · exact hd

theorem patch_loop_spec (env : Env) (cfg : Config) (database t : String) (remoteVersion : Nat)
    (server : String) (logerr : Bool) (fuel : Nat) :
    ∀ (i : Nat) (ret : fc_error_t) (w : World) (l : fc_error_t × World), t ≠ w.cwd →
    patch_loop env cfg database t remoteVersion server logerr fuel i ret w = some l →
    PreFoot patchKind t w l.2 ∧ l.2.cwd = w.cwd := by
  induction fuel with
  | zero => intro i ret w l _ h; simp [patch_loop] at h
  | succ fuel ih =>
    intro i ret w l hne h
    unfold patch_loop at h
    dsimp only at h
    have ha := patch_attempts_spec env cfg database t i server logerr cfg.g_maxAttempts 1 ret w hne
    generalize patch_attempts env cfg database t i server logerr cfg.g_maxAttempts 1 ret w = r
      at ha h
    split at h
    · split at h
      · cases h; exact ha
      · have := ih _ _ _ l (by rw [ha.2]; exact hne) h
        exact ⟨ha.1.foot_trans this.1, by rw [this.2, ha.2]⟩
    · cases h; exact ⟨Foot.foot_refl _ _ _ w, rfl⟩

/-! ## The repacker -/

theorem pathOk_any (t c p : String) (h : isAbs p = true) :
    PathOk (fun _ => true) (fun q => decide (q = t)) c p :=
  ⟨fun _ => rfl, fun h2 => by rw [h] at h2; exact absurd h2 (by simp)⟩

theorem tar_addfile_spec (env : Env) (b : Bool) (newfile name t : String) (w0 w : World)
    (h : PreFoot packKind t w0 w) (hn : isAbs newfile = true) :
    PreFoot packKind t w0 (tar_addfile env b newfile name w).2 ∧
    (tar_addfile env b newfile name w).2.cwd = w.cwd := by
  unfold tar_addfile writeFile
  repeat' split
  · exact ⟨(h.store _ _ (pathOk_any _ _ _ hn)).emit _ rfl, by simp⟩
  · exact ⟨h.emit _ rfl, rfl⟩
  · exact ⟨h.emit _ rfl, rfl⟩

theorem buildcld_loop_spec (env : Env) (b : Bool) (newfile info t : String)
    (hn : isAbs newfile = true) (names : List String) :
    ∀ (w0 w : World), PreFoot packKind t w0 w →
    PreFoot packKind t w0 (buildcld_loop env b newfile info names w).2 ∧
    (buildcld_loop env b newfile info names w).2.cwd = w.cwd := by
  induction names with
  | nil => intro w0 w h; exact ⟨h, rfl⟩
  | cons n rest ih =>
    intro w0 w h
    unfold buildcld_loop
    have ht := tar_addfile_spec env b newfile n t w0 w h hn
    generalize tar_addfile env b newfile n w = r at ht
    dsimp only
    repeat' split
    · exact ih w0 w h
    · exact ht
    · have := ih w0 r.2 ht.1
      exact ⟨this.1, by rw [this.2, ht.2]⟩

theorem buildcld_members_spec (env : Env) (newfile info : String) (b : Bool) (t : String)
    (w0 w : World) (h : PreFoot packKind t w0 w) (hn : isAbs newfile = true) :
    PreFoot packKind t w0 (buildcld_members env newfile info b w).2 ∧
    (buildcld_members env newfile info b w).2.cwd = w.cwd := by
  unfold buildcld_members
  split
  · exact ⟨h, rfl⟩
  have h1 := tar_addfile_spec env b newfile "COPYING" t w0 w h hn
  generalize tar_addfile env b newfile "COPYING" w = r1 at h1
  dsimp only
  split
  · exact h1
  have h2 : PreFoot packKind t w0 (if access r1.2 info = true then tar_addfile env b newfile info r1.2
      else (true, r1.2)).2 ∧ (if access r1.2 info = true then tar_addfile env b newfile info r1.2
      else (true, r1.2)).2.cwd = w.cwd := by
    split
    · have := tar_addfile_spec env b newfile info t w0 r1.2 h1.1 hn
      exact ⟨this.1, by rw [this.2, h1.2]⟩
    · exact h1
  generalize (if access r1.2 info = true then tar_addfile env b newfile info r1.2
      else (true, r1.2)) = r2 at h2
  split
  · exact h2
  have h3 : PreFoot packKind t w0 (if access r2.2 "daily.cfg" = true then
        tar_addfile env b newfile "daily.cfg" r2.2 else (true, r2.2)).2 ∧
      (if access r2.2 "daily.cfg" = true then
        tar_addfile env b newfile "daily.cfg" r2.2 else (true, r2.2)).2.cwd = w.cwd := by
    split
    · have := tar_addfile_spec env b newfile "daily.cfg" t w0 r2.2 h2.1 hn
      exact ⟨this.1, by rw [this.2, h2.2]⟩
    · exact h2
  generalize (if access r2.2 "daily.cfg" = true then
        tar_addfile env b newfile "daily.cfg" r2.2 else (true, r2.2)) = r3 at h3
  split
  · exact h3
  split
  · exact h3
  · next d _ =>
    have := buildcld_loop_spec env b newfile info t hn (readdir d) w0 r3.2 h3.1
    exact ⟨this.1, by rw [this.2, h3.2]⟩

theorem buildcld_pack_spec (env : Env) (database newfile : String) (b : Bool) (t : String)
    (w0 w : World) (h : PreFoot packKind t w0 w) (hn : isAbs newfile = true) :
    PreFoot packKind t w0 (buildcld_pack env database newfile b w).2 ∧
    (buildcld_pack env database newfile b w).2.cwd = w.cwd := by
  unfold buildcld_pack created writeFile
  dsimp only
  have hs : PreFoot packKind t w0 (storeFile w newfile []) := h.store _ _ (pathOk_any _ _ _ hn)
  split
  · exact ⟨h, rfl⟩
  next data _ =>
  split
  · exact ⟨h, rfl⟩
  next buff _ =>
  split
  · exact ⟨h, rfl⟩
  have hs2 : PreFoot packKind t w0 (storeFile (storeFile w newfile []) newfile buff) :=
    hs.store _ _ (pathOk_any _ _ _ hn)
  split
  · exact ⟨hs2, by simp⟩
  · have := buildcld_members_spec env newfile (snprintf DB_FILENAME_MAX (database ++ ".info"))
      b t w0 _ hs2 hn
    simpa using this

theorem buildcld_spec_emit (env : Env) (t database newfile : String) (b : Bool) (w : World)
    (hn : isAbs newfile = true) :
    PreFoot packKind t (emit w (Event.buildcld t)) (buildcld env t database newfile b w).2 ∧
    ((buildcld env t database newfile b w).1 = FC_SUCCESS →
      (buildcld env t database newfile b w).2.cwd = w.cwd) := by
  unfold buildcld
  have h0 : PreFoot packKind t (emit w (Event.buildcld t)) (emit w (Event.buildcld t)) :=
    Foot.foot_refl _ _ _ _
  have hdone : ∀ (o : Option String) (st : fc_error_t) (w1 : World),
      PreFoot packKind t (emit w (Event.buildcld t)) w1 →
      (st = FC_SUCCESS → (∀ x, o = some x → x = w.cwd) ∧ (o = none → w1.cwd = w.cwd)) →
      PreFoot packKind t (emit w (Event.buildcld t)) (buildcld_done newfile o st w1).2 ∧
      ((buildcld_done newfile o st w1).1 = FC_SUCCESS →
        (buildcld_done newfile o st w1).2.cwd = w.cwd) := by
    intro o st w1 h1 hst
    unfold buildcld_done
    have h2 : PreFoot packKind t (emit w (Event.buildcld t))
          (if st ≠ FC_SUCCESS then unlink w1 newfile else w1) ∧
        (if st ≠ FC_SUCCESS then unlink w1 newfile else w1).cwd = w1.cwd := by
      split
      · exact ⟨h1.unlink _ (pathOk_any _ _ _ hn) rfl, by simp⟩
      · exact ⟨h1, rfl⟩
    generalize (if st ≠ FC_SUCCESS then unlink w1 newfile else w1) = w2 at h2
    obtain ⟨h2, h2c⟩ := h2
    cases o with
    | none =>
      dsimp only
      exact ⟨h2, fun hs => by rw [h2c, (hst hs).2 rfl]⟩
    | some x =>
      dsimp only
      split
      · exact ⟨h2, by simp⟩
      · exact ⟨h2.setCwd _, fun hs => by simpa using (hst hs).1 x rfl⟩
  dsimp only
  split
  · exact hdone _ _ _ h0 (by intro hs; cases hs)
  split
  · exact hdone _ _ _ h0 (by intro hs; cases hs)
  · have hp := buildcld_pack_spec env database newfile b t _ _ (h0.setCwd t) hn
    exact hdone _ _ _ hp.1 (fun _ => ⟨by intro x hx; cases hx; rfl, by intro hx; cases hx⟩)

theorem buildcld_spec (env : Env) (t database newfile : String) (b : Bool) (w : World)
    (hn : isAbs newfile = true) :
    PreFoot packKind t w (buildcld env t database newfile b w).2 ∧
    ((buildcld env t database newfile b w).1 = FC_SUCCESS →
      (buildcld env t database newfile b w).2.cwd = w.cwd) :=
  ⟨Foot.foot_trans ((Foot.foot_refl _ _ _ w).emit (Event.buildcld t) rfl)
      (buildcld_spec_emit env t database newfile b w hn).1,
    (buildcld_spec_emit env t database newfile b w hn).2⟩

/-! ## Paths of temporary files -/

theorem isAbs_take (p : String) (n : Nat) (h : isAbs p = true) (hn : 0 < n) :
    isAbs (p.take n) = true := by
  unfold isAbs at h ⊢
  rw [String.data_take]
  cases hd : p.data with
  | nil => rw [hd] at h; simp at h
  | cons x t =>
    rw [hd] at h
    cases n with
    | zero => omega
    | succ n => simpa using h

theorem isAbs_with_extension (tmpfile fn : String) (h : isAbs tmpfile = true)
    (hl : 4 < tmpfile.length) : isAbs (with_extension tmpfile fn) = true := by
  unfold with_extension
  exact isAbs_append _ _ (isAbs_take _ _ h (by omega))

theorem lookupFile_rel_of_foot {A D : String → Bool} {K : Event → Bool} {w w1 : World}
    (h : Foot A D K w w1) (hc : w1.cwd = w.cwd) (hD : D w.cwd = false) (q : String)
    (hq : isAbs q = false) : lookupFile w1 q = lookupFile w q := by
  unfold lookupFile
  simp only [hq, Bool.false_eq_true, if_false, hc, h.dirs _ hD]


/-! ## The full-download branch -/

theorem newEvents_eq {w w1 : World} {evs : List Event} (h : w1.trace = w.trace ++ evs) :
    newEvents w w1 = evs := by
  simp [newEvents, h]

theorem append_eq_split {α : Type} (a b pre post : List α) (x : α)
    (h : a ++ b = pre ++ x :: post) (hx : x ∉ a) :
    ∃ mid, pre = a ++ mid ∧ b = mid ++ x :: post := by
  rcases List.append_eq_append_iff.mp h with ⟨a1, h1, h2⟩ | ⟨c1, h1, h2⟩
  · exact ⟨a1, h1, h2⟩
  · cases c1 with
    | nil => exact ⟨[], by simpa using h1.symm, by simpa using h2.symm⟩
    | cons y c2 =>
      simp at h2
      rw [h1] at hx
      exact absurd (by simp [h2.1]) hx

theorem fullKind_not_patchOnly (e : Event) (h : fullKind e = true) : patchOnly e = false := by
  cases e <;> simp_all [fullKind, patchOnly]

theorem instKind_not_patchOnly (d : Content) (e : Event) (h : instKind d e = true) :
    patchOnly e = false := by
  cases e <;> simp_all [instKind, fullKind, carries, patchOnly]

theorem verified_of_fullKind (evs : List Event) (h : ∀ e ∈ evs, fullKind e = true) :
    VerifiedInstall evs := by
  intro pre post src dst d he hd
  have := h (Event.rename src dst d) (by rw [he]; simp)
  simp [fullKind, hd] at this

theorem verified_of_install (evsG evsI : List Event) (p : String) (d : Content)
    (hG : ∀ e ∈ evsG, fullKind e = true) (hI : ∀ e ∈ evsI, instKind d e = true)
    (hv : Event.cl_cvdverify p d true ∈ evsG) : VerifiedInstall (evsG ++ evsI) := by
  intro pre post src dst d1 he hd
  have hx : Event.rename src dst d1 ∉ evsG := by
    intro hm
    have := hG _ hm
    simp [fullKind, hd] at this
  obtain ⟨mid, h1, h2⟩ := append_eq_split evsG evsI pre post _ he hx
  have := hI (Event.rename src dst d1) (by rw [h2]; simp)
  simp [instKind, fullKind, hd, carries] at this
  subst this
  exact ⟨p, by rw [h1]; simp [hv]⟩


theorem updatedb_full_spec (env : Env) (cfg : Config) (server : String) (logerr : Bool)
    (c : VersionCheck) (tmpfile : String) (tmpdir : Option String) (w : World)
    (h1 : isAbs tmpfile = true) (hl : 4 < tmpfile.length)
    (h2 : ∀ fn, c.remoteFilename = some fn → isAbs fn = false)
    (hd : ∀ t, tmpdir = some t → t ≠ w.cwd) :
    (updatedb_full env cfg server logerr c tmpfile tmpdir w).2.cwd = w.cwd ∧
    ((updatedb_full env cfg server logerr c tmpfile tmpdir w).1.status ≠ FC_SUCCESS →
      (updatedb_full env cfg server logerr c tmpfile tmpdir w).1 =
        UpdateResult.failed (updatedb_full env cfg server logerr c tmpfile tmpdir w).1.status) ∧
    ((updatedb_full env cfg server logerr c tmpfile tmpdir w).1.status = FC_SUCCESS →
      ∃ fn d cvd, c.remoteFilename = some fn ∧ env.cl_cvdhead d = some cvd ∧
        c.remoteVersion ≤ cvd.version ∧
        (updatedb_full env cfg server logerr c tmpfile tmpdir w).1 =
          { status := FC_SUCCESS, signo := cvd.sigs, dbFilename := some fn, bUpdated := true } ∧
        ∀ q, isAbs q = false →
          lookupFile (updatedb_full env cfg server logerr c tmpfile tmpdir w).2 q =
            if q = fn then some d else if c.localFilename = some q then none
            else lookupFile w q) := by
  unfold updatedb_full
  cases hrf : c.remoteFilename with
  | none =>
    simp [updatedb_done_cwd, updatedb_done_fst, UpdateResult.failed]
  | some fn =>
    dsimp only
    have hfn := h2 fn hrf
    have htwe := isAbs_with_extension tmpfile fn h1 hl
    have hgc := getcvd_cwd env cfg fn tmpfile server c.remoteVersion logerr w
    have hgf : Foot (fun _ => true) (fun _ => false) fullKind w
        (getcvd env cfg fn tmpfile server c.remoteVersion logerr w).2 :=
      getcvd_foot env cfg fn tmpfile server c.remoteVersion logerr w h1 htwe rfl rfl
        getcvdKind_fullKind
    have hgs := getcvd_success env cfg fn tmpfile server c.remoteVersion logerr w
    generalize getcvd env cfg fn tmpfile server c.remoteVersion logerr w = g at hgc hgf hgs
    by_cases hg : g.1 = FC_SUCCESS
    swap
    · simp [hg, updatedb_done_cwd, updatedb_done_fst, UpdateResult.failed, hgc]
    simp only [hg, ne_eq, not_true_eq_false, if_false]
    obtain ⟨d, cvd, _, e2, e3, e4, _⟩ := hgs hg
    have hi := updatedb_install_spec env cfg c.localFilename tmpfile tmpdir fn g.2 h1 hfn
      (by rw [hgc]; exact hd)
    refine ⟨by rw [hi.1, hgc], hi.2.1, fun hs => ?_⟩
    obtain ⟨d1, cvd1, i1, i2, i3, i4⟩ := hi.2.2 hs
    rw [e4] at i1
    split at i1
    · cases i1
    cases i1
    rw [e2] at i2
    cases i2
    refine ⟨fn, d, cvd, rfl, e2, e3, i3, fun q hq => ?_⟩
    rw [i4 q hq, lookupFile_rel_of_foot hgf hgc rfl q hq]


theorem pathOk_all (c p : String) (hc : isAbs c = true) :
    PathOk (fun _ => true) isAbs c p :=
  ⟨fun _ => rfl, fun _ => hc⟩

theorem updatedb_full_events (env : Env) (cfg : Config) (server : String) (logerr : Bool)
    (c : VersionCheck) (tmpfile : String) (tmpdir : Option String) (w : World)
    (h1 : isAbs tmpfile = true) (hl : 4 < tmpfile.length)
    (hcwd : isAbs w.cwd = true) (hdabs : ∀ t, tmpdir = some t → isAbs t = true) :
    Foot (fun _ => true) isAbs (fun e => !patchOnly e) w
      (updatedb_full env cfg server logerr c tmpfile tmpdir w).2 ∧
    VerifiedInstall (newEvents w (updatedb_full env cfg server logerr c tmpfile tmpdir w).2) := by
  have hfk : ∀ e, fullKind e = true → (fun e => !patchOnly e) e = true := by
    intro e h; simp [fullKind_not_patchOnly e h]
  have hik : ∀ d e, instKind d e = true → (fun e => !patchOnly e) e = true := by
    intro d e h; simp [instKind_not_patchOnly d e h]
  have easy : ∀ w1, Foot (fun _ => true) isAbs fullKind w w1 →
      Foot (fun _ => true) isAbs (fun e => !patchOnly e) w w1 ∧ VerifiedInstall (newEvents w w1) := by
    intro w1 hf
    refine ⟨hf.foot_mono (fun _ h => h) (fun _ h => h) hfk, ?_⟩
    obtain ⟨evs, ht, hk⟩ := hf.trace
    rw [newEvents_eq ht]
    exact verified_of_fullKind evs hk
  unfold updatedb_full
  cases hrf : c.remoteFilename with
  | none =>
    dsimp only
    apply easy
    apply updatedb_done_foot
    · exact (Foot.foot_refl _ _ _ w).unlink tmpfile (pathOk_all _ _ hcwd) rfl
    · intro t ht; exact pathOk_all _ _ (by simpa using hcwd)
    · exact hdabs
    · intro p; rfl
  | some fn =>
    dsimp only
    have htwe := isAbs_with_extension tmpfile fn h1 hl
    have hgc := getcvd_cwd env cfg fn tmpfile server c.remoteVersion logerr w
    have hgf : Foot (fun _ => true) isAbs fullKind w
        (getcvd env cfg fn tmpfile server c.remoteVersion logerr w).2 :=
      getcvd_foot env cfg fn tmpfile server c.remoteVersion logerr w h1 htwe rfl rfl
        getcvdKind_fullKind
    have hgs := getcvd_success env cfg fn tmpfile server c.remoteVersion logerr w
    generalize getcvd env cfg fn tmpfile server c.remoteVersion logerr w = g at hgc hgf hgs
    have hgcwd : isAbs g.2.cwd = true := by rw [hgc]; exact hcwd
    by_cases hg : g.1 = FC_SUCCESS
    swap
    · simp only [hg, ne_eq, not_false_eq_true, if_true]
      apply easy
      apply updatedb_done_foot _ _ _ _ hgf
      · intro t ht; exact pathOk_all _ _ hgcwd
      · exact hdabs
      · intro p; rfl
    simp only [hg, ne_eq, not_true_eq_false, if_false]
    obtain ⟨d, cvd, _, _, _, e4, e5⟩ := hgs hg
    have hif : Foot (fun _ => true) isAbs (instKind d) g.2
        (updatedb_install env cfg c.localFilename tmpfile tmpdir fn g.2).2 := by
      apply updatedb_install_foot env cfg c.localFilename tmpfile tmpdir fn g.2
        (Foot.foot_refl _ _ _ g.2) h1 rfl rfl (pathOk_all _ _ hgcwd)
        (fun l _ => pathOk_all _ _ hgcwd) hdabs
      · intro e h; simp [instKind, h]
      · intro src d1 hd1
        rw [e4] at hd1
        split at hd1
        · cases hd1
        · cases hd1; simp [instKind, carries]
    refine ⟨(hgf.foot_mono (fun _ h => h) (fun _ h => h) hfk).foot_trans
      (hif.foot_mono (fun _ h => h) (fun _ h => h) (hik d)), ?_⟩
    obtain ⟨evsG, htG, hkG⟩ := hgf.trace
    obtain ⟨evsI, htI, hkI⟩ := hif.trace
    have ht : (updatedb_install env cfg c.localFilename tmpfile tmpdir fn g.2).2.trace =
        w.trace ++ (evsG ++ evsI) := by rw [htI, htG, List.append_assoc]
    rw [newEvents_eq ht]
    exact verified_of_install evsG evsI _ d hkG hkI (e5 evsG htG)


/-! ## The paths of a run -/

theorem preFoot_of_sameFS (t : String) {w w1 : World} (h1 : SameFS w w1)
    (h2 : Emits isCurl w w1) : PreFoot patchKind t w w1 := by
  refine ⟨fun q _ => by rw [h1.1], fun q _ => by rw [h1.2.1], ?_⟩
  obtain ⟨evs, ht, hk⟩ := h2
  refine ⟨evs, ht, fun e he => ?_⟩
  have := hk e he
  cases e <;> simp_all [isCurl, patchKind]

theorem newEvents_append {w wp w1 : World} {evs : List Event} (h1 : ∃ e1, wp.trace = w.trace ++ e1)
    (h2 : w1.trace = wp.trace ++ evs) : newEvents w w1 = newEvents w wp ++ evs := by
  obtain ⟨e1, h1⟩ := h1
  rw [newEvents_eq h1, newEvents_eq (show w1.trace = w.trace ++ (e1 ++ evs) by
    rw [h2, h1, List.append_assoc])]

theorem Foot.extends {A D : String → Bool} {K : Event → Bool} {w w1 : World}
    (h : Foot A D K w w1) : ∃ e1, w1.trace = w.trace ++ e1 := by
  obtain ⟨e, h, _⟩ := h.trace
  exact ⟨e, h⟩

theorem mem_newEvents_of_foot {A D : String → Bool} {K : Event → Bool} {A1 D1 : String → Bool}
    {K1 : Event → Bool} {w wp w1 : World} {e : Event}
    (h1 : Foot A D K w wp) (h2 : Foot A1 D1 K1 wp w1) (he : e ∈ newEvents w wp) :
    e ∈ newEvents w w1 := by
  obtain ⟨e2, h2, _⟩ := h2.trace
  rw [newEvents_append h1.extends h2]
  exact List.mem_append_left _ he

theorem mem_newEvents_of_foot' {A D : String → Bool} {K : Event → Bool} {A1 D1 : String → Bool}
    {K1 : Event → Bool} {w wp w1 : World} {e : Event}
    (h1 : Foot A D K w wp) (h2 : Foot A1 D1 K1 wp w1) (he : e ∈ newEvents wp w1) :
    e ∈ newEvents w w1 := by
  obtain ⟨e2, h2, _⟩ := h2.trace
  rw [newEvents_append h1.extends h2]
  rw [newEvents_eq h2] at he
  exact List.mem_append_right _ he

theorem patch_attempts_tried (env : Env) (cfg : Config) (database t : String) (i : Nat)
    (server : String) (logerr : Bool) (n : Nat) :
    ∀ (j : Nat) (ret : fc_error_t) (w : World), t ≠ w.cwd →
    (patch_attempts env cfg database t i server logerr n j ret w).1 = ret ∨
    Event.downloadPatch (toInt32 i) ∈
      newEvents w (patch_attempts env cfg database t i server logerr n j ret w).2 := by
  cases n with
  | zero => intro j ret w _; exact Or.inl rfl
  | succ n =>
    intro j ret w hne
    right
    unfold patch_attempts
    dsimp only
    generalize (if logerr = true then decide (j = cfg.g_maxAttempts) else logerr) = ll
    have hd := downloadPatch_spec_emit env cfg database t (toInt32 i) server ll w hne
    have hm : Event.downloadPatch (toInt32 i) ∈
        newEvents w (downloadPatch env cfg database t (toInt32 i) server ll w).2 := by
      obtain ⟨evs, ht, _⟩ := hd.1.trace
      rw [newEvents_eq (show _ = w.trace ++ (Event.downloadPatch (toInt32 i) :: evs) by
        rw [ht]; simp)]
      simp
    have hf := (downloadPatch_spec env cfg database t (toInt32 i) server ll w hne)
    generalize downloadPatch env cfg database t (toInt32 i) server ll w = r at hm hf
    split
    · have := patch_attempts_spec env cfg database t i server logerr n (j + 1) r.1 r.2
        (by rw [hf.2]; exact hne)
      exact mem_newEvents_of_foot hf.1 this.1 hm
    · exact hm

theorem patch_loop_tried (env : Env) (cfg : Config) (database t : String) (remoteVersion : Nat)
    (server : String) (logerr : Bool) (fuel : Nat) :
    ∀ (i : Nat) (ret : fc_error_t) (w : World) (l : fc_error_t × World), t ≠ w.cwd →
    patch_loop env cfg database t remoteVersion server logerr fuel i ret w = some l →
    l.1 = ret ∨ ∃ v, Event.downloadPatch v ∈ newEvents w l.2 := by
  induction fuel with
  | zero => intro i ret w l _ h; simp [patch_loop] at h
  | succ fuel ih =>
    intro i ret w l hne h
    unfold patch_loop at h
    dsimp only at h
    have ha := patch_attempts_spec env cfg database t i server logerr cfg.g_maxAttempts 1 ret w hne
    have hb := patch_attempts_tried env cfg database t i server logerr cfg.g_maxAttempts 1 ret w hne
    generalize patch_attempts env cfg database t i server logerr cfg.g_maxAttempts 1 ret w = r
      at ha hb h
    split at h
    · split at h
      · cases h
        rcases hb with hb | hb
        · exact Or.inl hb
        · exact Or.inr ⟨_, hb⟩
      · have hl := patch_loop_spec env cfg database t remoteVersion server logerr fuel _ _ _ l
          (by rw [ha.2]; exact hne) h
        rcases hb with hb | hb
        · rcases ih _ _ _ l (by rw [ha.2]; exact hne) h with h1 | ⟨v, h1⟩
          · exact Or.inl (h1.trans hb)
          · right
            obtain ⟨e1, he1⟩ := ha.1.extends
            obtain ⟨e2, he2⟩ := hl.1.extends
            refine ⟨v, ?_⟩
            rw [newEvents_eq he2] at h1
            rw [newEvents_append ha.1.extends he2]
            exact List.mem_append_right _ h1
        · exact Or.inr ⟨_, mem_newEvents_of_foot ha.1 hl.1 hb⟩
    · cases h; exact Or.inl rfl


theorem exists_scratch (w : World) (h : isAbs w.cwd = true) :
    ∃ t, isAbs t = true ∧ t ≠ w.cwd := by
  refine ⟨w.cwd ++ "x", isAbs_append _ _ h, fun he => ?_⟩
  have := congrArg String.length he
  simp [String.length_append] at this
  exact absurd this (by decide)

theorem patchKind_pre (e : Event) (h : patchKind e = true) : preKind e = true := by
  simp [preKind, h]

theorem packKind_pre (e : Event) (h : packKind e = true) : preKind e = true := by
  simp [preKind, h]

theorem PreFoot.weaken {K K1 : Event → Bool} {t : String} {w w1 : World} (h : PreFoot K t w w1)
    (hK : ∀ e, K e = true → K1 e = true) : PreFoot K1 t w w1 :=
  Foot.foot_mono h (fun _ h => h) (fun _ h => h) hK

theorem updatedb_cases (env : Env) (cfg : Config) (database : String)
    (dns : Option String) (server : String) (pm su logerr : Bool) (w : World)
    (r : UpdateResult) (w1 : World) (hs : Sane env cfg database w)
    (h : updatedb env cfg database dns server pm su logerr w = some (r, w1)) :
    (r.bUpdated = false ∧
      (∃ t, isAbs t = true ∧ t ≠ w.cwd ∧ PreFoot preKind t w w1) ∧
      (r.status = FC_SUCCESS → SameFS w w1 ∧ r.signo = 0 ∧
        r.dbFilename = (check_for_new_database_version env cfg database dns server pm
          logerr w).1.localFilename ∧
        (check_for_new_database_version env cfg database dns server pm
          logerr w).1.localFilename.isSome = true ∧
        (check_for_new_database_version env cfg database dns server pm
          logerr w).1.status = FC_SUCCESS ∧
        (check_for_new_database_version env cfg database dns server pm
          logerr w).1.remoteVersion ≤
        (check_for_new_database_version env cfg database dns server pm
          logerr w).1.localVersion) ∧
      (((check_for_new_database_version env cfg database dns server pm
            logerr w).1.status ≠ FC_SUCCESS ∨
          (check_for_new_database_version env cfg database dns server pm
            logerr w).1.localVersion = 0 ∨ su = false) →
        ∀ e ∈ newEvents w w1, isCurl e = true) ∧
      ((∀ n, (env.cli_gentemp n cfg.g_tempDirectory).isSome = true) →
        (check_for_new_database_version env cfg database dns server pm
          logerr w).1.status = FC_SUCCESS →
        ¬ ((check_for_new_database_version env cfg database dns server pm
              logerr w).1.localVersion ≥
            (check_for_new_database_version env cfg database dns server pm
              logerr w).1.remoteVersion ∧
          (check_for_new_database_version env cfg database dns server pm
            logerr w).1.localFilename.isSome = true) →
        ∃ x, Event.buildcld x ∈ newEvents w w1)) ∨
    (∃ tmpfile tmpdir wp t,
      (r, w1) = updatedb_full env cfg server logerr
        (check_for_new_database_version env cfg database dns server pm logerr w).1
        tmpfile tmpdir wp ∧
      (check_for_new_database_version env cfg database dns server pm
          logerr w).1.status = FC_SUCCESS ∧
      ¬ ((check_for_new_database_version env cfg database dns server pm logerr w).1.localVersion ≥
          (check_for_new_database_version env cfg database dns server pm
            logerr w).1.remoteVersion ∧
        (check_for_new_database_version env cfg database dns server pm
          logerr w).1.localFilename.isSome = true) ∧
      isAbs tmpfile = true ∧ 4 < tmpfile.length ∧ (∀ x, tmpdir = some x → x = t) ∧
      isAbs t = true ∧ t ≠ w.cwd ∧ wp.cwd = w.cwd ∧ PreFoot patchKind t w wp ∧
      (tmpdir = none → ∀ e ∈ newEvents w wp, isCurl e = true) ∧
      (tmpdir = none ↔ ((check_for_new_database_version env cfg database dns server pm
          logerr w).1.localVersion = 0 ∨ su = false)) ∧
      (tmpdir ≠ none → ∃ v, Event.downloadPatch v ∈ newEvents w wp)) ∨
    (∃ tmpfile t wp,
      (r, w1) = updatedb_install env cfg
        (check_for_new_database_version env cfg database dns server pm logerr w).1.localFilename
        tmpfile (some t) (database ++ ".cld") wp ∧
      (check_for_new_database_version env cfg database dns server pm
          logerr w).1.status = FC_SUCCESS ∧
      (check_for_new_database_version env cfg database dns server pm
          logerr w).1.localVersion ≠ 0 ∧ su = true ∧
      isAbs tmpfile = true ∧ isAbs t = true ∧ t ≠ w.cwd ∧ wp.cwd = w.cwd ∧
      PreFoot preKind t w wp ∧ Event.buildcld t ∈ newEvents w wp) := by
  unfold updatedb at h
  have hk := check_fs env cfg database dns server pm logerr w
  generalize check_for_new_database_version env cfg database dns server pm logerr w = k at h hk ⊢
  dsimp only at h
  have hkc : k.2.cwd = w.cwd := hk.1.2.2.1
  have hkf : ∀ t, PreFoot patchKind t w k.2 := fun t => preFoot_of_sameFS t hk.1 hk.2
  have hkcurl : ∀ e ∈ newEvents w k.2, isCurl e = true := by
    obtain ⟨evs, ht, hc⟩ := hk.2
    rw [newEvents_eq ht]; exact hc
  obtain ⟨t0, ht0a, ht0n⟩ := exists_scratch w hs.cwd_abs
  by_cases h1 : k.1.status = FC_SUCCESS
  swap
  · simp only [h1, ne_eq, not_false_eq_true, if_true, Option.some.injEq, Prod.mk.injEq] at h
    obtain ⟨rfl, rfl⟩ := h
    exact Or.inl ⟨rfl, ⟨t0, ht0a, ht0n, (hkf t0).weaken patchKind_pre⟩, fun hx => absurd hx h1,
      fun _ => hkcurl, fun _ hx => absurd hx h1⟩
  simp only [h1, ne_eq, not_true_eq_false, if_false] at h
  by_cases h2 : k.1.localVersion ≥ k.1.remoteVersion ∧ k.1.localFilename.isSome = true
  · simp only [h2, and_self, if_true, Option.some.injEq, Prod.mk.injEq] at h
    obtain ⟨rfl, rfl⟩ := h
    exact Or.inl ⟨rfl, ⟨t0, ht0a, ht0n, (hkf t0).weaken patchKind_pre⟩,
      fun _ => ⟨hk.1, rfl, rfl, h2.2, h1, h2.1⟩, fun _ => hkcurl, fun _ _ hx => absurd h2 hx⟩
  simp only [h2, if_false] at h
  unfold cli_gentemp at h
  dsimp only at h
  cases hg : env.cli_gentemp k.2.ntmp cfg.g_tempDirectory with
  | none =>
    simp only [hg, Option.some.injEq, Prod.mk.injEq] at h
    obtain ⟨rfl, rfl⟩ := h
    exact Or.inl ⟨rfl, ⟨t0, ht0a, ht0n, ((hkf t0).weaken patchKind_pre).countTemp⟩,
      fun hx => by simp [UpdateResult.failed] at hx,
      fun _ => by simpa [newEvents] using hkcurl,
      fun hgen => absurd (hgen k.2.ntmp) (by rw [hg]; simp)⟩
  | some tmpfile =>
    simp only [hg] at h
    have hta := hs.tmp_abs _ _ hg
    have htl := hs.tmp_long _ _ hg
    have htn := hs.tmp_ne _ _ hg
    have hce : ∀ e ∈ newEvents w (countTemp k.2), isCurl e = true := by
      simpa [newEvents] using hkcurl
    by_cases h3 : k.1.localVersion = 0 ∨ (!su) = true
    · simp only [h3, if_true, Option.some.injEq] at h
      refine Or.inr (Or.inl ⟨tmpfile, none, countTemp k.2, tmpfile, h.symm, h1, h2, hta, htl,
        by simp, hta, htn, hkc, (hkf _).countTemp, fun _ => hce, ?_, by simp⟩)
      simpa using h3
    · simp only [h3, if_false] at h
      have h3a : k.1.localVersion ≠ 0 := fun hx => h3 (Or.inl hx)
      have h3b : su = true := by
        cases su with
        | true => rfl
        | false => exact absurd (Or.inr rfl) h3
      have h3c : (k.1.status ≠ FC_SUCCESS ∨ k.1.localVersion = 0 ∨ su = false) →
          ∀ e ∈ newEvents w w1, isCurl e = true := by
        intro hx
        rcases hx with hx | hx | hx
        · exact absurd h1 hx
        · exact absurd hx h3a
        · rw [h3b] at hx; cases hx
      unfold updatedb_incremental cli_gentemp at h
      dsimp only at h
      cases hg2 : env.cli_gentemp (countTemp k.2).ntmp cfg.g_tempDirectory with
      | none =>
        simp only [hg2, Option.some.injEq] at h
        have hf : PreFoot preKind t0 w (updatedb_done (some tmpfile) none
            (UpdateResult.failed FC_EMEM) (countTemp (countTemp k.2))).2 :=
          updatedb_done_foot _ _ _ _ ((hkf t0).weaken patchKind_pre).countTemp.countTemp
            (by intro t ht; cases ht; exact pathOk_any _ _ _ hta) (by simp) (fun p => rfl)
        rw [h] at hf
        have hr : r = UpdateResult.failed FC_EMEM := by
          have := congrArg Prod.fst h; simpa [updatedb_done_fst] using this.symm
        subst hr
        exact Or.inl ⟨rfl, ⟨t0, ht0a, ht0n, hf⟩, fun hx => by simp [UpdateResult.failed] at hx,
          h3c, fun hgen => absurd (hgen (countTemp k.2).ntmp) (by rw [hg2]; simp)⟩
      | some tmpdir =>
        simp only [hg2] at h
        have hda := hs.tmp_abs _ _ hg2
        have hdn := hs.tmp_ne _ _ hg2
        have hwg : PreFoot patchKind tmpdir w (countTemp (countTemp k.2)) :=
          (hkf tmpdir).countTemp.countTemp
        cases hl : patch_loop env cfg database tmpdir k.1.remoteVersion server logerr
            PATCH_LOOP_FUEL ((k.1.localVersion + 1) % UINT_SIZE) FC_SUCCESS
            (countTemp (countTemp k.2)) with
        | none => simp [hl] at h
        | some l =>
          simp only [hl] at h
          have hdn2 : tmpdir ≠ (countTemp (countTemp k.2)).cwd := by simpa [hkc] using hdn
          have hls := patch_loop_spec env cfg database tmpdir k.1.remoteVersion server logerr
            PATCH_LOOP_FUEL _ _ _ l hdn2 hl
          have hlt := patch_loop_tried env cfg database tmpdir k.1.remoteVersion server logerr
            PATCH_LOOP_FUEL _ _ _ l hdn2 hl
          have hlc : l.2.cwd = w.cwd := by rw [hls.2]; simpa using hkc
          have hlf : PreFoot patchKind tmpdir w l.2 := hwg.foot_trans hls.1
          by_cases h4 : l.1 = FC_SUCCESS
          swap
          · simp only [h4, ne_eq, not_false_eq_true, if_true, Option.some.injEq] at h
            refine Or.inr (Or.inl ⟨tmpfile, some tmpdir, l.2, tmpdir, h.symm, h1, h2, hta, htl,
              by simp, hda, hdn, hlc, hlf, by simp, ?_, fun _ => ?_⟩)
            · simp [h3a, h3b]
            · rcases hlt with hx | ⟨v, hv⟩
              · exact absurd hx h4
              · exact ⟨v, mem_newEvents_of_foot' hwg hls.1 hv⟩
          simp only [h4, ne_eq, not_true_eq_false, if_false] at h
          have hb := buildcld_spec_emit env tmpdir database tmpfile cfg.g_bCompressLocalDatabase
            l.2 hta
          have hbm : Event.buildcld tmpdir ∈ newEvents w
              (buildcld env tmpdir database tmpfile cfg.g_bCompressLocalDatabase l.2).2 := by
            obtain ⟨e1, he1⟩ := hlf.extends
            obtain ⟨e2, he2, _⟩ := hb.1.trace
            rw [newEvents_eq (show _ = w.trace ++ (e1 ++ Event.buildcld tmpdir :: e2) by
              rw [he2]; simp [he1])]
            simp
          have hbf : PreFoot preKind tmpdir w
              (buildcld env tmpdir database tmpfile cfg.g_bCompressLocalDatabase l.2).2 :=
            Foot.foot_trans (hlf.weaken patchKind_pre)
              ((buildcld_spec env tmpdir database tmpfile cfg.g_bCompressLocalDatabase
                l.2 hta).1.weaken packKind_pre)
          generalize buildcld env tmpdir database tmpfile cfg.g_bCompressLocalDatabase l.2 = b
            at h hb hbm hbf
          by_cases h5 : b.1 = FC_SUCCESS
          swap
          · simp only [h5, ne_eq, not_false_eq_true, if_true, Option.some.injEq] at h
            have hf2 : PreFoot preKind tmpdir b.2 (updatedb_done (some tmpfile) (some tmpdir)
                (UpdateResult.failed FC_EFAILEDUPDATE) b.2).2 :=
              updatedb_done_foot _ _ _ _ (Foot.foot_refl _ _ _ b.2)
                (by intro t ht; cases ht; exact pathOk_any _ _ _ hta)
                (by intro t ht; cases ht; simp) (fun p => rfl)
            rw [h] at hf2
            have hf : PreFoot preKind tmpdir w w1 := Foot.foot_trans hbf hf2
            have hr : r = UpdateResult.failed FC_EFAILEDUPDATE := by
              have := congrArg Prod.fst h; simpa [updatedb_done_fst] using this.symm
            subst hr
            exact Or.inl ⟨rfl, ⟨tmpdir, hda, hdn, hf⟩,
              fun hx => by simp [UpdateResult.failed] at hx, h3c,
              fun _ _ _ => ⟨tmpdir, mem_newEvents_of_foot hbf hf2 hbm⟩⟩
          · simp only [h5, ne_eq, not_true_eq_false, if_false, Option.some.injEq] at h
            exact Or.inr (Or.inr ⟨tmpfile, tmpdir, b.2, h.symm, h1, h3a, h3b, hta, hda, hdn,
              by rw [hb.2 h5, hlc], hbf, hbm⟩)


/-! ## Runs that install -/

theorem isAbs_snprintf (n : Nat) (s : String) (h : isAbs s = false) :
    isAbs (snprintf n s) = false := by
  unfold snprintf isAbs at *
  rw [String.data_take]
  cases hd : s.data with
  | nil => simp
  | cons x t =>
    rw [hd] at h
    cases hn : n - 1 with
    | zero => simp
    | succ m => simpa using h

theorem isAbs_db_ext (database ext : String) (h : isAbs database = false)
    (he : isAbs ext = false) : isAbs (database ++ ext) = false := by
  unfold isAbs at *
  rw [String.data_append]
  cases hd : database.data with
  | nil => simpa using he
  | cons x t => rw [hd] at h; simpa using h

theorem snprintf_short (n : Nat) (s : String) (h : s.length < n) : snprintf n s = s := by
  unfold snprintf
  rw [String.take_eq]
  have : s.data.take (n - 1) = s.data := List.take_of_length_le (by
    have : s.data.length = s.length := rfl
    omega)
  rw [this]

theorem version_check_local (loc : Option (cl_cvd × String)) (r : RemoteVersion)
    (h : (version_check loc r).status = FC_SUCCESS) :
    (version_check loc r).localFilename = loc.map (fun l => l.2) ∧
    (version_check loc r).localVersion = (loc.map (fun l => l.1.version)).getD 0 ∧
    ((version_check loc r).remoteFilename = r.remoteFilename) := by
  unfold version_check at h ⊢
  dsimp only at h ⊢
  repeat' split
  all_goals first | exact ⟨rfl, rfl, rfl⟩ | (simp_all [VersionCheck.failed])

theorem query_remoteFilename (env : Env) (cfg : Config) (database : String) (ims : Nat)
    (dns : Option String) (server : String) (pm logerr : Bool) (w : World) (fn : String)
    (h : (query_remote_database_version env cfg database ims dns server pm logerr w).1.remoteFilename
      = some fn) :
    fn = snprintf DB_FILENAME_MAX (database ++ ".cvd") ∨
    fn = snprintf DB_FILENAME_MAX (database ++ ".cld") := by
  unfold query_remote_database_version at h
  dsimp only at h
  generalize snprintf DB_FILENAME_MAX (database ++ ".cvd") = a at h ⊢
  generalize snprintf DB_FILENAME_MAX (database ++ ".cld") = b at h ⊢
  repeat' split at h
  all_goals simp only [Option.some.injEq] at h
  all_goals first | exact Or.inl h.symm | exact Or.inr h.symm | cases h


theorem check_remoteFilename_rel (env : Env) (cfg : Config) (database : String)
    (dns : Option String) (server : String) (pm logerr : Bool) (w : World)
    (hrel : isAbs database = false)
    (hst : (check_for_new_database_version env cfg database dns server pm logerr w).1.status
      = FC_SUCCESS) (fn : String)
    (h : (check_for_new_database_version env cfg database dns server pm logerr w).1.remoteFilename
      = some fn) :
    (fn = snprintf DB_FILENAME_MAX (database ++ ".cvd") ∨
      fn = snprintf DB_FILENAME_MAX (database ++ ".cld")) ∧ isAbs fn = false := by
  unfold check_for_new_database_version at hst h
  dsimp only at hst h
  rw [(version_check_local _ _ hst).2.2] at h
  have := query_remoteFilename _ _ _ _ _ _ _ _ _ _ h
  refine ⟨this, ?_⟩
  rcases this with h1 | h1
  · rw [h1]; exact isAbs_snprintf _ _ (isAbs_db_ext _ _ hrel (by decide))
  · rw [h1]; exact isAbs_snprintf _ _ (isAbs_db_ext _ _ hrel (by decide))

theorem rel_ne_abs {q t : String} (hq : isAbs q = false) (ht : isAbs t = true) : q ≠ t := by
  intro h; rw [h, ht] at hq; exact absurd hq (by simp)

theorem updatedb_installed (env : Env) (cfg : Config) (database : String)
    (dns : Option String) (server : String) (pm su logerr : Bool) (w : World)
    (r : UpdateResult) (w1 : World) (hs : Sane env cfg database w)
    (h : updatedb env cfg database dns server pm su logerr w = some (r, w1))
    (hst : r.status = FC_SUCCESS) (hu : r.bUpdated = true) :
    ∃ fn d cvd,
      r = { status := FC_SUCCESS, signo := cvd.sigs, dbFilename := some fn, bUpdated := true } ∧
      env.cl_cvdhead d = some cvd ∧ isAbs fn = false ∧ w1.cwd = w.cwd ∧
      (check_for_new_database_version env cfg database dns server pm logerr w).1.status
        = FC_SUCCESS ∧
      (∀ q, isAbs q = false → lookupFile w1 q =
        if q = fn then some d
        else if (check_for_new_database_version env cfg database dns server pm
          logerr w).1.localFilename = some q then none
        else lookupFile w q) ∧
      (∀ q, isAbs q = false → w1.dirs q = w.dirs q) ∧
      (((check_for_new_database_version env cfg database dns server pm
          logerr w).1.remoteFilename = some fn ∧
        (check_for_new_database_version env cfg database dns server pm
          logerr w).1.remoteVersion ≤ cvd.version ∧
        ¬ ((check_for_new_database_version env cfg database dns server pm
              logerr w).1.localVersion ≥
            (check_for_new_database_version env cfg database dns server pm
              logerr w).1.remoteVersion ∧
          (check_for_new_database_version env cfg database dns server pm
            logerr w).1.localFilename.isSome = true) ∧
        ∀ x, Event.buildcld x ∉ newEvents w w1) ∨
       (fn = database ++ ".cld" ∧
        (check_for_new_database_version env cfg database dns server pm
          logerr w).1.localVersion ≠ 0 ∧ su = true ∧
        ∃ x, Event.buildcld x ∈ newEvents w w1)) := by
  rcases updatedb_cases env cfg database dns server pm su logerr w r w1 hs h with
    ⟨hq, _⟩ | ⟨tmpfile, tmpdir, wp, t, he, hk1, hk2, hta, htl, htd, hda, hdn, hwc, hpf, _, _, _⟩ |
    ⟨tmpfile, t, wp, he, hk1, hl0, hsu, hta, hda, hdn, hwc, hpf, hb⟩
  · rw [hq] at hu; cases hu
  · have hrel : ∀ fn, (check_for_new_database_version env cfg database dns server pm
        logerr w).1.remoteFilename = some fn → isAbs fn = false :=
      fun fn hfn => (check_remoteFilename_rel env cfg database dns server pm logerr w hs.db_rel
        hk1 fn hfn).2
    have hd : ∀ x, tmpdir = some x → x ≠ wp.cwd := by
      intro x hx; rw [htd x hx, hwc]; exact hdn
    have hspec := updatedb_full_spec env cfg server logerr _ tmpfile tmpdir wp hta htl hrel hd
    have hev := updatedb_full_events env cfg server logerr
      (check_for_new_database_version env cfg database dns server pm logerr w).1
      tmpfile tmpdir wp hta htl (by rw [hwc]; exact hs.cwd_abs)
      (by intro x hx; rw [htd x hx]; exact hda)
    rw [← he] at hspec hev
    obtain ⟨fn, d, cvd, e1, e2, e3, e4, e5⟩ := hspec.2.2 hst
    refine ⟨fn, d, cvd, e4, e2, hrel fn e1, by rw [hspec.1, hwc], hk1, fun q hq => ?_,
      fun q hq => ?_, Or.inl ⟨e1, e3, hk2, fun x hx => ?_⟩⟩
    · rw [e5 q hq, lookupFile_rel_of_foot hpf hwc (by simpa using Ne.symm hdn) q hq]
    · rw [hev.1.dirs q hq, hpf.dirs_ne q (rel_ne_abs hq hda)]
    · obtain ⟨e2, hte2, hk2⟩ := hev.1.trace
      rw [newEvents_append hpf.extends hte2] at hx
      rcases List.mem_append.mp hx with hx | hx
      · obtain ⟨e1, hte1, hk1⟩ := hpf.trace
        rw [newEvents_eq hte1] at hx
        have := hk1 _ hx
        simp [patchKind] at this
      · have := hk2 _ hx
        simp [patchOnly] at this
  · have hfn : isAbs (database ++ ".cld") = false := isAbs_db_ext _ _ hs.db_rel (by decide)
    have hspec := updatedb_install_spec env cfg
      (check_for_new_database_version env cfg database dns server pm logerr w).1.localFilename
      tmpfile (some t) (database ++ ".cld") wp hta hfn
      (by intro x hx; cases hx; rw [hwc]; exact hdn)
    have hcw : isAbs wp.cwd = true := by rw [hwc]; exact hs.cwd_abs
    have hfoot : Foot (fun _ => true) isAbs (fun _ => true) wp
        (updatedb_install env cfg
          (check_for_new_database_version env cfg database dns server pm
            logerr w).1.localFilename tmpfile (some t) (database ++ ".cld") wp).2 :=
      updatedb_install_foot env cfg _ tmpfile (some t) (database ++ ".cld") wp
        (Foot.foot_refl _ _ _ wp) hta rfl rfl (pathOk_all _ _ hcw)
        (fun l _ => pathOk_all _ _ hcw) (by intro x hx; cases hx; exact hda)
        (fun _ _ => rfl) (fun _ _ _ => rfl)
    rw [← he] at hspec hfoot
    obtain ⟨d, cvd, e1, e2, e3, e4⟩ := hspec.2.2 hst
    refine ⟨database ++ ".cld", d, cvd, e3, e2, hfn, by rw [hspec.1, hwc], hk1, fun q hq => ?_,
      fun q hq => ?_, Or.inr ⟨rfl, hl0, hsu, t, mem_newEvents_of_foot hpf hfoot hb⟩⟩
    · rw [e4 q hq, lookupFile_rel_of_foot hpf hwc (by simpa using Ne.symm hdn) q hq]
    · rw [hfoot.dirs q hq, hpf.dirs_ne q (rel_ne_abs hq hda)]


/-! ## Verification before installation -/

theorem exSane (database : String) (d : Dir) (h : isAbs database = false) :
    Sane exEnv exCfg database (exWorld d) := by
  have key : ∀ n t, exEnv.cli_gentemp n exCfg.g_tempDirectory = some t →
      isAbs t = true ∧ 4 < t.length := by
    intro n t ht
    simp only [exEnv, exCfg, Option.some.injEq] at ht
    subst ht
    refine ⟨?_, ?_⟩
    · exact isAbs_append _ _ (isAbs_append _ _ (isAbs_append _ _ (by decide)))
    · simp only [String.length_append]
      have : "/tmp".length = 4 := by decide
      have : "/clamav-".length = 8 := by decide
      omega
  refine ⟨h, fun n t ht => (key n t ht).1, fun n t ht => (key n t ht).2, fun n t ht he => ?_,
    (by show isAbs "/db" = true; decide)⟩
  have := (key n t ht).2
  rw [he] at this
  have h3 : "/db".length = 3 := by decide
  have h4 : (exWorld d).cwd = "/db" := rfl
  rw [h4] at this
  omega

theorem mem_newEvents_split {A D : String → Bool} {K : Event → Bool} {w wp w1 : World}
    (hpf : Foot A D K w wp) {evs : List Event} (ht : w1.trace = wp.trace ++ evs)
    (pre post : List Event) (x : Event) (hx : K x = false)
    (h : newEvents w w1 = pre ++ x :: post) :
    ∃ mid, pre = newEvents w wp ++ mid ∧ evs = mid ++ x :: post := by
  rw [newEvents_append hpf.extends ht] at h
  apply append_eq_split _ _ _ _ _ h
  intro hm
  obtain ⟨e1, hte1, hk1⟩ := hpf.trace
  rw [newEvents_eq hte1] at hm
  rw [hk1 _ hm] at hx
  cases hx

/-- C5 (amended): every rename into the database directory made by a run of
`updatedb` comes, within the events of that run, after an accepting run of the
verifier `cl_cvdverify` on the same bytes, or after the start of the repacker:
the full-download path installs verified bytes only, while the archive
repacked on the incremental path is installed without being handed to the
verifier. -/
theorem updatedb_install_verified_or_repacked (env : Env) (cfg : Config) (database : String)
    (dns : Option String) (server : String) (pm su logerr : Bool) (w : World)
    (r : UpdateResult) (w1 : World) (hs : Sane env cfg database w)
    (h : updatedb env cfg database dns server pm su logerr w = some (r, w1)) :
    ∀ pre post src dst d, newEvents w w1 = pre ++ Event.rename src dst d :: post →
      isAbs dst = false →
      (∃ p, Event.cl_cvdverify p d true ∈ pre) ∨ (∃ t, Event.buildcld t ∈ pre) := by
  intro pre post src dst d hev hdst
  rcases updatedb_cases env cfg database dns server pm su logerr w r w1 hs h with
    ⟨_, ⟨t, _, _, hpf⟩, _⟩ |
    ⟨tmpfile, tmpdir, wp, t, he, hk1, hk2, hta, htl, htd, hda, hdn, hwc, hpf, _, _, _⟩ |
    ⟨tmpfile, t, wp, he, hk1, hl0, hsu, hta, hda, hdn, hwc, hpf, hb⟩
  · obtain ⟨evs, ht, hk⟩ := hpf.trace
    rw [newEvents_eq ht] at hev
    have := hk (Event.rename src dst d) (by rw [hev]; simp)
    simp [preKind, patchKind, packKind] at this
  · have hevs := updatedb_full_events env cfg server logerr
      (check_for_new_database_version env cfg database dns server pm logerr w).1
      tmpfile tmpdir wp hta htl (by rw [hwc]; exact hs.cwd_abs)
      (by intro x hx; rw [htd x hx]; exact hda)
    rw [← he] at hevs
    obtain ⟨evs, ht, _⟩ := hevs.1.trace
    obtain ⟨mid, h1, h2⟩ := mem_newEvents_split hpf ht pre post _ (by simp [patchKind]) hev
    have hv := hevs.2
    rw [newEvents_eq ht] at hv
    obtain ⟨p, hp⟩ := hv mid post src dst d h2 hdst
    exact Or.inl ⟨p, by rw [h1]; exact List.mem_append_right _ hp⟩
  · have hcw : isAbs wp.cwd = true := by rw [hwc]; exact hs.cwd_abs
    have hfoot : Foot (fun _ => true) isAbs (fun _ => true) wp
        (updatedb_install env cfg
          (check_for_new_database_version env cfg database dns server pm
            logerr w).1.localFilename tmpfile (some t) (database ++ ".cld") wp).2 :=
      updatedb_install_foot env cfg _ tmpfile (some t) (database ++ ".cld") wp
        (Foot.foot_refl _ _ _ wp) hta rfl rfl (pathOk_all _ _ hcw)
        (fun l _ => pathOk_all _ _ hcw) (by intro x hx; cases hx; exact hda)
        (fun _ _ => rfl) (fun _ _ _ => rfl)
    rw [← he] at hfoot
    obtain ⟨evs, ht, _⟩ := hfoot.trace
    obtain ⟨mid, h1, h2⟩ := mem_newEvents_split hpf ht pre post _
      (by simp [preKind, patchKind, packKind]) hev
    exact Or.inr ⟨t, by rw [h1]; exact List.mem_append_left _ hb⟩

theorem some_outcome (w : World) (o : Option (UpdateResult × World)) (h : o.isSome = true) :
    o = some (outcome w o) := by
  cases o with
  | none => cases h
  | some p => rfl

set_option maxRecDepth 100000 in
/-- Witness for C5: the fresh install of `main` from the example server. -/
theorem updatedb_install_verified_or_repacked_witness :
    Sane exEnv exCfg "main" (exWorld []) ∧
    updatedb exEnv exCfg "main" (some exDns) "http://db" false true false (exWorld []) =
      some (outcome (exWorld []) (updatedb exEnv exCfg "main" (some exDns) "http://db" false true
        false (exWorld []))) ∧
    ∀ pre post src dst d,
      newEvents (exWorld []) (outcome (exWorld []) (updatedb exEnv exCfg "main" (some exDns)
        "http://db" false true false (exWorld []))).2 = pre ++ Event.rename src dst d :: post →
      isAbs dst = false →
      (∃ p, Event.cl_cvdverify p d true ∈ pre) ∨ (∃ t, Event.buildcld t ∈ pre) :=
  ⟨exSane "main" [] (by decide), some_outcome (exWorld []) _ (by decide),
    updatedb_install_verified_or_repacked exEnv exCfg "main" (some exDns) "http://db" false true
      false (exWorld []) _ _ (exSane "main" [] (by decide))
      (some_outcome (exWorld []) _ (by decide))⟩


/-! ## Versions, variants and path choice -/

theorem any_isBuildcld {evs : List Event} {t : String} (h : Event.buildcld t ∈ evs) :
    evs.any isBuildcld = true :=
  List.any_eq_true.mpr ⟨_, h, rfl⟩

theorem any_isDownloadPatch {evs : List Event} {v : Int} (h : Event.downloadPatch v ∈ evs) :
    evs.any isDownloadPatch = true :=
  List.any_eq_true.mpr ⟨_, h, rfl⟩

theorem exWorld_dirs (d : Dir) : ∀ q, isAbs q = false → (exWorld d).dirs q = none := by
  intro q hq
  have : q ≠ "/db" := fun h => by rw [h] at hq; exact absurd hq (by decide)
  simp [exWorld, this]

theorem check_local (env : Env) (cfg : Config) (database : String)
    (dns : Option String) (server : String) (pm logerr : Bool) (w : World)
    (hst : (check_for_new_database_version env cfg database dns server pm logerr w).1.status
      = FC_SUCCESS) :
    (check_for_new_database_version env cfg database dns server pm logerr w).1.localFilename =
      (currentdb env database w).map (fun l => l.2) ∧
    (check_for_new_database_version env cfg database dns server pm logerr w).1.localVersion =
      ((currentdb env database w).map (fun l => l.1.version)).getD 0 := by
  unfold check_for_new_database_version at hst ⊢
  dsimp only at hst ⊢
  exact ⟨(version_check_local _ _ hst).1, (version_check_local _ _ hst).2.1⟩

/-- C7 (amended): after `updatedb` returns success with `updated = true` from a
run that did not repack (the full-download path, taken directly or as the
fallback of a failed incremental update), the header of the installed file
parses and its version is at least the version of the local database observed
before the call.  A repacked archive carries whatever version the patched
`.info` file states. -/
theorem updatedb_full_version_monotone (env : Env) (cfg : Config) (database : String)
    (dns : Option String) (server : String) (pm su logerr : Bool) (w : World)
    (r : UpdateResult) (w1 : World) (hs : Sane env cfg database w)
    (h : updatedb env cfg database dns server pm su logerr w = some (r, w1))
    (hst : r.status = FC_SUCCESS) (hu : r.bUpdated = true)
    (hfull : (newEvents w w1).any isBuildcld = false) :
    ∃ fn cvd, r.dbFilename = some fn ∧ cl_cvdhead env w1 fn = some cvd ∧
      ((currentdb env database w).map (fun l => l.1.version)).getD 0 ≤ cvd.version := by
  obtain ⟨fn, d, cvd, e1, e2, e3, e4, e5, e6, e7, e8⟩ :=
    updatedb_installed env cfg database dns server pm su logerr w r w1 hs h hst hu
  have hloc := check_local env cfg database dns server pm logerr w e5
  refine ⟨fn, cvd, by rw [e1], ?_, ?_⟩
  · unfold cl_cvdhead
    rw [e6 fn e3]
    simpa using e2
  · rcases e8 with ⟨_, hv, hnot, _⟩ | ⟨_, _, _, t, ht⟩
    · rw [hloc.1, hloc.2] at hnot
      cases hc : currentdb env database w with
      | none => simp
      | some l =>
        rw [hc] at hnot
        simp only [Option.map_some', Option.getD_some, Option.isSome_some, and_true, ge_iff_le,
          not_le] at hnot ⊢
        omega
    · rw [any_isBuildcld ht] at hfull
      cases hfull

set_option maxRecDepth 100000 in
/-- Witness for C7: the update of `daily` from version 100 without scripted
updates downloads version 102. -/
theorem updatedb_full_version_monotone_witness :
    Sane exEnv exCfg "daily" (exWorld [("daily.cvd", [100, 4, 1])]) ∧
    updatedb exEnv exCfg "daily" (some exDns) "http://db" false false false
        (exWorld [("daily.cvd", [100, 4, 1])]) =
      some (outcome (exWorld []) (updatedb exEnv exCfg "daily" (some exDns) "http://db" false
        false false (exWorld [("daily.cvd", [100, 4, 1])]))) ∧
    ∃ fn cvd,
      (outcome (exWorld []) (updatedb exEnv exCfg "daily" (some exDns) "http://db" false
        false false (exWorld [("daily.cvd", [100, 4, 1])]))).1.dbFilename = some fn ∧
      cl_cvdhead exEnv (outcome (exWorld []) (updatedb exEnv exCfg "daily" (some exDns)
        "http://db" false false false (exWorld [("daily.cvd", [100, 4, 1])]))).2 fn = some cvd ∧
      ((currentdb exEnv "daily" (exWorld [("daily.cvd", [100, 4, 1])])).map
        (fun l => l.1.version)).getD 0 ≤ cvd.version :=
  ⟨exSane "daily" _ (by decide), some_outcome (exWorld []) _ (by decide),
    updatedb_full_version_monotone exEnv exCfg "daily" (some exDns) "http://db" false false
      false (exWorld [("daily.cvd", [100, 4, 1])]) _ _ (exSane "daily" _ (by decide))
      (some_outcome (exWorld []) _ (by decide)) (by decide) (by decide) (by decide)⟩


theorem currentdb_short (env : Env) (database : String) (w : World)
    (hshort : database.length + 4 < DB_FILENAME_MAX) :
    currentdb env database w =
      if access w (database ++ ".cvd") = true then
        (cl_cvdhead env w (database ++ ".cvd")).map (fun c => (c, database ++ ".cvd"))
      else if access w (database ++ ".cld") = true then
        (cl_cvdhead env w (database ++ ".cld")).map (fun c => (c, database ++ ".cld"))
      else none := by
  have h1 : snprintf DB_FILENAME_MAX (database ++ ".cvd") = database ++ ".cvd" :=
    snprintf_short _ _ (by
      rw [String.length_append]
      have : ".cvd".length = 4 := by decide
      omega)
  have h2 : snprintf DB_FILENAME_MAX (database ++ ".cld") = database ++ ".cld" :=
    snprintf_short _ _ (by
      rw [String.length_append]
      have : ".cld".length = 4 := by decide
      omega)
  unfold currentdb
  rw [h1, h2]
  generalize database ++ ".cvd" = a
  generalize database ++ ".cld" = b
  dsimp only
  by_cases ha : access w a = true
  · simp only [ha, if_true]
    cases cl_cvdhead env w a <;> rfl
  · simp only [ha, Bool.false_eq_true, if_false]
    by_cases hb : access w b = true
    · simp only [hb, if_true]
      cases cl_cvdhead env w b <;> rfl
    · simp only [hb, Bool.false_eq_true, if_false]

theorem cvd_ne_cld (database : String) : database ++ ".cvd" ≠ database ++ ".cld" := by
  intro h
  have := congrArg String.data h
  rw [String.data_append, String.data_append] at this
  have := List.append_cancel_left this
  exact absurd this (by decide)

theorem access_rel {w : World} {q : String} (hd : w.dirs q = none) :
    access w q = (lookupFile w q).isSome := by
  simp [access, hd]

theorem installed_name (env : Env) (cfg : Config) (database : String)
    (dns : Option String) (server : String) (pm logerr : Bool) (w : World)
    (hrel : isAbs database = false) (hshort : database.length + 4 < DB_FILENAME_MAX)
    (hst : (check_for_new_database_version env cfg database dns server pm logerr w).1.status
      = FC_SUCCESS) (fn : String)
    (h : (check_for_new_database_version env cfg database dns server pm logerr w).1.remoteFilename
      = some fn) :
    fn = database ++ ".cvd" ∨ fn = database ++ ".cld" := by
  have h1 : snprintf DB_FILENAME_MAX (database ++ ".cvd") = database ++ ".cvd" :=
    snprintf_short _ _ (by
      rw [String.length_append]
      have : ".cvd".length = 4 := by decide
      omega)
  have h2 : snprintf DB_FILENAME_MAX (database ++ ".cld") = database ++ ".cld" :=
    snprintf_short _ _ (by
      rw [String.length_append]
      have : ".cld".length = 4 := by decide
      omega)
  have := (check_remoteFilename_rel env cfg database dns server pm logerr w hrel hst fn h).1
  rwa [h1, h2] at this

/-- What the local probe finds after a run that installed `fn` holding `d`,
when no unparseable `.cvd` shadowed the database before the run. -/
theorem currentdb_after_install (env : Env) (database : String) (w w1 : World)
    (lf : Option String) (fn : String) (d : Content) (cvd : cl_cvd)
    (hshort : database.length + 4 < DB_FILENAME_MAX)
    (hfn : fn = database ++ ".cvd" ∨ fn = database ++ ".cld")
    (hrel : isAbs database = false)
    (hhead : env.cl_cvdhead d = some cvd)
    (hlf : lf = (currentdb env database w).map (fun l => l.2))
    (hlook : ∀ q, isAbs q = false → lookupFile w1 q =
      if q = fn then some d else if lf = some q then none else lookupFile w q)
    (hdirs : ∀ q, isAbs q = false → w1.dirs q = none)
    (hdirs0 : ∀ q, isAbs q = false → w.dirs q = none)
    (hparse : access w (database ++ ".cvd") = true →
      (cl_cvdhead env w (database ++ ".cvd")).isSome = true) :
    currentdb env database w1 = some (cvd, fn) := by
  have hcvd : isAbs (database ++ ".cvd") = false := isAbs_db_ext _ _ hrel (by decide)
  have hcld : isAbs (database ++ ".cld") = false := isAbs_db_ext _ _ hrel (by decide)
  have hne := cvd_ne_cld database
  rw [currentdb_short env database w1 hshort]
  rw [currentdb_short env database w hshort] at hlf
  rcases hfn with hfn | hfn
  · subst hfn
    have hl := hlook _ hcvd
    simp only [if_true] at hl
    have ha : access w1 (database ++ ".cvd") = true := by
      rw [access_rel (hdirs _ hcvd), hl]; rfl
    simp [ha, cl_cvdhead, hl, hhead]
  · subst hfn
    have hl := hlook _ hcld
    simp only [if_true] at hl
    have ha : access w1 (database ++ ".cld") = true := by
      rw [access_rel (hdirs _ hcld), hl]; rfl
    have hb : access w1 (database ++ ".cvd") = false := by
      rw [access_rel (hdirs _ hcvd), hlook _ hcvd]
      simp only [hne, if_false]
      by_cases hacc : access w (database ++ ".cvd") = true
      · have hp := hparse hacc
        obtain ⟨c, hc⟩ := Option.isSome_iff_exists.mp hp
        simp only [hacc, if_true, hc, Option.map_some'] at hlf
        simp [hlf]
      · have : lookupFile w (database ++ ".cvd") = none := by
          rw [access_rel (hdirs0 _ hcvd)] at hacc
          cases hx : lookupFile w (database ++ ".cvd") with
          | none => rfl
          | some c => simp [hx] at hacc
        simp [this]
    simp [ha, hb, cl_cvdhead, hl, hhead]


theorem lookupFile_none_of_access_rel {w : World} {q : String} (hd : w.dirs q = none)
    (h : ¬ access w q = true) : lookupFile w q = none := by
  rw [access_rel hd] at h
  cases hx : lookupFile w q with
  | none => rfl
  | some c => simp [hx] at h

theorem any_false_of_forall {evs : List Event} {p q : Event → Bool}
    (h : ∀ e ∈ evs, p e = true) (hpq : ∀ e, p e = true → q e = false) :
    evs.any q = false := by
  rw [List.any_eq_false]
  intro e he
  simp [hpq e (h e he)]

theorem isCurl_not_patchOnly (e : Event) (h : isCurl e = true) : patchOnly e = false := by
  cases e <;> simp_all [isCurl, patchOnly]

theorem patchKind_not_buildcld (e : Event) (h : patchKind e = true) : isBuildcld e = false := by
  cases e <;> simp_all [patchKind, isBuildcld]

theorem not_patchOnly_not_buildcld (e : Event) (h : (!patchOnly e) = true) :
    isBuildcld e = false := by
  cases e <;> simp_all [patchOnly, isBuildcld]

theorem not_patchOnly (e : Event) (h : (!patchOnly e) = true) : patchOnly e = false := by
  simpa using h

/-- C9 (amended): path choice in `updatedb`.  If there is no local database, or
the local database has header version 0, or scripted updates are disabled, the
run emits no event of the incremental path (no patch is fetched or applied, the
repacker is not started), and a file it installs goes under the remote file
name returned by the oracle.  Otherwise, when the oracle reports a newer
version and temporary names can be generated, the incremental path is tried (a
patch download or the repacker is started), and a file installed by a run that
reached the repacker goes under `<db>.cld`. -/
theorem updatedb_path_choice (env : Env) (cfg : Config) (database : String)
    (dns : Option String) (server : String) (pm su logerr : Bool) (w : World)
    (r : UpdateResult) (w1 : World) (hs : Sane env cfg database w)
    (h : updatedb env cfg database dns server pm su logerr w = some (r, w1)) :
    ((((currentdb env database w).map (fun l => l.1.version)).getD 0 = 0 ∨ su = false) →
      (newEvents w w1).any patchOnly = false ∧
      (r.bUpdated = true → r.dbFilename =
        (check_for_new_database_version env cfg database dns server pm
          logerr w).1.remoteFilename)) ∧
    ((((currentdb env database w).map (fun l => l.1.version)).getD 0 ≠ 0 ∧ su = true ∧
        (check_for_new_database_version env cfg database dns server pm
          logerr w).1.status = FC_SUCCESS ∧
        (check_for_new_database_version env cfg database dns server pm
          logerr w).1.localVersion <
        (check_for_new_database_version env cfg database dns server pm
          logerr w).1.remoteVersion ∧
        (∀ n, (env.cli_gentemp n cfg.g_tempDirectory).isSome = true)) →
      ((newEvents w w1).any isDownloadPatch = true ∨ (newEvents w w1).any isBuildcld = true) ∧
      ((newEvents w w1).any isBuildcld = true → r.bUpdated = true →
        r.dbFilename = some (database ++ ".cld"))) := by
  have hLk : (check_for_new_database_version env cfg database dns server pm
      logerr w).1.status = FC_SUCCESS →
      (check_for_new_database_version env cfg database dns server pm logerr w).1.localVersion =
        ((currentdb env database w).map (fun l => l.1.version)).getD 0 :=
    fun hst => (check_local env cfg database dns server pm logerr w hst).2
  rcases updatedb_cases env cfg database dns server pm su logerr w r w1 hs h with
    ⟨hq, _, _, hcurl, hbuild⟩ |
    ⟨tmpfile, tmpdir, wp, t, he, hk1, hk2, hta, htl, htd, hda, hdn, hwc, hpf, hdir, hiff, htry⟩ |
    ⟨tmpfile, t, wp, he, hk1, hl0, hsu, hta, hda, hdn, hwc, hpf, hb⟩
  · refine ⟨fun hx => ⟨?_, fun hu => by rw [hq] at hu; cases hu⟩, fun hx => ⟨?_, ?_⟩⟩
    · apply any_false_of_forall (hcurl ?_) isCurl_not_patchOnly
      by_cases hst : (check_for_new_database_version env cfg database dns server pm
          logerr w).1.status = FC_SUCCESS
      · rw [← hLk hst] at hx
        exact Or.inr hx
      · exact Or.inl hst
    · obtain ⟨x, hxm⟩ := hbuild hx.2.2.2.2 hx.2.2.1 (by omega)
      exact Or.inr (any_isBuildcld hxm)
    · intro _ hu; rw [hq] at hu; cases hu
  · have hrel : ∀ fn, (check_for_new_database_version env cfg database dns server pm
        logerr w).1.remoteFilename = some fn → isAbs fn = false :=
      fun fn hfn => (check_remoteFilename_rel env cfg database dns server pm logerr w hs.db_rel
        hk1 fn hfn).2
    have hd : ∀ x, tmpdir = some x → x ≠ wp.cwd := by
      intro x hx; rw [htd x hx, hwc]; exact hdn
    have hspec := updatedb_full_spec env cfg server logerr _ tmpfile tmpdir wp hta htl hrel hd
    have hev := updatedb_full_events env cfg server logerr
      (check_for_new_database_version env cfg database dns server pm logerr w).1
      tmpfile tmpdir wp hta htl (by rw [hwc]; exact hs.cwd_abs)
      (by intro x hx; rw [htd x hx]; exact hda)
    rw [← he] at hspec hev
    dsimp only at hspec hev
    obtain ⟨e2, hte2, hke2⟩ := hev.1.trace
    have hnb : (newEvents w w1).any isBuildcld = false := by
      rw [newEvents_append hpf.extends hte2, List.any_append]
      obtain ⟨e1, hte1, hke1⟩ := hpf.trace
      rw [newEvents_eq hte1]
      rw [any_false_of_forall hke1 patchKind_not_buildcld,
        any_false_of_forall hke2 not_patchOnly_not_buildcld]
      rfl
    refine ⟨fun hx => ⟨?_, fun hu => ?_⟩, fun hx => ⟨?_, ?_⟩⟩
    · rw [← hLk hk1] at hx
      have hnone := hiff.mpr hx
      rw [newEvents_append hpf.extends hte2, List.any_append,
        any_false_of_forall (hdir hnone) isCurl_not_patchOnly,
        any_false_of_forall hke2 not_patchOnly]
      rfl
    · by_cases hst : r.status = FC_SUCCESS
      · obtain ⟨fn, d, cvd, e1, _, _, e4, _⟩ := hspec.2.2 hst
        rw [e4, e1]
      · rw [hspec.2.1 hst] at hu
        simp [UpdateResult.failed] at hu
    · rw [← hLk hk1] at hx
      have hsome : tmpdir ≠ none := by
        intro hn
        rcases hiff.mp hn with h0 | h0
        · exact hx.1 h0
        · rw [hx.2.1] at h0; cases h0
      obtain ⟨v, hv⟩ := htry hsome
      exact Or.inl (any_isDownloadPatch (mem_newEvents_of_foot hpf hev.1 hv))
    · intro hbb
      rw [hnb] at hbb
      cases hbb
  · have hfn : isAbs (database ++ ".cld") = false := isAbs_db_ext _ _ hs.db_rel (by decide)
    have hspec := updatedb_install_spec env cfg
      (check_for_new_database_version env cfg database dns server pm logerr w).1.localFilename
      tmpfile (some t) (database ++ ".cld") wp hta hfn
      (by intro x hx; cases hx; rw [hwc]; exact hdn)
    have hcw : isAbs wp.cwd = true := by rw [hwc]; exact hs.cwd_abs
    have hfoot : Foot (fun _ => true) isAbs (fun _ => true) wp
        (updatedb_install env cfg
          (check_for_new_database_version env cfg database dns server pm
            logerr w).1.localFilename tmpfile (some t) (database ++ ".cld") wp).2 :=
      updatedb_install_foot env cfg _ tmpfile (some t) (database ++ ".cld") wp
        (Foot.foot_refl _ _ _ wp) hta rfl rfl (pathOk_all _ _ hcw)
        (fun l _ => pathOk_all _ _ hcw) (by intro x hx; cases hx; exact hda)
        (fun _ _ => rfl) (fun _ _ _ => rfl)
    rw [← he] at hspec hfoot
    dsimp only at hspec hfoot
    refine ⟨fun hx => ?_, fun hx => ⟨Or.inr (any_isBuildcld (mem_newEvents_of_foot hpf hfoot hb)),
      fun _ hu => ?_⟩⟩
    · rw [← hLk hk1] at hx
      rcases hx with h0 | h0
      · exact absurd h0 hl0
      · rw [hsu] at h0; cases h0
    · by_cases hst : r.status = FC_SUCCESS
      · obtain ⟨d, cvd, _, _, e3, _⟩ := hspec.2.2 hst
        rw [e3]
      · rw [hspec.2.1 hst] at hu
        simp [UpdateResult.failed] at hu


theorem currentdb_sameFS (env : Env) (database : String) {w w1 : World} (h : SameFS w w1) :
    currentdb env database w1 = currentdb env database w := by
  have hl : ∀ q, lookupFile w1 q = lookupFile w q := by
    intro q; simp [lookupFile, h.1, h.2.1, h.2.2.1]
  have ha : ∀ q, access w1 q = access w q := by
    intro q; simp [access, hl, h.2.1]
  unfold currentdb cl_cvdhead
  simp only [hl, ha]


/-! ## The claims about `updatedb` -/

/-- C2 (amended): when a local database exists and the remote is resolved as
up to date (the oracle answers "not modified", or a remote version not above
the local version), `updatedb` returns success with `db_filename` equal to the
local file name, `updated = false`, and `signo` equal to 0: the signature count
of the local header is not reported on this path. -/
theorem updatedb_up_to_date (env : Env) (cfg : Config) (database : String)
    (dnsUpdateInfo : Option String) (server : String)
    (bPrivateMirror bScriptedUpdates logerr : Bool) (w : World) (l : cl_cvd × String)
    (hlocal : currentdb env database w = some l)
    (hremote :
      (query_remote_database_version env cfg database l.1.stime dnsUpdateInfo server
        bPrivateMirror logerr w).1.status = FC_UPTODATE ∨
      ((query_remote_database_version env cfg database l.1.stime dnsUpdateInfo server
        bPrivateMirror logerr w).1.status = FC_SUCCESS ∧
       (query_remote_database_version env cfg database l.1.stime dnsUpdateInfo server
        bPrivateMirror logerr w).1.remoteVersion ≤ l.1.version)) :
    updatedb env cfg database dnsUpdateInfo server bPrivateMirror bScriptedUpdates logerr w =
      some ({ status := FC_SUCCESS, signo := 0, dbFilename := some l.2, bUpdated := false },
        (query_remote_database_version env cfg database l.1.stime dnsUpdateInfo server
          bPrivateMirror logerr w).2) := by
  have hv := version_check_up_to_date l _ hremote
  simp only [updatedb, check_for_new_database_version, hlocal, Option.map_some',
    Option.getD_some]
  simp [hv.1, hv.2.1, hv.2.2]

set_option maxRecDepth 100000 in
/-- Witness for C2: a private mirror answers "not modified" for the local
`daily.cvd`. -/
theorem updatedb_up_to_date_witness :
    currentdb exEnv "daily" (exWorld [("daily.cvd", [100, 4, 1])]) =
      some ({ stime := 1000, version := 100, sigs := 4, fl := 0, builder := "" },
        "daily.cvd") ∧
    updatedb exEnv exCfg "daily" none "http://mirror" true true false
        (exWorld [("daily.cvd", [100, 4, 1])]) =
      some ({ status := FC_SUCCESS, signo := 0, dbFilename := some "daily.cvd",
              bUpdated := false },
        (query_remote_database_version exEnv exCfg "daily" 1000 none "http://mirror" true false
          (exWorld [("daily.cvd", [100, 4, 1])])).2) :=
  ⟨by decide,
    updatedb_up_to_date exEnv exCfg "daily" none "http://mirror" true true false
      (exWorld [("daily.cvd", [100, 4, 1])])
      ({ stime := 1000, version := 100, sigs := 4, fl := 0, builder := "" }, "daily.cvd")
      (by decide) (by decide)⟩

set_option maxRecDepth 100000 in
/-- Counterexample for C2: the local `daily.cvd` carries 4 signatures, the
mirror answers "not modified", and `updatedb` returns `signo = 0`. -/
theorem updatedb_up_to_date_signo_counterexample :
    (currentdb exEnv "daily" (exWorld [("daily.cvd", [100, 4, 1])])).map
      (fun l => (l.2, l.1.sigs)) = some ("daily.cvd", 4) ∧
    (remote_cvdhead exEnv exCfg "daily.cld" 1000 "http://mirror" false
      (exWorld [("daily.cvd", [100, 4, 1])])).1.1 = FC_UPTODATE ∧
    (updatedb exEnv exCfg "daily" none "http://mirror" true true false
      (exWorld [("daily.cvd", [100, 4, 1])])).map (fun p => p.1) =
      some { status := FC_SUCCESS, signo := 0, dbFilename := some "daily.cvd",
             bUpdated := false } := by
  decide

/-- C3 (amended): idempotence of `updatedb`.  If a first call succeeds, no
unparseable `<db>.cvd` shadows the database, a database that the first call
repacked from patches has at least the advertised version, and in the second
call the oracle answers "not modified" or a version not above the one resolved
by the first call (the server did not change), then the second call returns
success with `updated = false`, the `db_filename` of the first call, and
`signo = 0`; the first call returns the signature count of the installed
header as `signo` when it updated, so the two `signo` values agree only when
the first call was itself a no-op. -/
theorem updatedb_twice (env : Env) (cfg : Config) (database : String)
    (dns : Option String) (server : String) (pm su logerr : Bool) (w : World)
    (r1 : UpdateResult) (w1 : World) (hs : Sane env cfg database w)
    (hshort : database.length + 4 < DB_FILENAME_MAX)
    (hdirs0 : ∀ q, isAbs q = false → w.dirs q = none)
    (h1 : updatedb env cfg database dns server pm su logerr w = some (r1, w1))
    (hst : r1.status = FC_SUCCESS)
    (hparse : access w (database ++ ".cvd") = true →
      (cl_cvdhead env w (database ++ ".cvd")).isSome = true)
    (hrep : (newEvents w w1).any isBuildcld = true →
      ∀ l, currentdb env database w1 = some l →
        (check_for_new_database_version env cfg database dns server pm
          logerr w).1.remoteVersion ≤ l.1.version)
    (hsrv : ∀ l, currentdb env database w1 = some l →
      (query_remote_database_version env cfg database l.1.stime dns server pm
        logerr w1).1.status = FC_UPTODATE ∨
      ((query_remote_database_version env cfg database l.1.stime dns server pm
        logerr w1).1.status = FC_SUCCESS ∧
       (query_remote_database_version env cfg database l.1.stime dns server pm
        logerr w1).1.remoteVersion ≤
       (check_for_new_database_version env cfg database dns server pm
          logerr w).1.remoteVersion)) :
    (r1.bUpdated = false → r1.signo = 0) ∧
    ∃ w2, updatedb env cfg database dns server pm su logerr w1 =
      some ({ status := FC_SUCCESS, signo := 0, dbFilename := r1.dbFilename,
              bUpdated := false }, w2) := by
  have key : ∀ l, currentdb env database w1 = some l → r1.dbFilename = some l.2 →
      (check_for_new_database_version env cfg database dns server pm
          logerr w).1.remoteVersion ≤ l.1.version →
      ∃ w2, updatedb env cfg database dns server pm su logerr w1 =
        some ({ status := FC_SUCCESS, signo := 0, dbFilename := r1.dbFilename,
                bUpdated := false }, w2) := by
    intro l hl hfn hv
    refine ⟨(query_remote_database_version env cfg database l.1.stime dns server pm
      logerr w1).2, ?_⟩
    rw [hfn]
    apply updatedb_noop env cfg database dns server pm su logerr w1 l hl
    rcases hsrv l hl with hq | ⟨hq, hle⟩
    · exact Or.inl hq
    · exact Or.inr ⟨hq, le_trans hle hv⟩
  cases hu : r1.bUpdated with
  | false =>
    rcases updatedb_cases env cfg database dns server pm su logerr w r1 w1 hs h1 with
      ⟨_, _, hsucc, _, _⟩ | ⟨tmpfile, tmpdir, wp, t, he, hk1, _, hta, htl, htd, hda, hdn, hwc, _⟩ |
      ⟨tmpfile, t, wp, he, hk1, _, _, hta, hda, hdn, hwc, _⟩
    · obtain ⟨hfs, hsig, hfn, hsome, hk1, hle⟩ := hsucc hst
      have hloc := check_local env cfg database dns server pm logerr w hk1
      rw [hloc.1] at hfn hsome
      rw [hloc.2] at hle
      obtain ⟨l, hl⟩ : ∃ l, currentdb env database w = some l := by
        cases hc : currentdb env database w with
        | none => simp [hc] at hsome
        | some l => exact ⟨l, rfl⟩
      rw [hl] at hfn hle
      exact ⟨fun _ => hsig,
        key l (by rw [currentdb_sameFS env database hfs, hl]) hfn (by simpa using hle)⟩
    · have hrel : ∀ fn, (check_for_new_database_version env cfg database dns server pm
          logerr w).1.remoteFilename = some fn → isAbs fn = false :=
        fun fn hfn => (check_remoteFilename_rel env cfg database dns server pm logerr w hs.db_rel
          hk1 fn hfn).2
      have hspec := updatedb_full_spec env cfg server logerr _ tmpfile tmpdir wp hta htl hrel
        (by intro x hx; rw [htd x hx, hwc]; exact hdn)
      rw [← he] at hspec
      dsimp only at hspec
      obtain ⟨fn, d, cvd, _, _, _, e4, _⟩ := hspec.2.2 hst
      rw [e4] at hu
      cases hu
    · have hspec := updatedb_install_spec env cfg
        (check_for_new_database_version env cfg database dns server pm logerr w).1.localFilename
        tmpfile (some t) (database ++ ".cld") wp hta (isAbs_db_ext _ _ hs.db_rel (by decide))
        (by intro x hx; cases hx; rw [hwc]; exact hdn)
      rw [← he] at hspec
      dsimp only at hspec
      obtain ⟨d, cvd, _, _, e3, _⟩ := hspec.2.2 hst
      rw [e3] at hu
      cases hu
  | true =>
    obtain ⟨fn, d, cvd, e1, e2, e3, e4, e5, e6, e7, e8⟩ :=
      updatedb_installed env cfg database dns server pm su logerr w r1 w1 hs h1 hst hu
    have hloc := (check_local env cfg database dns server pm logerr w e5).1
    have hfn : fn = database ++ ".cvd" ∨ fn = database ++ ".cld" := by
      rcases e8 with ⟨hrf, _⟩ | ⟨hrf, _⟩
      · exact installed_name env cfg database dns server pm logerr w hs.db_rel hshort e5 fn hrf
      · exact Or.inr hrf
    have hcur := currentdb_after_install env database w w1 _ fn d cvd hshort hfn hs.db_rel e2
      hloc e6 (fun q hq => by rw [e7 q hq, hdirs0 q hq]) hdirs0 hparse
    refine ⟨fun hx => absurd hx (by simp), ?_⟩
    apply key (cvd, fn) hcur (by rw [e1])
    rcases e8 with ⟨_, hv, _, _⟩ | ⟨_, _, _, x, hx⟩
    · exact hv
    · exact hrep (any_isBuildcld hx) _ hcur

set_option maxRecDepth 100000 in
/-- Witness for C3: a fresh install of `main` followed by a second call. -/
theorem updatedb_twice_witness :
    Sane exEnv exCfg "main" (exWorld []) ∧
    updatedb exEnv exCfg "main" (some exDns) "http://db" false true false (exWorld []) =
      some (outcome (exWorld []) (updatedb exEnv exCfg "main" (some exDns) "http://db" false true
        false (exWorld []))) ∧
    (outcome (exWorld []) (updatedb exEnv exCfg "main" (some exDns) "http://db" false true
        false (exWorld []))).1.status = FC_SUCCESS ∧
    ((outcome (exWorld []) (updatedb exEnv exCfg "main" (some exDns) "http://db" false true
        false (exWorld []))).1.bUpdated = false →
      (outcome (exWorld []) (updatedb exEnv exCfg "main" (some exDns) "http://db" false true
        false (exWorld []))).1.signo = 0) ∧
    ∃ w2, updatedb exEnv exCfg "main" (some exDns) "http://db" false true false
        (outcome (exWorld []) (updatedb exEnv exCfg "main" (some exDns) "http://db" false true
          false (exWorld []))).2 =
      some ({ status := FC_SUCCESS, signo := 0,
              dbFilename := (outcome (exWorld []) (updatedb exEnv exCfg "main" (some exDns)
                "http://db" false true false (exWorld []))).1.dbFilename,
              bUpdated := false }, w2) :=
  ⟨exSane "main" [] (by decide), some_outcome (exWorld []) _ (by decide), by decide,
    updatedb_twice exEnv exCfg "main" (some exDns) "http://db" false true false (exWorld [])
      _ _ (exSane "main" [] (by decide)) (by decide) (exWorld_dirs [])
      (some_outcome (exWorld []) _ (by decide)) (by decide) (by decide)
      (fun hb => absurd hb (by decide))
      (fun l hl => by
        have hc : currentdb exEnv "main" (outcome (exWorld []) (updatedb exEnv exCfg "main"
            (some exDns) "http://db" false true false (exWorld []))).2 =
            some ({ stime := 1000, version := 27, sigs := 5, fl := 0, builder := "" },
              "main.cvd") := by decide
        rw [hc] at hl
        cases hl
        exact Or.inr ⟨by decide, by decide⟩)⟩

set_option maxRecDepth 100000 in
/-- Counterexample for C3: with an unchanged server, the fresh install of `main`
returns `("main.cvd", 5)` with `updated = true` and the second call returns
`("main.cvd", 0)` with `updated = false`, so the two pairs differ; and after an
update of `daily` that repacked an archive of version 5 while the server
advertises 101, the second call does not come back with `updated = false` and
the same pair but fails. -/
theorem updatedb_twice_counterexample :
    (updatedb exEnv exCfg "main" (some exDns) "http://db" false true false (exWorld [])).map
      (fun p => (p.1, (updatedb exEnv exCfg "main" (some exDns) "http://db" false true false
        p.2).map (fun q => q.1))) =
    some ({ status := FC_SUCCESS, signo := 5, dbFilename := some "main.cvd", bUpdated := true },
      some { status := FC_SUCCESS, signo := 0, dbFilename := some "main.cvd",
             bUpdated := false }) ∧
    (updatedb exEnv exCfg "daily" (some "0:1:101") "http://old" false true false
      (exWorld [("daily.cvd", [100, 4, 1])])).map
      (fun p => (p.1.status, p.1.bUpdated, p.1.dbFilename,
        (updatedb exEnv exCfg "daily" (some "0:1:101") "http://old" false true false
          p.2).map (fun q => q.1))) =
    some (FC_SUCCESS, true, some "daily.cld", some (UpdateResult.failed FC_EFAILEDGET)) := by
  decide

set_option maxRecDepth 100000 in
/-- C4: the code at the failing input.  The local `daily.cvd` has version 100,
the server advertises 101 and its patch leaves a `.info` header that does not
parse: `updatedb` returns the error `FC_EFILE` although it has already renamed
the repacked file to `daily.cld` and unlinked `daily.cvd`, so the previously
installed file no longer exists. -/
theorem updatedb_fails_after_replacing :
    lookupFile (exWorld [("daily.cvd", [100, 4, 1])]) "daily.cvd" = some [100, 4, 1] ∧
    (updatedb exEnv exCfg "daily" (some "0:1:101") "http://bad" false true false
      (exWorld [("daily.cvd", [100, 4, 1])])).map
      (fun p => (p.1.status, lookupFile p.2 "daily.cvd", (lookupFile p.2 "daily.cld").isSome)) =
    some (FC_EFILE, none, true) := by
  decide

set_option maxRecDepth 100000 in
/-- Counterexample for C5: the scripted update of `daily` from version 100 to
102 installs the repacked `daily.cld` by a rename, and no run of the verifier
`cl_cvdverify` occurs anywhere in the call. -/
theorem updatedb_install_unverified_counterexample :
    (updatedb exEnv exCfg "daily" (some exDns) "http://db" false true false
      (exWorld [("daily.cvd", [100, 4, 1])])).map
      (fun p => (p.1.status, p.1.bUpdated, p.1.dbFilename,
        p.2.trace.any (installsAs "daily.cld"), p.2.trace.any isVerify)) =
    some (FC_SUCCESS, true, some "daily.cld", true, false) := by
  decide

set_option maxRecDepth 100000 in
/-- Counterexample for C7: the local `daily.cvd` has version 100; the patch
served for version 101 is applied with success and leaves a `.info` header of
version 5, and `updatedb` returns success with `updated = true` after
installing a `daily.cld` of version 5. -/
theorem updatedb_version_counterexample :
    (currentdb exEnv "daily" (exWorld [("daily.cvd", [100, 4, 1])])).map
      (fun l => l.1.version) = some 100 ∧
    (updatedb exEnv exCfg "daily" (some "0:1:101") "http://old" false true false
      (exWorld [("daily.cvd", [100, 4, 1])])).map
      (fun p => (p.1.status, p.1.bUpdated, p.1.dbFilename,
        (cl_cvdhead exEnv p.2 "daily.cld").map (fun c => c.version))) =
    some (FC_SUCCESS, true, some "daily.cld", some 5) := by
  decide

set_option maxRecDepth 100000 in
/-- C8: the code at the failing input (the defect of C4).  The run renames the
repacked archive to `daily.cld`, so a new archive is installed, and returns
`FC_EFILE` with `updated = false`, no `db_filename` and `signo = 0`. -/
theorem updatedb_installs_and_fails :
    (updatedb exEnv exCfg "daily" (some "0:1:101") "http://bad" false true false
      (exWorld [("daily.cvd", [100, 4, 1])])).map
      (fun p => (p.1, p.2.trace.any (installsAs "daily.cld"))) =
    some (UpdateResult.failed FC_EFILE, true) := by
  decide

set_option maxRecDepth 100000 in
/-- Witness for C9: the scripted update of `daily` from version 100 to 102
starts patch downloads. -/
theorem updatedb_path_choice_witness :
    Sane exEnv exCfg "daily" (exWorld [("daily.cvd", [100, 4, 1])]) ∧
    updatedb exEnv exCfg "daily" (some exDns) "http://db" false true false
        (exWorld [("daily.cvd", [100, 4, 1])]) =
      some (outcome (exWorld []) (updatedb exEnv exCfg "daily" (some exDns) "http://db" false
        true false (exWorld [("daily.cvd", [100, 4, 1])]))) ∧
    ((newEvents (exWorld [("daily.cvd", [100, 4, 1])])
        (outcome (exWorld []) (updatedb exEnv exCfg "daily" (some exDns) "http://db" false
          true false (exWorld [("daily.cvd", [100, 4, 1])]))).2).any isDownloadPatch = true ∨
     (newEvents (exWorld [("daily.cvd", [100, 4, 1])])
        (outcome (exWorld []) (updatedb exEnv exCfg "daily" (some exDns) "http://db" false
          true false (exWorld [("daily.cvd", [100, 4, 1])]))).2).any isBuildcld = true) :=
  ⟨exSane "daily" _ (by decide), some_outcome (exWorld []) _ (by decide),
    ((updatedb_path_choice exEnv exCfg "daily" (some exDns) "http://db" false true false
      (exWorld [("daily.cvd", [100, 4, 1])]) _ _ (exSane "daily" _ (by decide))
      (some_outcome (exWorld []) _ (by decide))).2
        ⟨by decide, rfl, by decide, by decide, fun n => rfl⟩).1⟩

set_option maxRecDepth 100000 in
/-- Counterexample for C9: a local `daily.cvd` exists, with header version 0,
and scripted updates are enabled; the call takes the full download (no event
of the incremental path occurs) and installs `daily.cvd`. -/
theorem updatedb_path_choice_counterexample :
    (currentdb exEnv "daily" (exWorld [("daily.cvd", [0, 4, 1])])).map
      (fun l => (l.2, l.1.version)) = some ("daily.cvd", 0) ∧
    (updatedb exEnv exCfg "daily" (some exDns) "http://db" false true false
      (exWorld [("daily.cvd", [0, 4, 1])])).map
      (fun p => (p.1.status, p.1.bUpdated, p.1.dbFilename, p.2.trace.any patchOnly)) =
    some (FC_SUCCESS, true, some "daily.cvd", false) := by
  decide

set_option maxRecDepth 100000 in
/-- C10: the code at the failing input.  With `g_maxAttempts = 0`, local
version 100 and remote version 102, no patch is downloaded or applied, yet the
patch loop ends with success and the repacker is started (it fails, and
`updatedb` returns `FC_EFAILEDUPDATE`). -/
theorem updatedb_repacks_without_patches :
    (currentdb exEnv "daily" (exWorld [("daily.cvd", [100, 4, 1])])).map
      (fun l => l.1.version) = some 100 ∧
    (updatedb exEnv { exCfg with g_maxAttempts := 0 } "daily" (some exDns) "http://db" false true
      false (exWorld [("daily.cvd", [100, 4, 1])])).map (fun p => (p.1.status, p.2.trace)) =
    some (FC_EFAILEDUPDATE, [Event.buildcld "/tmp/clamav-1.tmp", Event.unlink "/tmp/clamav-0.tmp",
      Event.unlink "/tmp/clamav-0.tmp"]) := by
  decide

/-! ## The version oracle -/

theorem toUInt32_natCast (v : Nat) (h : v < UINT_SIZE) : toUInt32 (v : Int) = v := by
  unfold toUInt32
  have : ((v : Int) % (UINT_SIZE : Int)) = (v : Int) :=
    Int.emod_eq_of_lt (Int.natCast_nonneg v) (by exact_mod_cast h)
  rw [this]
  exact Int.toNat_natCast v

theorem textrecordfield_official (database : String)
    (hdb : database = "main" ∨ database = "daily" ∨ database = "safebrowsing" ∨
      database = "bytecode") :
    textrecordfield database ≠ 0 ∧ snprintf DB_FILENAME_MAX (database ++ ".cvd") = database ++ ".cvd" := by
  rcases hdb with h | h | h | h <;> subst h <;>
    exact ⟨by decide, snprintf_short _ _ (by decide)⟩

/-- C15: on an official mirror with a primary record, for a database among
`main`, `daily`, `safebrowsing` and `bytecode` whose field of the record is a
digit string denoting a positive `v` below `2 ^ 31`, the oracle returns
success with version `v` and remote file name `<db>.cvd`, and leaves the world
as it was: no header probe is made. -/
theorem query_primary_dns (env : Env) (cfg : Config) (database : String) (ims : Nat)
    (info server : String) (logerr : Bool) (w : World) (s : String) (v : Nat)
    (hdb : database = "main" ∨ database = "daily" ∨ database = "safebrowsing" ∨
      database = "bytecode")
    (hfield : env.cli_strtok info (textrecordfield database) = some s)
    (hnum : env.cli_isnumber s = true) (hval : env.atoi s = (v : Int))
    (hpos : 0 < v) (hlt : v < 2147483648) :
    query_remote_database_version env cfg database ims (some info) server false logerr w =
      ({ status := FC_SUCCESS, remoteVersion := v,
         remoteFilename := some (database ++ ".cvd") }, w) := by
  obtain ⟨hf, hn⟩ := textrecordfield_official database hdb
  have hv : toUInt32 (v : Int) = v := toUInt32_natCast v (by unfold UINT_SIZE; omega)
  have hp : dns_primary_version env database info = v := by
    unfold dns_primary_version
    simp only [hf, if_false, hfield, hnum, Bool.not_true, Bool.false_eq_true, hval, hv]
  have hd : dns_version env database (some info) false = v := by
    unfold dns_version
    simp only [hp]
    rw [if_neg (by omega)]
  unfold query_remote_database_version
  simp only [hd, hn]
  rw [if_neg (by omega)]

/-- Witness for C15: the record `0.100.0:27:102` gives `daily` the version 102. -/
theorem query_primary_dns_witness :
    query_remote_database_version exEnv exCfg "daily" 0 (some exDns) "http://db" false false
        (exWorld []) =
      ({ status := FC_SUCCESS, remoteVersion := 102, remoteFilename := some ("daily" ++ ".cvd") },
        exWorld []) :=
  query_primary_dns exEnv exCfg "daily" 0 exDns "http://db" false (exWorld []) "102" 102
    (by decide) (by decide) (by decide) (by decide) (by decide) (by decide)

theorem create_curl_handle_spec (env : Env) (cfg : Config) (b1 b2 : Bool) :
    ((create_curl_handle env cfg b1 b2).2 = false →
      (create_curl_handle env cfg b1 b2).1 ≠ FC_SUCCESS) ∧
    ((create_curl_handle env cfg b1 b2).2 = true →
      (create_curl_handle env cfg b1 b2).1 = FC_SUCCESS) := by
  unfold create_curl_handle
  repeat' split
  all_goals exact ⟨by simp, by simp⟩

theorem remote_cvdhead_header (env : Env) (cfg : Config) (cvdfile : String) (ims : Nat)
    (server : String) (logerr : Bool) (w : World) :
    ((remote_cvdhead env cfg cvdfile ims server logerr w).1.1 = FC_SUCCESS →
      ∃ hd, (remote_cvdhead env cfg cvdfile ims server logerr w).1 = (FC_SUCCESS, some hd)) ∧
    ((remote_cvdhead env cfg cvdfile ims server logerr w).1.1 ≠ FC_SUCCESS →
      (remote_cvdhead env cfg cvdfile ims server logerr w).1.2 = none) := by
  unfold remote_cvdhead
  dsimp only
  have hh := create_curl_handle_spec env cfg (isHttp server) true
  generalize create_curl_handle env cfg (isHttp server) true = h at hh
  split
  · next hb =>
    have hb : h.2 = false := by simpa using hb
    exact ⟨fun hs => absurd hs (hh.1 hb), fun _ => rfl⟩
  · split
    · exact ⟨fun hs => absurd hs (by simp), fun _ => rfl⟩
    · repeat' split
      all_goals first
        | exact ⟨fun hs => absurd hs (by simp), fun _ => rfl⟩
        | exact ⟨fun _ => ⟨_, rfl⟩, fun hs => absurd rfl hs⟩

theorem query_of_probe (p : fc_error_t × Option cl_cvd) (name : String) (w : World)
    (h1 : p.1 = FC_SUCCESS → ∃ hd, p = (FC_SUCCESS, some hd))
    (h2 : p.1 ≠ FC_SUCCESS → p.2 = none) :
    (match p.1, p.2 with
      | FC_SUCCESS, some remote => (RemoteVersion.mk FC_SUCCESS remote.version (some name), w)
      | ret, _ => (RemoteVersion.mk ret 0 none, w)) =
    (RemoteVersion.mk p.1 ((p.2.map (fun hd => hd.version)).getD 0) (p.2.map (fun _ => name)),
      w) := by
  obtain ⟨st, hd⟩ := p
  by_cases hs : st = FC_SUCCESS
  · obtain ⟨hd1, e⟩ := h1 hs
    cases e
    rfl
  · have : hd = none := h2 hs
    subst this
    cases st <;> rfl

theorem query_http_header (env : Env) (cfg : Config) (a b : String) (ims : Nat)
    (server : String) (pm logerr : Bool) (w : World) :
    ((query_http env cfg a b ims server pm logerr w).1.1.1 = FC_SUCCESS →
      ∃ hd, (query_http env cfg a b ims server pm logerr w).1.1 = (FC_SUCCESS, some hd)) ∧
    ((query_http env cfg a b ims server pm logerr w).1.1.1 ≠ FC_SUCCESS →
      (query_http env cfg a b ims server pm logerr w).1.1.2 = none) := by
  unfold query_http
  split
  · dsimp only
    split
    · exact remote_cvdhead_header env cfg b ims server logerr w
    · exact remote_cvdhead_header env cfg a ims server logerr _
  · exact remote_cvdhead_header env cfg a ims server logerr w

theorem query_http_eq (env : Env) (cfg : Config) (database : String) (ims : Nat)
    (dns : Option String) (server : String) (pm logerr : Bool) (w : World)
    (hshort : database.length + 4 < DB_FILENAME_MAX)
    (hdns : dns_version env database dns pm = 0) :
    query_remote_database_version env cfg database ims dns server pm logerr w =
      (RemoteVersion.mk
        (query_http env cfg (database ++ ".cvd") (database ++ ".cld") ims server pm logerr w).1.1.1
        (((query_http env cfg (database ++ ".cvd") (database ++ ".cld") ims server pm logerr
          w).1.1.2.map (fun hd => hd.version)).getD 0)
        ((query_http env cfg (database ++ ".cvd") (database ++ ".cld") ims server pm logerr
          w).1.1.2.map (fun _ =>
            if (query_http env cfg (database ++ ".cvd") (database ++ ".cld") ims server pm logerr
              w).1.2 then database ++ ".cld" else database ++ ".cvd")),
        (query_http env cfg (database ++ ".cvd") (database ++ ".cld") ims server pm logerr
          w).2) := by
  have h1 : snprintf DB_FILENAME_MAX (database ++ ".cvd") = database ++ ".cvd" :=
    snprintf_short _ _ (by rw [String.length_append]; exact hshort)
  have h2 : snprintf DB_FILENAME_MAX (database ++ ".cld") = database ++ ".cld" :=
    snprintf_short _ _ (by rw [String.length_append]; exact hshort)
  unfold query_remote_database_version
  simp only [h1, h2, hdns, if_true]
  generalize database ++ ".cvd" = a
  generalize database ++ ".cld" = b
  have hx := query_http_header env cfg a b ims server pm logerr w
  generalize query_http env cfg a b ims server pm logerr w = x at hx
  exact query_of_probe x.1.1 _ x.2 hx.1 hx.2

theorem dns_version_private (env : Env) (database : String) (dns : Option String) :
    dns_version env database dns true = 0 := by
  unfold dns_version
  rfl

/-- C16: the HTTP fallback of the oracle, for a database name that the file
name buffers hold in full.  On a private mirror `<db>.cld` is probed first: a
header gives its version and `<db>.cld`; a 304 gives up_to_date, and the
world is the one the CLD probe left, so `<db>.cvd` is not probed; any other
outcome is followed by a probe of `<db>.cvd` whose outcome is the answer, with
the file name `<db>.cvd`.  On an official mirror for which DNS yields no
version only `<db>.cvd` is probed.  The remote file name is `<db>.cld` exactly
when the mirror is private and its CLD probe succeeded. -/
theorem query_http_fallback (env : Env) (cfg : Config) (database : String) (ims : Nat)
    (dns : Option String) (server : String) (pm logerr : Bool) (w : World)
    (hshort : database.length + 4 < DB_FILENAME_MAX) :
    (pm = true →
      (∀ hd, (remote_cvdhead env cfg (database ++ ".cld") ims server logerr w).1 =
          (FC_SUCCESS, some hd) →
        query_remote_database_version env cfg database ims dns server pm logerr w =
          ({ status := FC_SUCCESS, remoteVersion := hd.version, remoteFilename := some (database ++ ".cld") },
            (remote_cvdhead env cfg (database ++ ".cld") ims server logerr w).2)) ∧
      ((remote_cvdhead env cfg (database ++ ".cld") ims server logerr w).1.1 = FC_UPTODATE →
        query_remote_database_version env cfg database ims dns server pm logerr w =
          ({ status := FC_UPTODATE, remoteVersion := 0, remoteFilename := none },
            (remote_cvdhead env cfg (database ++ ".cld") ims server logerr w).2)) ∧
      ((remote_cvdhead env cfg (database ++ ".cld") ims server logerr w).1.1 ≠ FC_SUCCESS →
        (remote_cvdhead env cfg (database ++ ".cld") ims server logerr w).1.1 ≠ FC_UPTODATE →
        query_remote_database_version env cfg database ims dns server pm logerr w =
          (probe_answer (remote_cvdhead env cfg (database ++ ".cvd") ims server logerr
              (remote_cvdhead env cfg (database ++ ".cld") ims server logerr w).2).1
              (database ++ ".cvd"),
            (remote_cvdhead env cfg (database ++ ".cvd") ims server logerr
              (remote_cvdhead env cfg (database ++ ".cld") ims server logerr w).2).2))) ∧
    (pm = false → dns_version env database dns false = 0 →
      query_remote_database_version env cfg database ims dns server pm logerr w =
        (probe_answer (remote_cvdhead env cfg (database ++ ".cvd") ims server logerr w).1
            (database ++ ".cvd"),
          (remote_cvdhead env cfg (database ++ ".cvd") ims server logerr w).2)) ∧
    ((query_remote_database_version env cfg database ims dns server pm logerr w).1.remoteFilename
        = some (database ++ ".cld") ↔
      pm = true ∧
        (remote_cvdhead env cfg (database ++ ".cld") ims server logerr w).1.1 = FC_SUCCESS) := by
  have hne := cvd_ne_cld database
  have hcld := remote_cvdhead_header env cfg (database ++ ".cld") ims server logerr w
  have hpriv : pm = true →
      query_remote_database_version env cfg database ims dns server pm logerr w =
        (if (remote_cvdhead env cfg (database ++ ".cld") ims server logerr w).1.1 = FC_SUCCESS ∨
            (remote_cvdhead env cfg (database ++ ".cld") ims server logerr w).1.1 = FC_UPTODATE
          then (probe_answer (remote_cvdhead env cfg (database ++ ".cld") ims server logerr w).1
              (database ++ ".cld"),
            (remote_cvdhead env cfg (database ++ ".cld") ims server logerr w).2)
          else (probe_answer (remote_cvdhead env cfg (database ++ ".cvd") ims server logerr
              (remote_cvdhead env cfg (database ++ ".cld") ims server logerr w).2).1
              (database ++ ".cvd"),
            (remote_cvdhead env cfg (database ++ ".cvd") ims server logerr
              (remote_cvdhead env cfg (database ++ ".cld") ims server logerr w).2).2)) := by
    intro hpm
    subst hpm
    rw [query_http_eq env cfg database ims dns server true logerr w hshort
      (dns_version_private env database dns)]
    unfold query_http probe_answer
    simp only [if_true]
    split <;> rfl
  have hoff : pm = false → dns_version env database dns false = 0 →
      query_remote_database_version env cfg database ims dns server pm logerr w =
        (probe_answer (remote_cvdhead env cfg (database ++ ".cvd") ims server logerr w).1
            (database ++ ".cvd"),
          (remote_cvdhead env cfg (database ++ ".cvd") ims server logerr w).2) := by
    intro hpm hd
    subst hpm
    rw [query_http_eq env cfg database ims dns server false logerr w hshort hd]
    unfold query_http probe_answer
    simp
  refine ⟨fun hpm => ⟨?_, ?_, ?_⟩, hoff, ?_⟩
  · intro hd he
    rw [hpriv hpm, he]
    simp [probe_answer]
  · intro he
    rw [hpriv hpm, if_pos (Or.inr he)]
    have := hcld.2 (by rw [he]; decide)
    unfold probe_answer
    rw [this, he]
    rfl
  · intro h1 h2
    rw [hpriv hpm, if_neg (by simp [h1, h2])]
  · cases pm with
    | true =>
      rw [hpriv rfl]
      generalize remote_cvdhead env cfg (database ++ ".cld") ims server logerr w = p at hcld
      generalize remote_cvdhead env cfg (database ++ ".cvd") ims server logerr p.2 = p2
      split
      · next hs =>
        constructor
        · intro hf
          refine ⟨rfl, ?_⟩
          by_contra hns
          have := hcld.2 hns
          simp [probe_answer, this] at hf
        · intro hs2
          obtain ⟨hd, e⟩ := hcld.1 hs2.2
          simp [probe_answer, e]
      · next hs =>
        constructor
        · intro hf
          exfalso
          unfold probe_answer at hf
          dsimp only at hf
          cases hx : p2.1.2 with
          | none => rw [hx] at hf; simp at hf
          | some c => rw [hx] at hf; simp at hf; exact hne hf
        · intro hs2
          exact absurd (Or.inl hs2.2) hs
    | false =>
      constructor
      · intro hf
        exfalso
        by_cases hd : dns_version env database dns false = 0
        · rw [hoff rfl hd] at hf
          unfold probe_answer at hf
          dsimp only at hf
          cases hx : (remote_cvdhead env cfg (database ++ ".cvd") ims server logerr w).1.2 with
          | none => rw [hx] at hf; simp at hf
          | some c => rw [hx] at hf; simp at hf; exact hne hf
        · have h1 : snprintf DB_FILENAME_MAX (database ++ ".cvd") = database ++ ".cvd" :=
            snprintf_short _ _ (by rw [String.length_append]; exact hshort)
          unfold query_remote_database_version at hf
          simp only [h1, hd, if_false] at hf
          exact hne (Option.some.inj hf)
      · intro hs2
        exact absurd hs2.1 (by simp)

/-- Witness for C16: the private mirror answers 304 to the probe of
`daily.cld`; the oracle reports up_to_date after that single probe. -/
theorem query_http_fallback_witness :
    "daily".length + 4 < DB_FILENAME_MAX ∧
    (remote_cvdhead exEnv exCfg ("daily" ++ ".cld") 1000 "http://mirror" false
      (exWorld [])).1.1 = FC_UPTODATE ∧
    query_remote_database_version exEnv exCfg "daily" 1000 none "http://mirror" true false
        (exWorld []) =
      ({ status := FC_UPTODATE, remoteVersion := 0, remoteFilename := none },
        (remote_cvdhead exEnv exCfg ("daily" ++ ".cld") 1000 "http://mirror" false
          (exWorld [])).2) :=
  ⟨by decide, by decide,
    ((query_http_fallback exEnv exCfg "daily" 1000 none "http://mirror" true false (exWorld [])
      (by decide)).1 rfl).2.1 (by decide)⟩

theorem query_of_dns_version (env : Env) (cfg : Config) (database : String) (ims : Nat)
    (dns : Option String) (server : String) (pm logerr : Bool) (w : World)
    (h : dns_version env database dns pm = 0) :
    query_remote_database_version env cfg database ims dns server pm logerr w =
      query_remote_database_version env cfg database ims none server pm logerr w := by
  have h0 : dns_version env database none pm = 0 := by
    unfold dns_version
    cases pm <;> rfl
  unfold query_remote_database_version
  simp only [h, h0]

/-- C17 (amended): when the primary record yields no version and the
per-database TXT record has a recordtime field, the version of that record is
used only if the record is not older than 10,800 seconds, that is if
`time - recordtime ≤ 10800` (computed without overflow): an older record
yields no version and the oracle answers as it does without any DNS
information, by the HTTP probe; a record that is not older, be its recordtime
in the past or in the future, gives the version in its first field and no
probe is made. -/
theorem dns_extra_freshness (env : Env) (cfg : Config) (database : String) (ims : Nat)
    (info server : String) (logerr : Bool) (w : World) (reply recordTimeStr : String)
    (hprim : dns_primary_version env database info = 0)
    (hq : env.dnsquery (database ++ ".cvd.clamav.net") = some reply)
    (ht : env.cli_strtok reply env.DNS_EXTRADBINFO_RECORDTIME = some recordTimeStr)
    (_hint : -2147483648 ≤ env.time - env.atoi recordTimeStr ∧
      env.time - env.atoi recordTimeStr < 2147483648) :
    (10800 < env.time - env.atoi recordTimeStr →
      dns_extra_version env database = 0 ∧
      query_remote_database_version env cfg database ims (some info) server false logerr w =
        query_remote_database_version env cfg database ims none server false logerr w) ∧
    (dns_extra_version env database ≠ 0 → env.time - env.atoi recordTimeStr ≤ 10800) ∧
    (env.time - env.atoi recordTimeStr ≤ 10800 →
      ∀ s, env.cli_strtok reply 0 = some s → env.cli_isnumber s = true →
        toUInt32 (env.atoi s) ≠ 0 →
        query_remote_database_version env cfg database ims (some info) server false logerr w =
          ({ status := FC_SUCCESS, remoteVersion := toUInt32 (env.atoi s),
             remoteFilename := some (snprintf DB_FILENAME_MAX (database ++ ".cvd")) }, w)) := by
  have hstale : 10800 < env.time - env.atoi recordTimeStr → dns_extra_version env database = 0 := by
    intro h
    unfold dns_extra_version
    simp only [hq, ht]
    rw [if_pos (by omega)]
  refine ⟨fun h => ⟨hstale h, ?_⟩, ?_, ?_⟩
  · apply query_of_dns_version
    unfold dns_version
    simp only [hprim, if_true]
    exact hstale h
  · intro hne
    by_contra hc
    exact hne (hstale (by omega))
  · intro hfresh s hs hnum hv
    have he : dns_extra_version env database = toUInt32 (env.atoi s) := by
      unfold dns_extra_version
      simp only [hq, ht, hs, hnum]
      rw [if_neg (by omega)]
      simp
    have hd : dns_version env database (some info) false = toUInt32 (env.atoi s) := by
      unfold dns_version
      simp only [hprim, if_true]
      exact he
    unfold query_remote_database_version
    simp only [hd]
    rw [if_neg hv]

/-- Witness for C17: a record stamped four hours ago is not used. -/
theorem dns_extra_freshness_witness :
    dns_primary_version (exEnvDns "105:1699985600" 1700000000) "extra" exDns = 0 ∧
    10800 < (exEnvDns "105:1699985600" 1700000000).time -
        (exEnvDns "105:1699985600" 1700000000).atoi "1699985600" ∧
    dns_extra_version (exEnvDns "105:1699985600" 1700000000) "extra" = 0 ∧
    query_remote_database_version (exEnvDns "105:1699985600" 1700000000) exCfg "extra" 0
        (some exDns) "http://db" false false (exWorld []) =
      query_remote_database_version (exEnvDns "105:1699985600" 1700000000) exCfg "extra" 0
        none "http://db" false false (exWorld []) :=
  ⟨by decide, by decide,
    (dns_extra_freshness (exEnvDns "105:1699985600" 1700000000) exCfg "extra" 0 exDns "http://db"
      false (exWorld []) "105:1699985600" "1699985600" (by decide) (by decide) (by decide)
      (by decide)).1 (by decide)⟩

set_option maxRecDepth 100000 in
/-- Counterexample for C17: a record whose recordtime lies four hours in the
future differs from the current time by more than 10,800 seconds, and its
version is used all the same: the oracle answers 105 without any probe. -/
theorem dns_extra_future_counterexample :
    (exEnvDns "105:1700014400" 1700000000).cli_strtok "105:1700014400"
        (exEnvDns "105:1700014400" 1700000000).DNS_EXTRADBINFO_RECORDTIME = some "1700014400" ∧
    10800 < (exEnvDns "105:1700014400" 1700000000).atoi "1700014400" -
        (exEnvDns "105:1700014400" 1700000000).time ∧
    (query_remote_database_version (exEnvDns "105:1700014400" 1700000000) exCfg "extra" 0
        (some exDns) "http://db" false false (exWorld [])).1 =
      { status := FC_SUCCESS, remoteVersion := 105, remoteFilename := some "extra.cvd" } ∧
    (query_remote_database_version (exEnvDns "105:1700014400" 1700000000) exCfg "extra" 0
        (some exDns) "http://db" false false (exWorld [])).2.nreq = 0 := by
  decide

/-! ## The header probe and the fetcher -/

theorem any_take_of_getElem (body : Content) (n i : Nat) (b : UInt8) (hi : i < n)
    (hb : body[i]? = some b) (p : UInt8 → Bool) (hp : p b = true) :
    (body.take n).any p = true := by
  rw [List.any_eq_true]
  refine ⟨b, ?_, hp⟩
  rw [List.mem_iff_getElem?]
  exact ⟨i, by rw [List.getElem?_take_of_lt hi]; exact hb⟩

theorem any_take_false (body : Content) (n : Nat) (p : UInt8 → Bool)
    (h : ∀ i b, i < n → body[i]? = some b → p b = false) :
    (body.take n).any p = false := by
  rw [List.any_eq_false]
  intro x hx
  rw [List.mem_iff_getElem?] at hx
  obtain ⟨i, hi⟩ := hx
  have hlt : i < n := by
    by_contra hc
    have : (List.take n body)[i]? = none := by
      rw [List.getElem?_eq_none_iff]
      have := List.length_take_le n body
      omega
    rw [this] at hi
    cases hi
  rw [List.getElem?_take_of_lt hlt] at hi
  simpa using h i x hlt hi

/-- C18: for a response with code 200 or 206, `remote_cvdhead` fails with
failed_get and hands back no header when the body is shorter than 512 bytes
or one of its first 512 bytes is not printable, a NUL in particular; when all
of the first 512 bytes are printable, exactly these 512 bytes go to the header
parser, and its success or failure is the result. -/
theorem remote_cvdhead_validation (env : Env) (cfg : Config) (cvdfile : String) (ims : Nat)
    (server : String) (logerr : Bool) (w : World) (code : Nat) (body : Content)
    (hh : (create_curl_handle env cfg (isHttp server) true).2 = true)
    (hp : env.curl_easy_perform w.nreq
      { url := server ++ "/" ++ cvdfile, bHttp := isHttp server, bAllowRedirect := true,
        ifModifiedSince := ims, range := some "0-511" } = CurlResult.http code body)
    (hc : code = 200 ∨ code = 206) :
    (body.length < 512 →
      (remote_cvdhead env cfg cvdfile ims server logerr w).1 = (FC_EFAILEDGET, none)) ∧
    (∀ i b, i < 512 → body[i]? = some b → isprint b = false →
      (remote_cvdhead env cfg cvdfile ims server logerr w).1 = (FC_EFAILEDGET, none)) ∧
    (∀ i, i < 512 → body[i]? = some 0 →
      (remote_cvdhead env cfg cvdfile ims server logerr w).1 = (FC_EFAILEDGET, none)) ∧
    (512 ≤ body.length → (∀ i b, i < 512 → body[i]? = some b → isprint b = true) →
      (remote_cvdhead env cfg cvdfile ims server logerr w).1 =
        match env.cl_cvdparse (body.take 512) with
        | some cvdhead => (FC_SUCCESS, some cvdhead)
        | none => (FC_EFAILEDGET, none)) := by
  have hbad : ∀ i b, i < 512 → body[i]? = some b → isprint b = false →
      (remote_cvdhead env cfg cvdfile ims server logerr w).1 = (FC_EFAILEDGET, none) := by
    intro i b hi hb hnp
    unfold remote_cvdhead
    simp only [hh, hp, hc, Bool.not_true, Bool.false_eq_true, if_false, if_true,
      CVD_HEADER_SIZE]
    split
    · rfl
    · rw [any_take_of_getElem body 512 i b hi hb _ (by simp [hnp])]
      rfl
  refine ⟨?_, hbad, fun i hi hb => hbad i 0 hi hb (by decide), ?_⟩
  · intro hlen
    unfold remote_cvdhead
    simp only [hh, hp, hc, Bool.not_true, Bool.false_eq_true, if_false, if_true,
      CVD_HEADER_SIZE, hlen]
  · intro hlen hall
    have h0 : (body.head? == some 0) = false := by
      cases body with
      | nil => rfl
      | cons x t =>
        have hx := hall 0 x (by decide) (by simp)
        have : x ≠ 0 := by
          intro h
          rw [h] at hx
          exact absurd hx (by decide)
        simpa using this
    have hany : (body.take 512).any (fun b => !isprint b) = false :=
      any_take_false body 512 _ (fun i b hi hb => by simp [hall i b hi hb])
    unfold remote_cvdhead
    simp only [hh, hp, hc, Bool.not_true, Bool.false_eq_true, if_false, if_true,
      CVD_HEADER_SIZE, hany, h0, Bool.or_self]
    rw [if_neg (by omega)]
    split <;> simp_all

set_option maxRecDepth 100000 in
/-- Witness for C18: a 200 response of 601 bytes whose byte 200 is NUL is
rejected. -/
theorem remote_cvdhead_validation_witness :
    (create_curl_handle (exEnvSite exHeaderSite) exCfg (isHttp "http://hdr") true).2 = true ∧
    (List.replicate 200 65 ++ [0] ++ List.replicate 400 65 : Content)[200]? = some 0 ∧
    (remote_cvdhead (exEnvSite exHeaderSite) exCfg "main.cvd" 0 "http://hdr" false
      (exWorld [])).1 = (FC_EFAILEDGET, none) :=
  ⟨by decide, by decide,
    (remote_cvdhead_validation (exEnvSite exHeaderSite) exCfg "main.cvd" 0 "http://hdr" false
      (exWorld []) 200 (List.replicate 200 65 ++ [0] ++ List.replicate 400 65) (by decide)
      (by decide) (Or.inl rfl)).2.2.1 200 (by decide) (by decide)⟩

/-- The status the fetcher returns for an outcome. -/
theorem downloadFile_status (env : Env) (cfg : Config) (url destfile : String)
    (allow logerr : Bool) (ims : Nat) (w : World)
    (hh : (create_curl_handle env cfg (isHttp url) allow).2 = true)
    (ho : open_excl_ok w destfile = true) :
    (downloadFile env cfg url destfile allow logerr ims w).1 =
      match (spec_outcome (env.curl_easy_perform w.nreq
        { url := url, bHttp := isHttp url, bAllowRedirect := allow, ifModifiedSince := ims,
          range := none })).coarse with
      | SpecOutcome.ok => FC_SUCCESS
      | SpecOutcome.not_modified => FC_UPTODATE
      | SpecOutcome.transport_error => FC_ECONNECTION
      | _ => FC_EFAILEDGET := by
  unfold downloadFile
  simp only [hh, ho, Bool.not_true, Bool.false_eq_true, if_false]
  generalize env.curl_easy_perform w.nreq _ = r
  cases r with
  | failed c => rfl
  | http code body =>
    unfold spec_outcome
    dsimp only
    by_cases h1 : code = 200 ∨ code = 206
    · simp only [h1, if_true]; rfl
    by_cases h2 : code = 304
    · simp only [h1, h2, if_true, if_false]; rfl
    by_cases h3 : code = 404
    · have : code = 404 ∨ code = 522 := Or.inl h3
      simp only [h1, h2, h3, this, if_true, if_false]; rfl
    by_cases h4 : code = 522
    · have : code = 404 ∨ code = 522 := Or.inr h4
      simp only [h1, h2, h3, h4, this, if_true, if_false]; rfl
    · have : ¬ (code = 404 ∨ code = 522) := by omega
      simp only [h1, h2, h3, h4, this, if_false]; rfl

theorem remote_cvdhead_status (env : Env) (cfg : Config) (cvdfile : String) (ims : Nat)
    (server : String) (logerr : Bool) (w : World)
    (hh : (create_curl_handle env cfg (isHttp server) true).2 = true)
    (hv : spec_outcome (env.curl_easy_perform w.nreq
        { url := server ++ "/" ++ cvdfile, bHttp := isHttp server, bAllowRedirect := true,
          ifModifiedSince := ims, range := some "0-511" }) = SpecOutcome.ok →
      (remote_cvdhead env cfg cvdfile ims server logerr w).1.1 = FC_SUCCESS) :
    (remote_cvdhead env cfg cvdfile ims server logerr w).1.1 =
      match (spec_outcome (env.curl_easy_perform w.nreq
        { url := server ++ "/" ++ cvdfile, bHttp := isHttp server, bAllowRedirect := true,
          ifModifiedSince := ims, range := some "0-511" })).coarse with
      | SpecOutcome.ok => FC_SUCCESS
      | SpecOutcome.not_modified => FC_UPTODATE
      | SpecOutcome.transport_error => FC_ECONNECTION
      | _ => FC_EFAILEDGET := by
  by_cases hok : spec_outcome (env.curl_easy_perform w.nreq
        { url := server ++ "/" ++ cvdfile, bHttp := isHttp server, bAllowRedirect := true,
          ifModifiedSince := ims, range := some "0-511" }) = SpecOutcome.ok
  · rw [hv hok, hok]; rfl
  · clear hv
    revert hok
    unfold remote_cvdhead
    simp only [hh, Bool.not_true, Bool.false_eq_true, if_false]
    generalize env.curl_easy_perform w.nreq _ = r
    intro hok
    cases r with
    | failed c => rfl
    | http code body =>
      unfold spec_outcome at hok ⊢
      dsimp only at hok ⊢
      by_cases h1 : code = 200 ∨ code = 206
      · simp only [h1, if_true] at hok; exact absurd trivial hok
      by_cases h2 : code = 304
      · simp only [h1, h2, if_true, if_false]; rfl
      by_cases h3 : code = 404
      · have : code = 404 ∨ code = 522 := Or.inl h3
        simp only [h1, h2, h3, this, if_true, if_false]; rfl
      by_cases h4 : code = 522
      · have : code = 404 ∨ code = 522 := Or.inr h4
        simp only [h1, h2, h3, h4, this, if_true, if_false]; rfl
      · have : ¬ (code = 404 ∨ code = 522) := by omega
        simp only [h1, h2, h3, h4, this, if_false]; rfl

theorem status_of_coarse (o1 o2 : SpecOutcome) :
    ((match o1.coarse with
      | SpecOutcome.ok => FC_SUCCESS
      | SpecOutcome.not_modified => FC_UPTODATE
      | SpecOutcome.transport_error => FC_ECONNECTION
      | _ => FC_EFAILEDGET) =
    (match o2.coarse with
      | SpecOutcome.ok => FC_SUCCESS
      | SpecOutcome.not_modified => FC_UPTODATE
      | SpecOutcome.transport_error => FC_ECONNECTION
      | _ => FC_EFAILEDGET)) ↔ o1.coarse = o2.coarse := by
  cases o1 <;> cases o2 <;> decide

/-- C19 (amended): the status of the fetcher tells four classes of outcomes
apart, not six: 200 and 206 (success), 304 (up_to_date), every other response
code, 404 and 522 included (failed_get), and the failures of the transfer
(connection_error).  Two file-mode fetches, and two header probes whose 200 or
206 responses carry a header that is accepted, return different statuses
exactly when their outcomes differ once 404 and 522 are counted with the other
response codes. -/
theorem fetch_status_distinguishes (env : Env) (cfg : Config) :
    (∀ (url1 dest1 : String) (allow1 logerr1 : Bool) (ims1 : Nat) (w1 : World)
        (url2 dest2 : String) (allow2 logerr2 : Bool) (ims2 : Nat) (w2 : World),
      (create_curl_handle env cfg (isHttp url1) allow1).2 = true →
      open_excl_ok w1 dest1 = true →
      (create_curl_handle env cfg (isHttp url2) allow2).2 = true →
      open_excl_ok w2 dest2 = true →
      ((downloadFile env cfg url1 dest1 allow1 logerr1 ims1 w1).1 =
          (downloadFile env cfg url2 dest2 allow2 logerr2 ims2 w2).1 ↔
        (spec_outcome (env.curl_easy_perform w1.nreq
          { url := url1, bHttp := isHttp url1, bAllowRedirect := allow1, ifModifiedSince := ims1,
            range := none })).coarse =
        (spec_outcome (env.curl_easy_perform w2.nreq
          { url := url2, bHttp := isHttp url2, bAllowRedirect := allow2, ifModifiedSince := ims2,
            range := none })).coarse)) ∧
    (∀ (file1 : String) (ims1 : Nat) (server1 : String) (logerr1 : Bool) (w1 : World)
        (file2 : String) (ims2 : Nat) (server2 : String) (logerr2 : Bool) (w2 : World),
      (create_curl_handle env cfg (isHttp server1) true).2 = true →
      (create_curl_handle env cfg (isHttp server2) true).2 = true →
      (spec_outcome (env.curl_easy_perform w1.nreq
          { url := server1 ++ "/" ++ file1, bHttp := isHttp server1, bAllowRedirect := true,
            ifModifiedSince := ims1, range := some "0-511" }) = SpecOutcome.ok →
        (remote_cvdhead env cfg file1 ims1 server1 logerr1 w1).1.1 = FC_SUCCESS) →
      (spec_outcome (env.curl_easy_perform w2.nreq
          { url := server2 ++ "/" ++ file2, bHttp := isHttp server2, bAllowRedirect := true,
            ifModifiedSince := ims2, range := some "0-511" }) = SpecOutcome.ok →
        (remote_cvdhead env cfg file2 ims2 server2 logerr2 w2).1.1 = FC_SUCCESS) →
      ((remote_cvdhead env cfg file1 ims1 server1 logerr1 w1).1.1 =
          (remote_cvdhead env cfg file2 ims2 server2 logerr2 w2).1.1 ↔
        (spec_outcome (env.curl_easy_perform w1.nreq
          { url := server1 ++ "/" ++ file1, bHttp := isHttp server1, bAllowRedirect := true,
            ifModifiedSince := ims1, range := some "0-511" })).coarse =
        (spec_outcome (env.curl_easy_perform w2.nreq
          { url := server2 ++ "/" ++ file2, bHttp := isHttp server2, bAllowRedirect := true,
            ifModifiedSince := ims2, range := some "0-511" })).coarse)) := by
  constructor
  · intro url1 dest1 allow1 logerr1 ims1 w1 url2 dest2 allow2 logerr2 ims2 w2 hh1 ho1 hh2 ho2
    rw [downloadFile_status env cfg url1 dest1 allow1 logerr1 ims1 w1 hh1 ho1,
      downloadFile_status env cfg url2 dest2 allow2 logerr2 ims2 w2 hh2 ho2]
    exact status_of_coarse _ _
  · intro file1 ims1 server1 logerr1 w1 file2 ims2 server2 logerr2 w2 hh1 hh2 hv1 hv2
    rw [remote_cvdhead_status env cfg file1 ims1 server1 logerr1 w1 hh1 hv1,
      remote_cvdhead_status env cfg file2 ims2 server2 logerr2 w2 hh2 hv2]
    exact status_of_coarse _ _

/-- Witness for C19: a fetch answered with 404 and a fetch answered with 304
return different statuses. -/
theorem fetch_status_distinguishes_witness :
    (create_curl_handle (exEnvSite exErrSite) exCfg (isHttp "http://db/none.cvd") true).2 = true ∧
    open_excl_ok (exWorld []) "/tmp/a" = true ∧
    (create_curl_handle (exEnvSite exErrSite) exCfg (isHttp "http://db/same.cvd") true).2 = true ∧
    open_excl_ok (exWorld []) "/tmp/b" = true ∧
    ((downloadFile (exEnvSite exErrSite) exCfg "http://db/none.cvd" "/tmp/a" true false 0
          (exWorld [])).1 =
        (downloadFile (exEnvSite exErrSite) exCfg "http://db/same.cvd" "/tmp/b" true false 0
          (exWorld [])).1 ↔
      (spec_outcome ((exEnvSite exErrSite).curl_easy_perform (exWorld []).nreq
        { url := "http://db/none.cvd", bHttp := isHttp "http://db/none.cvd",
          bAllowRedirect := true, ifModifiedSince := 0, range := none })).coarse =
      (spec_outcome ((exEnvSite exErrSite).curl_easy_perform (exWorld []).nreq
        { url := "http://db/same.cvd", bHttp := isHttp "http://db/same.cvd",
          bAllowRedirect := true, ifModifiedSince := 0, range := none })).coarse) :=
  ⟨by decide, by decide, by decide, by decide,
    (fetch_status_distinguishes (exEnvSite exErrSite) exCfg).1 "http://db/none.cvd" "/tmp/a" true
      false 0 (exWorld []) "http://db/same.cvd" "/tmp/b" true false 0 (exWorld [])
      (by decide) (by decide) (by decide) (by decide)⟩

/-- Counterexample for C19: a 404, a 522 and a 301 fall into three different
classes of the six, and the fetcher returns the same status for all three; so
does the header probe. -/
theorem fetch_status_counterexample :
    spec_outcome (CurlResult.http 404 []) ≠ spec_outcome (CurlResult.http 522 []) ∧
    spec_outcome (CurlResult.http 404 []) ≠ spec_outcome (CurlResult.http 301 []) ∧
    spec_outcome (CurlResult.http 522 []) ≠ spec_outcome (CurlResult.http 301 []) ∧
    (exEnvSite exErrSite).curl_easy_perform 0
      { url := "http://db/none.cvd", bHttp := true, bAllowRedirect := true, ifModifiedSince := 0,
        range := none } = CurlResult.http 404 [] ∧
    (exEnvSite exErrSite).curl_easy_perform 0
      { url := "http://db/slow.cvd", bHttp := true, bAllowRedirect := true, ifModifiedSince := 0,
        range := none } = CurlResult.http 522 [] ∧
    (exEnvSite exErrSite).curl_easy_perform 0
      { url := "http://db/moved.cvd", bHttp := true, bAllowRedirect := true, ifModifiedSince := 0,
        range := none } = CurlResult.http 301 [] ∧
    (downloadFile (exEnvSite exErrSite) exCfg "http://db/none.cvd" "/tmp/a" true false 0
      (exWorld [])).1 = FC_EFAILEDGET ∧
    (downloadFile (exEnvSite exErrSite) exCfg "http://db/slow.cvd" "/tmp/a" true false 0
      (exWorld [])).1 = FC_EFAILEDGET ∧
    (downloadFile (exEnvSite exErrSite) exCfg "http://db/moved.cvd" "/tmp/a" true false 0
      (exWorld [])).1 = FC_EFAILEDGET ∧
    (remote_cvdhead (exEnvSite exErrSite) exCfg "none.cvd" 0 "http://db" false
      (exWorld [])).1.1 = FC_EFAILEDGET ∧
    (remote_cvdhead (exEnvSite exErrSite) exCfg "slow.cvd" 0 "http://db" false
      (exWorld [])).1.1 = FC_EFAILEDGET := by
  decide

theorem create_curl_handle_error (env : Env) (cfg : Config) (b1 b2 : Bool)
    (h : (create_curl_handle env cfg b1 b2).2 = false) :
    (create_curl_handle env cfg b1 b2).1.isError = true := by
  revert h
  unfold create_curl_handle
  repeat' split
  all_goals simp [fc_error_t.isError]

theorem downloadFile_done_cleanup (destfile : String) (status : fc_error_t) (w : World) :
    ((downloadFile_done destfile status w).1 = status) ∧
    (status.isError = true → lookupFile (downloadFile_done destfile status w).2 destfile = none) ∧
    (status.isError = false → (downloadFile_done destfile status w).2 = w) := by
  unfold downloadFile_done
  refine ⟨rfl, fun h => ?_, fun h => ?_⟩
  · simp only [h, if_true]
    rw [lookupFile_unlink]
    simp
  · simp [h]

/-- C20 (amended): after a call of `downloadFile` that returns an error, a
status above up_to_date (404, 522, any other unexpected response code, a
failed transfer, or a failure before the transfer), no file exists at the
destination path.  A call that returns up_to_date, which only a 304 response
produces, leaves the file it created in place, holding the body of the
response. -/
theorem downloadFile_cleanup (env : Env) (cfg : Config) (url destfile : String)
    (allow logerr : Bool) (ims : Nat) (w : World) :
    ((downloadFile env cfg url destfile allow logerr ims w).1.isError = true →
      lookupFile (downloadFile env cfg url destfile allow logerr ims w).2 destfile = none) ∧
    ((downloadFile env cfg url destfile allow logerr ims w).1 = FC_UPTODATE →
      ∃ body, env.curl_easy_perform w.nreq
          { url := url, bHttp := isHttp url, bAllowRedirect := allow, ifModifiedSince := ims,
            range := none } = CurlResult.http 304 body ∧
        lookupFile (downloadFile env cfg url destfile allow logerr ims w).2 destfile =
          some body) := by
  have hh := create_curl_handle_error env cfg (isHttp url) allow
  unfold downloadFile
  dsimp only
  generalize create_curl_handle env cfg (isHttp url) allow = h at hh
  have key : ∀ (st : fc_error_t) (w1 : World),
      ((downloadFile_done destfile st w1).1.isError = true →
        lookupFile (downloadFile_done destfile st w1).2 destfile = none) := by
    intro st w1 hs
    exact (downloadFile_done_cleanup destfile st w1).2.1 hs
  split
  · next hb =>
    have hb : h.2 = false := by simpa using hb
    refine ⟨key _ _, fun hu => ?_⟩
    have hu : h.1 = FC_UPTODATE := hu
    have := hh hb
    rw [hu] at this
    exact absurd this (by decide)
  · split
    · exact ⟨key _ _, fun hu => by cases hu⟩
    · next hopen =>
      have hopen : open_excl_ok w destfile = true := by simpa using hopen
      have hcan : canStore w destfile = true := by
        unfold open_excl_ok at hopen
        simp only [Bool.and_eq_true] at hopen
        exact hopen.2
      generalize env.curl_easy_perform w.nreq _ = r
      cases r with
      | failed c => exact ⟨key _ _, fun hu => by cases hu⟩
      | http code body =>
        dsimp only
        by_cases h1 : code = 200 ∨ code = 206
        · simp only [h1, if_true]
          exact ⟨key _ _, fun hu => by cases hu⟩
        by_cases h2 : code = 304
        · subst h2
          simp only [show ¬ (304 = 200 ∨ 304 = 206) by decide, if_true, if_false]
          refine ⟨key _ _, fun _ => ⟨body, rfl, ?_⟩⟩
          rw [(downloadFile_done_cleanup destfile FC_UPTODATE _).2.2 rfl]
          unfold writeFile created
          rw [lookupFile_storeFile]
          simp [hcan]
        · simp only [h1, h2, if_false]
          split
          · exact ⟨key _ _, fun hu => by cases hu⟩
          · exact ⟨key _ _, fun hu => by cases hu⟩

/-- Witness for C20: after a fetch answered with 404 nothing is left at the
destination. -/
theorem downloadFile_cleanup_witness :
    (downloadFile exEnv exCfg "http://db/none.cvd" "/tmp/a" true false 0
      (exWorld [])).1.isError = true ∧
    lookupFile (downloadFile exEnv exCfg "http://db/none.cvd" "/tmp/a" true false 0
      (exWorld [])).2 "/tmp/a" = none :=
  ⟨by decide,
    (downloadFile_cleanup exEnv exCfg "http://db/none.cvd" "/tmp/a" true false 0
      (exWorld [])).1 (by decide)⟩

/-- Counterexample for C20: a conditional fetch answered with 304 does not
succeed (it returns up_to_date), and the destination file, which did not exist
before the call, exists after it. -/
theorem downloadFile_not_modified_counterexample :
    lookupFile (exWorld []) "/tmp/a" = none ∧
    (downloadFile exEnv exCfg "http://mirror/daily.cld" "/tmp/a" true false 1000
      (exWorld [])).1 = FC_UPTODATE ∧
    lookupFile (downloadFile exEnv exCfg "http://mirror/daily.cld" "/tmp/a" true false 1000
      (exWorld [])).2 "/tmp/a" = some [] := by
  decide

/-! ## The patch loop and the fallback -/

theorem patch_attempts_calls (env : Env) (cfg : Config) (database tmpdir : String) (i : Nat)
    (server : String) (logerr : Bool) (n : Nat) :
    ∀ (j : Nat) (ret : fc_error_t) (w : World),
    ∃ k, k ≤ n ∧
      patch_attempts env cfg database tmpdir i server logerr n j ret w =
        downloadPatch_calls env cfg database tmpdir i server logerr k j (ret, w) ∧
      (∀ m, 0 < m → m < k →
        (downloadPatch_calls env cfg database tmpdir i server logerr m j (ret, w)).1 =
            FC_ECONNECTION ∨
          (downloadPatch_calls env cfg database tmpdir i server logerr m j (ret, w)).1 =
            FC_EFAILEDGET) ∧
      (k < n → 0 < k ∧
        (downloadPatch_calls env cfg database tmpdir i server logerr k j (ret, w)).1 ≠
            FC_ECONNECTION ∧
          (downloadPatch_calls env cfg database tmpdir i server logerr k j (ret, w)).1 ≠
            FC_EFAILEDGET) := by
  induction n with
  | zero =>
    intro j ret w
    exact ⟨0, Nat.le_refl 0, rfl, fun m h1 h2 => absurd h2 (by omega), fun h => absurd h (by omega)⟩
  | succ n ih =>
    intro j ret w
    unfold patch_attempts
    dsimp only
    by_cases hr : (downloadPatch env cfg database tmpdir (toInt32 i) server
        (if logerr = true then decide (j = cfg.g_maxAttempts) else logerr) w).1 = FC_ECONNECTION ∨
      (downloadPatch env cfg database tmpdir (toInt32 i) server
        (if logerr = true then decide (j = cfg.g_maxAttempts) else logerr) w).1 = FC_EFAILEDGET
    · rw [if_pos hr]
      obtain ⟨k, hk, he, hm, hl⟩ := ih (j + 1)
        (downloadPatch env cfg database tmpdir (toInt32 i) server
          (if logerr = true then decide (j = cfg.g_maxAttempts) else logerr) w).1
        (downloadPatch env cfg database tmpdir (toInt32 i) server
          (if logerr = true then decide (j = cfg.g_maxAttempts) else logerr) w).2
      refine ⟨k + 1, by omega, he, ?_, fun h => ⟨by omega, (hl (by omega)).2⟩⟩
      intro m h1 h2
      cases m with
      | zero => exact absurd h1 (by omega)
      | succ m =>
        cases m with
        | zero => exact hr
        | succ m => exact hm (m + 1) (by omega) (by omega)
    · rw [if_neg hr]
      refine ⟨1, by omega, rfl, fun m h1 h2 => absurd h2 (by omega), fun _ => ⟨by omega, ?_⟩⟩
      exact ⟨fun h => hr (Or.inl h), fun h => hr (Or.inr h)⟩

/-- C11: the retry policy of the patch loop of `updatedb`, at the version `i`
of the loop `for (i = localVersion + 1; i <= remoteVersion; i++)`, entered with
the status `ret` in the world `w` (for a `g_maxAttempts` below the largest
`unsigned int`).  The loop makes `k` successive calls of `downloadPatch` for
version `i`, with `k ≤ g_maxAttempts`; every call that is followed by another
one returned connection_error or failed_get; fewer than `g_maxAttempts` calls
are made only when the last one returned something else.  If the last call did
not return success, whatever the error, the whole loop ends there: its result
is the status and the world that this call left, and no later version is
tried.  In particular a call that returns any other error is the last call of
the loop.  If it returned success, the loop goes on with the next version. -/
theorem patch_retry_policy (env : Env) (cfg : Config) (database tmpdir : String)
    (remoteVersion : Nat) (server : String) (logerr : Bool) (fuel i : Nat) (ret : fc_error_t)
    (w : World) (hi : i ≤ remoteVersion) (_hmax : cfg.g_maxAttempts < UINT_SIZE - 1) :
    ∃ k, k ≤ cfg.g_maxAttempts ∧
      (∀ m, 0 < m → m < k →
        (downloadPatch_calls env cfg database tmpdir i server logerr m 1 (ret, w)).1 =
            FC_ECONNECTION ∨
          (downloadPatch_calls env cfg database tmpdir i server logerr m 1 (ret, w)).1 =
            FC_EFAILEDGET) ∧
      (k < cfg.g_maxAttempts → 0 < k ∧
        (downloadPatch_calls env cfg database tmpdir i server logerr k 1 (ret, w)).1 ≠
            FC_ECONNECTION ∧
          (downloadPatch_calls env cfg database tmpdir i server logerr k 1 (ret, w)).1 ≠
            FC_EFAILEDGET) ∧
      ((downloadPatch_calls env cfg database tmpdir i server logerr k 1 (ret, w)).1 ≠
          FC_SUCCESS →
        patch_loop env cfg database tmpdir remoteVersion server logerr (fuel + 1) i ret w =
          some (downloadPatch_calls env cfg database tmpdir i server logerr k 1 (ret, w))) ∧
      (∀ m, 0 < m → m ≤ k →
        (downloadPatch_calls env cfg database tmpdir i server logerr m 1 (ret, w)).1 ≠
          FC_SUCCESS →
        (downloadPatch_calls env cfg database tmpdir i server logerr m 1 (ret, w)).1 ≠
          FC_ECONNECTION →
        (downloadPatch_calls env cfg database tmpdir i server logerr m 1 (ret, w)).1 ≠
          FC_EFAILEDGET →
        patch_loop env cfg database tmpdir remoteVersion server logerr (fuel + 1) i ret w =
          some (downloadPatch_calls env cfg database tmpdir i server logerr m 1 (ret, w))) ∧
      ((downloadPatch_calls env cfg database tmpdir i server logerr k 1 (ret, w)).1 =
          FC_SUCCESS →
        patch_loop env cfg database tmpdir remoteVersion server logerr (fuel + 1) i ret w =
          patch_loop env cfg database tmpdir remoteVersion server logerr fuel
            ((i + 1) % UINT_SIZE) FC_SUCCESS
            (downloadPatch_calls env cfg database tmpdir i server logerr k 1 (ret, w)).2) := by
  obtain ⟨k, hk, he, hm, hl⟩ :=
    patch_attempts_calls env cfg database tmpdir i server logerr cfg.g_maxAttempts 1 ret w
  have hfail : (downloadPatch_calls env cfg database tmpdir i server logerr k 1 (ret, w)).1 ≠
      FC_SUCCESS →
      patch_loop env cfg database tmpdir remoteVersion server logerr (fuel + 1) i ret w =
        some (downloadPatch_calls env cfg database tmpdir i server logerr k 1 (ret, w)) := by
    intro hne
    unfold patch_loop
    rw [if_pos hi]
    dsimp only
    rw [he, if_pos hne]
  refine ⟨k, hk, hm, hl, hfail, ?_, ?_⟩
  · intro m h1 h2 hs hc hg
    have : m = k := by
      by_contra hne
      rcases hm m h1 (by omega) with h | h
      · exact hc h
      · exact hg h
    subst this
    exact hfail hs
  · intro hs
    conv_lhs => unfold patch_loop
    rw [if_pos hi]
    dsimp only
    rw [he, if_neg (by simpa using hs), hs]

theorem query_success_filename (env : Env) (cfg : Config) (database : String) (ims : Nat)
    (dns : Option String) (server : String) (pm logerr : Bool) (w : World)
    (h : (query_remote_database_version env cfg database ims dns server pm logerr w).1.status =
      FC_SUCCESS) :
    ((query_remote_database_version env cfg database ims dns server pm logerr
      w).1.remoteFilename).isSome = true := by
  unfold query_remote_database_version at h ⊢
  dsimp only at h ⊢
  generalize snprintf DB_FILENAME_MAX (database ++ ".cvd") = a at *
  generalize snprintf DB_FILENAME_MAX (database ++ ".cld") = b at *
  by_cases hd : dns_version env database dns pm = 0
  · rw [if_pos hd] at h ⊢
    have hx := query_http_header env cfg a b ims server pm logerr w
    generalize query_http env cfg a b ims server pm logerr w = x at *
    rw [query_of_probe x.1.1 _ x.2 hx.1 hx.2] at h ⊢
    dsimp only at h ⊢
    obtain ⟨c, e⟩ := hx.1 h
    rw [e]
    rfl
  · rw [if_neg hd]
    rfl

theorem version_check_needs (loc : Option (cl_cvd × String)) (r : RemoteVersion)
    (hst : (version_check loc r).status = FC_SUCCESS)
    (hnew : ¬ ((version_check loc r).localVersion ≥ (version_check loc r).remoteVersion ∧
      (version_check loc r).localFilename.isSome = true)) :
    r.status = FC_SUCCESS := by
  by_contra hs
  have hup : version_check loc r =
      (if loc.isNone then VersionCheck.failed
       else VersionCheck.mk FC_SUCCESS ((loc.map (fun l => l.1.version)).getD 0)
         ((loc.map (fun l => l.1.version)).getD 0) (loc.map (fun l => l.2)) r.remoteFilename) ∨
      version_check loc r = VersionCheck.failed := by
    unfold version_check
    dsimp only
    cases h : r.status
    · exact absurd h hs
    · exact Or.inl rfl
    all_goals exact Or.inr rfl
  rcases hup with h | h
  · rw [h] at hst hnew
    cases loc with
    | none => simp [VersionCheck.failed] at hst
    | some l => simp at hnew
  · rw [h] at hst
    simp [VersionCheck.failed] at hst

theorem check_needs_remoteFilename (env : Env) (cfg : Config) (database : String)
    (dns : Option String) (server : String) (pm logerr : Bool) (w : World)
    (hst : (check_for_new_database_version env cfg database dns server pm logerr w).1.status =
      FC_SUCCESS)
    (hnew : ¬ ((check_for_new_database_version env cfg database dns server pm logerr
        w).1.localVersion ≥
      (check_for_new_database_version env cfg database dns server pm logerr w).1.remoteVersion ∧
      (check_for_new_database_version env cfg database dns server pm logerr
        w).1.localFilename.isSome = true)) :
    ((check_for_new_database_version env cfg database dns server pm logerr
      w).1.remoteFilename).isSome = true := by
  unfold check_for_new_database_version at hst hnew ⊢
  dsimp only at hst hnew ⊢
  rw [(version_check_local _ _ hst).2.2]
  exact query_success_filename _ _ _ _ _ _ _ _ _ (version_check_needs _ _ hst hnew)

theorem updatedb_install_updated (env : Env) (cfg : Config) (lf : Option String)
    (tmpfile : String) (tmpdir : Option String) (fn : String) (w : World)
    (h : (updatedb_install env cfg lf tmpfile tmpdir fn w).1.bUpdated = true) :
    (updatedb_install env cfg lf tmpfile tmpdir fn w).1.status = FC_SUCCESS ∧
    (updatedb_install env cfg lf tmpfile tmpdir fn w).1.dbFilename = some fn := by
  have key : ∀ (t : String) (w1 : World),
      (updatedb_replace env lf t tmpdir fn w1).1.bUpdated = true →
      (updatedb_replace env lf t tmpdir fn w1).1.status = FC_SUCCESS ∧
      (updatedb_replace env lf t tmpdir fn w1).1.dbFilename = some fn := by
    intro t w1
    unfold updatedb_replace
    dsimp only
    split
    · intro hx; simp [updatedb_done_fst, UpdateResult.failed] at hx
    · split
      · intro hx; simp [updatedb_done_fst, UpdateResult.failed] at hx
      · intro _; simp [updatedb_done_fst]
  revert h
  unfold updatedb_install
  split
  · exact key _ _
  · dsimp only
    split
    · intro hx; simp [updatedb_done_fst, UpdateResult.failed] at hx
    · split
      · intro hx; simp [updatedb_done_fst, UpdateResult.failed] at hx
      · exact key _ _

/-- C12: the fallback to the full download.  When the version check reports a
newer version for a local database of non-zero version, scripted updates are
enabled, the two temporary names are generated, and the patch loop ends in the
state `l` with a status other than success, whatever it is, `updatedb` runs
`getcvd` on the remote file name with the remote version of the version check,
in the world the patch loop left, and goes on exactly as the full-download
branch does: if `getcvd` fails its status is the status of `updatedb`, and if
it succeeds the downloaded file is installed under the remote file name.  The
status of the patch loop does not occur in the outcome. -/
theorem updatedb_fallback (env : Env) (cfg : Config) (database : String)
    (dns : Option String) (server : String) (pm su logerr : Bool) (w : World)
    (k : VersionCheck × World) (tmpfile tmpdir : String) (l : fc_error_t × World)
    (hk : check_for_new_database_version env cfg database dns server pm logerr w = k)
    (hst : k.1.status = FC_SUCCESS)
    (hnew : ¬ (k.1.localVersion ≥ k.1.remoteVersion ∧ k.1.localFilename.isSome = true))
    (hloc : k.1.localVersion ≠ 0) (hsu : su = true)
    (hf : env.cli_gentemp k.2.ntmp cfg.g_tempDirectory = some tmpfile)
    (hd : env.cli_gentemp (k.2.ntmp + 1) cfg.g_tempDirectory = some tmpdir)
    (hl : patch_loop env cfg database tmpdir k.1.remoteVersion server logerr PATCH_LOOP_FUEL
      ((k.1.localVersion + 1) % UINT_SIZE) FC_SUCCESS (countTemp (countTemp k.2)) = some l)
    (hfail : l.1 ≠ FC_SUCCESS) :
    ∃ fn, k.1.remoteFilename = some fn ∧
      updatedb env cfg database dns server pm su logerr w =
        some (updatedb_full env cfg server logerr k.1 tmpfile (some tmpdir) l.2) ∧
      ((getcvd env cfg fn tmpfile server k.1.remoteVersion logerr l.2).1 ≠ FC_SUCCESS →
        updatedb env cfg database dns server pm su logerr w =
          some (updatedb_done (some tmpfile) (some tmpdir)
            (UpdateResult.failed (getcvd env cfg fn tmpfile server k.1.remoteVersion logerr l.2).1)
            (getcvd env cfg fn tmpfile server k.1.remoteVersion logerr l.2).2)) ∧
      ((getcvd env cfg fn tmpfile server k.1.remoteVersion logerr l.2).1 = FC_SUCCESS →
        updatedb env cfg database dns server pm su logerr w =
          some (updatedb_install env cfg k.1.localFilename tmpfile (some tmpdir) fn
            (getcvd env cfg fn tmpfile server k.1.remoteVersion logerr l.2).2)) ∧
      (∀ r w1, updatedb env cfg database dns server pm su logerr w = some (r, w1) →
        ((getcvd env cfg fn tmpfile server k.1.remoteVersion logerr l.2).1 ≠ FC_SUCCESS →
          r = UpdateResult.failed
            (getcvd env cfg fn tmpfile server k.1.remoteVersion logerr l.2).1) ∧
        (r.bUpdated = true → r.status = FC_SUCCESS ∧ r.dbFilename = some fn)) := by
  subst hk
  obtain ⟨fn, hfn⟩ := Option.isSome_iff_exists.mp
    (check_needs_remoteFilename env cfg database dns server pm logerr w hst hnew)
  have hmain : updatedb env cfg database dns server pm su logerr w =
      some (updatedb_full env cfg server logerr
        (check_for_new_database_version env cfg database dns server pm logerr w).1 tmpfile
        (some tmpdir) l.2) := by
    unfold updatedb
    dsimp only
    rw [if_neg (by simpa using hst), if_neg hnew]
    unfold cli_gentemp
    dsimp only
    rw [hf]
    dsimp only
    rw [if_neg (by simp [hloc, hsu])]
    unfold updatedb_incremental cli_gentemp
    dsimp only
    rw [countTemp_ntmp, hd]
    dsimp only
    rw [hl]
    dsimp only
    rw [if_pos hfail]
  have hfull1 : (getcvd env cfg fn tmpfile server
        (check_for_new_database_version env cfg database dns server pm logerr w).1.remoteVersion
        logerr l.2).1 ≠ FC_SUCCESS →
      updatedb_full env cfg server logerr
        (check_for_new_database_version env cfg database dns server pm logerr w).1 tmpfile
        (some tmpdir) l.2 =
      updatedb_done (some tmpfile) (some tmpdir)
        (UpdateResult.failed (getcvd env cfg fn tmpfile server
          (check_for_new_database_version env cfg database dns server pm logerr
            w).1.remoteVersion logerr l.2).1)
        (getcvd env cfg fn tmpfile server
          (check_for_new_database_version env cfg database dns server pm logerr
            w).1.remoteVersion logerr l.2).2 := by
    intro hg
    unfold updatedb_full
    rw [hfn]
    dsimp only
    rw [if_pos hg]
  have hfull2 : (getcvd env cfg fn tmpfile server
        (check_for_new_database_version env cfg database dns server pm logerr w).1.remoteVersion
        logerr l.2).1 = FC_SUCCESS →
      updatedb_full env cfg server logerr
        (check_for_new_database_version env cfg database dns server pm logerr w).1 tmpfile
        (some tmpdir) l.2 =
      updatedb_install env cfg
        (check_for_new_database_version env cfg database dns server pm logerr w).1.localFilename
        tmpfile (some tmpdir) fn
        (getcvd env cfg fn tmpfile server
          (check_for_new_database_version env cfg database dns server pm logerr
            w).1.remoteVersion logerr l.2).2 := by
    intro hg
    unfold updatedb_full
    rw [hfn]
    dsimp only
    rw [if_neg (by simpa using hg)]
  refine ⟨fn, hfn, hmain, fun hg => by rw [hmain, hfull1 hg],
    fun hg => by rw [hmain, hfull2 hg], ?_⟩
  intro r w1 h
  rw [hmain] at h
  have h := Option.some.inj h
  constructor
  · intro hg
    rw [hfull1 hg] at h
    have := congrArg Prod.fst h
    rw [updatedb_done_fst] at this
    exact this.symm
  · intro hu
    by_cases hg : (getcvd env cfg fn tmpfile server
        (check_for_new_database_version env cfg database dns server pm logerr w).1.remoteVersion
        logerr l.2).1 = FC_SUCCESS
    · rw [hfull2 hg] at h
      have h1 := congrArg Prod.fst h
      dsimp only at h1
      rw [← h1] at hu ⊢
      exact updatedb_install_updated _ _ _ _ _ _ _ hu
    · rw [hfull1 hg] at h
      have h1 := congrArg Prod.fst h
      rw [updatedb_done_fst] at h1
      dsimp only at h1
      rw [← h1] at hu
      simp [UpdateResult.failed] at hu

theorem some_getD {α : Type} (o : Option α) (d : α) (h : o.isSome = true) :
    o = some (o.getD d) := by
  cases o with
  | none => cases h
  | some x => rfl

set_option maxRecDepth 100000 in
/-- Witness for C11: the server holds no patch for version 100 of `daily`; the
three attempts all return failed_get, and the loop ends there. -/
theorem patch_retry_policy_witness :
    100 ≤ 102 ∧ exCfg.g_maxAttempts < UINT_SIZE - 1 ∧
    (downloadPatch_calls exEnv exCfg "daily" "/tmp/clamav-1.tmp" 100 "http://db" false 3 1
      (FC_SUCCESS, exWorld [("daily.cvd", [99, 4, 1])])).1 = FC_EFAILEDGET ∧
    ∃ k, k ≤ exCfg.g_maxAttempts ∧
      ((downloadPatch_calls exEnv exCfg "daily" "/tmp/clamav-1.tmp" 100 "http://db" false k 1
          (FC_SUCCESS, exWorld [("daily.cvd", [99, 4, 1])])).1 ≠ FC_SUCCESS →
        patch_loop exEnv exCfg "daily" "/tmp/clamav-1.tmp" 102 "http://db" false (5 + 1) 100
            FC_SUCCESS (exWorld [("daily.cvd", [99, 4, 1])]) =
          some (downloadPatch_calls exEnv exCfg "daily" "/tmp/clamav-1.tmp" 100 "http://db" false
            k 1 (FC_SUCCESS, exWorld [("daily.cvd", [99, 4, 1])]))) :=
  ⟨by decide, by decide, by decide,
    (patch_retry_policy exEnv exCfg "daily" "/tmp/clamav-1.tmp" 102 "http://db" false 5 100
      FC_SUCCESS (exWorld [("daily.cvd", [99, 4, 1])]) (by decide) (by decide)).imp
      (fun _ h => ⟨h.1, h.2.2.2.1⟩)⟩

set_option maxRecDepth 100000 in
/-- Witness for C12: `daily` is at version 99 and the server holds no patch
for version 100; the run falls back to the full download of `daily.cvd`. -/
theorem updatedb_fallback_witness :
    (check_for_new_database_version exEnv exCfg "daily" (some exDns) "http://db" false false
      (exWorld [("daily.cvd", [99, 4, 1])])).1.status = FC_SUCCESS ∧
    ((patch_loop exEnv exCfg "daily" "/tmp/clamav-1.tmp" 102 "http://db" false PATCH_LOOP_FUEL
      100 FC_SUCCESS (countTemp (countTemp (check_for_new_database_version exEnv exCfg "daily" (some exDns) "http://db" false false
      (exWorld [("daily.cvd", [99, 4, 1])])).2))).getD
      (FC_EARG, exWorld [])).1 ≠ FC_SUCCESS ∧
    ∃ fn, (check_for_new_database_version exEnv exCfg "daily" (some exDns) "http://db" false false
      (exWorld [("daily.cvd", [99, 4, 1])])).1.remoteFilename = some fn ∧
      updatedb exEnv exCfg "daily" (some exDns) "http://db" false true false
          (exWorld [("daily.cvd", [99, 4, 1])]) =
        some (updatedb_full exEnv exCfg "http://db" false (check_for_new_database_version exEnv exCfg "daily" (some exDns) "http://db" false false
      (exWorld [("daily.cvd", [99, 4, 1])])).1
          "/tmp/clamav-0.tmp" (some "/tmp/clamav-1.tmp") ((patch_loop exEnv exCfg "daily" "/tmp/clamav-1.tmp" 102 "http://db" false PATCH_LOOP_FUEL
      100 FC_SUCCESS (countTemp (countTemp (check_for_new_database_version exEnv exCfg "daily" (some exDns) "http://db" false false
      (exWorld [("daily.cvd", [99, 4, 1])])).2))).getD
      (FC_EARG, exWorld [])).2) :=
  ⟨by decide, by decide,
    (updatedb_fallback exEnv exCfg "daily" (some exDns) "http://db" false true false
      (exWorld [("daily.cvd", [99, 4, 1])]) _ "/tmp/clamav-0.tmp" "/tmp/clamav-1.tmp" _ rfl
      (by decide) (by decide) (by decide) rfl (by decide) (by decide)
      (some_getD _ (FC_EARG, exWorld []) (by decide)) (by decide)).imp
      (fun _ h => ⟨h.1, h.2.1⟩)⟩

/-! ## The download-complete callback -/

theorem pathOk_true (c p : String) : PathOk (fun _ => true) (fun _ => true) c p :=
  ⟨fun _ => rfl, fun _ => rfl⟩

theorem not_mem_newEvents {A D : String → Bool} {K : Event → Bool} {w w1 : World}
    (h : Foot A D K w w1) (e : Event) (hk : K e = false) : e ∉ newEvents w w1 := by
  intro he
  obtain ⟨evs, ht, hK⟩ := h.trace
  rw [newEvents_eq ht] at he
  rw [hK e he] at hk
  cases hk

theorem updatedb_replace_no_callback (env : Env) (lf : Option String) (tmpfile : String)
    (tmpdir : Option String) (fn : String) (w : World) :
    Foot (fun _ => true) (fun _ => true) (fun e => !isCallback e) w
      (updatedb_replace env lf tmpfile tmpdir fn w).2 :=
  updatedb_replace_foot env lf tmpfile tmpdir fn w (Foot.foot_refl _ _ _ w) (pathOk_true _ _)
    (pathOk_true _ _) (fun _ _ => pathOk_true _ _) (fun _ _ => rfl) (fun _ => rfl)
    (fun _ _ => rfl)

theorem updatedb_install_rejected (env : Env) (cfg : Config) (lf : Option String)
    (tmpfile : String) (tmpdir : Option String) (fn : String) (w : World) (p : String)
    (c : fc_error_t)
    (hev : Event.callback p c ∈ newEvents w (updatedb_install env cfg lf tmpfile tmpdir fn w).2)
    (hc : c ≠ FC_SUCCESS) :
    p = tmpfile ++ "-" ++ fn ∧ rename_ok w tmpfile p = true ∧
    updatedb_install env cfg lf tmpfile tmpdir fn w =
      updatedb_done (some p) tmpdir (UpdateResult.failed c)
        (emit (renamed w tmpfile p) (Event.callback p c)) := by
  revert hev
  unfold updatedb_install
  cases hcb : cfg.g_cb_download_complete with
  | none =>
    dsimp only
    intro hev
    exact absurd hev (not_mem_newEvents (updatedb_replace_no_callback env lf tmpfile tmpdir fn w)
      _ (by rfl))
  | some cb =>
    dsimp only
    generalize tmpfile ++ "-" ++ fn = twe
    by_cases hr : rename_ok w tmpfile twe = true
    swap
    · simp only [hr, Bool.not_false, if_true]
      intro hev
      exfalso
      have hf : Foot (fun _ => true) (fun _ => true) (fun e => !isCallback e) w
          (updatedb_done (some tmpfile) tmpdir (UpdateResult.failed FC_EDBDIRACCESS) w).2 :=
        updatedb_done_foot _ _ _ _ (Foot.foot_refl _ _ _ w) (fun _ _ => pathOk_true _ _)
          (fun _ _ => rfl) (fun _ => rfl)
      exact not_mem_newEvents hf _ (by rfl) hev
    · simp only [hr, Bool.not_true, Bool.false_eq_true, if_false]
      generalize hret : cb twe ((lookupFile (renamed w tmpfile twe) twe).getD []) = ret
      have htr : (emit (renamed w tmpfile twe) (Event.callback twe ret)).trace =
          w.trace ++ [Event.rename tmpfile twe ((lookupFile w tmpfile).getD []),
            Event.callback twe ret] := by
        simp
      by_cases hs : ret = FC_SUCCESS
      · simp only [hs, ne_eq, not_true_eq_false, if_false]
        intro hev
        exfalso
        have hf := updatedb_replace_no_callback env lf twe tmpdir fn
          (emit (renamed w tmpfile twe) (Event.callback twe FC_SUCCESS))
        obtain ⟨evs, ht, hK⟩ := hf.trace
        rw [hs] at htr
        rw [newEvents_append ⟨_, htr⟩ ht, newEvents_eq htr] at hev
        simp only [List.mem_append, List.mem_cons, List.mem_singleton, List.not_mem_nil,
          or_false] at hev
        rcases hev with (h | h) | h
        · cases h
        · cases h; exact hc rfl
        · have := hK _ h
          simp [isCallback] at this
      · simp only [hs, ne_eq, not_false_eq_true, if_true]
        intro hev
        have hf : Foot (fun _ => true) (fun _ => true) (fun e => !isCallback e)
            (emit (renamed w tmpfile twe) (Event.callback twe ret))
            (updatedb_done (some twe) tmpdir (UpdateResult.failed ret)
              (emit (renamed w tmpfile twe) (Event.callback twe ret))).2 :=
          updatedb_done_foot _ _ _ _ (Foot.foot_refl _ _ _ _) (fun _ _ => pathOk_true _ _)
            (fun _ _ => rfl) (fun _ => rfl)
        obtain ⟨evs, ht, hK⟩ := hf.trace
        rw [newEvents_append ⟨_, htr⟩ ht, newEvents_eq htr] at hev
        simp only [List.mem_append, List.mem_cons, List.mem_singleton, List.not_mem_nil,
          or_false] at hev
        rcases hev with (h | h) | h
        · cases h
        · cases h
          exact ⟨rfl, hr, rfl⟩
        · have := hK _ h
          simp [isCallback] at this

theorem patchKind_quiet (e : Event) (h : patchKind e = true) : quietKind e = true := by
  cases e <;> first | rfl | cases h

theorem preKind_quiet (e : Event) (h : preKind e = true) : quietKind e = true := by
  cases e <;> first | rfl | cases h

theorem getcvdKind_quiet (e : Event) (h : getcvdKind e = true) : quietKind e = true := by
  cases e <;> first | rfl | exact h

theorem ne_append_dash (tmpfile fn : String) : tmpfile ≠ tmpfile ++ "-" ++ fn := by
  intro h
  have := congrArg String.length h
  simp only [String.length_append] at this
  have h1 : "-".length = 1 := by decide
  omega

theorem rejected_tail (env : Env) (cfg : Config) (lf : Option String) (tmpfile : String)
    (tmpdir : Option String) (fn t : String) (w wi : World) (r : UpdateResult) (w1 : World)
    (p : String) (c : fc_error_t)
    (hf : PreFoot quietKind t w wi) (hcwd : wi.cwd = w.cwd) (hne : t ≠ w.cwd)
    (h1 : isAbs tmpfile = true) (htd : ∀ x, tmpdir = some x → x = t)
    (he : (r, w1) = updatedb_install env cfg lf tmpfile tmpdir fn wi)
    (hev : Event.callback p c ∈ newEvents w w1) (hc : c ≠ FC_SUCCESS) :
    r = UpdateResult.failed c ∧ p = tmpfile ++ "-" ++ fn ∧
    lookupFile w1 p = none ∧ lookupFile w1 tmpfile = none ∧
    (∀ src dst d, Event.rename src dst d ∈ newEvents w w1 → isAbs dst = true) ∧
    w1.dirs w.cwd = w.dirs w.cwd ∧ w1.cwd = w.cwd := by
  have hw1 : w1 = (updatedb_install env cfg lf tmpfile tmpdir fn wi).2 := congrArg Prod.snd he
  have hr : r = (updatedb_install env cfg lf tmpfile tmpdir fn wi).1 := congrArg Prod.fst he
  have hev2 : Event.callback p c ∈ newEvents wi w1 := by
    have hfi : Foot (fun _ => true) (fun _ => true) (fun _ => true) wi w1 := by
      rw [hw1]
      exact updatedb_install_foot env cfg lf tmpfile tmpdir fn wi (Foot.foot_refl _ _ _ wi) h1
        rfl rfl (pathOk_true _ _) (fun _ _ => pathOk_true _ _) (fun _ _ => rfl) (fun _ _ => rfl)
        (fun _ _ _ => rfl)
    obtain ⟨evs, ht, _⟩ := hfi.trace
    rw [newEvents_append (Foot.extends hf) ht] at hev
    rcases List.mem_append.mp hev with h | h
    · exact absurd h (not_mem_newEvents hf _ (by rfl))
    · rw [newEvents_eq ht]; exact h
  rw [hw1] at hev2
  obtain ⟨hp, hren, hexp⟩ := updatedb_install_rejected env cfg lf tmpfile tmpdir fn wi p c hev2 hc
  rw [hexp] at hw1 hr
  rw [updatedb_done_fst] at hr
  have hpabs : isAbs p = true := by
    rw [hp, String.append_assoc]; exact isAbs_append _ _ h1
  have hpne : tmpfile ≠ p := by rw [hp]; exact ne_append_dash tmpfile fn
  have htne : ∀ x, tmpdir = some x → x ≠ (unlink (emit (renamed wi tmpfile p)
      (Event.callback p c)) p).cwd := by
    intro x hx
    rw [htd x hx]
    simp [unlink, hcwd, hne]
  have hcan : canStore wi p = true := by simp [canStore, hpabs]
  have htrace : w1.trace = wi.trace ++ [Event.rename tmpfile p ((lookupFile wi tmpfile).getD []),
      Event.callback p c, Event.unlink p] := by
    rw [hw1]
    unfold updatedb_done
    cases tmpdir <;> simp [unlink, cli_rmdirs]
  refine ⟨hr, hp, ?_, ?_, ?_, ?_, ?_⟩
  · rw [hw1]
    unfold updatedb_done
    cases htdc : tmpdir with
    | none => simp [lookupFile_unlink]
    | some x =>
      dsimp only
      unfold cli_rmdirs
      rw [lookupFile_setDir _ _ _ _ (htne x htdc), lookupFile_unlink]
      simp
  · rw [hw1]
    unfold updatedb_done
    cases htdc : tmpdir with
    | none =>
      dsimp only
      rw [lookupFile_unlink, if_neg hpne, lookupFile_emit, lookupFile_renamed]
      simp [hpne]
    | some x =>
      dsimp only
      unfold cli_rmdirs
      rw [lookupFile_setDir _ _ _ _ (htne x htdc), lookupFile_unlink, if_neg hpne,
        lookupFile_emit, lookupFile_renamed]
      simp [hpne]
  · intro src dst d hm
    rw [newEvents_append (Foot.extends hf) htrace] at hm
    rcases List.mem_append.mp hm with h | h
    · obtain ⟨evs, ht, hK⟩ := hf.trace
      rw [newEvents_eq ht] at h
      exact hK _ h
    · simp only [List.mem_cons, List.mem_singleton, List.not_mem_nil, or_false] at h
      rcases h with h | h | h
      · cases h; exact hpabs
      · cases h
      · cases h
  · rw [hw1]
    unfold updatedb_done
    have hbase : (unlink (emit (renamed wi tmpfile p) (Event.callback p c)) p).dirs w.cwd =
        w.dirs w.cwd := by
      rw [unlink_dirs_abs _ _ hpabs, emit_dirs, renamed_dirs_abs _ _ _ h1 hpabs]
      exact hf.dirs_ne _ (Ne.symm hne)
    cases htdc : tmpdir with
    | none => exact hbase
    | some x =>
      dsimp only
      unfold cli_rmdirs setDir
      dsimp only
      rw [if_neg (by rw [htd x htdc]; exact Ne.symm hne)]
      exact hbase
  · rw [hw1, updatedb_done_cwd]
    simp [hcwd]

/-- C13: if the download-complete callback runs on the path `p` in a call of
`updatedb` and returns a code `c` other than success, the call returns the
status `c` with `updated = false` and no file name; `p` is the temporary file
under its name `<tmpfile>-<new_filename>`, where the new file name is the
remote file name or `<db>.cld`; after the call no file exists at `p` nor at
`tmpfile`; no rename of the call has its destination in the database
directory; and the database directory holds what it held before the call. -/
theorem updatedb_callback_rejects (env : Env) (cfg : Config) (database : String)
    (dns : Option String) (server : String) (pm su logerr : Bool) (w : World)
    (r : UpdateResult) (w1 : World) (p : String) (c : fc_error_t)
    (hs : Sane env cfg database w)
    (h : updatedb env cfg database dns server pm su logerr w = some (r, w1))
    (hev : Event.callback p c ∈ newEvents w w1) (hc : c ≠ FC_SUCCESS) :
    r.status = c ∧ r.bUpdated = false ∧ r.dbFilename = none ∧ r.signo = 0 ∧
    (∃ tmpfile fn, p = tmpfile ++ "-" ++ fn ∧ isAbs tmpfile = true ∧
      ((check_for_new_database_version env cfg database dns server pm logerr
          w).1.remoteFilename = some fn ∨ fn = database ++ ".cld") ∧
      lookupFile w1 tmpfile = none) ∧
    lookupFile w1 p = none ∧
    (∀ src dst d, Event.rename src dst d ∈ newEvents w w1 → isAbs dst = true) ∧
    w1.dirs w.cwd = w.dirs w.cwd ∧ w1.cwd = w.cwd ∧
    (∀ q, isAbs q = false → lookupFile w1 q = lookupFile w q) := by
  have fin : ∀ (tmpfile fn : String), isAbs tmpfile = true →
      ((check_for_new_database_version env cfg database dns server pm logerr
          w).1.remoteFilename = some fn ∨ fn = database ++ ".cld") →
      (r = UpdateResult.failed c ∧ p = tmpfile ++ "-" ++ fn ∧
        lookupFile w1 p = none ∧ lookupFile w1 tmpfile = none ∧
        (∀ src dst d, Event.rename src dst d ∈ newEvents w w1 → isAbs dst = true) ∧
        w1.dirs w.cwd = w.dirs w.cwd ∧ w1.cwd = w.cwd) →
      r.status = c ∧ r.bUpdated = false ∧ r.dbFilename = none ∧ r.signo = 0 ∧
      (∃ tmpfile fn, p = tmpfile ++ "-" ++ fn ∧ isAbs tmpfile = true ∧
        ((check_for_new_database_version env cfg database dns server pm logerr
            w).1.remoteFilename = some fn ∨ fn = database ++ ".cld") ∧
        lookupFile w1 tmpfile = none) ∧
      lookupFile w1 p = none ∧
      (∀ src dst d, Event.rename src dst d ∈ newEvents w w1 → isAbs dst = true) ∧
      w1.dirs w.cwd = w.dirs w.cwd ∧ w1.cwd = w.cwd ∧
      (∀ q, isAbs q = false → lookupFile w1 q = lookupFile w q) := by
    intro tmpfile fn ha hfn ⟨e1, e2, e3, e4, e5, e6, e7⟩
    subst e1
    refine ⟨rfl, rfl, rfl, rfl, ⟨tmpfile, fn, e2, ha, hfn, e4⟩, e3, e5, e6, e7, ?_⟩
    intro q hq
    unfold lookupFile
    rw [hq, e7, e6]
    rfl
  rcases updatedb_cases env cfg database dns server pm su logerr w r w1 hs h with
    ⟨_, ⟨t, _, _, hpf⟩, _⟩ |
    ⟨tmpfile, tmpdir, wp, t, he, hk1, hk2, hta, htl, htd, hda, hdn, hwc, hpf, _, _, _⟩ |
    ⟨tmpfile, t, wp, he, hk1, hl0, hsu, hta, hda, hdn, hwc, hpf, _⟩
  · exact absurd hev (not_mem_newEvents hpf _ (by rfl))
  · have hq : PreFoot quietKind t w wp := hpf.weaken patchKind_quiet
    have hdone : ∀ (st : fc_error_t) (wx : World), PreFoot quietKind t w wx →
        (r, w1) = updatedb_done (some tmpfile) tmpdir (UpdateResult.failed st) wx → False := by
      intro st wx hx hxe
      have hw1 : w1 = (updatedb_done (some tmpfile) tmpdir (UpdateResult.failed st) wx).2 :=
        congrArg Prod.snd hxe
      have : PreFoot quietKind t w w1 := by
        rw [hw1]
        apply updatedb_done_foot _ _ _ _ hx
        · intro x hx2; cases hx2; exact pathOk_any _ _ _ hta
        · intro x hx2; simpa using htd x hx2
        · intro _; rfl
      exact not_mem_newEvents this _ (by rfl) hev
    unfold updatedb_full at he
    obtain ⟨o, hrf⟩ : ∃ o, (check_for_new_database_version env cfg database dns server pm logerr
        w).1.remoteFilename = o := ⟨_, rfl⟩
    cases o with
    | none =>
      rw [hrf] at he
      exact absurd he (fun he => hdone _ _ (hq.unlink _ (pathOk_any _ _ _ hta) rfl) he)
    | some fn =>
      rw [hrf] at he
      dsimp only at he
      have htwe := isAbs_with_extension tmpfile fn hta htl
      have hgc := getcvd_cwd env cfg fn tmpfile server
        (check_for_new_database_version env cfg database dns server pm logerr w).1.remoteVersion
        logerr wp
      have hgf : PreFoot quietKind t wp (getcvd env cfg fn tmpfile server
          (check_for_new_database_version env cfg database dns server pm logerr
            w).1.remoteVersion logerr wp).2 :=
        getcvd_foot env cfg fn tmpfile server _ logerr wp hta htwe rfl rfl getcvdKind_quiet
      generalize getcvd env cfg fn tmpfile server
        (check_for_new_database_version env cfg database dns server pm logerr w).1.remoteVersion
        logerr wp = g at he hgc hgf
      by_cases hg : g.1 = FC_SUCCESS
      · rw [if_neg (by simpa using hg)] at he
        exact fin tmpfile fn hta (Or.inl hrf)
          (rejected_tail env cfg _ tmpfile tmpdir fn t w g.2 r w1 p c (hq.foot_trans hgf)
            (by rw [hgc, hwc]) hdn hta htd he hev hc)
      · rw [if_pos hg] at he
        exact absurd he (fun he => hdone _ _ (hq.foot_trans hgf) he)
  · exact fin tmpfile (database ++ ".cld") hta (Or.inr rfl)
      (rejected_tail env cfg _ tmpfile (some t) (database ++ ".cld") t w wp r w1 p c
        (hpf.weaken preKind_quiet) hwc hdn hta (fun x hx => by cases hx; rfl) he hev hc)

theorem Sane.same_tempdir {env : Env} {cfg cfg1 : Config} {database : String} {w : World}
    (h : Sane env cfg database w) (ht : cfg1.g_tempDirectory = cfg.g_tempDirectory) :
    Sane env cfg1 database w :=
  ⟨h.db_rel, fun n t => by rw [ht]; exact h.tmp_abs n t, fun n t => by rw [ht]; exact h.tmp_long n t,
    fun n t => by rw [ht]; exact h.tmp_ne n t, h.cwd_abs⟩

set_option maxRecDepth 100000 in
/-- Witness for C13: the fresh install of `main` with a callback that rejects
every file returns test_fail and leaves nothing behind. -/
theorem updatedb_callback_rejects_witness :
    Sane exEnv exCfgReject "main" (exWorld []) ∧
    updatedb exEnv exCfgReject "main" (some exDns) "http://db" false false false (exWorld []) =
      some (outcome (exWorld []) (updatedb exEnv exCfgReject "main" (some exDns) "http://db" false false
        false (exWorld []))) ∧
    Event.callback "/tmp/clamav-0.tmp-main.cvd" FC_ETESTFAIL ∈
      newEvents (exWorld []) (outcome (exWorld []) (updatedb exEnv exCfgReject "main" (some exDns) "http://db" false false
        false (exWorld []))).2 ∧
    (outcome (exWorld []) (updatedb exEnv exCfgReject "main" (some exDns) "http://db" false false
        false (exWorld []))).1.status = FC_ETESTFAIL ∧
    lookupFile (outcome (exWorld []) (updatedb exEnv exCfgReject "main" (some exDns) "http://db" false false
        false (exWorld []))).2
      "/tmp/clamav-0.tmp-main.cvd" = none :=
  have key := updatedb_callback_rejects exEnv exCfgReject "main" (some exDns) "http://db" false
    false false (exWorld []) _ _ "/tmp/clamav-0.tmp-main.cvd" FC_ETESTFAIL
    ((exSane "main" [] (by decide)).same_tempdir rfl)
    (some_outcome (exWorld []) _ (by decide)) (by decide) (by decide)
  ⟨(exSane "main" [] (by decide)).same_tempdir rfl, some_outcome (exWorld []) _ (by decide),
    by decide, key.1, key.2.2.2.2.2.1⟩

/-! ## The working directory -/

theorem downloadPatch_done_cwd (tempname : Option String) (olddir : String) (status : fc_error_t)
    (w : World) :
    (downloadPatch_done tempname olddir status w).2.cwd = olddir ∨
    ((downloadPatch_done tempname olddir status w).1 = FC_EDIRECTORY ∧
      chdir_ok (downloadPatch_done tempname olddir status w).2 olddir = false) := by
  unfold downloadPatch_done
  dsimp only
  split
  · next h => exact Or.inr ⟨rfl, by simpa using h⟩
  · exact Or.inl rfl

theorem downloadPatch_cwd (env : Env) (cfg : Config) (database tmpdir : String) (version : Int)
    (server : String) (logerr : Bool) (w : World) :
    (downloadPatch env cfg database tmpdir version server logerr w).2.cwd = w.cwd ∨
    ((downloadPatch env cfg database tmpdir version server logerr w).1 = FC_EDIRECTORY ∧
      chdir_ok (downloadPatch env cfg database tmpdir version server logerr w).2 w.cwd =
        false) := by
  unfold downloadPatch
  dsimp only
  split
  · exact Or.inl rfl
  split
  · exact Or.inl rfl
  split
  · exact downloadPatch_done_cwd _ _ _ _
  split
  · exact downloadPatch_done_cwd _ _ _ _
  · exact downloadPatch_done_cwd _ _ _ _

theorem buildcld_done_cwd (newfile olddir : String) (st : fc_error_t) (w1 : World) :
    (buildcld_done newfile (some olddir) st w1).2.cwd = olddir ∨
    ((buildcld_done newfile (some olddir) st w1).1 = FC_EDIRECTORY ∧
      chdir_ok (buildcld_done newfile (some olddir) st w1).2 olddir = false) := by
  unfold buildcld_done
  dsimp only
  generalize (if st ≠ FC_SUCCESS then unlink w1 newfile else w1) = w2
  split
  · next h => exact Or.inr ⟨rfl, by simpa using h⟩
  · exact Or.inl rfl

theorem buildcld_cwd (env : Env) (tmpdir database newfile : String) (bCompress : Bool)
    (w : World) :
    (buildcld env tmpdir database newfile bCompress w).2.cwd = w.cwd ∨
    ((buildcld env tmpdir database newfile bCompress w).1 = FC_EDIRECTORY ∧
      chdir_ok (buildcld env tmpdir database newfile bCompress w).2 w.cwd = false) := by
  unfold buildcld
  dsimp only
  split
  · next hg =>
    have hg : (w.dirs w.cwd).isSome = false := by simpa [getcwd_ok] using hg
    right
    unfold buildcld_done
    simp only [ne_eq, reduceCtorEq, not_false_eq_true, if_true]
    cases env.uninit_olddir with
    | none =>
      dsimp only
      exact ⟨rfl, by unfold chdir_ok; rw [unlink_dirs_isSome]; simpa using hg⟩
    | some o =>
      dsimp only
      split
      · exact ⟨rfl, by unfold chdir_ok; rw [unlink_dirs_isSome]; simpa using hg⟩
      · exact ⟨rfl, by
          unfold chdir_ok
          rw [setCwd_dirs, unlink_dirs_isSome]
          simpa using hg⟩
  split
  · exact buildcld_done_cwd newfile w.cwd _ _
  · generalize buildcld_pack env database newfile bCompress _ = r
    exact buildcld_done_cwd newfile w.cwd r.1 r.2

theorem dirs_of_lookupFile_rel (w : World) (q : String) (hq : isAbs q = false)
    (h : (lookupFile w q).isSome = true) : (w.dirs w.cwd).isSome = true := by
  unfold lookupFile at h
  rw [hq] at h
  cases hd : w.dirs w.cwd with
  | none => rw [hd] at h; simp at h
  | some d => rfl

theorem currentdb_cwd (env : Env) (database : String) (w : World)
    (hrel : isAbs database = false) (h : (currentdb env database w).isSome = true) :
    (w.dirs w.cwd).isSome = true := by
  unfold currentdb at h
  dsimp only at h
  have h1 : isAbs (snprintf DB_FILENAME_MAX (database ++ ".cvd")) = false :=
    isAbs_snprintf _ _ (isAbs_db_ext _ _ hrel (by decide))
  have h2 : isAbs (snprintf DB_FILENAME_MAX (database ++ ".cld")) = false :=
    isAbs_snprintf _ _ (isAbs_db_ext _ _ hrel (by decide))
  generalize snprintf DB_FILENAME_MAX (database ++ ".cvd") = a at h h1
  generalize snprintf DB_FILENAME_MAX (database ++ ".cld") = b at h h2
  have key : ∀ f, isAbs f = false → (cl_cvdhead env w f).isSome = true →
      (w.dirs w.cwd).isSome = true := by
    intro f hf hc
    apply dirs_of_lookupFile_rel w f hf
    unfold cl_cvdhead at hc
    cases hl : lookupFile w f with
    | none => rw [hl] at hc; simp at hc
    | some d => rfl
  split at h
  · simp at h
  · next f hfound =>
    have hf : isAbs f = false := by
      split at hfound
      · cases hfound; exact h1
      · split at hfound
        · cases hfound; exact h2
        · cases hfound
    apply key f hf
    cases hc : cl_cvdhead env w f with
    | none => rw [hc] at h; simp at h
    | some c => rfl

theorem updatedb_cwd (env : Env) (cfg : Config) (database : String)
    (dns : Option String) (server : String) (pm su logerr : Bool) (w : World)
    (r : UpdateResult) (w1 : World) (hs : Sane env cfg database w)
    (h : updatedb env cfg database dns server pm su logerr w = some (r, w1)) :
    w1.cwd = w.cwd := by
  have hrel : ∀ fn, (check_for_new_database_version env cfg database dns server pm
      logerr w).1.status = FC_SUCCESS →
      (check_for_new_database_version env cfg database dns server pm
        logerr w).1.remoteFilename = some fn → isAbs fn = false :=
    fun fn hst hfn =>
      (check_remoteFilename_rel env cfg database dns server pm logerr w hs.db_rel hst fn hfn).2
  have hloc := check_local env cfg database dns server pm logerr w
  unfold updatedb at h
  have hk := check_fs env cfg database dns server pm logerr w
  generalize check_for_new_database_version env cfg database dns server pm logerr w = k
    at h hk hrel hloc
  dsimp only at h
  have hkc : k.2.cwd = w.cwd := hk.1.2.2.1
  have hkf : ∀ t, PreFoot patchKind t w k.2 := fun t => preFoot_of_sameFS t hk.1 hk.2
  by_cases h1 : k.1.status = FC_SUCCESS
  swap
  · simp only [h1, ne_eq, not_false_eq_true, if_true, Option.some.injEq, Prod.mk.injEq] at h
    obtain ⟨_, rfl⟩ := h
    exact hkc
  simp only [h1, ne_eq, not_true_eq_false, if_false] at h
  by_cases h2 : k.1.localVersion ≥ k.1.remoteVersion ∧ k.1.localFilename.isSome = true
  · simp only [h2, and_self, if_true, Option.some.injEq, Prod.mk.injEq] at h
    obtain ⟨_, rfl⟩ := h
    exact hkc
  simp only [h2, if_false] at h
  unfold cli_gentemp at h
  dsimp only at h
  cases hg : env.cli_gentemp k.2.ntmp cfg.g_tempDirectory with
  | none =>
    simp only [hg, Option.some.injEq, Prod.mk.injEq] at h
    obtain ⟨_, rfl⟩ := h
    simpa using hkc
  | some tmpfile =>
    simp only [hg] at h
    have hta := hs.tmp_abs _ _ hg
    have htl := hs.tmp_long _ _ hg
    have hfull : ∀ (td : Option String) (wp : World), wp.cwd = w.cwd →
        (∀ t, td = some t → t ≠ w.cwd) →
        (updatedb_full env cfg server logerr k.1 tmpfile td wp).2.cwd = w.cwd := by
      intro td wp hwp htd
      rw [(updatedb_full_spec env cfg server logerr k.1 tmpfile td wp hta htl
        (fun fn hfn => hrel fn h1 hfn) (by rw [hwp]; exact htd)).1, hwp]
    by_cases h3 : k.1.localVersion = 0 ∨ (!su) = true
    · simp only [h3, if_true, Option.some.injEq] at h
      have := congrArg Prod.snd h
      dsimp only at this
      rw [← this]
      exact hfull none _ (by simpa using hkc) (by simp)
    · simp only [h3, if_false] at h
      have h3a : k.1.localVersion ≠ 0 := fun hx => h3 (Or.inl hx)
      unfold updatedb_incremental cli_gentemp at h
      dsimp only at h
      cases hg2 : env.cli_gentemp (countTemp k.2).ntmp cfg.g_tempDirectory with
      | none =>
        simp only [hg2, Option.some.injEq] at h
        have := congrArg Prod.snd h
        dsimp only at this
        rw [← this, updatedb_done_cwd]
        simpa using hkc
      | some tmpdir =>
        simp only [hg2] at h
        have hdn := hs.tmp_ne _ _ hg2
        have hwg : PreFoot patchKind tmpdir w (countTemp (countTemp k.2)) :=
          (hkf tmpdir).countTemp.countTemp
        cases hl : patch_loop env cfg database tmpdir k.1.remoteVersion server logerr
            PATCH_LOOP_FUEL ((k.1.localVersion + 1) % UINT_SIZE) FC_SUCCESS
            (countTemp (countTemp k.2)) with
        | none => simp [hl] at h
        | some l =>
          simp only [hl] at h
          have hdn2 : tmpdir ≠ (countTemp (countTemp k.2)).cwd := by simpa [hkc] using hdn
          have hls := patch_loop_spec env cfg database tmpdir k.1.remoteVersion server logerr
            PATCH_LOOP_FUEL _ _ _ l hdn2 hl
          have hlc : l.2.cwd = w.cwd := by rw [hls.2]; simpa using hkc
          have hlf : PreFoot patchKind tmpdir w l.2 := hwg.foot_trans hls.1
          by_cases h4 : l.1 = FC_SUCCESS
          swap
          · simp only [h4, ne_eq, not_false_eq_true, if_true, Option.some.injEq] at h
            have := congrArg Prod.snd h
            dsimp only at this
            rw [← this]
            exact hfull (some tmpdir) _ hlc (by intro t ht; cases ht; exact hdn)
          simp only [h4, ne_eq, not_true_eq_false, if_false] at h
          have hbs := buildcld_spec env tmpdir database tmpfile cfg.g_bCompressLocalDatabase
            l.2 hta
          have hbc := buildcld_cwd env tmpdir database tmpfile cfg.g_bCompressLocalDatabase l.2
          generalize buildcld env tmpdir database tmpfile cfg.g_bCompressLocalDatabase l.2 = b
            at h hbs hbc
          have hdir : (w.dirs w.cwd).isSome = true := by
            apply currentdb_cwd env database w hs.db_rel
            have := (hloc h1).2
            cases hc : currentdb env database w with
            | none => rw [hc] at this; exact absurd this h3a
            | some c => rfl
          have hbcwd : b.2.cwd = w.cwd := by
            rcases hbc with hx | ⟨_, hx⟩
            · rw [hx, hlc]
            · exfalso
              unfold chdir_ok at hx
              rw [hlc, hbs.1.dirs_ne _ (Ne.symm hdn), hlf.dirs_ne _ (Ne.symm hdn), hdir] at hx
              cases hx
          by_cases h5 : b.1 = FC_SUCCESS
          swap
          · simp only [h5, ne_eq, not_false_eq_true, if_true, Option.some.injEq] at h
            have := congrArg Prod.snd h
            dsimp only at this
            rw [← this, updatedb_done_cwd]
            exact hbcwd
          · simp only [h5, ne_eq, not_true_eq_false, if_false, Option.some.injEq] at h
            have := congrArg Prod.snd h
            dsimp only at this
            rw [← this, (updatedb_install_spec env cfg k.1.localFilename tmpfile (some tmpdir)
              (database ++ ".cld") b.2 hta (isAbs_db_ext _ _ hs.db_rel (by decide))
              (by intro t ht; cases ht; rw [hbcwd]; exact hdn)).1]
            exact hbcwd

/-- When `getcwd` fails in `buildcld`, nothing has been saved, and the label
`done` enters the directory that the unwritten buffer `olddir` names, if there
is one. -/
theorem buildcld_unsaved_olddir (env : Env) (tmpdir database newfile : String) (b : Bool)
    (w : World) (o : String) (hg : getcwd_ok w = false) (ho : env.uninit_olddir = some o)
    (hd : (w.dirs o).isSome = true) :
    (buildcld env tmpdir database newfile b w).1 = FC_EDIRECTORY ∧
    (buildcld env tmpdir database newfile b w).2.cwd = o := by
  have hg2 : (!getcwd_ok (emit w (Event.buildcld tmpdir))) = true := by
    have : getcwd_ok (emit w (Event.buildcld tmpdir)) = getcwd_ok w := rfl
    rw [this, hg]
    rfl
  have hc : chdir_ok (unlink (emit w (Event.buildcld tmpdir)) newfile) o = true := by
    unfold chdir_ok
    rw [unlink_dirs_isSome]
    exact hd
  unfold buildcld
  dsimp only
  rw [if_pos hg2, ho]
  unfold buildcld_done
  simp [hc]

/-- C14: the working-directory frame.  After every call of `downloadPatch` and
every call of `buildcld`, whatever the exit path, either the working directory
is the one of before the call, or the call returns directory_error and the
directory of before the call cannot be entered in the world that the call
leaves: changing back to it did not succeed.  A call of `updatedb` whose
temporary names are absolute paths other than the working directory leaves the
working directory as it was. -/
theorem cwd_frame (env : Env) (cfg : Config) :
    (∀ (database tmpdir : String) (version : Int) (server : String) (logerr : Bool) (w : World),
      (downloadPatch env cfg database tmpdir version server logerr w).2.cwd = w.cwd ∨
      ((downloadPatch env cfg database tmpdir version server logerr w).1 = FC_EDIRECTORY ∧
        chdir_ok (downloadPatch env cfg database tmpdir version server logerr w).2 w.cwd =
          false)) ∧
    (∀ (tmpdir database newfile : String) (bCompress : Bool) (w : World),
      (buildcld env tmpdir database newfile bCompress w).2.cwd = w.cwd ∨
      ((buildcld env tmpdir database newfile bCompress w).1 = FC_EDIRECTORY ∧
        chdir_ok (buildcld env tmpdir database newfile bCompress w).2 w.cwd = false)) ∧
    (∀ (database : String) (dns : Option String) (server : String) (pm su logerr : Bool)
        (w : World) (r : UpdateResult) (w1 : World),
      Sane env cfg database w →
      updatedb env cfg database dns server pm su logerr w = some (r, w1) → w1.cwd = w.cwd) :=
  ⟨downloadPatch_cwd env cfg, buildcld_cwd env,
    fun database dns server pm su logerr w r w1 hs h =>
      updatedb_cwd env cfg database dns server pm su logerr w r w1 hs h⟩

set_option maxRecDepth 100000 in
/-- Witness for C14: the scripted update of `daily` from version 100 to 102,
which enters and leaves the scratch directory three times, ends in the
working directory it started in. -/
theorem cwd_frame_witness :
    Sane exEnv exCfg "daily" (exWorld [("daily.cvd", [100, 4, 1])]) ∧
    updatedb exEnv exCfg "daily" (some exDns) "http://db" false true false
        (exWorld [("daily.cvd", [100, 4, 1])]) =
      some (outcome (exWorld []) (updatedb exEnv exCfg "daily" (some exDns) "http://db" false true false
        (exWorld [("daily.cvd", [100, 4, 1])]))) ∧
    (outcome (exWorld []) (updatedb exEnv exCfg "daily" (some exDns) "http://db" false true false
        (exWorld [("daily.cvd", [100, 4, 1])]))).2.cwd = (exWorld [("daily.cvd", [100, 4, 1])]).cwd :=
  ⟨exSane "daily" _ (by decide), some_outcome (exWorld []) _ (by decide),
    (cwd_frame exEnv exCfg).2.2 "daily" (some exDns) "http://db" false true false
      (exWorld [("daily.cvd", [100, 4, 1])]) _ _ (exSane "daily" _ (by decide))
      (some_outcome (exWorld []) _ (by decide))⟩

/-! ## The field table and the oracle without a local database -/

/-- C27: `textrecordfield` maps `main` to 1, `daily` to 2, `safebrowsing` to 6,
`bytecode` to 7 and every other string to 0; the comparison is exact, so the
empty string and names that differ in case map to 0. -/
theorem textrecordfield_table :
    (∀ s : String, textrecordfield s =
      if s = "main" then 1 else if s = "daily" then 2 else if s = "safebrowsing" then 6
      else if s = "bytecode" then 7 else 0) ∧
    textrecordfield "" = 0 ∧ textrecordfield "Main" = 0 ∧ textrecordfield "DAILY" = 0 ∧
    textrecordfield "Bytecode" = 0 ∧ textrecordfield "safeBrowsing" = 0 ∧
    textrecordfield "main " = 0 := by
  refine ⟨fun s => ?_, by decide, by decide, by decide, by decide, by decide, by decide⟩
  unfold textrecordfield
  by_cases h1 : s = "main"
  · simp [h1]
  by_cases h2 : s = "daily"
  · simp [h2]
  by_cases h3 : s = "safebrowsing"
  · subst h3; decide
  by_cases h4 : s = "bytecode"
  · subst h4; decide
  simp [h1, h2, h3, h4]

/-- C21: when no local database exists and the oracle answers `FC_UPTODATE`
(the server answered 304), `check_for_new_database_version` returns
`FC_EFAILEDGET`, and so does `updatedb`, with `bUpdated` false and no file
name; the run generates no temporary name, leaves every file and directory as
it was, and its only events are the transfers of the oracle. -/
theorem updatedb_up_to_date_without_local (env : Env) (cfg : Config) (database : String)
    (dns : Option String) (server : String) (pm su logerr : Bool) (w : World)
    (hloc : currentdb env database w = none)
    (hq : (query_remote_database_version env cfg database 0 dns server pm logerr w).1.status
      = FC_UPTODATE) :
    (check_for_new_database_version env cfg database dns server pm logerr w).1.status
      = FC_EFAILEDGET ∧
    ∃ r w1, updatedb env cfg database dns server pm su logerr w = some (r, w1) ∧
      r.status = FC_EFAILEDGET ∧ r.bUpdated = false ∧ r.dbFilename = none ∧ r.signo = 0 ∧
      w1.ntmp = w.ntmp ∧ SameFS w w1 ∧ Emits isCurl w w1 := by
  have hk : (check_for_new_database_version env cfg database dns server pm logerr w).1
      = VersionCheck.failed := by
    unfold check_for_new_database_version
    simp only [hloc, Option.map_none', Option.getD_none]
    unfold version_check
    simp only [hq, Option.isNone_none, if_true]
  have hfs := check_fs env cfg database dns server pm logerr w
  refine ⟨by rw [hk]; rfl, UpdateResult.failed FC_EFAILEDGET, _, ?_, rfl, rfl, rfl, rfl,
    hfs.1.2.2.2, hfs.1, hfs.2⟩
  unfold updatedb
  simp only [hk]
  rfl

set_option maxRecDepth 100000 in
/-- Witness for C21: the private mirror answers 304 for `daily.cld` and the
database directory is empty. -/
theorem updatedb_up_to_date_without_local_witness :
    currentdb exEnv "daily" (exWorld []) = none ∧
    (query_remote_database_version exEnv exCfg "daily" 0 none "http://mirror" true false
      (exWorld [])).1.status = FC_UPTODATE ∧
    (check_for_new_database_version exEnv exCfg "daily" none "http://mirror" true false
      (exWorld [])).1.status = FC_EFAILEDGET ∧
    ∃ r w1, updatedb exEnv exCfg "daily" none "http://mirror" true true false (exWorld [])
        = some (r, w1) ∧
      r.status = FC_EFAILEDGET ∧ r.bUpdated = false ∧ r.dbFilename = none ∧ r.signo = 0 ∧
      w1.ntmp = (exWorld []).ntmp ∧ SameFS (exWorld []) w1 ∧ Emits isCurl (exWorld []) w1 :=
  ⟨by decide, by decide,
    updatedb_up_to_date_without_local exEnv exCfg "daily" none "http://mirror" true true false
      (exWorld []) (by decide) (by decide)⟩

/-! ## Exclusive create -/

theorem newEvents_unlink (w : World) (p : String) :
    newEvents w (unlink w p) = [Event.unlink p] := by
  simp [newEvents]

/-- C30: when a regular file already exists at the destination of
`downloadFile` (and the curl handle can be set up), the exclusive create
fails: no transfer is performed, the status is `FC_EDBDIRACCESS`, the only
action is the `unlink` of the destination, and the file that was there is
gone.  Likewise, when `buildcld` reaches its exclusive create (the working
directory and `tmpdir` exist, the `.info` file yields a header) and a regular
file exists at the absolute path `newfile`, it returns `FC_EFILE` and the file
is gone. -/
theorem exclusive_create_failure_unlinks :
    (∀ (env : Env) (cfg : Config) (url destfile : String) (b logerr : Bool) (ims : Nat)
      (w : World),
      (create_curl_handle env cfg (isHttp url) b).2 = true →
      (lookupFile w destfile).isSome = true →
      (downloadFile env cfg url destfile b logerr ims w).1 = FC_EDBDIRACCESS ∧
      (downloadFile env cfg url destfile b logerr ims w).2.nreq = w.nreq ∧
      newEvents w (downloadFile env cfg url destfile b logerr ims w).2
        = [Event.unlink destfile] ∧
      lookupFile (downloadFile env cfg url destfile b logerr ims w).2 destfile = none) ∧
    (∀ (env : Env) (tmpdir database newfile : String) (bc : Bool) (w : World),
      getcwd_ok w = true → chdir_ok w tmpdir = true → isAbs newfile = true →
      ((lookupFile (setCwd w tmpdir) (snprintf DB_FILENAME_MAX (database ++ ".info"))).bind
        (buildcld_header env)).isSome = true →
      (lookupFile w newfile).isSome = true →
      (buildcld env tmpdir database newfile bc w).1 = FC_EFILE ∧
      newEvents w (buildcld env tmpdir database newfile bc w).2
        = [Event.buildcld tmpdir, Event.unlink newfile] ∧
      lookupFile (buildcld env tmpdir database newfile bc w).2 newfile = none) := by
  constructor
  · intro env cfg url destfile b logerr ims w hh hex
    have hx : open_excl_ok w destfile = false := by
      simp [open_excl_ok, access, hex]
    unfold downloadFile
    simp only [hh, hx, Bool.not_true, Bool.not_false, if_true, Bool.false_eq_true, if_false]
    unfold downloadFile_done
    simp only [fc_error_t.isError, if_true]
    refine ⟨trivial, by simp, newEvents_unlink w destfile, by simp [lookupFile_unlink]⟩
  · intro env tmpdir database newfile bc w hg hc ha hinfo hex
    have hg1 : getcwd_ok (emit w (Event.buildcld tmpdir)) = true := hg
    have hc1 : chdir_ok (emit w (Event.buildcld tmpdir)) tmpdir = true := hc
    have hlk : ∀ c : String, lookupFile (setCwd (emit w (Event.buildcld tmpdir)) c) newfile
        = lookupFile w newfile := by
      intro c; simp [lookupFile, ha]
    have hx : open_excl_ok (setCwd (emit w (Event.buildcld tmpdir)) tmpdir) newfile = false := by
      simp [open_excl_ok, access, hlk, hex]
    have hpack : buildcld_pack env database newfile bc
        (setCwd (emit w (Event.buildcld tmpdir)) tmpdir)
        = (FC_EFILE, setCwd (emit w (Event.buildcld tmpdir)) tmpdir) := by
      unfold buildcld_pack
      have hinfo1 : lookupFile (setCwd (emit w (Event.buildcld tmpdir)) tmpdir)
          (snprintf DB_FILENAME_MAX (database ++ ".info"))
          = lookupFile (setCwd w tmpdir) (snprintf DB_FILENAME_MAX (database ++ ".info")) := rfl
      simp only [hinfo1]
      generalize lookupFile (setCwd w tmpdir) (snprintf DB_FILENAME_MAX (database ++ ".info"))
        = o at hinfo ⊢
      cases o with
      | none => simp at hinfo
      | some data =>
        cases hb : buildcld_header env data with
        | none => simp [Option.bind, hb] at hinfo
        | some buff => simp only [hx, hb, Bool.not_false, if_true]
    unfold buildcld
    simp only [hg1, hc1, Bool.not_true, Bool.false_eq_true, if_false, hpack]
    unfold buildcld_done
    have hch : chdir_ok (unlink (setCwd (emit w (Event.buildcld tmpdir)) tmpdir) newfile)
        (emit w (Event.buildcld tmpdir)).cwd = true := by
      have : getcwd_ok w = true := hg
      simp only [chdir_ok, unlink_dirs_isSome]
      exact this
    simp only [ne_eq, show ¬ (FC_EFILE = FC_SUCCESS) by decide, not_false_eq_true, if_true, hch,
      Bool.not_true, Bool.false_eq_true, if_false]
    refine ⟨trivial, ?_, ?_⟩
    · simp [newEvents, setCwd, emit]
    · simp [lookupFile, ha, unlink, removeFile_files, setCwd]

set_option maxRecDepth 100000 in
/-- Witness for C30: a download into the existing file `/tmp/old.tmp`, and a
repack into the existing file `/tmp/out.cld`. -/
theorem exclusive_create_failure_unlinks_witness :
    ((create_curl_handle exEnv exCfg (isHttp "http://db/daily.cvd") true).2 = true ∧
      (lookupFile (storeFile (exWorld []) "/tmp/old.tmp" [7]) "/tmp/old.tmp").isSome = true ∧
      (downloadFile exEnv exCfg "http://db/daily.cvd" "/tmp/old.tmp" true false 0
        (storeFile (exWorld []) "/tmp/old.tmp" [7])).1 = FC_EDBDIRACCESS ∧
      (downloadFile exEnv exCfg "http://db/daily.cvd" "/tmp/old.tmp" true false 0
        (storeFile (exWorld []) "/tmp/old.tmp" [7])).2.nreq
        = (storeFile (exWorld []) "/tmp/old.tmp" [7]).nreq ∧
      newEvents (storeFile (exWorld []) "/tmp/old.tmp" [7])
        (downloadFile exEnv exCfg "http://db/daily.cvd" "/tmp/old.tmp" true false 0
          (storeFile (exWorld []) "/tmp/old.tmp" [7])).2 = [Event.unlink "/tmp/old.tmp"] ∧
      lookupFile (downloadFile exEnv exCfg "http://db/daily.cvd" "/tmp/old.tmp" true false 0
        (storeFile (exWorld []) "/tmp/old.tmp" [7])).2 "/tmp/old.tmp" = none) ∧
    ((lookupFile (storeFile exPackWorld "/tmp/out.cld" [7]) "/tmp/out.cld").isSome = true ∧
      (buildcld exEnv "/tmp/work" "daily" "/tmp/out.cld" false
        (storeFile exPackWorld "/tmp/out.cld" [7])).1 = FC_EFILE ∧
      newEvents (storeFile exPackWorld "/tmp/out.cld" [7])
        (buildcld exEnv "/tmp/work" "daily" "/tmp/out.cld" false
          (storeFile exPackWorld "/tmp/out.cld" [7])).2
        = [Event.buildcld "/tmp/work", Event.unlink "/tmp/out.cld"] ∧
      lookupFile (buildcld exEnv "/tmp/work" "daily" "/tmp/out.cld" false
        (storeFile exPackWorld "/tmp/out.cld" [7])).2 "/tmp/out.cld" = none) :=
  ⟨⟨by decide, by decide,
      exclusive_create_failure_unlinks.1 exEnv exCfg "http://db/daily.cvd" "/tmp/old.tmp" true
        false 0 (storeFile (exWorld []) "/tmp/old.tmp" [7]) (by decide) (by decide)⟩,
    ⟨by decide,
      exclusive_create_failure_unlinks.2 exEnv "/tmp/work" "daily" "/tmp/out.cld" false
        (storeFile exPackWorld "/tmp/out.cld" [7]) (by decide) (by decide) (by decide)
        (by decide) (by decide)⟩⟩

/-! ## What a full download leaves behind -/

theorem downloadFile_success_inv (env : Env) (cfg : Config) (url destfile : String)
    (allow logerr : Bool) (ims : Nat) (w : World)
    (hs : (downloadFile env cfg url destfile allow logerr ims w).1 = FC_SUCCESS) :
    ∃ code body, env.curl_easy_perform w.nreq
        { url := url, bHttp := isHttp url, bAllowRedirect := allow, ifModifiedSince := ims,
          range := none } = CurlResult.http code body ∧
      (code = 200 ∨ code = 206) ∧ open_excl_ok w destfile = true ∧
      (downloadFile env cfg url destfile allow logerr ims w).2 =
        writeFile (emit (countRequest (created w destfile)) (Event.curl url (some destfile)))
          destfile body := by
  unfold downloadFile at hs ⊢
  by_cases hh : (create_curl_handle env cfg (isHttp url) allow).2 = true
  swap
  · have he := create_curl_handle_error env cfg (isHttp url) allow (by simpa using hh)
    simp only [hh, Bool.not_false, if_true, downloadFile_done] at hs
    rw [hs] at he
    exact absurd he (by decide)
  by_cases ho : open_excl_ok w destfile = true
  swap
  · simp [hh, ho, downloadFile_done] at hs
  simp only [hh, ho, Bool.not_true, Bool.false_eq_true, if_false] at hs ⊢
  generalize env.curl_easy_perform w.nreq _ = r at hs ⊢
  cases r with
  | failed c => simp [downloadFile_done] at hs
  | http code body =>
    dsimp only at hs ⊢
    by_cases h1 : code = 200 ∨ code = 206
    · refine ⟨code, body, rfl, h1, trivial, ?_⟩
      simp only [h1, if_true, downloadFile_done, fc_error_t.isError]
      rfl
    · exfalso
      simp only [h1, if_false] at hs
      split at hs
      · simp [downloadFile_done] at hs
      · split at hs <;> simp [downloadFile_done] at hs

/-- The regular case of a successful full download: when `getcvd` returns
success and the path `tmpfile_with_extension` differs from `tmpfile`, the transfer completed
with code 200 or 206, the file at `tmpfile` holds the downloaded bytes, and no
file is left at `tmpfile_with_extension`. -/
theorem getcvd_leaves_download (env : Env) (cfg : Config) (cvdfile tmpfile server : String)
    (v : Nat) (logerr : Bool) (w : World)
    (_hlen : 4 ≤ tmpfile.length)
    (hne : with_extension tmpfile cvdfile ≠ tmpfile)
    (hs : (getcvd env cfg cvdfile tmpfile server v logerr w).1 = FC_SUCCESS) :
    ∃ code body, env.curl_easy_perform w.nreq
        { url := server ++ "/" ++ cvdfile, bHttp := isHttp (server ++ "/" ++ cvdfile),
          bAllowRedirect := true, ifModifiedSince := 0, range := none }
        = CurlResult.http code body ∧
      (code = 200 ∨ code = 206) ∧
      lookupFile (getcvd env cfg cvdfile tmpfile server v logerr w).2 tmpfile = some body ∧
      lookupFile (getcvd env cfg cvdfile tmpfile server v logerr w).2
        (with_extension tmpfile cvdfile) = none := by
  have hdl : (downloadFile env cfg (server ++ "/" ++ cvdfile) tmpfile true logerr 0
      (emit w (Event.getcvd cvdfile v))).1 = FC_SUCCESS := by
    by_contra hc
    unfold getcvd at hs
    simp only [ne_eq, hc, not_false_eq_true, if_true, getcvd_done] at hs
  obtain ⟨code, body, hnet, hcode, hopen, hw⟩ :=
    downloadFile_success_inv env cfg _ tmpfile true logerr 0 _ hdl
  have hcan : canStore w tmpfile = true := by
    simp only [open_excl_ok, Bool.and_eq_true] at hopen
    exact hopen.2
  refine ⟨code, body, hnet, hcode, ?_⟩
  unfold getcvd at hs ⊢
  simp only [getcvd_done] at hs ⊢
  generalize downloadFile env cfg (server ++ "/" ++ cvdfile) tmpfile true logerr 0
    (emit w (Event.getcvd cvdfile v)) = dl at hs hdl hw ⊢
  obtain ⟨st, w1⟩ := dl
  simp only at hdl hw
  subst hdl
  by_cases h2 : rename_ok w1 tmpfile (with_extension tmpfile cvdfile) = true
  swap
  · simp [h2] at hs
  by_cases h3 : env.cl_cvdverify (with_extension tmpfile cvdfile)
      ((lookupFile (renamed w1 tmpfile (with_extension tmpfile cvdfile))
        (with_extension tmpfile cvdfile)).getD []) = true
  swap
  · simp [h2, h3] at hs
  cases h4 : env.cl_cvdhead ((lookupFile (renamed w1 tmpfile (with_extension tmpfile cvdfile))
        (with_extension tmpfile cvdfile)).getD []) with
  | none => simp [h2, h3, h4] at hs
  | some cvd =>
    by_cases h5 : rename_ok (emit (renamed w1 tmpfile (with_extension tmpfile cvdfile))
        (Event.cl_cvdverify (with_extension tmpfile cvdfile)
          ((lookupFile (renamed w1 tmpfile (with_extension tmpfile cvdfile))
            (with_extension tmpfile cvdfile)).getD []) true))
        (with_extension tmpfile cvdfile) tmpfile = true
    swap
    · simp [h2, h3, h4, h5] at hs
    simp only [h2, h3, h4, h5, ne_eq, not_true_eq_false, if_false, Bool.not_true,
      Bool.false_eq_true] at hs ⊢
    simp only [hs, not_true_eq_false, if_false]
    have h2c : canStore w1 (with_extension tmpfile cvdfile) = true := by
      simp only [rename_ok, Bool.and_eq_true] at h2
      exact h2.2
    have h5c : canStore w1 tmpfile = true := by
      simp only [rename_ok, Bool.and_eq_true, canStore_emit, canStore_renamed] at h5
      exact h5.2
    have hb : lookupFile w1 tmpfile = some body := by
      rw [hw]
      simp [writeFile, created, lookupFile_storeFile, hcan]
    have hne' : ¬ tmpfile = with_extension tmpfile cvdfile := fun h => hne h.symm
    constructor
    · simp [lookupFile_unlink, lookupFile_renamed, h2c, h5c, hb, hne']
    · simp [lookupFile_unlink]

set_option maxRecDepth 100000 in
/-- An instance of `getcvd_leaves_download`: the full download of `daily.cvd`
into `/tmp/clamav-0.tmp`. -/
theorem getcvd_leaves_download_witness :
    4 ≤ "/tmp/clamav-0.tmp".length ∧
    with_extension "/tmp/clamav-0.tmp" "daily.cvd" ≠ "/tmp/clamav-0.tmp" ∧
    (getcvd exEnv exCfg "daily.cvd" "/tmp/clamav-0.tmp" "http://db" 102 false (exWorld [])).1
      = FC_SUCCESS ∧
    ∃ code body, exEnv.curl_easy_perform (exWorld []).nreq
        { url := "http://db" ++ "/" ++ "daily.cvd",
          bHttp := isHttp ("http://db" ++ "/" ++ "daily.cvd"),
          bAllowRedirect := true, ifModifiedSince := 0, range := none }
        = CurlResult.http code body ∧
      (code = 200 ∨ code = 206) ∧
      lookupFile (getcvd exEnv exCfg "daily.cvd" "/tmp/clamav-0.tmp" "http://db" 102 false
        (exWorld [])).2 "/tmp/clamav-0.tmp" = some body ∧
      lookupFile (getcvd exEnv exCfg "daily.cvd" "/tmp/clamav-0.tmp" "http://db" 102 false
        (exWorld [])).2 (with_extension "/tmp/clamav-0.tmp" "daily.cvd") = none :=
  ⟨by decide, by decide, by decide,
    getcvd_leaves_download exEnv exCfg "daily.cvd" "/tmp/clamav-0.tmp" "http://db" 102 false
      (exWorld []) (by decide) (by decide) (by decide)⟩

theorem patch_loop_zero_attempts (env : Env) (cfg : Config) (database tmpdir : String)
    (R : Nat) (server : String) (logerr : Bool) (h0 : cfg.g_maxAttempts = 0)
    (hR : R + 1 < UINT_SIZE) :
    ∀ (n fuel i : Nat) (w : World), i + n = R + 1 → n < fuel →
      patch_loop env cfg database tmpdir R server logerr fuel i FC_SUCCESS w
        = some (FC_SUCCESS, w) := by
  intro n
  induction n with
  | zero =>
    intro fuel i w hi hf
    cases fuel with
    | zero => omega
    | succ f =>
      unfold patch_loop
      have : ¬ i ≤ R := by omega
      simp only [this, if_false]
  | succ n ih =>
    intro fuel i w hi hf
    cases fuel with
    | zero => omega
    | succ f =>
      unfold patch_loop
      have hle : i ≤ R := by omega
      have hpa : patch_attempts env cfg database tmpdir i server logerr cfg.g_maxAttempts 1
          FC_SUCCESS w = (FC_SUCCESS, w) := by
        rw [h0]; unfold patch_attempts; rfl
      simp only [hle, if_true, hpa, ne_eq, not_true_eq_false, if_false]
      have hmod : (i + 1) % UINT_SIZE = i + 1 := Nat.mod_eq_of_lt (by omega)
      rw [hmod]
      exact ih f (i + 1) w (by omega) (by omega)

theorem currentdb_found (env : Env) (database : String) (w : World) (l : cl_cvd × String)
    (h : currentdb env database w = some l) :
    (lookupFile w l.2).isSome = true ∧
    (l.2 = snprintf DB_FILENAME_MAX (database ++ ".cvd") ∨
      l.2 = snprintf DB_FILENAME_MAX (database ++ ".cld")) := by
  unfold currentdb at h
  generalize snprintf DB_FILENAME_MAX (database ++ ".cvd") = a at h ⊢
  generalize snprintf DB_FILENAME_MAX (database ++ ".cld") = b at h ⊢
  have key : ∀ fn : String, (match cl_cvdhead env w fn with
      | none => none
      | some cvd => some (cvd, fn)) = some l → (lookupFile w l.2).isSome = true ∧ l.2 = fn := by
    intro fn hfn
    unfold cl_cvdhead at hfn
    cases hl : lookupFile w fn with
    | none => rw [hl] at hfn; cases hfn
    | some c =>
      rw [hl] at hfn
      change (match env.cl_cvdhead c with
        | none => none
        | some cvd => some (cvd, fn)) = some l at hfn
      cases hh : env.cl_cvdhead c with
      | none => rw [hh] at hfn; cases hfn
      | some cvd =>
        rw [hh] at hfn
        cases hfn
        exact ⟨by rw [hl]; rfl, rfl⟩
  dsimp only at h
  by_cases h1 : access w a = true
  · rw [if_pos h1] at h
    exact ⟨(key a h).1, Or.inl (key a h).2⟩
  · rw [if_neg h1] at h
    by_cases h2 : access w b = true
    · rw [if_pos h2] at h
      exact ⟨(key b h).1, Or.inr (key b h).2⟩
    · rw [if_neg h2] at h
      cases h

/-- C29: with `g_maxAttempts = 0`, a local database of version `L ≥ 1`,
scripted updates enabled and a remote version `R > L` (below the largest
`unsigned int`, so that the loop counter does not wrap), the patch loop ends
with success without starting a patch download, and `updatedb` returns
`FC_EFAILEDUPDATE`: after the oracle no transfer is made, the repacker is
started on the scratch directory, which does not exist, and the only other
actions are two unlinks of the temporary file; directories, working directory
and the installed file are as before. -/
theorem updatedb_zero_attempts (env : Env) (cfg : Config) (database : String)
    (dns : Option String) (server : String) (pm logerr : Bool) (w : World)
    (l : cl_cvd × String) (tmpfile tmpdir : String)
    (hs : Sane env cfg database w)
    (h0 : cfg.g_maxAttempts = 0)
    (hloc : currentdb env database w = some l)
    (hL : 1 ≤ l.1.version)
    (hst : (query_remote_database_version env cfg database l.1.stime dns server pm logerr
      w).1.status = FC_SUCCESS)
    (hR : l.1.version < (query_remote_database_version env cfg database l.1.stime dns server pm
      logerr w).1.remoteVersion)
    (hmax : (query_remote_database_version env cfg database l.1.stime dns server pm
      logerr w).1.remoteVersion < UINT_SIZE - 1)
    (ht1 : env.cli_gentemp w.ntmp cfg.g_tempDirectory = some tmpfile)
    (ht2 : env.cli_gentemp (w.ntmp + 1) cfg.g_tempDirectory = some tmpdir)
    (hdir : w.dirs tmpdir = none) :
    ∃ w0 w1, (query_remote_database_version env cfg database l.1.stime dns server pm logerr w).2
        = w0 ∧
      patch_loop env cfg database tmpdir
        (query_remote_database_version env cfg database l.1.stime dns server pm logerr
          w).1.remoteVersion server logerr PATCH_LOOP_FUEL (l.1.version + 1) FC_SUCCESS
        (countTemp (countTemp w0)) = some (FC_SUCCESS, countTemp (countTemp w0)) ∧
      updatedb env cfg database dns server pm true logerr w
        = some (UpdateResult.failed FC_EFAILEDUPDATE, w1) ∧
      newEvents w0 w1 = [Event.buildcld tmpdir, Event.unlink tmpfile, Event.unlink tmpfile] ∧
      w1.nreq = w0.nreq ∧ w1.dirs = w.dirs ∧ w1.cwd = w.cwd ∧
      lookupFile w1 l.2 = lookupFile w l.2 := by
  obtain ⟨hfound, hname⟩ := currentdb_found env database w l hloc
  have hrel : isAbs l.2 = false := by
    rcases hname with h | h <;> rw [h]
    · exact isAbs_snprintf _ _ (isAbs_db_ext database ".cvd" hs.db_rel rfl)
    · exact isAbs_snprintf _ _ (isAbs_db_ext database ".cld" hs.db_rel rfl)
  have hcwd : (w.dirs w.cwd).isSome = true := dirs_of_lookupFile_rel w l.2 hrel hfound
  have hfs := query_fs env cfg database l.1.stime dns server pm logerr w
  generalize hq : query_remote_database_version env cfg database l.1.stime dns server pm logerr w
    = q at hst hR hmax hfs
  obtain ⟨⟨qst, R, qfn⟩, w0⟩ := q
  simp only at hst hR hmax hfs
  subst hst
  obtain ⟨⟨hf, hd, hc, hn⟩, hem⟩ := hfs
  have hk : check_for_new_database_version env cfg database dns server pm logerr w
      = ({ status := FC_SUCCESS, localVersion := l.1.version, remoteVersion := R,
           localFilename := some l.2, remoteFilename := qfn }, w0) := by
    unfold check_for_new_database_version
    simp only [hloc, Option.map_some', Option.getD_some, hq]
    unfold version_check
    have h1 : ¬ l.1.version = 0 := by omega
    simp only [Option.map_some', Option.getD_some, h1, if_false, hR, if_true]
  have ht1' : env.cli_gentemp w0.ntmp cfg.g_tempDirectory = some tmpfile := by rw [hn]; exact ht1
  have ht2' : env.cli_gentemp (countTemp w0).ntmp cfg.g_tempDirectory = some tmpdir := by
    simp only [countTemp_ntmp, hn]; exact ht2
  have hloop := patch_loop_zero_attempts env cfg database tmpdir R server logerr h0 (by omega)
    (R - l.1.version) PATCH_LOOP_FUEL (l.1.version + 1) (countTemp (countTemp w0)) (by omega)
    (by unfold PATCH_LOOP_FUEL; omega)
  have hmod : (l.1.version + 1) % UINT_SIZE = l.1.version + 1 :=
    Nat.mod_eq_of_lt (by omega)
  have htabs : isAbs tmpfile = true := hs.tmp_abs _ _ ht1
  have hdabs : isAbs tmpdir = true := hs.tmp_abs _ _ ht2
  have hb : buildcld env tmpdir database tmpfile cfg.g_bCompressLocalDatabase
      (countTemp (countTemp w0))
      = (FC_EDIRECTORY, unlink (emit (countTemp (countTemp w0)) (Event.buildcld tmpdir))
          tmpfile) := by
    unfold buildcld
    have hg : getcwd_ok (emit (countTemp (countTemp w0)) (Event.buildcld tmpdir)) = true := by
      simp only [getcwd_ok, emit_dirs, countTemp_dirs, emit_cwd, countTemp_cwd, hd, hc]
      exact hcwd
    have hch : chdir_ok (emit (countTemp (countTemp w0)) (Event.buildcld tmpdir)) tmpdir
        = false := by
      simp only [chdir_ok, emit_dirs, countTemp_dirs, hd, hdir]; rfl
    simp only [hg, hch, Bool.not_true, Bool.false_eq_true, if_false, Bool.not_false, if_true]
    unfold buildcld_done
    have hback : chdir_ok (unlink (emit (countTemp (countTemp w0)) (Event.buildcld tmpdir))
        tmpfile) (emit (countTemp (countTemp w0)) (Event.buildcld tmpdir)).cwd = true := by
      simp only [chdir_ok, unlink_dirs_isSome, emit_dirs, countTemp_dirs, emit_cwd,
        countTemp_cwd, hd, hc]
      exact hcwd
    simp only [ne_eq, show ¬ (FC_EDIRECTORY = FC_SUCCESS) by decide, not_false_eq_true, if_true,
      hback, Bool.not_true, Bool.false_eq_true, if_false]
    have hcw : (emit (countTemp (countTemp w0)) (Event.buildcld tmpdir)).cwd
        = (unlink (emit (countTemp (countTemp w0)) (Event.buildcld tmpdir)) tmpfile).cwd := by
      simp
    rw [hcw]
    rfl
  refine ⟨w0, cli_rmdirs (unlink (unlink (emit (countTemp (countTemp w0))
    (Event.buildcld tmpdir)) tmpfile) tmpfile) tmpdir, rfl, hloop, ?_, ?_⟩
  · unfold updatedb
    simp only [hk, ne_eq, not_true_eq_false, if_false]
    have hnot : ¬ (l.1.version ≥ R ∧ (some l.2).isSome = true) := by
      intro h; omega
    have hnz : ¬ (l.1.version = 0 ∨ (!true) = true) := by
      intro h; rcases h with h | h
      · omega
      · cases h
    simp only [hnot, if_false, cli_gentemp, ht1', hnz]
    unfold updatedb_incremental
    simp only [cli_gentemp, ht2', hmod, hloop, ne_eq, not_true_eq_false, if_false, hb,
      show ¬ (FC_EDIRECTORY = FC_SUCCESS) by decide, not_false_eq_true, if_true]
    rfl
  · have hl : lookupFile w0 l.2 = lookupFile w l.2 := by
      simp only [lookupFile, hf, hd, hc]
    refine ⟨?_, ?_, ?_, ?_, ?_⟩
    · simp [newEvents, cli_rmdirs, setDir]
    · simp [cli_rmdirs, setDir]
    · funext q
      simp only [cli_rmdirs, setDir_dirs, unlink_dirs_abs _ _ htabs, emit_dirs, countTemp_dirs, hd]
      split
      · rename_i h; rw [h, hdir]
      · rfl
    · simp [cli_rmdirs, setDir, hc]
    · have hne : tmpdir ≠ w0.cwd := by rw [hc]; exact hs.tmp_ne _ _ ht2
      have hne2 : ¬ l.2 = tmpfile := fun h => by rw [h, htabs] at hrel; cases hrel
      rw [cli_rmdirs, lookupFile_setDir _ _ _ _ (by simpa using hne)]
      simp [lookupFile_unlink, hne2, hl]

set_option maxRecDepth 100000 in
/-- Witness for C29: `daily` at local version 100 and remote version 102 with
no attempt per patch. -/
theorem updatedb_zero_attempts_witness :
    Sane exEnv exCfgNoRetry "daily" (exWorld [("daily.cvd", [100, 4, 1])]) ∧
    exCfgNoRetry.g_maxAttempts = 0 ∧
    currentdb exEnv "daily" (exWorld [("daily.cvd", [100, 4, 1])])
      = some ({ stime := 1000, version := 100, sigs := 4, fl := 0, builder := "" },
          "daily.cvd") ∧
    (query_remote_database_version exEnv exCfgNoRetry "daily" 1000 (some exDns) "http://db" false
      false (exWorld [("daily.cvd", [100, 4, 1])])).1.remoteVersion = 102 ∧
    ∃ w0 w1, (query_remote_database_version exEnv exCfgNoRetry "daily" 1000 (some exDns)
        "http://db" false false (exWorld [("daily.cvd", [100, 4, 1])])).2 = w0 ∧
      patch_loop exEnv exCfgNoRetry "daily" "/tmp/clamav-1.tmp"
        (query_remote_database_version exEnv exCfgNoRetry "daily" 1000 (some exDns) "http://db"
          false false (exWorld [("daily.cvd", [100, 4, 1])])).1.remoteVersion "http://db" false
        PATCH_LOOP_FUEL (100 + 1) FC_SUCCESS (countTemp (countTemp w0))
        = some (FC_SUCCESS, countTemp (countTemp w0)) ∧
      updatedb exEnv exCfgNoRetry "daily" (some exDns) "http://db" false true false
        (exWorld [("daily.cvd", [100, 4, 1])])
        = some (UpdateResult.failed FC_EFAILEDUPDATE, w1) ∧
      newEvents w0 w1 = [Event.buildcld "/tmp/clamav-1.tmp", Event.unlink "/tmp/clamav-0.tmp",
        Event.unlink "/tmp/clamav-0.tmp"] ∧
      w1.nreq = w0.nreq ∧ w1.dirs = (exWorld [("daily.cvd", [100, 4, 1])]).dirs ∧
      w1.cwd = (exWorld [("daily.cvd", [100, 4, 1])]).cwd ∧
      lookupFile w1 "daily.cvd" = lookupFile (exWorld [("daily.cvd", [100, 4, 1])]) "daily.cvd" :=
  ⟨(exSane "daily" _ (by decide)).same_tempdir rfl, rfl, by decide, by decide,
    updatedb_zero_attempts exEnv exCfgNoRetry "daily" (some exDns) "http://db" false false
      (exWorld [("daily.cvd", [100, 4, 1])])
      ({ stime := 1000, version := 100, sigs := 4, fl := 0, builder := "" }, "daily.cvd")
      "/tmp/clamav-0.tmp" "/tmp/clamav-1.tmp"
      ((exSane "daily" _ (by decide)).same_tempdir rfl) rfl (by decide) (by decide) (by decide)
      (by decide) (by decide) (by decide) (by decide) (by decide)⟩

/-! ## The archive the repacker writes -/

theorem OnlyFile.only_refl (newfile : String) (w : World) : OnlyFile newfile w w :=
  ⟨rfl, rfl, fun _ _ => rfl⟩

theorem OnlyFile.only_trans {newfile : String} {w w1 w2 : World} (h1 : OnlyFile newfile w w1)
    (h2 : OnlyFile newfile w1 w2) : OnlyFile newfile w w2 :=
  ⟨h2.1.trans h1.1, h2.2.1.trans h1.2.1, fun q hq => (h2.2.2 q hq).trans (h1.2.2 q hq)⟩

theorem OnlyFile.lookupFile {newfile : String} {w w1 : World} (h : OnlyFile newfile w w1)
    (q : String) (hq : q ≠ newfile) : lookupFile w1 q = lookupFile w q := by
  unfold Freshclam.lookupFile
  rw [h.1, h.2.1, h.2.2 q hq]

theorem OnlyFile.access {newfile : String} {w w1 : World} (h : OnlyFile newfile w w1)
    (q : String) (hq : q ≠ newfile) : access w1 q = access w q := by
  unfold Freshclam.access
  rw [h.lookupFile q hq, h.1]

theorem OnlyFile.of_store (newfile : String) (w : World) (c : Content)
    (ha : isAbs newfile = true) : OnlyFile newfile w (storeFile w newfile c) := by
  refine ⟨storeFile_dirs_abs _ _ _ ha, by simp, fun q hq => ?_⟩
  simp [storeFile_files, ha, hq]

/-- A successful `tar_addfile` step into an archive at an absolute path. -/
theorem tar_addfile_step (env : Env) (b : Bool) (newfile name : String) (w : World)
    (ha : isAbs newfile = true) (h : (tar_addfile env b newfile name w).1 = true) :
    OnlyFile newfile w (tar_addfile env b newfile name w).2 ∧
    (tar_addfile env b newfile name w).2.trace = w.trace ++ [Event.tar_addfile name true] ∧
    ∃ data arch arch1, w.files newfile = some arch ∧
      env.tar_addfile b arch name data = some arch1 ∧
      (tar_addfile env b newfile name w).2.files newfile = some arch1 := by
  unfold tar_addfile at h ⊢
  have hl : lookupFile w newfile = w.files newfile := by simp [lookupFile, ha]
  rw [hl] at h ⊢
  cases h1 : lookupFile w name with
  | none => simp [h1] at h
  | some data =>
    cases h2 : w.files newfile with
    | none => simp [h1, h2] at h
    | some arch =>
      cases h3 : env.tar_addfile b arch name data with
      | none => simp [h1, h2, h3] at h
      | some arch1 =>
        simp only [h3]
        refine ⟨?_, by simp [writeFile], data, arch, arch1, rfl, h3, ?_⟩
        · have := OnlyFile.of_store newfile w arch1 ha
          exact ⟨this.1, this.2.1, this.2.2⟩
        · simp [writeFile, storeFile_files, ha]

/-- The names the `readdir` loop of `buildcld` appends. -/
theorem buildcld_loop_order (env : Env) (b : Bool) (newfile info : String)
    (ha : isAbs newfile = true) (P : Content → Prop)
    (hP : ∀ arch name data arch1, P arch → env.tar_addfile b arch name data = some arch1 →
      P arch1) :
    ∀ (names : List String) (w : World),
      (buildcld_loop env b newfile info names w).1 = FC_SUCCESS →
      OnlyFile newfile w (buildcld_loop env b newfile info names w).2 ∧
      (buildcld_loop env b newfile info names w).2.trace = w.trace ++
        (names.filter (fun n =>
          decide (¬ (n = "." ∨ n = ".." ∨ n = "COPYING" ∨ n = "daily.cfg" ∨ n = info)))).map
          (fun n => Event.tar_addfile n true) ∧
      ((∃ arch, w.files newfile = some arch ∧ P arch) →
        ∃ arch, (buildcld_loop env b newfile info names w).2.files newfile = some arch ∧
          P arch) := by
  intro names
  induction names with
  | nil =>
    intro w _
    exact ⟨OnlyFile.only_refl _ _, by simp [buildcld_loop], fun h => h⟩
  | cons n rest ih =>
    intro w hs
    unfold buildcld_loop at hs ⊢
    by_cases hskip : n = "." ∨ n = ".." ∨ n = "COPYING" ∨ n = "daily.cfg" ∨ n = info
    · rw [if_pos hskip] at hs ⊢
      rw [List.filter_cons_of_neg (by rw [decide_eq_true_eq]; exact not_not.mpr hskip)]
      exact ih w hs
    · rw [if_neg hskip] at hs ⊢
      rw [List.filter_cons_of_pos (by rw [decide_eq_true_eq]; exact hskip)]
      dsimp only at hs ⊢
      by_cases ht : (tar_addfile env b newfile n w).1 = true
      · simp only [ht, Bool.not_true, Bool.false_eq_true, if_false] at hs ⊢
        obtain ⟨ho, htr, data, arch, arch1, hf1, hadd, hf2⟩ :=
          tar_addfile_step env b newfile n w ha ht
        obtain ⟨io, itr, iP⟩ := ih _ hs
        refine ⟨ho.only_trans io, ?_, ?_⟩
        · rw [itr, htr]; simp
        · rintro ⟨a0, ha0, hPa⟩
          rw [hf1] at ha0
          cases ha0
          exact iP ⟨arch1, hf2, hP _ _ _ _ hPa hadd⟩
      · simp [ht] at hs

/-- An optional `tar_addfile` step of `buildcld`. -/
theorem tar_addfile_optional (env : Env) (b : Bool) (newfile name : String) (w : World)
    (ha : isAbs newfile = true) (P : Content → Prop)
    (hP : ∀ arch name data arch1, P arch → env.tar_addfile b arch name data = some arch1 →
      P arch1)
    (c : Bool)
    (h : (if c = true then tar_addfile env b newfile name w else (true, w)).1 = true) :
    OnlyFile newfile w (if c = true then tar_addfile env b newfile name w else (true, w)).2 ∧
    (if c = true then tar_addfile env b newfile name w else (true, w)).2.trace = w.trace ++
      (if c = true then [name] else []).map (fun n => Event.tar_addfile n true) ∧
    ((∃ arch, w.files newfile = some arch ∧ P arch) →
      ∃ arch, (if c = true then tar_addfile env b newfile name w else (true, w)).2.files newfile
        = some arch ∧ P arch) := by
  cases c with
  | false => exact ⟨OnlyFile.only_refl _ _, by simp, fun h => h⟩
  | true =>
    simp only [if_true] at h ⊢
    obtain ⟨ho, htr, data, arch, arch1, hf1, hadd, hf2⟩ :=
      tar_addfile_step env b newfile name w ha h
    refine ⟨ho, by simpa using htr, ?_⟩
    rintro ⟨a0, ha0, hPa⟩
    rw [hf1] at ha0
    cases ha0
    exact ⟨arch1, hf2, hP _ _ _ _ hPa hadd⟩

/-- The members `buildcld` appends on success, in order. -/
theorem buildcld_members_order (env : Env) (newfile info : String) (b : Bool) (w : World)
    (ha : isAbs newfile = true) (hne : info ≠ newfile) (P : Content → Prop)
    (hP : ∀ arch name data arch1, P arch → env.tar_addfile b arch name data = some arch1 →
      P arch1)
    (hs : (buildcld_members env newfile info b w).1 = FC_SUCCESS) :
    ∃ d, w.dirs w.cwd = some d ∧
      OnlyFile newfile w (buildcld_members env newfile info b w).2 ∧
      (buildcld_members env newfile info b w).2.trace = w.trace ++
        (spec_members w info d).map (fun n => Event.tar_addfile n true) ∧
      ((∃ arch, w.files newfile = some arch ∧ P arch) →
        ∃ arch, (buildcld_members env newfile info b w).2.files newfile = some arch ∧
          P arch) := by
  have hcop : "COPYING" ≠ newfile := fun h => by rw [← h] at ha; exact absurd ha (by decide)
  have hcfg : "daily.cfg" ≠ newfile := fun h => by rw [← h] at ha; exact absurd ha (by decide)
  unfold buildcld_members at hs ⊢
  by_cases h0 : access w "COPYING" = true
  swap
  · simp [h0] at hs
  simp only [h0, Bool.not_true, Bool.false_eq_true, if_false] at hs ⊢
  have s1 := tar_addfile_optional env b newfile "COPYING" w ha P hP true
  simp only [if_true, List.map_cons, List.map_nil] at s1
  generalize tar_addfile env b newfile "COPYING" w = r1 at hs s1 ⊢
  by_cases h1 : r1.1 = true
  swap
  · simp [h1] at hs
  simp only [h1, Bool.not_true, Bool.false_eq_true, if_false] at hs ⊢
  obtain ⟨o1, t1, p1⟩ := s1 h1
  have a2 : access r1.2 info = access w info := o1.access info hne
  have s2 := tar_addfile_optional env b newfile info r1.2 ha P hP (access r1.2 info)
  generalize (if access r1.2 info = true then tar_addfile env b newfile info r1.2
    else (true, r1.2)) = r2 at hs s2 ⊢
  by_cases h2 : r2.1 = true
  swap
  · simp [h2] at hs
  simp only [h2, Bool.not_true, Bool.false_eq_true, if_false] at hs ⊢
  obtain ⟨o2, t2, p2⟩ := s2 h2
  have a3 : access r2.2 "daily.cfg" = access w "daily.cfg" :=
    (o1.only_trans o2).access "daily.cfg" hcfg
  have s3 := tar_addfile_optional env b newfile "daily.cfg" r2.2 ha P hP
    (access r2.2 "daily.cfg")
  generalize (if access r2.2 "daily.cfg" = true then tar_addfile env b newfile "daily.cfg" r2.2
    else (true, r2.2)) = r3 at hs s3 ⊢
  by_cases h3 : r3.1 = true
  swap
  · simp [h3] at hs
  simp only [h3, Bool.not_true, Bool.false_eq_true, if_false] at hs ⊢
  obtain ⟨o3, t3, p3⟩ := s3 h3
  have o13 := (o1.only_trans o2).only_trans o3
  have hd : r3.2.dirs r3.2.cwd = w.dirs w.cwd := by rw [o13.1, o13.2.1]
  rw [hd] at hs ⊢
  cases hdd : w.dirs w.cwd with
  | none => rw [hdd] at hs; simp at hs
  | some d =>
    rw [hdd] at hs
    simp only at hs ⊢
    obtain ⟨o4, t4, p4⟩ := buildcld_loop_order env b newfile info ha P hP (readdir d) r3.2 hs
    refine ⟨d, rfl, o13.only_trans o4, ?_, fun h => p4 (p3 (p2 (p1 h)))⟩
    rw [t4, t3, t2, t1, a2, a3]
    unfold spec_members readdir
    have e1 : decide (¬ ("." = "." ∨ "." = ".." ∨ "." = "COPYING" ∨ "." = "daily.cfg" ∨
        "." = info)) = false := by simp
    have e2 : decide (¬ (".." = "." ∨ ".." = ".." ∨ ".." = "COPYING" ∨ ".." = "daily.cfg" ∨
        ".." = info)) = false := by simp
    rw [List.filter_cons_of_neg (by rw [e1]; decide), List.filter_cons_of_neg (by rw [e2]; decide)]
    simp only [List.map_append, List.map_cons, List.map_nil, List.append_assoc,
      List.singleton_append, List.cons_append, List.nil_append]

theorem strchr_first (c : UInt8) : ∀ (s : List UInt8) (k : Nat), s[k]? = some c →
    (∀ i, i < k → s[i]? ≠ some c ∧ s[i]? ≠ some 0) → strchr s c = some k := by
  intro s
  induction s with
  | nil => intro k h; simp at h
  | cons b t ih =>
    intro k h hfirst
    unfold strchr
    cases k with
    | zero =>
      simp only [List.getElem?_cons_zero, Option.some.injEq] at h
      simp [h]
    | succ k =>
      have h0 := hfirst 0 (by omega)
      simp only [List.getElem?_cons_zero, ne_eq, Option.some.injEq] at h0
      simp only [h0.1, h0.2, if_false]
      have := ih k (by simpa using h) (fun i hi => by
        have := hfirst (i + 1) (by omega)
        simpa using this)
      rw [this]
      rfl

/-- The header `buildcld` builds from an `.info` file whose first newline is at
index `k`, below `CVD_HEADER_SIZE`, with no NUL before it. -/
theorem buildcld_header_eq (env : Env) (data : Content) (k : Nat)
    (hk : k < CVD_HEADER_SIZE) (hnl : data[k]? = some 10)
    (hfirst : ∀ i, i < k → data[i]? ≠ some 10 ∧ data[i]? ≠ some 0) :
    buildcld_header env data = some (data.take k ++ List.replicate (CVD_HEADER_SIZE - k) 32) := by
  have hlen : k < data.length := by
    by_contra hc
    rw [List.getElem?_eq_none (by omega)] at hnl
    cases hnl
  unfold buildcld_header
  dsimp only
  generalize hn : min data.length CVD_HEADER_SIZE = n
  have hkn : k < n := by rw [← hn]; exact lt_min hlen hk
  generalize hu : (List.range (CVD_HEADER_SIZE - n)).map (fun i => env.uninit (n + i)) = u
  have hget : ∀ i, i < n → (data.take n ++ u)[i]? = data[i]? := by
    intro i hi
    have h1 : i < (data.take n).length := by
      rw [List.length_take]; omega
    rw [List.getElem?_append_left h1, List.getElem?_take_of_lt hi]
  have hs : strchr (data.take n ++ u) 10 = some k := by
    apply strchr_first
    · rw [hget k hkn]; exact hnl
    · intro i hi
      rw [hget i (by omega)]
      exact hfirst i hi
  rw [hs]
  simp only [Option.some.injEq]
  congr 1
  rw [List.take_append_of_le_length (by rw [List.length_take]; omega), List.take_take]
  congr 1
  omega

theorem snprintf_info_ne (database : String) (t : List Char) (ht : t.length < 59)
    (hl : t.getLast? ≠ some 'o') :
    snprintf DB_FILENAME_MAX (database ++ ".info") ≠ String.mk t := by
  intro h
  unfold snprintf at h
  rw [String.take_eq] at h
  have hd : ((database ++ ".info").data.take (DB_FILENAME_MAX - 1)) = t := by
    have := congrArg String.data h
    simpa using this
  have hlen : (database ++ ".info").data.length ≤ 59 := by
    by_contra hc
    have : ((database ++ ".info").data.take (DB_FILENAME_MAX - 1)).length = 59 := by
      rw [List.length_take]
      have : DB_FILENAME_MAX - 1 = 59 := by decide
      omega
    rw [hd] at this
    omega
  rw [List.take_of_length_le (by
    have : DB_FILENAME_MAX - 1 = 59 := by decide
    omega)] at hd
  apply hl
  rw [← hd, String.data_append]
  have : ".info".data = ['.', 'i', 'n', 'f'] ++ ['o'] := by decide
  rw [this, ← List.append_assoc, List.getLast?_append]
  rfl

theorem snprintf_info_ne_copying (database : String) :
    snprintf DB_FILENAME_MAX (database ++ ".info") ≠ "COPYING" ∧
    snprintf DB_FILENAME_MAX (database ++ ".info") ≠ "daily.cfg" :=
  ⟨snprintf_info_ne database "COPYING".data (by decide) (by decide),
    snprintf_info_ne database "daily.cfg".data (by decide) (by decide)⟩

theorem spec_members_congr (w w1 : World) (info : String) (d : Dir)
    (h1 : access w1 info = access w info) (h2 : access w1 "daily.cfg" = access w "daily.cfg") :
    spec_members w1 info d = spec_members w info d := by
  unfold spec_members
  rw [h1, h2]

theorem buildcld_done_success (newfile : String) (o : Option String) (st : fc_error_t)
    (w : World) (h : (buildcld_done newfile o st w).1 = FC_SUCCESS) :
    st = FC_SUCCESS ∧ ∀ x, o = some x → (buildcld_done newfile o st w).2 = setCwd w x := by
  unfold buildcld_done at h ⊢
  by_cases hst : st = FC_SUCCESS
  · subst hst
    simp only [ne_eq, not_true_eq_false, if_false] at h ⊢
    refine ⟨trivial, ?_⟩
    intro x hx
    subst hx
    simp only at h ⊢
    by_cases hc : chdir_ok w x = true
    · simp only [hc, Bool.not_true, Bool.false_eq_true, if_false]
    · simp only [hc, Bool.not_false, if_true] at h
      cases h
  · exfalso
    simp only [ne_eq, hst, not_false_eq_true, if_true] at h
    cases o with
    | none => exact hst h
    | some x =>
      simp only at h
      by_cases hc : chdir_ok (unlink w newfile) x = true
      · simp only [hc, Bool.not_true, Bool.false_eq_true, if_false] at h
        exact hst h
      · simp only [hc, Bool.not_false, if_true] at h
        cases h

/-- What a successful `buildcld` with an absolute `newfile` did. -/
theorem buildcld_success (env : Env) (tmpdir database newfile : String) (bc : Bool) (w : World)
    (ha : isAbs newfile = true)
    (hs : (buildcld env tmpdir database newfile bc w).1 = FC_SUCCESS) :
    ∃ d data buff, w.dirs tmpdir = some d ∧
      lookupFile (setCwd w tmpdir) (snprintf DB_FILENAME_MAX (database ++ ".info"))
        = some data ∧
      buildcld_header env data = some buff ∧
      newEvents w (buildcld env tmpdir database newfile bc w).2 = Event.buildcld tmpdir ::
        (spec_members (setCwd w tmpdir) (snprintf DB_FILENAME_MAX (database ++ ".info")) d).map
          (fun n => Event.tar_addfile n true) ∧
      ∀ P : Content → Prop,
        (∀ arch name data arch1, P arch → env.tar_addfile bc arch name data = some arch1 →
          P arch1) →
        P buff →
        ∃ arch, lookupFile (buildcld env tmpdir database newfile bc w).2 newfile = some arch ∧
          P arch := by
  unfold buildcld at hs ⊢
  dsimp only at hs ⊢
  by_cases hg : getcwd_ok (emit w (Event.buildcld tmpdir)) = true
  swap
  · simp only [hg, Bool.not_false, if_true] at hs
    exact absurd (buildcld_done_success _ _ _ _ hs).1 (by decide)
  by_cases hc : chdir_ok (emit w (Event.buildcld tmpdir)) tmpdir = true
  swap
  · simp only [hg, hc, Bool.not_true, Bool.false_eq_true, if_false, Bool.not_false,
      if_true] at hs
    exact absurd (buildcld_done_success _ _ _ _ hs).1 (by decide)
  simp only [hg, hc, Bool.not_true, Bool.false_eq_true, if_false] at hs ⊢
  generalize hW : setCwd (emit w (Event.buildcld tmpdir)) tmpdir = W at hs ⊢
  have hWt : W.trace = w.trace ++ [Event.buildcld tmpdir] := by rw [← hW]; rfl
  have hWd : W.dirs = w.dirs := by rw [← hW]; rfl
  have hWc : W.cwd = tmpdir := by rw [← hW]; rfl
  have hWl : ∀ q, lookupFile W q = lookupFile (setCwd w tmpdir) q := by
    intro q; rw [← hW]; rfl
  have hWa : ∀ q, access W q = access (setCwd w tmpdir) q := by
    intro q; rw [← hW]; rfl
  obtain ⟨hpack, hres⟩ := buildcld_done_success _ _ _ _ hs
  rw [hres _ rfl]
  clear hs hres
  unfold buildcld_pack at hpack ⊢
  dsimp only at hpack ⊢
  generalize snprintf DB_FILENAME_MAX (database ++ ".info") = info at hpack ⊢
  rw [← hWl info]
  cases hi : lookupFile W info with
  | none => rw [hi] at hpack; cases hpack
  | some data =>
    rw [hi] at hpack
    simp only at hpack ⊢
    cases hb : buildcld_header env data with
    | none => rw [hb] at hpack; cases hpack
    | some buff =>
      rw [hb] at hpack
      simp only at hpack ⊢
      by_cases ho : open_excl_ok W newfile = true
      swap
      · simp only [ho, Bool.not_false, if_true] at hpack
        cases hpack
      simp only [ho, Bool.not_true, Bool.false_eq_true, if_false] at hpack ⊢
      by_cases hz : (bc && !env.gzopen) = true
      · simp only [hz, if_true] at hpack
        cases hpack
      simp only [hz, if_false] at hpack ⊢
      have hne : info ≠ newfile := by
        intro h
        rw [open_excl_ok, ← h] at ho
        simp [access, hi] at ho
      have o3 : OnlyFile newfile W (writeFile (created W newfile) newfile buff) :=
        (OnlyFile.of_store newfile W [] ha).only_trans (OnlyFile.of_store newfile _ buff ha)
      have f3 : (writeFile (created W newfile) newfile buff).files newfile = some buff := by
        simp [writeFile, created, storeFile_files, ha]
      have o3t : (writeFile (created W newfile) newfile buff).trace = W.trace := by
        simp [writeFile, created]
      have hcop : "daily.cfg" ≠ newfile := fun h => by
        rw [← h] at ha; exact absurd ha (by decide)
      generalize writeFile (created W newfile) newfile buff = W3 at hpack o3 f3 o3t ⊢
      obtain ⟨d, hd, om, tm, _⟩ :=
        buildcld_members_order env newfile info bc W3 ha hne (fun _ => True)
          (fun _ _ _ _ _ _ => trivial) hpack
      have hd' : w.dirs tmpdir = some d := by
        rw [o3.1, o3.2.1, hWd, hWc] at hd
        exact hd
      refine ⟨d, data, buff, hd', rfl, hb, ?_, ?_⟩
      · have hsm : spec_members W3 info d = spec_members (setCwd w tmpdir) info d :=
          spec_members_congr _ _ info d ((o3.access info hne).trans (hWa info))
            ((o3.access "daily.cfg" hcop).trans (hWa "daily.cfg"))
        change List.drop w.trace.length (buildcld_members env newfile info bc W3).2.trace = _
        rw [tm, hsm, o3t, hWt]
        simp
      · intro P hP hbuff
        obtain ⟨_, _, _, _, pm⟩ :=
          buildcld_members_order env newfile info bc W3 ha hne P hP hpack
        obtain ⟨arch, harch, hPa⟩ := pm ⟨buff, f3, hbuff⟩
        refine ⟨arch, ?_, hPa⟩
        simp only [lookupFile, ha, if_true]
        exact harch

theorem take_append_of_le {α : Type} (a s : List α) (n : Nat) (h : n ≤ a.length) :
    (a ++ s).take n = a.take n := by
  rw [List.take_append_eq_append_take]
  have : n - a.length = 0 := by omega
  rw [this]
  simp

/-- C22: for an `.info` file whose first newline is at index `k` of its first
512 bytes, with no NUL before it, the header `buildcld` builds consists of the
bytes `0..k-1` of the file followed by spaces up to 512 bytes, so it contains
no newline; and when `buildcld` succeeds (with a packer that only appends to
the archive), these 512 bytes are the first 512 bytes of the new file. -/
theorem buildcld_writes_header (env : Env) (tmpdir database newfile : String) (bc : Bool)
    (w : World) (data : Content) (k : Nat)
    (ha : isAbs newfile = true)
    (happ : ∀ arch name d arch1, env.tar_addfile bc arch name d = some arch1 →
      ∃ s, arch1 = arch ++ s)
    (hinfo : lookupFile (setCwd w tmpdir) (snprintf DB_FILENAME_MAX (database ++ ".info"))
      = some data)
    (hk : k < CVD_HEADER_SIZE) (hnl : data[k]? = some 10)
    (hfirst : ∀ i, i < k → data[i]? ≠ some 10 ∧ data[i]? ≠ some 0)
    (hs : (buildcld env tmpdir database newfile bc w).1 = FC_SUCCESS) :
    buildcld_header env data = some (data.take k ++ List.replicate (CVD_HEADER_SIZE - k) 32) ∧
    (data.take k ++ List.replicate (CVD_HEADER_SIZE - k) 32).length = 512 ∧
    (10 : UInt8) ∉ data.take k ++ List.replicate (CVD_HEADER_SIZE - k) 32 ∧
    (∀ i, i < k → (data.take k ++ List.replicate (CVD_HEADER_SIZE - k) 32)[i]? = data[i]?) ∧
    (∀ i, k ≤ i → i < 512 →
      (data.take k ++ List.replicate (CVD_HEADER_SIZE - k) 32)[i]? = some 32) ∧
    ∃ arch, lookupFile (buildcld env tmpdir database newfile bc w).2 newfile = some arch ∧
      arch.take 512 = data.take k ++ List.replicate (CVD_HEADER_SIZE - k) 32 := by
  have hlen : k < data.length := by
    by_contra hc
    rw [List.getElem?_eq_none (by omega)] at hnl
    cases hnl
  have hC : CVD_HEADER_SIZE = 512 := rfl
  have hh := buildcld_header_eq env data k hk hnl hfirst
  have hl : (data.take k ++ List.replicate (CVD_HEADER_SIZE - k) 32).length = 512 := by
    rw [List.length_append, List.length_take, List.length_replicate]
    omega
  have htk : (data.take k).length = k := by rw [List.length_take]; omega
  refine ⟨hh, hl, ?_, ?_, ?_, ?_⟩
  · intro hm
    rcases List.mem_append.mp hm with h | h
    · obtain ⟨i, hi, hget⟩ := List.getElem_of_mem h
      rw [htk] at hi
      have h1 := (hfirst i hi).1
      apply h1
      rw [← hget, List.getElem_take, List.getElem?_eq_getElem]
    · have := List.eq_of_mem_replicate h
      exact absurd this (by decide)
  · intro i hi
    rw [List.getElem?_append_left (by omega), List.getElem?_take_of_lt hi]
  · intro i hki hi
    rw [List.getElem?_append_right (by omega), htk, List.getElem?_replicate]
    have : i - k < CVD_HEADER_SIZE - k := by omega
    simp [this]
  · obtain ⟨d, data1, buff, _, hd1, hb1, _, hP⟩ :=
      buildcld_success env tmpdir database newfile bc w ha hs
    rw [hinfo] at hd1
    cases hd1
    rw [hh] at hb1
    cases hb1
    obtain ⟨arch, harch, hPa⟩ := hP
      (fun arch => 512 ≤ arch.length ∧
        arch.take 512 = data.take k ++ List.replicate (CVD_HEADER_SIZE - k) 32)
      (by
        rintro arch name d1 arch1 ⟨h1, h2⟩ hadd
        obtain ⟨s, rfl⟩ := happ arch name d1 arch1 hadd
        refine ⟨by rw [List.length_append]; omega, ?_⟩
        rw [take_append_of_le _ _ _ h1, h2])
      ⟨by omega, by rw [← hl, List.take_length]⟩
    exact ⟨arch, harch, hPa.2⟩

theorem spec_members_nodup (w : World) (database : String) (d : Dir)
    (hd : (d.map (fun e => e.1)).Nodup) :
    (spec_members w (snprintf DB_FILENAME_MAX (database ++ ".info")) d).Nodup := by
  obtain ⟨h1, h2⟩ := snprintf_info_ne_copying database
  generalize snprintf DB_FILENAME_MAX (database ++ ".info") = info at h1 h2 ⊢
  unfold spec_members
  have hF := hd.filter (fun n =>
    decide (¬ (n = "." ∨ n = ".." ∨ n = "COPYING" ∨ n = "daily.cfg" ∨ n = info)))
  generalize hFe : (d.map (fun e => e.1)).filter (fun n =>
    decide (¬ (n = "." ∨ n = ".." ∨ n = "COPYING" ∨ n = "daily.cfg" ∨ n = info))) = F at hF ⊢
  have hm : ∀ n ∈ F, n ≠ "COPYING" ∧ n ≠ "daily.cfg" ∧ n ≠ info := by
    intro n hn
    rw [← hFe, List.mem_filter, decide_eq_true_eq] at hn
    have := hn.2
    push_neg at this
    exact ⟨this.2.2.1, this.2.2.2.1, this.2.2.2.2⟩
  have c1 : "COPYING" ∉ F := fun h => (hm _ h).1 rfl
  have c2 : "daily.cfg" ∉ F := fun h => (hm _ h).2.1 rfl
  have c3 : info ∉ F := fun h => (hm _ h).2.2 rfl
  have h1' : ¬ "COPYING" = info := fun h => h1 h.symm
  have h3 : ¬ "COPYING" = "daily.cfg" := by decide
  by_cases a1 : access w info = true <;> by_cases a2 : access w "daily.cfg" = true <;>
    simp [a1, a2, List.nodup_cons, hF, c1, c2, c3, h1, h2, h1', h3]

theorem spec_pack_append (env : Env) (b : Bool) (newfile : String) (w : World) :
    ∀ (l1 l2 : List String) (arch : Content),
      spec_pack env b newfile w (l1 ++ l2) arch =
        (spec_pack env b newfile w l1 arch).bind (spec_pack env b newfile w l2) := by
  intro l1
  induction l1 with
  | nil => intro l2 arch; rfl
  | cons n rest ih =>
    intro l2 arch
    simp only [List.cons_append, spec_pack]
    cases (if n = newfile then some arch else lookupFile w n) with
    | none => rfl
    | some data =>
      dsimp only
      cases env.tar_addfile b arch n data with
      | none => rfl
      | some arch1 => exact ih l2 arch1

/-- What a successful `tar_addfile` step wrote: the packer's result for the
bytes the member has in a world `w0` that differs from the current one at most
in the archive. -/
theorem tar_addfile_pack (env : Env) (b : Bool) (newfile name : String) (w0 w : World)
    (arch : Content) (ha : isAbs newfile = true) (ho : OnlyFile newfile w0 w)
    (hf : w.files newfile = some arch) (h : (tar_addfile env b newfile name w).1 = true) :
    ∃ arch1, spec_pack env b newfile w0 [name] arch = some arch1 ∧
      (tar_addfile env b newfile name w).2.files newfile = some arch1 ∧
      OnlyFile newfile w0 (tar_addfile env b newfile name w).2 := by
  have hstep := tar_addfile_step env b newfile name w ha h
  have hl : lookupFile w newfile = w.files newfile := by simp [lookupFile, ha]
  have hdata : lookupFile w name = (if name = newfile then some arch else lookupFile w0 name) := by
    by_cases hn : name = newfile
    · rw [if_pos hn, hn, hl, hf]
    · rw [if_neg hn]; exact ho.lookupFile name hn
  unfold tar_addfile at h ⊢
  rw [hl, hf, hdata] at h ⊢
  unfold tar_addfile at hstep
  rw [hl, hf, hdata] at hstep
  simp only [spec_pack]
  cases hd : (if name = newfile then some arch else lookupFile w0 name) with
  | none => rw [hd] at h; simp at h
  | some data =>
    rw [hd] at h hstep
    dsimp only at h hstep ⊢
    cases h3 : env.tar_addfile b arch name data with
    | none => rw [h3] at h; simp at h
    | some arch1 =>
      rw [h3] at hstep
      dsimp only at hstep ⊢
      refine ⟨arch1, rfl, ?_, ho.only_trans hstep.1⟩
      simp [writeFile, storeFile_files, ha]

theorem buildcld_loop_pack (env : Env) (b : Bool) (newfile info : String) (w0 : World)
    (ha : isAbs newfile = true) :
    ∀ (names : List String) (w : World) (arch : Content),
      OnlyFile newfile w0 w → w.files newfile = some arch →
      (buildcld_loop env b newfile info names w).1 = FC_SUCCESS →
      ∃ arch1, spec_pack env b newfile w0 (names.filter (fun n =>
          decide (¬ (n = "." ∨ n = ".." ∨ n = "COPYING" ∨ n = "daily.cfg" ∨ n = info)))) arch
          = some arch1 ∧
        (buildcld_loop env b newfile info names w).2.files newfile = some arch1 := by
  intro names
  induction names with
  | nil =>
    intro w arch _ hf _
    exact ⟨arch, rfl, by simpa [buildcld_loop] using hf⟩
  | cons n rest ih =>
    intro w arch ho hf hs
    unfold buildcld_loop at hs ⊢
    by_cases hskip : n = "." ∨ n = ".." ∨ n = "COPYING" ∨ n = "daily.cfg" ∨ n = info
    · rw [if_pos hskip] at hs ⊢
      rw [List.filter_cons_of_neg (by rw [decide_eq_true_eq]; exact not_not.mpr hskip)]
      exact ih w arch ho hf hs
    · rw [if_neg hskip] at hs ⊢
      rw [List.filter_cons_of_pos (by rw [decide_eq_true_eq]; exact hskip)]
      dsimp only at hs ⊢
      by_cases ht : (tar_addfile env b newfile n w).1 = true
      · simp only [ht, Bool.not_true, Bool.false_eq_true, if_false] at hs ⊢
        obtain ⟨arch1, hp, hf1, ho1⟩ := tar_addfile_pack env b newfile n w0 w arch ha ho hf ht
        obtain ⟨arch2, hp2, hf2⟩ := ih _ arch1 ho1 hf1 hs
        refine ⟨arch2, ?_, hf2⟩
        have := spec_pack_append env b newfile w0 [n] (rest.filter (fun n =>
          decide (¬ (n = "." ∨ n = ".." ∨ n = "COPYING" ∨ n = "daily.cfg" ∨ n = info)))) arch
        rw [List.singleton_append] at this
        rw [this, hp]
        exact hp2
      · simp [ht] at hs

theorem tar_addfile_optional_pack (env : Env) (b : Bool) (newfile name : String) (w0 w : World)
    (arch : Content) (ha : isAbs newfile = true) (ho : OnlyFile newfile w0 w)
    (hf : w.files newfile = some arch) (c : Bool)
    (h : (if c = true then tar_addfile env b newfile name w else (true, w)).1 = true) :
    ∃ arch1, spec_pack env b newfile w0 (if c = true then [name] else []) arch = some arch1 ∧
      (if c = true then tar_addfile env b newfile name w else (true, w)).2.files newfile
        = some arch1 ∧
      OnlyFile newfile w0 (if c = true then tar_addfile env b newfile name w else (true, w)).2 := by
  cases c with
  | false => exact ⟨arch, rfl, hf, ho⟩
  | true =>
    simp only [if_true] at h ⊢
    exact tar_addfile_pack env b newfile name w0 w arch ha ho hf h

/-- The archive `buildcld_members` leaves on success. -/
theorem buildcld_members_pack (env : Env) (newfile info : String) (b : Bool) (w : World)
    (arch : Content) (d : Dir) (ha : isAbs newfile = true) (hne : info ≠ newfile)
    (hd : w.dirs w.cwd = some d) (hf : w.files newfile = some arch)
    (hs : (buildcld_members env newfile info b w).1 = FC_SUCCESS) :
    ∃ arch1, spec_pack env b newfile w (spec_members w info d) arch = some arch1 ∧
      (buildcld_members env newfile info b w).2.files newfile = some arch1 := by
  have hcfg : "daily.cfg" ≠ newfile := fun h => by rw [← h] at ha; exact absurd ha (by decide)
  unfold buildcld_members at hs ⊢
  by_cases h0 : access w "COPYING" = true
  swap
  · simp [h0] at hs
  simp only [h0, Bool.not_true, Bool.false_eq_true, if_false] at hs ⊢
  have s1 := tar_addfile_optional_pack env b newfile "COPYING" w w arch ha
    (OnlyFile.only_refl _ _) hf true
  simp only [if_true] at s1
  generalize tar_addfile env b newfile "COPYING" w = r1 at hs s1 ⊢
  by_cases h1 : r1.1 = true
  swap
  · simp [h1] at hs
  simp only [h1, Bool.not_true, Bool.false_eq_true, if_false] at hs ⊢
  obtain ⟨a1, p1, f1, o1⟩ := s1 h1
  have a2 : access r1.2 info = access w info := o1.access info hne
  have s2 := tar_addfile_optional_pack env b newfile info w r1.2 a1 ha o1 f1 (access r1.2 info)
  generalize (if access r1.2 info = true then tar_addfile env b newfile info r1.2
    else (true, r1.2)) = r2 at hs s2 ⊢
  by_cases h2 : r2.1 = true
  swap
  · simp [h2] at hs
  simp only [h2, Bool.not_true, Bool.false_eq_true, if_false] at hs ⊢
  obtain ⟨a2', p2, f2, o2⟩ := s2 h2
  have a3 : access r2.2 "daily.cfg" = access w "daily.cfg" := o2.access "daily.cfg" hcfg
  have s3 := tar_addfile_optional_pack env b newfile "daily.cfg" w r2.2 a2' ha o2 f2
    (access r2.2 "daily.cfg")
  generalize (if access r2.2 "daily.cfg" = true then tar_addfile env b newfile "daily.cfg" r2.2
    else (true, r2.2)) = r3 at hs s3 ⊢
  by_cases h3 : r3.1 = true
  swap
  · simp [h3] at hs
  simp only [h3, Bool.not_true, Bool.false_eq_true, if_false] at hs ⊢
  obtain ⟨a3', p3, f3, o3⟩ := s3 h3
  have hd3 : r3.2.dirs r3.2.cwd = some d := by rw [o3.1, o3.2.1]; exact hd
  rw [hd3] at hs ⊢
  simp only at hs ⊢
  obtain ⟨a4, p4, f4⟩ := buildcld_loop_pack env b newfile info w ha (readdir d) r3.2 a3' o3 f3 hs
  refine ⟨a4, ?_, f4⟩
  rw [a2] at p2
  rw [a3] at p3
  unfold readdir at p4
  have e1 : decide (¬ ("." = "." ∨ "." = ".." ∨ "." = "COPYING" ∨ "." = "daily.cfg" ∨
      "." = info)) = false := by simp
  have e2 : decide (¬ (".." = "." ∨ ".." = ".." ∨ ".." = "COPYING" ∨ ".." = "daily.cfg" ∨
      ".." = info)) = false := by simp
  rw [List.filter_cons_of_neg (by rw [e1]; decide),
    List.filter_cons_of_neg (by rw [e2]; decide)] at p4
  unfold spec_members
  have hc := spec_pack_append env b newfile w ["COPYING"]
    ((if access w info = true then [info] else []) ++
      ((if access w "daily.cfg" = true then ["daily.cfg"] else []) ++
        (d.map (fun e => e.1)).filter (fun n =>
          decide (¬ (n = "." ∨ n = ".." ∨ n = "COPYING" ∨ n = "daily.cfg" ∨ n = info))))) arch
  rw [List.singleton_append] at hc
  rw [hc, p1, Option.some_bind, spec_pack_append, p2, Option.some_bind, spec_pack_append, p3,
    Option.some_bind]
  exact p4

theorem spec_pack_congr (env : Env) (b : Bool) (newfile : String) (w0 w1 : World)
    (ho : OnlyFile newfile w0 w1) :
    ∀ (names : List String) (arch : Content),
      spec_pack env b newfile w1 names arch = spec_pack env b newfile w0 names arch := by
  intro names
  induction names with
  | nil => intro arch; rfl
  | cons n rest ih =>
    intro arch
    simp only [spec_pack]
    have : (if n = newfile then some arch else lookupFile w1 n)
        = (if n = newfile then some arch else lookupFile w0 n) := by
      by_cases hn : n = newfile
      · rw [if_pos hn, if_pos hn]
      · rw [if_neg hn, if_neg hn, ho.lookupFile n hn]
    rw [this]
    cases (if n = newfile then some arch else lookupFile w0 n) with
    | none => rfl
    | some data =>
      dsimp only
      cases env.tar_addfile b arch n data with
      | none => rfl
      | some arch1 => exact ih arch1

/-- The archive a successful `buildcld` with an absolute `newfile` leaves: the
header followed by the members, appended in order by the packer. -/
theorem buildcld_archive (env : Env) (tmpdir database newfile : String) (bc : Bool) (w : World)
    (ha : isAbs newfile = true)
    (hs : (buildcld env tmpdir database newfile bc w).1 = FC_SUCCESS) :
    ∃ d data buff arch, w.dirs tmpdir = some d ∧
      lookupFile (setCwd w tmpdir) (snprintf DB_FILENAME_MAX (database ++ ".info"))
        = some data ∧
      buildcld_header env data = some buff ∧
      spec_pack env bc newfile (setCwd w tmpdir)
        (spec_members (setCwd w tmpdir) (snprintf DB_FILENAME_MAX (database ++ ".info")) d) buff
        = some arch ∧
      lookupFile (buildcld env tmpdir database newfile bc w).2 newfile = some arch := by
  unfold buildcld at hs ⊢
  dsimp only at hs ⊢
  by_cases hg : getcwd_ok (emit w (Event.buildcld tmpdir)) = true
  swap
  · simp only [hg, Bool.not_false, if_true] at hs
    exact absurd (buildcld_done_success _ _ _ _ hs).1 (by decide)
  by_cases hc : chdir_ok (emit w (Event.buildcld tmpdir)) tmpdir = true
  swap
  · simp only [hg, hc, Bool.not_true, Bool.false_eq_true, if_false, Bool.not_false,
      if_true] at hs
    exact absurd (buildcld_done_success _ _ _ _ hs).1 (by decide)
  simp only [hg, hc, Bool.not_true, Bool.false_eq_true, if_false] at hs ⊢
  have oW : OnlyFile newfile (setCwd w tmpdir) (setCwd (emit w (Event.buildcld tmpdir)) tmpdir) :=
    ⟨rfl, rfl, fun _ _ => rfl⟩
  generalize hW : setCwd (emit w (Event.buildcld tmpdir)) tmpdir = W at hs oW ⊢
  have hWd : W.dirs = w.dirs := by rw [← hW]; rfl
  have hWc : W.cwd = tmpdir := by rw [← hW]; rfl
  have hWl : ∀ q, lookupFile W q = lookupFile (setCwd w tmpdir) q := by
    intro q; rw [← hW]; rfl
  have hWa : ∀ q, access W q = access (setCwd w tmpdir) q := by
    intro q; rw [← hW]; rfl
  obtain ⟨hpack, hres⟩ := buildcld_done_success _ _ _ _ hs
  rw [hres _ rfl]
  clear hs hres
  unfold buildcld_pack at hpack ⊢
  dsimp only at hpack ⊢
  generalize snprintf DB_FILENAME_MAX (database ++ ".info") = info at hpack ⊢
  rw [← hWl info]
  cases hi : lookupFile W info with
  | none => rw [hi] at hpack; cases hpack
  | some data =>
    rw [hi] at hpack
    simp only at hpack ⊢
    cases hb : buildcld_header env data with
    | none => rw [hb] at hpack; cases hpack
    | some buff =>
      rw [hb] at hpack
      simp only at hpack ⊢
      by_cases ho : open_excl_ok W newfile = true
      swap
      · simp only [ho, Bool.not_false, if_true] at hpack
        cases hpack
      simp only [ho, Bool.not_true, Bool.false_eq_true, if_false] at hpack ⊢
      by_cases hz : (bc && !env.gzopen) = true
      · simp only [hz, if_true] at hpack
        cases hpack
      simp only [hz, if_false] at hpack ⊢
      have hne : info ≠ newfile := by
        intro h
        rw [open_excl_ok, ← h] at ho
        simp [access, hi] at ho
      have o3 : OnlyFile newfile W (writeFile (created W newfile) newfile buff) :=
        (OnlyFile.of_store newfile W [] ha).only_trans (OnlyFile.of_store newfile _ buff ha)
      have f3 : (writeFile (created W newfile) newfile buff).files newfile = some buff := by
        simp [writeFile, created, storeFile_files, ha]
      have hcop : "daily.cfg" ≠ newfile := fun h => by
        rw [← h] at ha; exact absurd ha (by decide)
      generalize writeFile (created W newfile) newfile buff = W3 at hpack o3 f3 ⊢
      obtain ⟨d, hd, _, _, _⟩ :=
        buildcld_members_order env newfile info bc W3 ha hne (fun _ => True)
          (fun _ _ _ _ _ _ => trivial) hpack
      have hd' : w.dirs tmpdir = some d := by
        rw [o3.1, o3.2.1, hWd, hWc] at hd
        exact hd
      obtain ⟨arch, hp, hf⟩ := buildcld_members_pack env newfile info bc W3 buff d ha hne hd f3
        hpack
      have hsm : spec_members W3 info d = spec_members (setCwd w tmpdir) info d :=
        spec_members_congr _ _ info d ((o3.access info hne).trans (hWa info))
          ((o3.access "daily.cfg" hcop).trans (hWa "daily.cfg"))
      rw [hsm, spec_pack_congr env bc newfile (setCwd w tmpdir) W3 (oW.only_trans o3)] at hp
      refine ⟨d, data, buff, arch, hd', rfl, hb, hp, ?_⟩
      simp only [lookupFile, ha, if_true]
      exact hf

/-- C23: on success `buildcld` appends `COPYING`, then the `.info` file if
readable, then `daily.cfg` if readable, then the remaining directory entries in
iteration order, and nothing else: these are its `tar_addfile` calls, and the
archive it leaves is the header followed by exactly these members, appended in
this order by the packer with the bytes of their files; when the entry names
are distinct no member is appended twice.  When the member phase is reached
and `COPYING` is missing, `buildcld` returns `FC_EFAILEDUPDATE` and has
unlinked the output file. -/
theorem buildcld_member_order (env : Env) (tmpdir database newfile : String) (bc : Bool)
    (w : World) (ha : isAbs newfile = true) :
    ((buildcld env tmpdir database newfile bc w).1 = FC_SUCCESS →
      ∃ d data buff arch, w.dirs tmpdir = some d ∧
        lookupFile (setCwd w tmpdir) (snprintf DB_FILENAME_MAX (database ++ ".info"))
          = some data ∧
        buildcld_header env data = some buff ∧
        newEvents w (buildcld env tmpdir database newfile bc w).2 = Event.buildcld tmpdir ::
          (spec_members (setCwd w tmpdir) (snprintf DB_FILENAME_MAX (database ++ ".info"))
            d).map (fun n => Event.tar_addfile n true) ∧
        spec_pack env bc newfile (setCwd w tmpdir)
          (spec_members (setCwd w tmpdir) (snprintf DB_FILENAME_MAX (database ++ ".info")) d)
          buff = some arch ∧
        lookupFile (buildcld env tmpdir database newfile bc w).2 newfile = some arch ∧
        ((d.map (fun e => e.1)).Nodup →
          (spec_members (setCwd w tmpdir) (snprintf DB_FILENAME_MAX (database ++ ".info"))
            d).Nodup)) ∧
    (getcwd_ok w = true → chdir_ok w tmpdir = true →
      ((lookupFile (setCwd w tmpdir) (snprintf DB_FILENAME_MAX (database ++ ".info"))).bind
        (buildcld_header env)).isSome = true →
      open_excl_ok (setCwd w tmpdir) newfile = true → (bc && !env.gzopen) = false →
      access (setCwd w tmpdir) "COPYING" = false →
      (buildcld env tmpdir database newfile bc w).1 = FC_EFAILEDUPDATE ∧
      lookupFile (buildcld env tmpdir database newfile bc w).2 newfile = none ∧
      newEvents w (buildcld env tmpdir database newfile bc w).2
        = [Event.buildcld tmpdir, Event.unlink newfile]) := by
  constructor
  · intro hs
    obtain ⟨d, data, buff, hd, hdata, hbuff, hev, _⟩ :=
      buildcld_success env tmpdir database newfile bc w ha hs
    obtain ⟨d1, data1, buff1, arch, hd1, hdata1, hbuff1, hp, hf⟩ :=
      buildcld_archive env tmpdir database newfile bc w ha hs
    rw [hd] at hd1
    cases hd1
    rw [hdata] at hdata1
    cases hdata1
    rw [hbuff] at hbuff1
    cases hbuff1
    exact ⟨d, data, buff, arch, hd, hdata, hbuff, hev, hp, hf, spec_members_nodup _ database d⟩
  · intro hg hc hinfo ho hz hcop
    have hg1 : getcwd_ok (emit w (Event.buildcld tmpdir)) = true := hg
    have hc1 : chdir_ok (emit w (Event.buildcld tmpdir)) tmpdir = true := hc
    have ho1 : open_excl_ok (setCwd (emit w (Event.buildcld tmpdir)) tmpdir) newfile = true := ho
    have hpack : ∃ buff, buildcld_pack env database newfile bc
        (setCwd (emit w (Event.buildcld tmpdir)) tmpdir)
        = (FC_EFAILEDUPDATE, writeFile (created (setCwd (emit w (Event.buildcld tmpdir)) tmpdir)
            newfile) newfile buff) := by
      unfold buildcld_pack
      have hinfo1 : lookupFile (setCwd (emit w (Event.buildcld tmpdir)) tmpdir)
          (snprintf DB_FILENAME_MAX (database ++ ".info"))
          = lookupFile (setCwd w tmpdir) (snprintf DB_FILENAME_MAX (database ++ ".info")) := rfl
      simp only [hinfo1]
      generalize snprintf DB_FILENAME_MAX (database ++ ".info") = info at hinfo ⊢
      generalize lookupFile (setCwd w tmpdir) info = o at hinfo ⊢
      cases o with
      | none => simp at hinfo
      | some data =>
        cases hb : buildcld_header env data with
        | none => simp [Option.bind, hb] at hinfo
        | some buff =>
          refine ⟨buff, ?_⟩
          simp only [ho1, hb, hz, Bool.not_true, Bool.false_eq_true, if_false]
          unfold buildcld_members
          have hne : "COPYING" ≠ newfile := fun h => by
            rw [← h] at ha; exact absurd ha (by decide)
          have o3 : OnlyFile newfile (setCwd w tmpdir)
              (writeFile (created (setCwd (emit w (Event.buildcld tmpdir)) tmpdir) newfile)
                newfile buff) :=
            have o0 : OnlyFile newfile (setCwd w tmpdir)
                (setCwd (emit w (Event.buildcld tmpdir)) tmpdir) := ⟨rfl, rfl, fun _ _ => rfl⟩
            o0.only_trans
              ((OnlyFile.of_store newfile _ [] ha).only_trans (OnlyFile.of_store newfile _ buff ha))
          rw [o3.access "COPYING" hne, hcop]
          rfl
    obtain ⟨buff, hp⟩ := hpack
    unfold buildcld
    simp only [hg1, hc1, Bool.not_true, Bool.false_eq_true, if_false, hp]
    unfold buildcld_done
    have hch : chdir_ok (unlink (writeFile (created (setCwd (emit w (Event.buildcld tmpdir))
        tmpdir) newfile) newfile buff) newfile) (emit w (Event.buildcld tmpdir)).cwd = true := by
      have : getcwd_ok w = true := hg
      simp only [chdir_ok, unlink_dirs_isSome, writeFile, created, storeFile_dirs_abs _ _ _ ha]
      exact this
    simp only [ne_eq, show ¬ (FC_EFAILEDUPDATE = FC_SUCCESS) by decide, not_false_eq_true,
      if_true, hch, Bool.not_true, Bool.false_eq_true, if_false]
    refine ⟨trivial, ?_, ?_⟩
    · simp [lookupFile, ha, unlink, removeFile_files, setCwd]
    · simp [newEvents, setCwd, emit, writeFile, created]

theorem exEnv_appends (b : Bool) (arch : Content) (name : String) (d arch1 : Content)
    (h : exEnv.tar_addfile b arch name d = some arch1) : ∃ s, arch1 = arch ++ s := by
  simp only [exEnv, Option.some.injEq] at h
  exact ⟨[name.length.toUInt8] ++ d, by rw [← h, List.append_assoc]⟩

set_option maxRecDepth 100000 in
/-- Witness for C22: the `.info` file `AB\nC` of the example working copy. -/
theorem buildcld_writes_header_witness :
    isAbs "/tmp/out.cld" = true ∧
    lookupFile (setCwd exPackWorld "/tmp/work") (snprintf DB_FILENAME_MAX ("daily" ++ ".info"))
      = some [65, 66, 10, 67] ∧
    (buildcld exEnv "/tmp/work" "daily" "/tmp/out.cld" false exPackWorld).1 = FC_SUCCESS ∧
    buildcld_header exEnv [65, 66, 10, 67]
      = some (([65, 66, 10, 67] : Content).take 2 ++ List.replicate (CVD_HEADER_SIZE - 2) 32) ∧
    ∃ arch, lookupFile (buildcld exEnv "/tmp/work" "daily" "/tmp/out.cld" false exPackWorld).2
        "/tmp/out.cld" = some arch ∧
      arch.take 512 = ([65, 66, 10, 67] : Content).take 2
        ++ List.replicate (CVD_HEADER_SIZE - 2) 32 :=
  have key := buildcld_writes_header exEnv "/tmp/work" "daily" "/tmp/out.cld" false exPackWorld
    [65, 66, 10, 67] 2 (by decide) (exEnv_appends false) (by decide) (by decide) (by decide)
    (by decide) (by decide)
  ⟨by decide, by decide, by decide, key.1, key.2.2.2.2.2⟩

set_option maxRecDepth 100000 in
/-- Witness for C23: packing the example working copy, whose archive is the
header followed by the five members, each as the example packer writes it (the
length of the name, then the bytes), and the same without the file
`COPYING`. -/
theorem buildcld_member_order_witness :
    isAbs "/tmp/out.cld" = true ∧
    (buildcld exEnv "/tmp/work" "daily" "/tmp/out.cld" false exPackWorld).1 = FC_SUCCESS ∧
    newEvents exPackWorld (buildcld exEnv "/tmp/work" "daily" "/tmp/out.cld" false
      exPackWorld).2 =
      [Event.buildcld "/tmp/work", Event.tar_addfile "COPYING" true,
        Event.tar_addfile "daily.info" true, Event.tar_addfile "daily.cfg" true,
        Event.tar_addfile "daily.ndb" true, Event.tar_addfile "daily.hdb" true] ∧
    lookupFile (buildcld exEnv "/tmp/work" "daily" "/tmp/out.cld" false exPackWorld).2
      "/tmp/out.cld" = some ([65, 66] ++ List.replicate 510 32 ++
        [7, 1, 10, 65, 66, 10, 67, 9, 3, 9, 9, 9, 4]) ∧
    spec_pack exEnv false "/tmp/out.cld" (setCwd exPackWorld "/tmp/work")
      ["COPYING", "daily.info", "daily.cfg", "daily.ndb", "daily.hdb"]
      ([65, 66] ++ List.replicate 510 32)
      = some ([65, 66] ++ List.replicate 510 32 ++
        [7, 1, 10, 65, 66, 10, 67, 9, 3, 9, 9, 9, 4]) ∧
    (∃ d data buff arch, exPackWorld.dirs "/tmp/work" = some d ∧
      lookupFile (setCwd exPackWorld "/tmp/work")
        (snprintf DB_FILENAME_MAX ("daily" ++ ".info")) = some data ∧
      buildcld_header exEnv data = some buff ∧
      newEvents exPackWorld (buildcld exEnv "/tmp/work" "daily" "/tmp/out.cld" false
        exPackWorld).2 = Event.buildcld "/tmp/work" ::
        (spec_members (setCwd exPackWorld "/tmp/work")
          (snprintf DB_FILENAME_MAX ("daily" ++ ".info")) d).map
          (fun n => Event.tar_addfile n true) ∧
      spec_pack exEnv false "/tmp/out.cld" (setCwd exPackWorld "/tmp/work")
        (spec_members (setCwd exPackWorld "/tmp/work")
          (snprintf DB_FILENAME_MAX ("daily" ++ ".info")) d) buff = some arch ∧
      lookupFile (buildcld exEnv "/tmp/work" "daily" "/tmp/out.cld" false exPackWorld).2
        "/tmp/out.cld" = some arch ∧
      ((d.map (fun e => e.1)).Nodup →
        (spec_members (setCwd exPackWorld "/tmp/work")
          (snprintf DB_FILENAME_MAX ("daily" ++ ".info")) d).Nodup)) ∧
    access (setCwd exPackWorldBare "/tmp/work") "COPYING" = false ∧
    (buildcld exEnv "/tmp/work" "daily" "/tmp/out.cld" false exPackWorldBare).1
      = FC_EFAILEDUPDATE ∧
    lookupFile (buildcld exEnv "/tmp/work" "daily" "/tmp/out.cld" false exPackWorldBare).2
      "/tmp/out.cld" = none ∧
    newEvents exPackWorldBare (buildcld exEnv "/tmp/work" "daily" "/tmp/out.cld" false
      exPackWorldBare).2 = [Event.buildcld "/tmp/work", Event.unlink "/tmp/out.cld"] :=
  ⟨by decide, by decide, by decide, by decide, by decide,
    (buildcld_member_order exEnv "/tmp/work" "daily" "/tmp/out.cld" false exPackWorld
      (by decide)).1 (by decide),
    by decide,
    (buildcld_member_order exEnv "/tmp/work" "daily" "/tmp/out.cld" false exPackWorldBare
      (by decide)).2 (by decide) (by decide) (by decide) (by decide) (by decide) (by decide)⟩

/-! ## The custom-URL updater -/

theorem strrchr_none (c : Char) : ∀ s : List Char, strrchr s c = none ↔ c ∉ s := by
  intro s
  induction s with
  | nil => simp [strrchr]
  | cons x t ih =>
    unfold strrchr
    cases h : strrchr t c with
    | some r =>
      have : ¬ c ∉ t := fun hc => by rw [ih.mpr hc] at h; cases h
      constructor
      · intro h1; cases h1
      · intro hc
        exact absurd (fun h2 => hc (List.mem_cons_of_mem _ h2)) this
    | none =>
      have hn := ih.mp h
      by_cases hx : x = c
      · simp [hx]
      · simp only [hx, if_false, true_iff]
        intro hc
        rcases List.mem_cons.mp hc with h1 | h1
        · exact hx h1.symm
        · exact hn h1

theorem strrchr_some (c : Char) : ∀ (s r : List Char), strrchr s c = some r ↔
    ∃ pre name, s = pre ++ c :: name ∧ c ∉ name ∧ r = c :: name := by
  intro s
  induction s with
  | nil => intro r; simp [strrchr]
  | cons x t ih =>
    intro r
    unfold strrchr
    cases h : strrchr t c with
    | some r1 =>
      obtain ⟨pre, name, hs, hn, hr⟩ := (ih r1).mp h
      simp only [Option.some.injEq]
      constructor
      · rintro rfl
        exact ⟨x :: pre, name, by rw [hs]; rfl, hn, hr⟩
      · rintro ⟨pre2, name2, hs2, hn2, hr2⟩
        have hc : c ∈ t := by rw [hs]; simp
        cases pre2 with
        | nil =>
          simp only [List.nil_append, List.cons.injEq] at hs2
          exact absurd (hs2.2 ▸ hc) hn2
        | cons y pre3 =>
          simp only [List.cons_append, List.cons.injEq] at hs2
          have := (ih (c :: name2)).mpr ⟨pre3, name2, hs2.2, hn2, rfl⟩
          rw [h] at this
          cases this
          exact hr2.symm
    | none =>
      have hn := (strrchr_none c t).mp h
      by_cases hx : x = c
      · simp only [hx, if_true, Option.some.injEq]
        constructor
        · rintro rfl
          exact ⟨[], t, rfl, hn, rfl⟩
        · rintro ⟨pre2, name2, hs2, hn2, hr2⟩
          cases pre2 with
          | nil =>
            simp only [List.nil_append, List.cons.injEq] at hs2
            rw [hr2, hs2.2]
          | cons y pre3 =>
            simp only [List.cons_append, List.cons.injEq] at hs2
            exact absurd (by rw [hs2.2]; simp) hn
      · simp only [hx, if_false]
        constructor
        · intro h1; cases h1
        · rintro ⟨pre2, name2, hs2, hn2, hr2⟩
          cases pre2 with
          | nil =>
            simp only [List.nil_append, List.cons.injEq] at hs2
            exact absurd hs2.1 hx
          | cons y pre3 =>
            simp only [List.cons_append, List.cons.injEq] at hs2
            exact absurd (by rw [hs2.2]; simp) hn

/-- The name check of `updatecustomdb`, in terms of the text after the last
separator. -/
theorem updatecustomdb_name_spec (path : String) :
    (∀ name, updatecustomdb_name path = some name ↔
      ∃ pre, path.data = pre ++ '/' :: name.data ∧ '/' ∉ name.data ∧ 4 ≤ name.data.length) ∧
    (updatecustomdb_name path = none ↔
      ('/' ∉ path.data ∨
        ∃ pre name, path.data = pre ++ '/' :: name ∧ '/' ∉ name ∧ name.length < 4)) := by
  unfold updatecustomdb_name
  cases h : strrchr path.data '/' with
  | none =>
    have hn := (strrchr_none '/' path.data).mp h
    refine ⟨fun name => ?_, by simp [hn]⟩
    constructor
    · intro h1; cases h1
    · rintro ⟨pre, hp, _⟩
      exact absurd (by rw [hp]; simp) hn
  | some r =>
    obtain ⟨pre, name, hs, hn, hr⟩ := (strrchr_some '/' path.data r).mp h
    subst hr
    have huniq : ∀ pre2 name2, path.data = pre2 ++ '/' :: name2 → '/' ∉ name2 → name2 = name := by
      intro pre2 name2 h2 hn2
      have := (strrchr_some '/' path.data ('/' :: name2)).mpr ⟨pre2, name2, h2, hn2, rfl⟩
      rw [h] at this
      simpa using this.symm
    have hmem : ¬ '/' ∉ path.data := fun hc => hc (by rw [hs]; simp)
    simp only [List.length_cons, List.drop_succ_cons, List.drop_zero]
    by_cases hl : name.length + 1 < 5
    · simp only [hl, if_true, true_iff]
      refine ⟨fun nm => ?_, Or.inr ⟨pre, name, hs, hn, by omega⟩⟩
      constructor
      · intro h1; cases h1
      · rintro ⟨pre2, hp2, hn2, hlen⟩
        have := huniq pre2 nm.data hp2 hn2
        rw [this] at hlen
        omega
    · simp only [hl, if_false, Option.some.injEq]
      refine ⟨fun nm => ?_, ?_⟩
      · constructor
        · rintro rfl
          exact ⟨pre, hs, hn, by simp only []; omega⟩
        · rintro ⟨pre2, hp2, hn2, _⟩
          have := huniq pre2 nm.data hp2 hn2
          rw [← this]
      · constructor
        · intro h1; cases h1
        · rintro (h1 | ⟨pre2, name2, hp2, hn2, hlen⟩)
          · exact absurd h1 hmem
          · have := huniq pre2 name2 hp2 hn2
            rw [this] at hlen
            omega

theorem updatecustomdb_replace_nreq (env : Env) (databaseName tmpfile : String) (w : World) :
    (updatecustomdb_replace env databaseName tmpfile w).2.nreq = w.nreq := by
  unfold updatecustomdb_replace updatecustomdb_done
  dsimp only
  split
  · simp
  · split <;> simp

theorem updatecustomdb_install_nreq (env : Env) (cfg : Config) (databaseName tmpfile : String)
    (w : World) : (updatecustomdb_install env cfg databaseName tmpfile w).2.nreq = w.nreq := by
  unfold updatecustomdb_install updatecustomdb_done
  dsimp only
  split
  · exact updatecustomdb_replace_nreq _ _ _ _
  · split
    · simp
    · split
      · simp
      · rw [updatecustomdb_replace_nreq]; simp

theorem downloadFile_nreq (env : Env) (cfg : Config) (url destfile : String)
    (allow logerr : Bool) (ims : Nat) (w : World)
    (hh : (create_curl_handle env cfg (isHttp url) allow).2 = true)
    (ho : open_excl_ok w destfile = true) :
    (downloadFile env cfg url destfile allow logerr ims w).2.nreq = w.nreq + 1 := by
  unfold downloadFile
  simp only [hh, ho, Bool.not_true, Bool.false_eq_true, if_false]
  generalize env.curl_easy_perform w.nreq _ = r
  cases r with
  | failed c => simp [downloadFile_done, fc_error_t.isError, writeFile, created]
  | http code body =>
    dsimp only
    unfold downloadFile_done
    repeat' split
    all_goals simp [writeFile, created]

/-- C24, amended: for a `file://` URL with an accepted name whose source
exists with modification time `s`, and a local copy with modification time `l`
(`0` when absent), `updatecustomdb` reports up-to-date without copying exactly
when `s < l`; when `l ≤ s`, equal times included, it copies the source into the
temporary file and goes on to install it. -/
theorem updatecustomdb_file_freshness (env : Env) (cfg : Config) (url : String)
    (logerr : Bool) (w : World) (tmpfile name : String)
    (hfile : isFileUrl url = true)
    (hg : env.cli_gentemp w.ntmp cfg.g_tempDirectory = some tmpfile)
    (hname : updatecustomdb_name (String.mk (url.data.drop 7)) = some name)
    (hsrc : access w (String.mk (url.data.drop 7)) = true) :
    (env.st_mtime (String.mk (url.data.drop 7)) < stat_mtime env w name →
      updatecustomdb env cfg url logerr w =
        ({ status := FC_SUCCESS, signo := 0, dbFilename := some name, bUpdated := false },
          unlink (countTemp w) tmpfile)) ∧
    (stat_mtime env w name ≤ env.st_mtime (String.mk (url.data.drop 7)) →
      cli_filecopy_ok w (String.mk (url.data.drop 7)) tmpfile = true →
      updatecustomdb env cfg url logerr w =
        updatecustomdb_install env cfg name tmpfile
          (cli_filecopy (countTemp w) (String.mk (url.data.drop 7)) tmpfile) ∧
      lookupFile (cli_filecopy (countTemp w) (String.mk (url.data.drop 7)) tmpfile) tmpfile
        = lookupFile w (String.mk (url.data.drop 7))) := by
  have hsrc' : access (countTemp w) (String.mk (url.data.drop 7)) = true := hsrc
  have hst : stat_mtime env (countTemp w) name = stat_mtime env w name := rfl
  constructor
  · intro hlt
    unfold updatecustomdb
    simp only [cli_gentemp, hg, hfile, if_true]
    unfold updatecustomdb_file
    simp only [hname, hsrc', Bool.not_true, Bool.false_eq_true, if_false, hst, gt_iff_lt, hlt,
      if_true]
    rfl
  · intro hle hcp
    have hcp' : cli_filecopy_ok (countTemp w) (String.mk (url.data.drop 7)) tmpfile = true := hcp
    constructor
    · unfold updatecustomdb
      simp only [cli_gentemp, hg, hfile, if_true]
      unfold updatecustomdb_file
      have hnlt : ¬ env.st_mtime (String.mk (url.data.drop 7)) < stat_mtime env w name := by
        omega
      simp only [hname, hsrc', Bool.not_true, Bool.false_eq_true, if_false, hst, gt_iff_lt, hnlt,
        hcp']
    · unfold cli_filecopy
      simp only [cli_filecopy_ok, Bool.and_eq_true] at hcp
      rw [lookupFile_storeFile]
      have hc : canStore (countTemp w) tmpfile = true := hcp.2
      simp only [hc, and_self, if_true]
      have : lookupFile (countTemp w) (String.mk (url.data.drop 7))
          = lookupFile w (String.mk (url.data.drop 7)) := rfl
      rw [this]
      cases hl : lookupFile w (String.mk (url.data.drop 7)) with
      | none => rw [hl] at hcp; simp at hcp
      | some c => rfl

set_option maxRecDepth 100000 in
/-- Witness for C24: `old.db` has a source older than the local copy,
`new.db` a newer one. -/
theorem updatecustomdb_file_freshness_witness :
    (isFileUrl "file:///src/old.db" = true ∧
      exEnvMtime.cli_gentemp exWorldSrc.ntmp exCfg.g_tempDirectory = some "/tmp/clamav-0.tmp" ∧
      updatecustomdb_name (String.mk ("file:///src/old.db".data.drop 7)) = some "old.db" ∧
      access exWorldSrc (String.mk ("file:///src/old.db".data.drop 7)) = true ∧
      exEnvMtime.st_mtime (String.mk ("file:///src/old.db".data.drop 7))
        < stat_mtime exEnvMtime exWorldSrc "old.db" ∧
      updatecustomdb exEnvMtime exCfg "file:///src/old.db" false exWorldSrc =
        ({ status := FC_SUCCESS, signo := 0, dbFilename := some "old.db", bUpdated := false },
          unlink (countTemp exWorldSrc) "/tmp/clamav-0.tmp")) ∧
    (stat_mtime exEnvMtime exWorldSrc "new.db"
        ≤ exEnvMtime.st_mtime (String.mk ("file:///src/new.db".data.drop 7)) ∧
      updatecustomdb exEnvMtime exCfg "file:///src/new.db" false exWorldSrc =
        updatecustomdb_install exEnvMtime exCfg "new.db" "/tmp/clamav-0.tmp"
          (cli_filecopy (countTemp exWorldSrc) (String.mk ("file:///src/new.db".data.drop 7))
            "/tmp/clamav-0.tmp") ∧
      lookupFile (cli_filecopy (countTemp exWorldSrc)
        (String.mk ("file:///src/new.db".data.drop 7)) "/tmp/clamav-0.tmp") "/tmp/clamav-0.tmp"
        = lookupFile exWorldSrc (String.mk ("file:///src/new.db".data.drop 7)) ∧
      (updatecustomdb exEnvMtime exCfg "file:///src/new.db" false exWorldSrc).1 =
        { status := FC_SUCCESS, signo := 1, dbFilename := some "new.db", bUpdated := true }) :=
  have k1 := updatecustomdb_file_freshness exEnvMtime exCfg "file:///src/old.db" false exWorldSrc
    "/tmp/clamav-0.tmp" "old.db" (by decide) (by decide) (by decide) (by decide)
  have k2 := updatecustomdb_file_freshness exEnvMtime exCfg "file:///src/new.db" false exWorldSrc
    "/tmp/clamav-0.tmp" "new.db" (by decide) (by decide) (by decide) (by decide)
  ⟨⟨by decide, by decide, by decide, by decide, by decide, k1.1 (by decide)⟩,
    ⟨by decide, (k2.2 (by decide) (by decide)).1, (k2.2 (by decide) (by decide)).2, by decide⟩⟩

set_option maxRecDepth 100000 in
/-- Counterexample for C24: the source `/src/same.db` and the local copy
`same.db` have the same modification time, so the source is not newer; the
test `dbtime > remote_dbtime` is false, and the source is copied and
installed. -/
theorem updatecustomdb_equal_mtime_counterexample :
    access exWorldSrc "same.db" = true ∧
    exEnvMtime.st_mtime "/src/same.db" ≤ stat_mtime exEnvMtime exWorldSrc "same.db" ∧
    (updatecustomdb exEnvMtime exCfg "file:///src/same.db" false exWorldSrc).1 =
      { status := FC_SUCCESS, signo := 2, dbFilename := some "same.db", bUpdated := true } ∧
    lookupFile exWorldSrc "same.db" = some [9] ∧
    lookupFile (updatecustomdb exEnvMtime exCfg "file:///src/same.db" false exWorldSrc).2
      "same.db" = some [3, 10, 4, 10] ∧
    newEvents exWorldSrc
      (updatecustomdb exEnvMtime exCfg "file:///src/same.db" false exWorldSrc).2 =
      [Event.rename "/tmp/clamav-0.tmp" "same.db" [3, 10, 4, 10],
        Event.unlink "/tmp/clamav-0.tmp"] := by
  decide

/-! ## The verbose-error flag -/

section sev
variable (env : Env) (w : World) (l : List String) (e : Event) (p q msg : String) (c : Content)

theorem lookupFile_setLog : lookupFile (setLog w l) p = lookupFile w p := rfl
theorem access_setLog : access (setLog w l) p = access w p := rfl
theorem canStore_setLog : canStore (setLog w l) p = canStore w p := rfl
theorem rename_ok_setLog : rename_ok (setLog w l) p q = rename_ok w p q := rfl
theorem open_excl_ok_setLog : open_excl_ok (setLog w l) p = open_excl_ok w p := rfl
theorem getcwd_ok_setLog : getcwd_ok (setLog w l) = getcwd_ok w := rfl
theorem chdir_ok_setLog : chdir_ok (setLog w l) p = chdir_ok w p := rfl
theorem mkdir_ok_setLog : mkdir_ok (setLog w l) p = mkdir_ok w p := rfl
theorem setLog_nreq : (setLog w l).nreq = w.nreq := rfl
theorem setLog_ntmp : (setLog w l).ntmp = w.ntmp := rfl
theorem setLog_cwd : (setLog w l).cwd = w.cwd := rfl
theorem setLog_dirs : (setLog w l).dirs = w.dirs := rfl
theorem setLog_files : (setLog w l).files = w.files := rfl
theorem setLog_trace : (setLog w l).trace = w.trace := rfl
theorem setLog_log : (setLog w l).log = l := rfl
theorem setLog_setLog (l1 : List String) : setLog (setLog w l) l1 = setLog w l1 := rfl
theorem emit_setLog : emit (setLog w l) e = setLog (emit w e) l := rfl
theorem countRequest_setLog : countRequest (setLog w l) = setLog (countRequest w) l := rfl
theorem countTemp_setLog : countTemp (setLog w l) = setLog (countTemp w) l := rfl
theorem setCwd_setLog : setCwd (setLog w l) p = setLog (setCwd w p) l := rfl
theorem setDir_setLog (d : Option Dir) : setDir (setLog w l) p d = setLog (setDir w p d) l := rfl
theorem cli_rmdirs_setLog : cli_rmdirs (setLog w l) p = setLog (cli_rmdirs w p) l := rfl
theorem logg_setLog : logg (setLog w l) msg = setLog w (l ++ [msg]) := rfl

theorem storeFile_setLog : storeFile (setLog w l) p c = setLog (storeFile w p c) l := by
  unfold storeFile
  split <;> rfl

theorem removeFile_setLog : removeFile (setLog w l) p = setLog (removeFile w p) l := by
  unfold removeFile
  split <;> rfl

theorem unlink_setLog : unlink (setLog w l) p = setLog (unlink w p) l := by
  unfold unlink
  rw [emit_setLog, removeFile_setLog]

theorem renamed_setLog : renamed (setLog w l) p q = setLog (renamed w p q) l := by
  unfold renamed
  dsimp only
  rw [lookupFile_setLog, emit_setLog, removeFile_setLog, storeFile_setLog]

theorem created_setLog : created (setLog w l) p = setLog (created w p) l :=
  storeFile_setLog _ _ _ _

theorem writeFile_setLog : writeFile (setLog w l) p c = setLog (writeFile w p c) l :=
  storeFile_setLog _ _ _ _

theorem cl_cvdhead_setLog : cl_cvdhead env (setLog w l) p = cl_cvdhead env w p := rfl

theorem cli_gentemp_setLog : cli_gentemp env (setLog w l) p =
    ((cli_gentemp env w p).1, setLog (cli_gentemp env w p).2 l) := rfl

@[simp] theorem unlink_log : (unlink w p).log = w.log := by simp [unlink]

@[simp] theorem renamed_log : (renamed w p q).log = w.log := by simp [renamed]

theorem log_text_sev (a b : Bool) (m : String) :
    log_text (sev b ++ m) = log_text (sev a ++ m) := by
  unfold log_text sev
  rw [String.data_append, String.data_append]
  cases a <;> cases b <;> rfl

end sev

theorem LogSim.same {α : Type} (x : α) (w : World) (l : List String)
    (hl : l.map log_text = w.log.map log_text) : LogSim (x, w) (x, setLog w l) :=
  ⟨rfl, l, rfl, hl⟩

theorem LogSim.with_line {α : Type} (x : α) (w : World) (l : List String) (a b : Bool) (m : String)
    (hl : l.map log_text = w.log.map log_text) :
    LogSim (x, logg w (sev a ++ m)) (x, setLog w (l ++ [sev b ++ m])) :=
  ⟨rfl, l ++ [sev b ++ m], rfl, by simp [hl, log_text_sev a b m]⟩

theorem LogSim.eq {α : Type} {r r1 : α × World} (h : LogSim r r1) :
    ∃ l, r1 = (r.1, setLog r.2 l) ∧ l.map log_text = r.2.log.map log_text := by
  obtain ⟨h1, l, h2, hl⟩ := h
  exact ⟨l, Prod.ext h1 h2, hl⟩

theorem remote_cvdhead_sev (env : Env) (cfg : Config) (cvdfile : String) (ims : Nat)
    (server : String) (a b : Bool) (w : World) (l : List String)
    (hl : l.map log_text = w.log.map log_text) :
    LogSim (remote_cvdhead env cfg cvdfile ims server a w)
      (remote_cvdhead env cfg cvdfile ims server b (setLog w l)) := by
  unfold remote_cvdhead
  simp only [setLog_nreq, countRequest_setLog, emit_setLog, logg_setLog]
  have hl1 : l.map log_text = (emit (countRequest w) (Event.curl (server ++ "/" ++ cvdfile)
      none)).log.map log_text := hl
  generalize emit (countRequest w) (Event.curl (server ++ "/" ++ cvdfile) none) = w1 at hl1 ⊢
  split
  · exact LogSim.same _ _ _ hl
  · split
    · exact LogSim.with_line _ _ _ a b _ hl1
    · split
      · split
        · exact LogSim.with_line _ _ _ a b _ hl1
        · split
          · exact LogSim.with_line _ _ _ a b _ hl1
          · split
            · exact LogSim.with_line _ _ _ a b _ hl1
            · exact LogSim.same _ _ _ hl1
      · split
        · exact LogSim.same _ _ _ hl1
        · split
          · exact LogSim.same _ _ _ hl1
          · exact LogSim.with_line _ _ _ a b _ hl1

theorem downloadFile_done_sev (destfile : String) (st : fc_error_t) (w : World)
    (l : List String) (hl : l.map log_text = w.log.map log_text) :
    LogSim (downloadFile_done destfile st w) (downloadFile_done destfile st (setLog w l)) := by
  unfold downloadFile_done
  split
  · rw [unlink_setLog]
    exact LogSim.same _ _ _ (by simpa using hl)
  · exact LogSim.same _ _ _ hl

theorem downloadFile_done_logg (destfile : String) (st : fc_error_t) (w : World)
    (l : List String) (a b : Bool) (m : String) (hl : l.map log_text = w.log.map log_text) :
    LogSim (downloadFile_done destfile st (logg w (sev a ++ m)))
      (downloadFile_done destfile st (setLog w (l ++ [sev b ++ m]))) := by
  have := downloadFile_done_sev destfile st (logg w (sev a ++ m)) (l ++ [sev b ++ m])
    (by simp [hl, log_text_sev a b m])
  exact this

theorem downloadFile_sev (env : Env) (cfg : Config) (url destfile : String)
    (allow : Bool) (ims : Nat) (a b : Bool) (w : World) (l : List String)
    (hl : l.map log_text = w.log.map log_text) :
    LogSim (downloadFile env cfg url destfile allow a ims w)
      (downloadFile env cfg url destfile allow b ims (setLog w l)) := by
  unfold downloadFile
  simp only [setLog_nreq, countRequest_setLog, emit_setLog, logg_setLog, open_excl_ok_setLog,
    created_setLog, writeFile_setLog]
  split
  · exact downloadFile_done_sev _ _ _ _ hl
  · split
    · exact downloadFile_done_sev _ _ _ _ hl
    · have hl1 : l.map log_text = (emit (countRequest (created w destfile))
          (Event.curl url (some destfile))).log.map log_text := by
        simpa [created] using hl
      generalize emit (countRequest (created w destfile)) (Event.curl url (some destfile))
        = w1 at hl1 ⊢
      split
      · exact downloadFile_done_logg _ _ _ _ a b _ hl1
      · have hl2 : ∀ body, l.map log_text = (writeFile w1 destfile body).log.map log_text := by
          intro body; simpa [writeFile] using hl1
        split
        · exact downloadFile_done_sev _ _ _ _ (hl2 _)
        · split
          · exact downloadFile_done_sev _ _ _ _ (hl2 _)
          · split
            · exact downloadFile_done_sev _ _ _ _ (hl2 _)
            · exact downloadFile_done_logg _ _ _ _ a b _ (hl2 _)

theorem LogSim.of_logg {α : Type} (D : World → α × World)
    (hD : ∀ w l, l.map log_text = w.log.map log_text → LogSim (D w) (D (setLog w l)))
    (w : World) (l : List String) (a b : Bool) (m : String)
    (hl : l.map log_text = w.log.map log_text) :
    LogSim (D (logg w (sev a ++ m))) (D (setLog w (l ++ [sev b ++ m]))) :=
  hD (logg w (sev a ++ m)) (l ++ [sev b ++ m]) (by simp [hl, log_text_sev a b m])

theorem getcvd_done_sev (tmpfile : String) (twe : Option String) (st : fc_error_t) (w : World)
    (l : List String) (hl : l.map log_text = w.log.map log_text) :
    LogSim (getcvd_done tmpfile twe st w) (getcvd_done tmpfile twe st (setLog w l)) := by
  unfold getcvd_done
  cases twe with
  | none =>
    dsimp only
    split
    · rw [unlink_setLog]
      exact LogSim.same _ _ _ (by simpa using hl)
    · exact LogSim.same _ _ _ hl
  | some t =>
    dsimp only
    split
    · rw [unlink_setLog, unlink_setLog]
      exact LogSim.same _ _ _ (by simpa using hl)
    · rw [unlink_setLog]
      exact LogSim.same _ _ _ (by simpa using hl)

theorem getcvd_sev (env : Env) (cfg : Config) (cvdfile tmpfile server : String) (v : Nat)
    (a b : Bool) (w : World) (l : List String) (hl : l.map log_text = w.log.map log_text) :
    LogSim (getcvd env cfg cvdfile tmpfile server v a w)
      (getcvd env cfg cvdfile tmpfile server v b (setLog w l)) := by
  unfold getcvd
  simp only [emit_setLog]
  obtain ⟨l1, e1, hl1⟩ := (downloadFile_sev env cfg (server ++ "/" ++ cvdfile) tmpfile true 0 a b
    (emit w (Event.getcvd cvdfile v)) l (by simpa using hl)).eq
  rw [e1]
  generalize downloadFile env cfg (server ++ "/" ++ cvdfile) tmpfile true a 0
    (emit w (Event.getcvd cvdfile v)) = dl at hl1 ⊢
  dsimp only
  simp only [logg_setLog, rename_ok_setLog, renamed_setLog, lookupFile_setLog, emit_setLog]
  split
  · rw [String.append_assoc, String.append_assoc]
    exact LogSim.of_logg (getcvd_done tmpfile none dl.1) (getcvd_done_sev _ _ _) _ _ a b _ hl1
  · split
    · exact getcvd_done_sev _ _ _ _ _ hl1
    · split
      · exact getcvd_done_sev _ _ _ _ _ (by simpa using hl1)
      · split
        · exact getcvd_done_sev _ _ _ _ _ (by simpa using hl1)
        · split
          · exact getcvd_done_sev _ _ _ _ _ (by simpa using hl1)
          · exact getcvd_done_sev _ _ _ _ _ (by simpa using hl1)

theorem cdiff_tmp_enter_sev (tmpdir : String) (w : World) (l : List String)
    (hl : l.map log_text = w.log.map log_text) :
    LogSim (cdiff_tmp_enter tmpdir w) (cdiff_tmp_enter tmpdir (setLog w l)) := by
  unfold cdiff_tmp_enter
  simp only [chdir_ok_setLog, setCwd_setLog]
  split
  · exact LogSim.same _ _ _ hl
  · exact LogSim.same _ _ _ (by simpa using hl)

theorem cdiff_tmp_seed_sev (env : Env) (cvdfile tmpdir : String) (w : World) (l : List String)
    (hl : l.map log_text = w.log.map log_text) :
    LogSim (cdiff_tmp_seed env cvdfile tmpdir w) (cdiff_tmp_seed env cvdfile tmpdir (setLog w l)) := by
  unfold cdiff_tmp_seed
  simp only [mkdir_ok_setLog, setDir_setLog, lookupFile_setLog, cli_rmdirs_setLog]
  split
  · exact LogSim.same _ _ _ hl
  · split
    · exact LogSim.same _ _ _ (by simpa [cli_rmdirs] using hl)
    · exact cdiff_tmp_enter_sev _ _ _ (by simpa using hl)

theorem mkdir_and_chdir_sev (env : Env) (database tmpdir : String) (w : World)
    (l : List String) (hl : l.map log_text = w.log.map log_text) :
    LogSim (mkdir_and_chdir_for_cdiff_tmp env database tmpdir w)
      (mkdir_and_chdir_for_cdiff_tmp env database tmpdir (setLog w l)) := by
  unfold mkdir_and_chdir_for_cdiff_tmp
  simp only [access_setLog]
  split
  · exact cdiff_tmp_enter_sev _ _ _ hl
  · split
    · exact LogSim.same _ _ _ hl
    · split
      · exact cdiff_tmp_seed_sev _ _ _ _ _ hl
      · split
        · exact LogSim.same _ _ _ hl
        · split
          · exact cdiff_tmp_seed_sev _ _ _ _ _ hl
          · exact LogSim.same _ _ _ hl

theorem downloadPatch_done_sev (tempname : Option String) (olddir : String) (st : fc_error_t)
    (w : World) (l : List String) (hl : l.map log_text = w.log.map log_text) :
    LogSim (downloadPatch_done tempname olddir st w)
      (downloadPatch_done tempname olddir st (setLog w l)) := by
  unfold downloadPatch_done
  cases tempname with
  | none =>
    simp only [chdir_ok_setLog, setCwd_setLog]
    split
    · exact LogSim.same _ _ _ hl
    · exact LogSim.same _ _ _ (by simpa using hl)
  | some t =>
    simp only [unlink_setLog, chdir_ok_setLog, setCwd_setLog]
    split
    · exact LogSim.same _ _ _ (by simpa using hl)
    · exact LogSim.same _ _ _ (by simpa using hl)

theorem downloadPatch_apply_sev (env : Env) (cfg : Config) (database : String) (version : Int)
    (server : String) (tempname : String) (a b : Bool) (w : World) (l : List String)
    (hl : l.map log_text = w.log.map log_text) :
    LogSim (downloadPatch_apply env cfg database version server a tempname w)
      (downloadPatch_apply env cfg database version server b tempname (setLog w l)) := by
  unfold downloadPatch_apply
  dsimp only
  generalize snprintf DB_FILENAME_MAX (database ++ "-" ++ toString version ++ ".cdiff") = patch
  obtain ⟨l1, e1, hl1⟩ := (downloadFile_sev env cfg (server ++ "/" ++ patch) tempname true 0 a b
    w l hl).eq
  rw [e1]
  generalize downloadFile env cfg (server ++ "/" ++ patch) tempname true a 0 w = dl at hl1 ⊢
  dsimp only
  simp only [logg_setLog, lookupFile_setLog, setLog_dirs, setLog_cwd, setDir_setLog, emit_setLog]
  split
  · split
    · exact LogSim.same _ _ _ hl1
    · rw [String.append_assoc, String.append_assoc]
      exact LogSim.with_line _ _ _ a b _ hl1
  · split
    · exact LogSim.same _ _ _ (by simpa using hl1)
    · exact LogSim.same _ _ _ hl1

theorem downloadPatch_sev (env : Env) (cfg : Config) (database tmpdir : String) (version : Int)
    (server : String) (a b : Bool) (w : World) (l : List String)
    (hl : l.map log_text = w.log.map log_text) :
    LogSim (downloadPatch env cfg database tmpdir version server a w)
      (downloadPatch env cfg database tmpdir version server b (setLog w l)) := by
  unfold downloadPatch
  simp only [emit_setLog, getcwd_ok_setLog, setLog_cwd]
  have hl0 : l.map log_text = (emit w (Event.downloadPatch version)).log.map log_text := hl
  generalize emit w (Event.downloadPatch version) = w0 at hl0 ⊢
  split
  · exact LogSim.same _ _ _ hl0
  · split
    · exact LogSim.same _ _ _ hl0
    · obtain ⟨l1, e1, hl1⟩ := (mkdir_and_chdir_sev env database tmpdir w0 l hl0).eq
      rw [e1]
      generalize mkdir_and_chdir_for_cdiff_tmp env database tmpdir w0 = m at hl1 ⊢
      dsimp only
      split
      · exact downloadPatch_done_sev _ _ _ _ _ hl1
      · simp only [cli_gentemp_setLog]
        split
        · exact downloadPatch_done_sev _ _ _ _ _ (by simpa [cli_gentemp] using hl1)
        · rename_i tempname _
          obtain ⟨l2, e2, hl2⟩ := (downloadPatch_apply_sev env cfg database version server
            tempname a b (cli_gentemp env m.2 ".").2 l1 (by simpa [cli_gentemp] using hl1)).eq
          rw [e2]
          exact downloadPatch_done_sev _ _ _ _ _ hl2

theorem query_http_sev (env : Env) (cfg : Config) (cvdfile cldfile : String) (ims : Nat)
    (server : String) (pm a b : Bool) (w : World) (l : List String)
    (hl : l.map log_text = w.log.map log_text) :
    LogSim (query_http env cfg cvdfile cldfile ims server pm a w)
      (query_http env cfg cvdfile cldfile ims server pm b (setLog w l)) := by
  unfold query_http
  split
  · obtain ⟨l1, e1, hl1⟩ := (remote_cvdhead_sev env cfg cldfile ims server a b w l hl).eq
    rw [e1]
    generalize remote_cvdhead env cfg cldfile ims server a w = r at hl1 ⊢
    dsimp only
    split
    · exact LogSim.same _ _ _ hl1
    · obtain ⟨l2, e2, hl2⟩ := (remote_cvdhead_sev env cfg cvdfile ims server a b r.2 l1 hl1).eq
      rw [e2]
      exact LogSim.same _ _ _ hl2
  · obtain ⟨l1, e1, hl1⟩ := (remote_cvdhead_sev env cfg cvdfile ims server a b w l hl).eq
    rw [e1]
    exact LogSim.same _ _ _ hl1

theorem query_sev (env : Env) (cfg : Config) (database : String) (ims : Nat)
    (dns : Option String) (server : String) (pm a b : Bool) (w : World) (l : List String)
    (hl : l.map log_text = w.log.map log_text) :
    LogSim (query_remote_database_version env cfg database ims dns server pm a w)
      (query_remote_database_version env cfg database ims dns server pm b (setLog w l)) := by
  unfold query_remote_database_version
  dsimp only
  generalize snprintf DB_FILENAME_MAX (database ++ ".cvd") = cvdfile
  generalize snprintf DB_FILENAME_MAX (database ++ ".cld") = cldfile
  split
  · obtain ⟨l1, e1, hl1⟩ := (query_http_sev env cfg cvdfile cldfile ims server pm a b w l hl).eq
    rw [e1]
    generalize query_http env cfg cvdfile cldfile ims server pm a w = h at hl1 ⊢
    dsimp only
    split
    · exact LogSim.same _ _ _ hl1
    · exact LogSim.same _ _ _ hl1
  · exact LogSim.same _ _ _ hl

theorem check_sev (env : Env) (cfg : Config) (database : String)
    (dns : Option String) (server : String) (pm a b : Bool) (w : World) (l : List String)
    (hl : l.map log_text = w.log.map log_text) :
    LogSim (check_for_new_database_version env cfg database dns server pm a w)
      (check_for_new_database_version env cfg database dns server pm b (setLog w l)) := by
  unfold check_for_new_database_version
  have hc : currentdb env database (setLog w l) = currentdb env database w := by
    unfold currentdb
    generalize snprintf DB_FILENAME_MAX (database ++ ".cvd") = cvdname
    generalize snprintf DB_FILENAME_MAX (database ++ ".cld") = cldname
    rfl
  rw [hc]
  dsimp only
  obtain ⟨l1, e1, hl1⟩ := (query_sev env cfg database
    ((Option.map (fun l => l.1.stime) (currentdb env database w)).getD 0) dns server pm a b w l
    hl).eq
  rw [e1]
  exact LogSim.same _ _ _ hl1

theorem tar_addfile_sev (env : Env) (bc : Bool) (newfile name : String) (w : World)
    (l : List String) (hl : l.map log_text = w.log.map log_text) :
    LogSim (tar_addfile env bc newfile name w) (tar_addfile env bc newfile name (setLog w l)) := by
  unfold tar_addfile
  simp only [lookupFile_setLog, writeFile_setLog, emit_setLog]
  split
  · split
    · exact LogSim.same _ _ _ (by simpa [writeFile] using hl)
    · exact LogSim.same _ _ _ (by simpa using hl)
  · exact LogSim.same _ _ _ (by simpa using hl)

theorem buildcld_loop_sev (env : Env) (bc : Bool) (newfile info : String) :
    ∀ (names : List String) (w : World) (l : List String),
      l.map log_text = w.log.map log_text →
      LogSim (buildcld_loop env bc newfile info names w)
        (buildcld_loop env bc newfile info names (setLog w l)) := by
  intro names
  induction names with
  | nil => intro w l hl; exact LogSim.same _ _ _ hl
  | cons n rest ih =>
    intro w l hl
    unfold buildcld_loop
    split
    · exact ih w l hl
    · obtain ⟨l1, e1, hl1⟩ := (tar_addfile_sev env bc newfile n w l hl).eq
      rw [e1]
      generalize tar_addfile env bc newfile n w = t at hl1 ⊢
      dsimp only
      split
      · exact LogSim.same _ _ _ hl1
      · exact ih _ _ hl1

theorem tar_addfile_optional_sev (env : Env) (bc : Bool) (newfile name : String) (c : Bool)
    (w : World) (l : List String) (hl : l.map log_text = w.log.map log_text) :
    LogSim (if c = true then tar_addfile env bc newfile name w else (true, w))
      (if c = true then tar_addfile env bc newfile name (setLog w l) else (true, setLog w l)) := by
  split
  · exact tar_addfile_sev _ _ _ _ _ _ hl
  · exact LogSim.same _ _ _ hl

theorem buildcld_members_sev (env : Env) (newfile info : String) (bc : Bool) (w : World)
    (l : List String) (hl : l.map log_text = w.log.map log_text) :
    LogSim (buildcld_members env newfile info bc w)
      (buildcld_members env newfile info bc (setLog w l)) := by
  unfold buildcld_members
  simp only [access_setLog]
  split
  · exact LogSim.same _ _ _ hl
  · obtain ⟨l1, e1, hl1⟩ := (tar_addfile_sev env bc newfile "COPYING" w l hl).eq
    rw [e1]
    generalize tar_addfile env bc newfile "COPYING" w = r1 at hl1 ⊢
    dsimp only
    split
    · exact LogSim.same _ _ _ hl1
    · simp only [access_setLog]
      obtain ⟨l2, e2, hl2⟩ := (tar_addfile_optional_sev env bc newfile info (access r1.2 info)
        r1.2 l1 hl1).eq
      rw [e2]
      generalize (if access r1.2 info = true then tar_addfile env bc newfile info r1.2
        else (true, r1.2)) = r2 at hl2 ⊢
      dsimp only
      split
      · exact LogSim.same _ _ _ hl2
      · simp only [access_setLog]
        obtain ⟨l3, e3, hl3⟩ := (tar_addfile_optional_sev env bc newfile "daily.cfg"
          (access r2.2 "daily.cfg") r2.2 l2 hl2).eq
        rw [e3]
        generalize (if access r2.2 "daily.cfg" = true
          then tar_addfile env bc newfile "daily.cfg" r2.2 else (true, r2.2)) = r3 at hl3 ⊢
        dsimp only
        split
        · exact LogSim.same _ _ _ hl3
        · simp only [setLog_dirs, setLog_cwd]
          split
          · exact LogSim.same _ _ _ hl3
          · exact buildcld_loop_sev _ _ _ _ _ _ _ hl3

theorem buildcld_pack_sev (env : Env) (database newfile : String) (bc : Bool) (w : World)
    (l : List String) (hl : l.map log_text = w.log.map log_text) :
    LogSim (buildcld_pack env database newfile bc w)
      (buildcld_pack env database newfile bc (setLog w l)) := by
  unfold buildcld_pack
  dsimp only
  generalize snprintf DB_FILENAME_MAX (database ++ ".info") = info
  simp only [lookupFile_setLog, open_excl_ok_setLog, created_setLog, writeFile_setLog]
  split
  · exact LogSim.same _ _ _ hl
  · split
    · exact LogSim.same _ _ _ hl
    · split
      · exact LogSim.same _ _ _ hl
      · split
        · exact LogSim.same _ _ _ (by simpa [writeFile, created] using hl)
        · exact buildcld_members_sev _ _ _ _ _ _ (by simpa [writeFile, created] using hl)

theorem buildcld_done_sev (newfile : String) (olddir : Option String) (st : fc_error_t)
    (w : World) (l : List String) (hl : l.map log_text = w.log.map log_text) :
    LogSim (buildcld_done newfile olddir st w) (buildcld_done newfile olddir st (setLog w l)) := by
  unfold buildcld_done
  have key : (if st ≠ FC_SUCCESS then unlink (setLog w l) newfile else setLog w l)
      = setLog (if st ≠ FC_SUCCESS then unlink w newfile else w) l := by
    split
    · exact unlink_setLog _ _ _
    · rfl
  have hl1 : l.map log_text
      = (if st ≠ FC_SUCCESS then unlink w newfile else w).log.map log_text := by
    split
    · simpa using hl
    · exact hl
  dsimp only
  rw [key]
  generalize (if st ≠ FC_SUCCESS then unlink w newfile else w) = w1 at hl1 ⊢
  cases olddir with
  | none => exact LogSim.same _ _ _ hl1
  | some o =>
    simp only [chdir_ok_setLog, setCwd_setLog]
    split
    · exact LogSim.same _ _ _ hl1
    · exact LogSim.same _ _ _ (by simpa using hl1)

theorem buildcld_sev (env : Env) (tmpdir database newfile : String) (bc : Bool) (w : World)
    (l : List String) (hl : l.map log_text = w.log.map log_text) :
    LogSim (buildcld env tmpdir database newfile bc w)
      (buildcld env tmpdir database newfile bc (setLog w l)) := by
  unfold buildcld
  simp only [emit_setLog, getcwd_ok_setLog, chdir_ok_setLog, setLog_cwd, setCwd_setLog]
  have hl0 : l.map log_text = (emit w (Event.buildcld tmpdir)).log.map log_text := hl
  generalize emit w (Event.buildcld tmpdir) = w0 at hl0 ⊢
  split
  · exact buildcld_done_sev _ _ _ _ _ hl0
  · split
    · exact buildcld_done_sev _ _ _ _ _ hl0
    · obtain ⟨l1, e1, hl1⟩ := (buildcld_pack_sev env database newfile bc (setCwd w0 tmpdir) l
        (by simpa using hl0)).eq
      rw [e1]
      generalize buildcld_pack env database newfile bc (setCwd w0 tmpdir) = r at hl1 ⊢
      exact buildcld_done_sev _ _ _ _ _ hl1

theorem LogSimO.of_some {α : Type} {r r1 : α × World} (h : LogSim r r1) :
    LogSimO (some r) (some r1) := h

theorem updatedb_done_sev (tmpfile tmpdir : Option String) (r : UpdateResult) (w : World)
    (l : List String) (hl : l.map log_text = w.log.map log_text) :
    LogSim (updatedb_done tmpfile tmpdir r w) (updatedb_done tmpfile tmpdir r (setLog w l)) := by
  unfold updatedb_done
  cases tmpfile <;> cases tmpdir <;>
    simp only [unlink_setLog, cli_rmdirs_setLog] <;>
    exact LogSim.same _ _ _ (by simpa [cli_rmdirs] using hl)

theorem updatedb_replace_sev (env : Env) (localFilename : Option String) (tmpfile : String)
    (tmpdir : Option String) (newLocalFilename : String) (w : World)
    (l : List String) (hl : l.map log_text = w.log.map log_text) :
    LogSim (updatedb_replace env localFilename tmpfile tmpdir newLocalFilename w)
      (updatedb_replace env localFilename tmpfile tmpdir newLocalFilename (setLog w l)) := by
  unfold updatedb_replace
  simp only [rename_ok_setLog, renamed_setLog]
  split
  · exact updatedb_done_sev _ _ _ _ _ hl
  · have hl1 : l.map log_text = (renamed w tmpfile newLocalFilename).log.map log_text := by
      simpa using hl
    generalize renamed w tmpfile newLocalFilename = w1 at hl1 ⊢
    have tail : ∀ (w2 : World), l.map log_text = w2.log.map log_text →
        LogSim
          (match cl_cvdhead env w2 newLocalFilename with
            | none => updatedb_done (some tmpfile) tmpdir (UpdateResult.failed FC_EFILE) w2
            | some cvd => updatedb_done (some tmpfile) tmpdir
                { status := FC_SUCCESS, signo := cvd.sigs, dbFilename := some newLocalFilename,
                  bUpdated := true } w2)
          (match cl_cvdhead env (setLog w2 l) newLocalFilename with
            | none =>
              updatedb_done (some tmpfile) tmpdir (UpdateResult.failed FC_EFILE) (setLog w2 l)
            | some cvd => updatedb_done (some tmpfile) tmpdir
                { status := FC_SUCCESS, signo := cvd.sigs, dbFilename := some newLocalFilename,
                  bUpdated := true } (setLog w2 l)) := by
      intro w2 hl2
      simp only [cl_cvdhead_setLog]
      split
      · exact updatedb_done_sev _ _ _ _ _ hl2
      · exact updatedb_done_sev _ _ _ _ _ hl2
    cases localFilename with
    | none => exact tail w1 hl1
    | some lf =>
      dsimp only
      simp only [access_setLog]
      by_cases hc : (access w1 lf && decide (lf ≠ newLocalFilename)) = true
      · simp only [hc, if_true, unlink_setLog]
        exact tail _ (by simpa using hl1)
      · simp only [hc, if_false]
        exact tail w1 hl1

theorem updatedb_install_sev (env : Env) (cfg : Config) (localFilename : Option String)
    (tmpfile : String) (tmpdir : Option String) (newLocalFilename : String) (w : World)
    (l : List String) (hl : l.map log_text = w.log.map log_text) :
    LogSim (updatedb_install env cfg localFilename tmpfile tmpdir newLocalFilename w)
      (updatedb_install env cfg localFilename tmpfile tmpdir newLocalFilename (setLog w l)) := by
  unfold updatedb_install
  split
  · exact updatedb_replace_sev _ _ _ _ _ _ _ hl
  · simp only [rename_ok_setLog, renamed_setLog, lookupFile_setLog, emit_setLog]
    split
    · exact updatedb_done_sev _ _ _ _ _ hl
    · split
      · exact updatedb_done_sev _ _ _ _ _ (by simpa using hl)
      · exact updatedb_replace_sev _ _ _ _ _ _ _ (by simpa using hl)

theorem updatedb_full_sev (env : Env) (cfg : Config) (server : String)
    (c : VersionCheck) (tmpfile : String) (tmpdir : Option String) (a b : Bool) (w : World)
    (l : List String) (hl : l.map log_text = w.log.map log_text) :
    LogSim (updatedb_full env cfg server a c tmpfile tmpdir w)
      (updatedb_full env cfg server b c tmpfile tmpdir (setLog w l)) := by
  unfold updatedb_full
  split
  · rw [unlink_setLog]
    exact updatedb_done_sev _ _ _ _ _ (by simpa using hl)
  · rename_i remoteFilename _
    obtain ⟨l1, e1, hl1⟩ := (getcvd_sev env cfg remoteFilename tmpfile server c.remoteVersion a b
      w l hl).eq
    rw [e1]
    generalize getcvd env cfg remoteFilename tmpfile server c.remoteVersion a w = g at hl1 ⊢
    dsimp only
    split
    · exact updatedb_done_sev _ _ _ _ _ hl1
    · exact updatedb_install_sev _ _ _ _ _ _ _ _ hl1

theorem patch_attempts_sev (env : Env) (cfg : Config) (database tmpdir : String) (i : Nat)
    (server : String) (a b : Bool) :
    ∀ (n j : Nat) (ret : fc_error_t) (w : World) (l : List String),
      l.map log_text = w.log.map log_text →
      LogSim (patch_attempts env cfg database tmpdir i server a n j ret w)
        (patch_attempts env cfg database tmpdir i server b n j ret (setLog w l)) := by
  intro n
  induction n with
  | zero =>
    intro j ret w l hl
    unfold patch_attempts
    exact LogSim.same _ _ _ hl
  | succ n ih =>
    intro j ret w l hl
    unfold patch_attempts
    dsimp only
    obtain ⟨l1, e1, hl1⟩ := (downloadPatch_sev env cfg database tmpdir (toInt32 i) server
      (if a = true then decide (j = cfg.g_maxAttempts) else a)
      (if b = true then decide (j = cfg.g_maxAttempts) else b) w l hl).eq
    rw [e1]
    generalize downloadPatch env cfg database tmpdir (toInt32 i) server
      (if a = true then decide (j = cfg.g_maxAttempts) else a) w = r at hl1 ⊢
    dsimp only
    split
    · exact ih _ _ _ _ hl1
    · exact LogSim.same _ _ _ hl1

theorem patch_loop_sev (env : Env) (cfg : Config) (database tmpdir : String) (R : Nat)
    (server : String) (a b : Bool) :
    ∀ (fuel i : Nat) (ret : fc_error_t) (w : World) (l : List String),
      l.map log_text = w.log.map log_text →
      LogSimO (patch_loop env cfg database tmpdir R server a fuel i ret w)
        (patch_loop env cfg database tmpdir R server b fuel i ret (setLog w l)) := by
  intro fuel
  induction fuel with
  | zero =>
    intro i ret w l hl
    unfold patch_loop
    trivial
  | succ fuel ih =>
    intro i ret w l hl
    unfold patch_loop
    split
    · obtain ⟨l1, e1, hl1⟩ := (patch_attempts_sev env cfg database tmpdir i server a b
        cfg.g_maxAttempts 1 ret w l hl).eq
      rw [e1]
      generalize patch_attempts env cfg database tmpdir i server a cfg.g_maxAttempts 1 ret w
        = r at hl1 ⊢
      dsimp only
      split
      · exact LogSimO.of_some (LogSim.same _ _ _ hl1)
      · exact ih _ _ _ _ hl1
    · exact LogSimO.of_some (LogSim.same _ _ _ hl)

theorem LogSimO.cases {α : Type} {o o1 : Option (α × World)} (h : LogSimO o o1) :
    (o = none ∧ o1 = none) ∨
    ∃ r l, o = some r ∧ o1 = some (r.1, setLog r.2 l) ∧
      l.map log_text = r.2.log.map log_text := by
  cases o with
  | none =>
    cases o1 with
    | none => exact Or.inl ⟨rfl, rfl⟩
    | some r1 => exact absurd h (by simp [LogSimO])
  | some r =>
    cases o1 with
    | none => exact absurd h (by simp [LogSimO])
    | some r1 =>
      obtain ⟨h1, l, h2, hl⟩ := h
      exact Or.inr ⟨r, l, rfl, by rw [← h1, ← show r1.2 = setLog r.2 l from h2], hl⟩

theorem updatedb_incremental_sev (env : Env) (cfg : Config) (database server : String)
    (c : VersionCheck) (tmpfile : String) (a b : Bool) (w : World)
    (l : List String) (hl : l.map log_text = w.log.map log_text) :
    LogSimO (updatedb_incremental env cfg database server a c tmpfile w)
      (updatedb_incremental env cfg database server b c tmpfile (setLog w l)) := by
  unfold updatedb_incremental
  simp only [cli_gentemp_setLog]
  have hl0 : l.map log_text = (cli_gentemp env w cfg.g_tempDirectory).2.log.map log_text := by
    simpa [cli_gentemp] using hl
  generalize cli_gentemp env w cfg.g_tempDirectory = g at hl0 ⊢
  split
  · exact LogSimO.of_some (updatedb_done_sev _ _ _ _ _ hl0)
  · rename_i tmpdir _
    rcases (patch_loop_sev env cfg database tmpdir c.remoteVersion server a b PATCH_LOOP_FUEL
      ((c.localVersion + 1) % UINT_SIZE) FC_SUCCESS g.2 l hl0).cases with ⟨h1, h2⟩ |
      ⟨r, l1, h1, h2, hl1⟩
    · rw [h1, h2]
      trivial
    · rw [h1, h2]
      dsimp only
      split
      · exact LogSimO.of_some (updatedb_full_sev _ _ _ _ _ _ _ _ _ _ hl1)
      · obtain ⟨l2, e2, hl2⟩ := (buildcld_sev env tmpdir database tmpfile
          cfg.g_bCompressLocalDatabase r.2 l1 hl1).eq
        rw [e2]
        generalize buildcld env tmpdir database tmpfile cfg.g_bCompressLocalDatabase r.2
          = bl at hl2 ⊢
        dsimp only
        split
        · exact LogSimO.of_some (updatedb_done_sev _ _ _ _ _ hl2)
        · exact LogSimO.of_some (updatedb_install_sev _ _ _ _ _ _ _ _ hl2)

theorem updatedb_sev (env : Env) (cfg : Config) (database : String) (dns : Option String)
    (server : String) (pm su a b : Bool) (w : World)
    (l : List String) (hl : l.map log_text = w.log.map log_text) :
    LogSimO (updatedb env cfg database dns server pm su a w)
      (updatedb env cfg database dns server pm su b (setLog w l)) := by
  unfold updatedb
  obtain ⟨l1, e1, hl1⟩ := (check_sev env cfg database dns server pm a b w l hl).eq
  rw [e1]
  generalize check_for_new_database_version env cfg database dns server pm a w = k at hl1 ⊢
  dsimp only
  split
  · exact LogSimO.of_some (LogSim.same _ _ _ hl1)
  · split
    · exact LogSimO.of_some (LogSim.same _ _ _ hl1)
    · simp only [cli_gentemp_setLog]
      have hl2 : l1.map log_text
          = (cli_gentemp env k.2 cfg.g_tempDirectory).2.log.map log_text := by
        simpa [cli_gentemp] using hl1
      generalize cli_gentemp env k.2 cfg.g_tempDirectory = g at hl2 ⊢
      split
      · exact LogSimO.of_some (LogSim.same _ _ _ hl2)
      · split
        · exact LogSimO.of_some (updatedb_full_sev _ _ _ _ _ _ _ _ _ _ hl2)
        · exact updatedb_incremental_sev _ _ _ _ _ _ _ _ _ _ hl2

theorem updatecustomdb_done_sev (tmpfile : String) (r : UpdateResult) (w : World)
    (l : List String) (hl : l.map log_text = w.log.map log_text) :
    LogSim (updatecustomdb_done tmpfile r w) (updatecustomdb_done tmpfile r (setLog w l)) := by
  unfold updatecustomdb_done
  rw [unlink_setLog]
  exact LogSim.same _ _ _ (by simpa using hl)

theorem updatecustomdb_replace_sev (env : Env) (databaseName tmpfile : String) (w : World)
    (l : List String) (hl : l.map log_text = w.log.map log_text) :
    LogSim (updatecustomdb_replace env databaseName tmpfile w)
      (updatecustomdb_replace env databaseName tmpfile (setLog w l)) := by
  unfold updatecustomdb_replace
  simp only [rename_ok_setLog, renamed_setLog]
  have hs : ∀ w1 : World, updatecustomdb_sigs env (setLog w1 l) databaseName
      = updatecustomdb_sigs env w1 databaseName := fun _ => rfl
  simp only [hs]
  split
  · exact updatecustomdb_done_sev _ _ _ _ hl
  · split
    · exact updatecustomdb_done_sev _ _ _ _ (by simpa using hl)
    · exact updatecustomdb_done_sev _ _ _ _ (by simpa using hl)

theorem updatecustomdb_install_sev (env : Env) (cfg : Config) (databaseName tmpfile : String)
    (w : World) (l : List String) (hl : l.map log_text = w.log.map log_text) :
    LogSim (updatecustomdb_install env cfg databaseName tmpfile w)
      (updatecustomdb_install env cfg databaseName tmpfile (setLog w l)) := by
  unfold updatecustomdb_install
  split
  · exact updatecustomdb_replace_sev _ _ _ _ _ hl
  · simp only [rename_ok_setLog, renamed_setLog, lookupFile_setLog, emit_setLog]
    split
    · exact updatecustomdb_done_sev _ _ _ _ hl
    · split
      · exact updatecustomdb_done_sev _ _ _ _ (by simpa using hl)
      · exact updatecustomdb_replace_sev _ _ _ _ _ (by simpa using hl)

theorem updatecustomdb_file_sev (env : Env) (cfg : Config) (url tmpfile : String) (w : World)
    (l : List String) (hl : l.map log_text = w.log.map log_text) :
    LogSim (updatecustomdb_file env cfg url tmpfile w)
      (updatecustomdb_file env cfg url tmpfile (setLog w l)) := by
  unfold updatecustomdb_file
  dsimp only
  have h1 : ∀ name, stat_mtime env (setLog w l) name = stat_mtime env w name := fun _ => rfl
  have h2 : ∀ src dst, cli_filecopy_ok (setLog w l) src dst = cli_filecopy_ok w src dst :=
    fun _ _ => rfl
  have h3 : ∀ src dst, cli_filecopy (setLog w l) src dst = setLog (cli_filecopy w src dst) l :=
    fun _ _ => by unfold cli_filecopy; rw [lookupFile_setLog, storeFile_setLog]
  simp only [access_setLog, h1, h2, h3]
  split
  · exact updatecustomdb_done_sev _ _ _ _ hl
  · split
    · exact updatecustomdb_done_sev _ _ _ _ hl
    · split
      · exact updatecustomdb_done_sev _ _ _ _ hl
      · split
        · exact updatecustomdb_done_sev _ _ _ _ hl
        · exact updatecustomdb_install_sev _ _ _ _ _ _ (by simpa [cli_filecopy] using hl)

theorem updatecustomdb_url_sev (env : Env) (cfg : Config) (url : String) (tmpfile : String)
    (a b : Bool) (w : World) (l : List String) (hl : l.map log_text = w.log.map log_text) :
    LogSim (updatecustomdb_url env cfg url a tmpfile w)
      (updatecustomdb_url env cfg url b tmpfile (setLog w l)) := by
  unfold updatecustomdb_url
  split
  · exact updatecustomdb_done_sev _ _ _ _ hl
  · rename_i databaseName _
    have h1 : stat_mtime env (setLog w l) databaseName = stat_mtime env w databaseName := rfl
    dsimp only
    rw [h1]
    obtain ⟨l1, e1, hl1⟩ := (downloadFile_sev env cfg url tmpfile true
      (stat_mtime env w databaseName) a b w l hl).eq
    rw [e1]
    generalize downloadFile env cfg url tmpfile true a (stat_mtime env w databaseName) w
      = dl at hl1 ⊢
    dsimp only
    split
    · exact updatecustomdb_done_sev _ _ _ _ hl1
    · split
      · rw [logg_setLog]
        simp only [String.append_assoc]
        exact LogSim.of_logg (updatecustomdb_done tmpfile (UpdateResult.failed dl.1))
          (updatecustomdb_done_sev _ _) _ _ a b _ hl1
      · exact updatecustomdb_install_sev _ _ _ _ _ _ hl1

theorem updatecustomdb_sev (env : Env) (cfg : Config) (url : String) (a b : Bool) (w : World)
    (l : List String) (hl : l.map log_text = w.log.map log_text) :
    LogSim (updatecustomdb env cfg url a w) (updatecustomdb env cfg url b (setLog w l)) := by
  unfold updatecustomdb
  simp only [cli_gentemp_setLog]
  have hl0 : l.map log_text = (cli_gentemp env w cfg.g_tempDirectory).2.log.map log_text := by
    simpa [cli_gentemp] using hl
  generalize cli_gentemp env w cfg.g_tempDirectory = g at hl0 ⊢
  split
  · exact LogSim.same _ _ _ hl0
  · split
    · exact updatecustomdb_file_sev _ _ _ _ _ _ hl0
    · exact updatecustomdb_url_sev _ _ _ _ _ _ _ _ hl0

theorem LogSim.sameButSeverity {α : Type} {r r1 : α × World} (h : LogSim r r1) :
    SameButSeverity r.2 r1.2 := by
  obtain ⟨_, l, h2, hl⟩ := h
  rw [h2]
  exact ⟨rfl, rfl, rfl, rfl, rfl, rfl, hl⟩

/-- C26: two runs of `updatedb`, and two runs of `updatecustomdb`, that differ
only in the `logerr` argument agree on whether they return, on the status and
the out-parameters, and end in worlds with the same files, directories,
working directory, transfer and temporary-name counters and trace (so the
same sequence of fetches); their log lines differ at most in the severity
character. -/
theorem logerr_noninterference (env : Env) (cfg : Config) (database : String)
    (dns : Option String) (server : String) (pm su : Bool) (url : String) (a b : Bool)
    (w : World) :
    ((updatedb env cfg database dns server pm su b w).map (fun r => r.1)
        = (updatedb env cfg database dns server pm su a w).map (fun r => r.1) ∧
      ∀ r r1, updatedb env cfg database dns server pm su a w = some r →
        updatedb env cfg database dns server pm su b w = some r1 →
        SameButSeverity r.2 r1.2) ∧
    (updatecustomdb env cfg url b w).1 = (updatecustomdb env cfg url a w).1 ∧
    SameButSeverity (updatecustomdb env cfg url a w).2 (updatecustomdb env cfg url b w).2 := by
  have h1 := updatedb_sev env cfg database dns server pm su a b w w.log rfl
  have h2 := updatecustomdb_sev env cfg url a b w w.log rfl
  have hw : setLog w w.log = w := rfl
  rw [hw] at h1 h2
  refine ⟨?_, h2.1, h2.sameButSeverity⟩
  rcases h1.cases with ⟨e1, e2⟩ | ⟨r, l, e1, e2, hl⟩
  · rw [e1, e2]
    exact ⟨rfl, fun _ _ h => by cases h⟩
  · rw [e1, e2]
    refine ⟨rfl, ?_⟩
    intro r0 r1 h0 h1'
    cases h0
    cases h1'
    exact ⟨rfl, rfl, rfl, rfl, rfl, rfl, hl⟩

set_option maxRecDepth 100000 in
/-- Witness for C26: a header probe that is answered with 301, and a custom
download that is answered with 404; the runs with and without `logerr` differ
in the severity character of the one log line of the probe. -/
theorem logerr_noninterference_witness :
    (updatedb (exEnvSite exErrSite) exCfg "moved" none "http://db" false false true
      (exWorld [])).map (fun r => (r.1.status, r.2.log))
      = some (FC_EFAILEDGET, ["!remote_cvdhead: Unexpected response"]) ∧
    (updatedb (exEnvSite exErrSite) exCfg "moved" none "http://db" false false false
      (exWorld [])).map (fun r => (r.1.status, r.2.log))
      = some (FC_EFAILEDGET, ["^remote_cvdhead: Unexpected response"]) ∧
    ((updatedb (exEnvSite exErrSite) exCfg "moved" none "http://db" false false false
        (exWorld [])).map (fun r => r.1)
        = (updatedb (exEnvSite exErrSite) exCfg "moved" none "http://db" false false true
          (exWorld [])).map (fun r => r.1) ∧
      ∀ r r1, updatedb (exEnvSite exErrSite) exCfg "moved" none "http://db" false false true
          (exWorld []) = some r →
        updatedb (exEnvSite exErrSite) exCfg "moved" none "http://db" false false false
          (exWorld []) = some r1 →
        SameButSeverity r.2 r1.2) ∧
    (updatecustomdb (exEnvSite exErrSite) exCfg "http://db/moved.ndb" false (exWorld [])).1
      = (updatecustomdb (exEnvSite exErrSite) exCfg "http://db/moved.ndb" true (exWorld [])).1 ∧
    SameButSeverity
      (updatecustomdb (exEnvSite exErrSite) exCfg "http://db/moved.ndb" true (exWorld [])).2
      (updatecustomdb (exEnvSite exErrSite) exCfg "http://db/moved.ndb" false (exWorld [])).2 :=
  ⟨by decide, by decide,
    logerr_noninterference (exEnvSite exErrSite) exCfg "moved" none "http://db" false false
      "http://db/moved.ndb" true false (exWorld [])⟩

end Freshclam
